import Mathlib

/-!
ReadStat SAS7BDAT writer: shallow embedding of `src/readstat_sas_write.c`.

Conventions of the embedding.

* A byte is a `Nat` (0..255); memory (`char *`) is a `List Nat`.
* A C string (`const char *`) is the list of its bytes before the terminating NUL,
  so `strlen` is the length of the list.
* `size_t`, `uint16_t`, ... are `Nat`, signed integers are `Int`; wrap-around is written
  out where a C expression can leave the range of its type.
* Multi-byte integers are stored with `memcpy` from native objects; the host is taken to
  be little-endian.
* A function that can stop without a status (integer division by zero, a loop that needs
  more iterations than the supplied fuel) returns `Except sas_stop`.
-/

namespace ReadStat

/-! ## Memory helpers (memcpy, memset, strncpy, calloc) -/

/-- The `n` bytes of `buf` starting at `off`; positions outside `buf` read as 0. -/
def read_bytes (buf : List Nat) (off : Nat) : Nat → List Nat
  | 0 => []
  | n + 1 => buf.getD off 0 :: read_bytes buf (off + 1) n

/-- Overwrites `buf` from offset `off` with `bytes` (the effect of `memcpy(&buf[off], bytes, len)`);
every other position keeps its value.  A buffer shorter than the written range is extended. -/
def mem_write (buf : List Nat) (off : Nat) (bytes : List Nat) : List Nat :=
  buf.take off ++ List.replicate (off - buf.length) 0 ++ bytes ++ buf.drop (off + bytes.length)

/-- Little-endian object representation of an unsigned integer in `n` bytes (the value is
reduced modulo `256 ^ n`, as a conversion to the `n`-byte unsigned type does). -/
def le_bytes : Nat → Nat → List Nat
  | 0, _ => []
  | n + 1, v => v % 256 :: le_bytes n (v / 256)

/-- Two's-complement little-endian representation of a signed integer in `n` bytes. -/
def le_bytes_int (n : Nat) (v : Int) : List Nat :=
  le_bytes n (v % (256 ^ n : Nat)).toNat

/-- The `n` bytes `strncpy(dst, s, n)` stores: the first `n` bytes of `s`, then NULs up to `n`. -/
def strncpy_bytes (s : List Nat) (n : Nat) : List Nat :=
  s.take n ++ List.replicate (n - s.length) 0

/-- Subtraction of two `size_t` values (both below `2 ^ 64`), wrapping modulo `2 ^ 64`. -/
def size_t_sub (a b : Nat) : Nat :=
  if b ≤ a then a - b else a + 2 ^ 64 - b

/-- Conversion of an integer value to `int32_t`. -/
def to_int32 (v : Int) : Int :=
  (v + 2 ^ 31) % 2 ^ 32 - 2 ^ 31

/-- Bitwise complement of a byte, as stored back into a `char` (`~c`). -/
def bit_not8 (b : Nat) : Nat :=
  255 - b % 256

/-! ## Types declared in headers that are not among the sources -/

/-- Modelled from the spec: the status codes of `readstat_error_t` (readstat.h is not among the
sources).  The spec lists the kinds OK, IO, PARSE, UNSUPPORTED_FORMAT,
UNSUPPORTED_FILE_FORMAT_VERSION, ENCODING, VALUE_OUT_OF_RANGE, ROW_COUNT_MISMATCH, USER_ABORT,
OUT_OF_MEMORY. -/
inductive readstat_error_t
  | READSTAT_OK
  | READSTAT_ERROR_IO_KIND
  | READSTAT_ERROR_PARSE
  | READSTAT_ERROR_UNSUPPORTED_FORMAT
  | READSTAT_ERROR_UNSUPPORTED_FILE_FORMAT_VERSION
  | READSTAT_ERROR_ENCODING
  | READSTAT_ERROR_VALUE_OUT_OF_RANGE
  | READSTAT_ERROR_ROW_COUNT_MISMATCH
  | READSTAT_ERROR_USER_ABORT
  | READSTAT_ERROR_OUT_OF_MEMORY
  deriving DecidableEq, Repr

/-- Modelled from the spec: the storage types of `readstat_type_t` (readstat.h is not among the
sources): string, long string and the numeric types int8, int16, int32, float, double. -/
inductive readstat_type_t
  | READSTAT_TYPE_STRING
  | READSTAT_TYPE_INT8
  | READSTAT_TYPE_INT16
  | READSTAT_TYPE_INT32
  | READSTAT_TYPE_FLOAT
  | READSTAT_TYPE_DOUBLE
  | READSTAT_TYPE_LONG_STRING
  deriving DecidableEq, Repr

/-- The fields of `readstat_variable_t` that the SAS writer reads through the accessors
`readstat_variable_get_type / _name / _format / _label / _storage_width`.  The format and the
label may be NULL (`none`). -/
structure readstat_variable_t where
  type : readstat_type_t
  name : List Nat
  format : Option (List Nat)
  label : Option (List Nat)
  storage_width : Nat
  deriving DecidableEq, Repr

/-- The header context `sas_header_info_t` (fields the writer uses). -/
structure sas_header_info_t where
  u64 : Bool
  header_size : Nat
  page_size : Nat
  page_header_size : Nat
  subheader_pointer_size : Nat
  page_count : Int
  pad1 : Nat
  creation_time : Int
  modification_time : Int
  deriving DecidableEq, Repr

/-- The fields of `readstat_writer_t` that the SAS writer uses.  `vars` holds the schema
(the array `variables`; `variables_count` is its length).  The output sink is modelled by
`out`, the bytes written so far, and `room`: a sink with `room = some n` fails every write
that would bring the total above `n` bytes, a sink with `room = none` never fails. -/
structure readstat_writer_t where
  vars : List readstat_variable_t
  row_count : Int
  current_row : Int
  version : Int
  timestamp : Int
  file_label : List Nat
  bytes_written : Nat
  out : List Nat
  room : Option Nat
  module_ctx : Option sas_header_info_t
  initialized : Bool
  deriving DecidableEq, Repr

/-- Constants and host-dependent images that the writer takes from `readstat_sas.h`, `libc`
and the host, none of which is among the sources.  They are parameters of the model. -/
structure sas_env where
  /-- SAS_SUBHEADER_SIGNATURE_ROW_SIZE -/
  SIGNATURE_ROW_SIZE : Nat
  /-- SAS_SUBHEADER_SIGNATURE_COLUMN_SIZE -/
  SIGNATURE_COLUMN_SIZE : Nat
  /-- SAS_SUBHEADER_SIGNATURE_COLUMN_NAME -/
  SIGNATURE_COLUMN_NAME : Nat
  /-- SAS_SUBHEADER_SIGNATURE_COLUMN_ATTRS -/
  SIGNATURE_COLUMN_ATTRS : Nat
  /-- SAS_SUBHEADER_SIGNATURE_COLUMN_FORMAT -/
  SIGNATURE_COLUMN_FORMAT : Nat
  /-- SAS_SUBHEADER_SIGNATURE_COLUMN_TEXT -/
  SIGNATURE_COLUMN_TEXT : Nat
  /-- SAS_SUBHEADER_SIGNATURE_COLUMN_LIST -/
  SIGNATURE_COLUMN_LIST : Nat
  /-- SAS_PAGE_TYPE_META -/
  PAGE_TYPE_META : Int
  /-- SAS_PAGE_TYPE_DATA -/
  PAGE_TYPE_DATA : Int
  /-- SAS_COLUMN_TYPE_NUM -/
  COLUMN_TYPE_NUM : Nat
  /-- SAS_COLUMN_TYPE_CHR -/
  COLUMN_TYPE_CHR : Nat
  /-- sizeof(sas_header_start_t) -/
  sizeof_header_start : Nat
  /-- The initialised `sas_header_start_t` object for a bit mode and a file label. -/
  header_start_image : Bool → List Nat → List Nat
  /-- sizeof(sas_header_end_t) -/
  sizeof_header_end : Nat
  /-- The `sas_header_end_t` object as its initialiser `{ .host = "W32_VSPRO" }` leaves it. -/
  header_end_init : List Nat
  /-- offsetof(sas_header_end_t, release) -/
  offsetof_release : Nat
  /-- sizeof(header_end.release) -/
  sizeof_release : Nat
  /-- The 8 bytes of the double `t - epoch` for a timestamp `t` (epoch from `mktime`). -/
  time_image : Int → List Nat
  /-- The 8 bytes of the double to which the macro NAN converts on the host. -/
  nan_image : List Nat

/-- How a computation stops when it does not return a value: with a `readstat_error_t` status
other than OK, in an integer division by zero or a NULL dereference (no defined result in C),
or because the model was given too little fuel for a loop. -/
inductive sas_stop
  | status (e : readstat_error_t)
  | div_by_zero
  | null_deref
  | out_of_fuel
  deriving DecidableEq, Repr

/-! ## Writer primitives (readstat_writer.c is not among the sources) -/

/-- Modelled from the spec: `readstat_write_bytes` of the writer skeleton, which is not among
the sources.  It hands the bytes to the output sink and adds their number to the running
`bytes_written`; a failure of the sink is surfaced as the IO error kind. -/
def readstat_write_bytes (w : readstat_writer_t) (bytes : List Nat) :
    Except sas_stop readstat_writer_t :=
  match w.room with
  | none => .ok { w with bytes_written := w.bytes_written + bytes.length, out := w.out ++ bytes }
  | some n =>
    if w.bytes_written + bytes.length ≤ n then
      .ok { w with bytes_written := w.bytes_written + bytes.length, out := w.out ++ bytes }
    else
      .error (.status .READSTAT_ERROR_IO_KIND)

/-- Modelled from the spec: `readstat_write_zeros` of the writer skeleton (not among the
sources): writes `n` zero bytes through `readstat_write_bytes`. -/
def readstat_write_zeros (w : readstat_writer_t) (n : Nat) : Except sas_stop readstat_writer_t :=
  readstat_write_bytes w (List.replicate n 0)

/-! ## Constants of the writer -/

/-- `#define HEADER_SIZE 1024` -/
def HEADER_SIZE : Nat := 1024

/-- `#define PAGE_SIZE 4096` -/
def PAGE_SIZE : Nat := 4096

/-- Modelled from the spec: SAS_PAGE_HEADER_SIZE_32BIT of readstat_sas.h (not among the
sources); the spec gives the page-header size 24 for 32-bit files. -/
def SAS_PAGE_HEADER_SIZE_32BIT : Nat := 24

/-- Modelled from the spec: SAS_PAGE_HEADER_SIZE_64BIT of readstat_sas.h (not among the
sources); the spec gives the page-header size 40 for 64-bit files. -/
def SAS_PAGE_HEADER_SIZE_64BIT : Nat := 40

/-- Modelled from the spec: SAS_SUBHEADER_POINTER_SIZE_32BIT of readstat_sas.h (not among the
sources); the spec gives the subheader-pointer size 12 for 32-bit files. -/
def SAS_SUBHEADER_POINTER_SIZE_32BIT : Nat := 12

/-- Modelled from the spec: SAS_SUBHEADER_POINTER_SIZE_64BIT of readstat_sas.h (not among the
sources); the spec gives the subheader-pointer size 24 for 64-bit files. -/
def SAS_SUBHEADER_POINTER_SIZE_64BIT : Nat := 24

/-- `#define COLUMN_TEXT_SIZE_32BIT (PAGE_SIZE - SAS_PAGE_HEADER_SIZE_32BIT - SAS_SUBHEADER_POINTER_SIZE_32BIT)` -/
def COLUMN_TEXT_SIZE_32BIT : Nat :=
  PAGE_SIZE - SAS_PAGE_HEADER_SIZE_32BIT - SAS_SUBHEADER_POINTER_SIZE_32BIT

/-- `#define COLUMN_TEXT_SIZE_64BIT (PAGE_SIZE - SAS_PAGE_HEADER_SIZE_64BIT - SAS_SUBHEADER_POINTER_SIZE_64BIT)` -/
def COLUMN_TEXT_SIZE_64BIT : Nat :=
  PAGE_SIZE - SAS_PAGE_HEADER_SIZE_64BIT - SAS_SUBHEADER_POINTER_SIZE_64BIT

/-- `#define SAS_DEFAULT_FILE_VERSION 90101` -/
def SAS_DEFAULT_FILE_VERSION : Int := 90101

/-! ## Structures of the writer -/

/-- `sas_subheader_t` -/
structure sas_subheader_t where
  signature : Nat
  data : List Nat
  len : Nat
  deriving DecidableEq, Repr

/-- `sas_column_text_t`: one buffer of the column-text pool.  `data` is the buffer memory;
only its first `used` bytes have been written. -/
structure sas_column_text_t where
  data : List Nat
  capacity : Nat
  used : Nat
  index : Nat
  deriving DecidableEq, Repr

/-- `sas_text_ref_t` (declared in readstat_sas.h, not among the sources): the three values the
initialiser in `make_text_ref` assigns.  Consumers copy `sizeof(uint16_t)` bytes of each. -/
structure sas_text_ref_t where
  index : Nat
  offset : Nat
  length : Nat
  deriving DecidableEq, Repr

/-! ## Page arithmetic -/

/-- `sas_fill_page`: pads the output with zeros up to the next page boundary after the header. -/
def sas_fill_page (w : readstat_writer_t) (hinfo : sas_header_info_t) :
    Except sas_stop readstat_writer_t :=
  if hinfo.page_size = 0 then .error .div_by_zero
  else if size_t_sub w.bytes_written hinfo.header_size % hinfo.page_size ≠ 0 then
    readstat_write_zeros w
      (hinfo.page_size - size_t_sub w.bytes_written hinfo.header_size % hinfo.page_size)
  else .ok w

/-- One iteration of the loop of `sas_count_meta_pages`, on the state `(pages, bytes_left)`. -/
def sas_count_meta_pages_step (hinfo : sas_header_info_t) (st : Int × Nat)
    (subheader : sas_subheader_t) : Int × Nat :=
  let shp_ptr_size := hinfo.subheader_pointer_size
  let st1 : Int × Nat :=
    if subheader.len + shp_ptr_size > st.2 then
      (st.1 + 1, hinfo.page_size - hinfo.page_header_size)
    else st
  (st1.1, size_t_sub st1.2 (subheader.len + shp_ptr_size))

/-- `sas_count_meta_pages`: walks the subheader array from the last entry to the first.  The
header contexts the writer builds have `page_size ≥ page_header_size`, so the initial
`bytes_left` is written with the truncated subtraction; the subtraction in the loop wraps. -/
def sas_count_meta_pages (hinfo : sas_header_info_t) (sarray : List sas_subheader_t) : Int :=
  to_int32
    (sarray.reverse.foldl (sas_count_meta_pages_step hinfo)
      (1, hinfo.page_size - hinfo.page_header_size)).1

/-- `sas_variable_width` -/
def sas_variable_width (type : readstat_type_t) (user_width : Nat) : Nat :=
  if type = .READSTAT_TYPE_STRING then user_width else 8

/-- `sas_row_length`: adds up `sas_variable_width` over the schema, in declaration order, in
the local `size_t len`; every addition wraps modulo `2 ^ 64`. -/
def sas_row_length (w : readstat_writer_t) : Nat :=
  w.vars.foldl (fun len v => (len + sas_variable_width v.type v.storage_width) % 2 ^ 64) 0

/-- `sas_rows_per_page`: an unsigned division by the row length, returned as `int32_t`. -/
def sas_rows_per_page (w : readstat_writer_t) (hinfo : sas_header_info_t) : Except sas_stop Int :=
  let row_length := sas_row_length w
  if row_length = 0 then .error .div_by_zero
  else .ok (to_int32 (((PAGE_SIZE - hinfo.page_header_size) / row_length : Nat) : Int))

/-- `sas_count_data_pages`: a signed division (truncating), returned as `int32_t`. -/
def sas_count_data_pages (w : readstat_writer_t) (hinfo : sas_header_info_t) :
    Except sas_stop Int :=
  match sas_rows_per_page w hinfo with
  | .error e => .error e
  | .ok rows_per_page =>
    if rows_per_page = 0 then .error .div_by_zero
    else .ok (to_int32 ((w.row_count + (rows_per_page - 1)).tdiv rows_per_page))

/-! ## The column-text pool -/

/-- `sas_column_text_init`: a fresh pool buffer; nothing of its memory has been written. -/
def sas_column_text_init (index : Nat) (len : Nat) : sas_column_text_t :=
  { data := [], capacity := len, used := 0, index := index }

/-- The tail of `make_text_ref`, after the buffer has been chosen: builds the reference, copies
the string NUL-padded to `padded_len` bytes at `used` and advances `used`. -/
def make_text_ref_store (column_text : sas_column_text_t) (string : List Nat) :
    sas_column_text_t × sas_text_ref_t :=
  let len := string.length
  let padded_len := (len + 3) / 4 * 4
  let text_ref : sas_text_ref_t :=
    { index := column_text.index, offset := column_text.used + 28, length := len }
  ({ column_text with
      data := mem_write column_text.data column_text.used (strncpy_bytes string padded_len),
      used := column_text.used + padded_len },
   text_ref)

/-- `make_text_ref` on the pool array `column_text_array` (`count` is the length of the list).
The array always holds at least one buffer (`sas_subheader_array_init` creates it with one);
the model returns the array unchanged for the empty list, on which the C code has no defined
behaviour. -/
def make_text_ref (column_text_array : List sas_column_text_t) (string : List Nat) :
    List sas_column_text_t × sas_text_ref_t :=
  let padded_len := (string.length + 3) / 4 * 4
  match column_text_array.getLast? with
  | none => (column_text_array, { index := 0, offset := 0, length := 0 })
  | some column_text =>
    if column_text.used + padded_len > column_text.capacity then
      let fresh := sas_column_text_init column_text_array.length column_text.capacity
      let r := make_text_ref_store fresh string
      (column_text_array ++ [r.1], r.2)
    else
      let r := make_text_ref_store column_text string
      (column_text_array.set (column_text_array.length - 1) r.1, r.2)

/-! ## Header -/

/-- `sas_header_info_init` -/
def sas_header_info_init (w : readstat_writer_t) : sas_header_info_t :=
  let u64 := decide (w.version ≥ 90000)
  { u64 := u64
    header_size := HEADER_SIZE
    page_size := PAGE_SIZE
    page_header_size := if u64 then SAS_PAGE_HEADER_SIZE_64BIT else SAS_PAGE_HEADER_SIZE_32BIT
    subheader_pointer_size :=
      if u64 then SAS_SUBHEADER_POINTER_SIZE_64BIT else SAS_SUBHEADER_POINTER_SIZE_32BIT
    page_count := 0
    pad1 := 0
    creation_time := w.timestamp
    modification_time := w.timestamp }

/-- Decimal digits (ASCII) of a natural number, most significant first, at least one digit;
`fuel` bounds the number of digits. -/
def dec_digits : Nat → Nat → List Nat
  | 0, _ => []
  | fuel + 1, n => if n < 10 then [48 + n] else dec_digits fuel (n / 10) ++ [48 + n % 10]

/-- What `printf` produces for `%1ld`: the decimal digits, after a minus sign for a negative
value (the minimum width 1 never pads). -/
def format_ld (v : Int) : List Nat :=
  if v < 0 then 45 :: dec_digits (v.natAbs + 1) v.natAbs else dec_digits (v.natAbs + 1) v.natAbs

/-- What `printf` produces for `%04ld`: as `%ld`, with zeros between the sign and the digits
up to a total width of 4. -/
def format_04ld (v : Int) : List Nat :=
  if v < 0 then
    45 :: (List.replicate (3 - (dec_digits (v.natAbs + 1) v.natAbs).length) 48
      ++ dec_digits (v.natAbs + 1) v.natAbs)
  else
    List.replicate (4 - (dec_digits (v.natAbs + 1) v.natAbs).length) 48
      ++ dec_digits (v.natAbs + 1) v.natAbs

/-- The bytes `snprintf(buf, size, ...)` stores for a formatted string `s` (`size ≥ 1`): at
most `size - 1` characters and a terminating NUL. -/
def snprintf_bytes (size : Nat) (s : List Nat) : List Nat :=
  s.take (size - 1) ++ [0]

/-- The `header_end` object that `sas_emit_header` writes: the initialised structure, then
`snprintf(header_end.release, sizeof(header_end.release), "%1ld.%04ldM0", version / 10000,
version % 10000)`, then `header_end.release[sizeof(header_end.release)-1] = '0'`. -/
def sas_header_end_image (env : sas_env) (version : Int) : List Nat :=
  let header_end := read_bytes env.header_end_init 0 env.sizeof_header_end
  let formatted := format_ld (version.tdiv 10000) ++ [46] ++ format_04ld (version.tmod 10000)
    ++ [77, 48]
  let header_end := mem_write header_end env.offsetof_release
    (snprintf_bytes env.sizeof_release formatted)
  mem_write header_end (env.offsetof_release + (env.sizeof_release - 1)) [48]

/-- `sas_emit_header`: the sequence of writes; the first failing write ends it. -/
def sas_emit_header (env : sas_env) (w : readstat_writer_t) (hinfo : sas_header_info_t) :
    Except sas_stop readstat_writer_t := do
  let w ← readstat_write_bytes w
    (read_bytes (env.header_start_image hinfo.u64 w.file_label) 0 env.sizeof_header_start)
  let w ← readstat_write_zeros w hinfo.pad1
  let w ← readstat_write_bytes w (read_bytes (env.time_image hinfo.creation_time) 0 8)
  let w ← readstat_write_bytes w (read_bytes (env.time_image hinfo.modification_time) 0 8)
  let w ← readstat_write_zeros w 16
  let w ← readstat_write_bytes w (le_bytes 4 hinfo.header_size)
  let w ← readstat_write_bytes w (le_bytes 4 hinfo.page_size)
  let w ←
    (if hinfo.u64 then readstat_write_bytes w (le_bytes_int 8 hinfo.page_count)
      else readstat_write_bytes w (le_bytes_int 4 hinfo.page_count))
  let w ← readstat_write_zeros w 8
  let w ← readstat_write_bytes w
    (read_bytes (sas_header_end_image env w.version) 0 env.sizeof_header_end)
  readstat_write_zeros w (size_t_sub hinfo.header_size w.bytes_written)

/-! ## Subheaders -/

/-- `sas_subheader_init`: a zero-filled subheader. -/
def sas_subheader_init (signature : Nat) (len : Nat) : sas_subheader_t :=
  { signature := signature, len := len, data := List.replicate len 0 }

/-- `sas_row_size_subheader_init` -/
def sas_row_size_subheader_init (env : sas_env) (w : readstat_writer_t)
    (hinfo : sas_header_info_t) : sas_subheader_t :=
  let subheader := sas_subheader_init env.SIGNATURE_ROW_SIZE (if hinfo.u64 then 128 else 64)
  if hinfo.u64 then
    let data := mem_write subheader.data 40 (le_bytes 8 (sas_row_length w))
    let data := mem_write data 48 (le_bytes_int 8 w.row_count)
    let data := mem_write data 104 (le_bytes 8 hinfo.page_size)
    { subheader with data := data }
  else
    let data := mem_write subheader.data 20 (le_bytes 4 (sas_row_length w))
    let data := mem_write data 24 (le_bytes_int 4 w.row_count)
    let data := mem_write data 52 (le_bytes 4 hinfo.page_size)
    { subheader with data := data }

/-- `sas_col_size_subheader_init` -/
def sas_col_size_subheader_init (env : sas_env) (w : readstat_writer_t)
    (hinfo : sas_header_info_t) : sas_subheader_t :=
  let subheader := sas_subheader_init env.SIGNATURE_COLUMN_SIZE (if hinfo.u64 then 24 else 12)
  if hinfo.u64 then
    { subheader with data := mem_write subheader.data 8 (le_bytes 8 w.vars.length) }
  else
    { subheader with data := mem_write subheader.data 4 (le_bytes 4 w.vars.length) }

/-- The loop of `sas_col_name_subheader_init` over the variables still to be written; `ptrs` is
the offset of the current record in the subheader data. -/
def sas_col_name_loop : List readstat_variable_t → List Nat → Nat → List sas_column_text_t →
    List Nat × List sas_column_text_t
  | [], data, _, column_text_array => (data, column_text_array)
  | v :: rest, data, ptrs, column_text_array =>
    let r := make_text_ref column_text_array v.name
    let data := mem_write data ptrs (le_bytes 2 r.2.index)
    let data := mem_write data (ptrs + 2) (le_bytes 2 r.2.offset)
    let data := mem_write data (ptrs + 4) (le_bytes 2 r.2.length)
    sas_col_name_loop rest data (ptrs + 8) r.1

/-- `sas_col_name_subheader_init`; returns the subheader and the pool after the calls of
`make_text_ref`. -/
def sas_col_name_subheader_init (env : sas_env) (w : readstat_writer_t)
    (hinfo : sas_header_info_t) (column_text_array : List sas_column_text_t) :
    sas_subheader_t × List sas_column_text_t :=
  let len := if hinfo.u64 then 28 + 8 * w.vars.length else 20 + 8 * w.vars.length
  let signature_len := if hinfo.u64 then 8 else 4
  let remainder := size_t_sub len (4 + 2 * signature_len)
  let subheader := sas_subheader_init env.SIGNATURE_COLUMN_NAME len
  let data := mem_write subheader.data signature_len (le_bytes 2 remainder)
  let r := sas_col_name_loop w.vars data (signature_len + 8) column_text_array
  ({ subheader with data := r.1 }, r.2)

/-- The loop of `sas_col_attrs_subheader_init`; `offset` is the running row offset. -/
def sas_col_attrs_loop (env : sas_env) (hinfo : sas_header_info_t) :
    List readstat_variable_t → List Nat → Nat → Nat → List Nat
  | [], data, _, _ => data
  | v :: rest, data, ptrs, offset =>
    let name_length_flag := if v.name.length ≤ 8 then 4 else 2048
    let data := if hinfo.u64 then mem_write data ptrs (le_bytes 8 offset)
      else mem_write data ptrs (le_bytes 4 offset)
    let ptrs := if hinfo.u64 then ptrs + 8 else ptrs + 4
    let is_chr := decide (v.type = .READSTAT_TYPE_STRING ∨ v.type = .READSTAT_TYPE_LONG_STRING)
    let data := mem_write data (ptrs + 6)
      [(if is_chr then env.COLUMN_TYPE_CHR else env.COLUMN_TYPE_NUM) % 256]
    let width := if is_chr then v.storage_width % 2 ^ 32 else 8
    let data := mem_write data ptrs (le_bytes 4 width)
    let data := mem_write data (ptrs + 4) (le_bytes 2 name_length_flag)
    sas_col_attrs_loop env hinfo rest data (ptrs + 8) ((offset + width) % 2 ^ 64)

/-- `sas_col_attrs_subheader_init` -/
def sas_col_attrs_subheader_init (env : sas_env) (w : readstat_writer_t)
    (hinfo : sas_header_info_t) : sas_subheader_t :=
  let len := if hinfo.u64 then 28 + 16 * w.vars.length else 20 + 12 * w.vars.length
  let signature_len := if hinfo.u64 then 8 else 4
  let remainder := size_t_sub len (4 + 2 * signature_len)
  let subheader := sas_subheader_init env.SIGNATURE_COLUMN_ATTRS len
  let data := mem_write subheader.data signature_len (le_bytes 2 remainder)
  { subheader with data := sas_col_attrs_loop env hinfo w.vars data (signature_len + 8) 0 }

/-- Stores the three 16-bit fields of a text reference at `off`. -/
def write_text_ref (data : List Nat) (off : Nat) (text_ref : sas_text_ref_t) : List Nat :=
  let data := mem_write data (off + 0) (le_bytes 2 text_ref.index)
  let data := mem_write data (off + 2) (le_bytes 2 text_ref.offset)
  mem_write data (off + 4) (le_bytes 2 text_ref.length)

/-- `sas_col_format_subheader_init`; returns the subheader and the pool after the calls of
`make_text_ref`. -/
def sas_col_format_subheader_init (env : sas_env) (v : readstat_variable_t)
    (hinfo : sas_header_info_t) (column_text_array : List sas_column_text_t) :
    sas_subheader_t × List sas_column_text_t :=
  let subheader := sas_subheader_init env.SIGNATURE_COLUMN_FORMAT (if hinfo.u64 then 64 else 52)
  let format_offset := if hinfo.u64 then 46 else 34
  let label_offset := if hinfo.u64 then 52 else 40
  let st1 : List Nat × List sas_column_text_t :=
    match v.format with
    | some format =>
      let r := make_text_ref column_text_array format
      (write_text_ref subheader.data format_offset r.2, r.1)
    | none => (subheader.data, column_text_array)
  let st2 : List Nat × List sas_column_text_t :=
    match v.label with
    | some label =>
      let r := make_text_ref st1.2 label
      (write_text_ref st1.1 label_offset r.2, r.1)
    | none => st1
  ({ subheader with data := st2.1 }, st2.2)

/-- `sas_col_text_subheader_init` -/
def sas_col_text_subheader_init (env : sas_env) (hinfo : sas_header_info_t)
    (column_text : sas_column_text_t) : sas_subheader_t :=
  let signature_len := if hinfo.u64 then 8 else 4
  let len := signature_len + 28 + column_text.used
  let subheader := sas_subheader_init env.SIGNATURE_COLUMN_TEXT len
  let used := size_t_sub len (4 + 2 * signature_len)
  let data := mem_write subheader.data signature_len (le_bytes 2 used)
  let data := mem_write data (signature_len + 12) (List.replicate 8 32)
  let data := mem_write data (signature_len + 28) (read_bytes column_text.data 0 column_text.used)
  { subheader with data := data }

/-- The loop of `sas_subheader_array_init` that builds one COLUMN_FORMAT subheader per
variable, threading the pool. -/
def sas_col_format_loop (env : sas_env) (hinfo : sas_header_info_t) :
    List readstat_variable_t → List sas_column_text_t →
    List sas_subheader_t × List sas_column_text_t
  | [], column_text_array => ([], column_text_array)
  | v :: rest, column_text_array =>
    let r := sas_col_format_subheader_init env v hinfo column_text_array
    let rs := sas_col_format_loop env hinfo rest r.2
    (r.1 :: rs.1, rs.2)

/-- The pool with which `sas_subheader_array_init` starts: one empty buffer. -/
def sas_column_text_array_init (hinfo : sas_header_info_t) : List sas_column_text_t :=
  [sas_column_text_init 0 (if hinfo.u64 then COLUMN_TEXT_SIZE_64BIT else COLUMN_TEXT_SIZE_32BIT)]

/-- `sas_subheader_array_init`: the subheaders in array order (`count` is the length). -/
def sas_subheader_array_init (env : sas_env) (w : readstat_writer_t)
    (hinfo : sas_header_info_t) : List sas_subheader_t :=
  let column_text_array := sas_column_text_array_init hinfo
  let row_size_subheader := sas_row_size_subheader_init env w hinfo
  let col_size_subheader := sas_col_size_subheader_init env w hinfo
  let col_name := sas_col_name_subheader_init env w hinfo column_text_array
  let col_attrs_subheader := sas_col_attrs_subheader_init env w hinfo
  let formats := sas_col_format_loop env hinfo w.vars col_name.2
  [row_size_subheader, col_size_subheader, col_name.1, col_attrs_subheader]
    ++ formats.1 ++ formats.2.map (sas_col_text_subheader_init env hinfo)

/-! ## Meta pages -/

/-- `sas_subheader_type` -/
def sas_subheader_type (env : sas_env) (signature : Nat) : Nat :=
  if signature = env.SIGNATURE_COLUMN_TEXT ∨ signature = env.SIGNATURE_COLUMN_NAME ∨
      signature = env.SIGNATURE_COLUMN_ATTRS ∨ signature = env.SIGNATURE_COLUMN_LIST then 1 else 0

/-- The state of the inner loop of `sas_emit_meta_pages`: the subheaders not yet written
(`subheaders[shp_written ..]`), the page under construction and the loop variables. -/
structure sas_meta_page_state where
  remaining : List sas_subheader_t
  page : List Nat
  shp_count : Int
  shp_data_offset : Nat
  shp_ptr_offset : Nat
  deriving DecidableEq, Repr

/-- The subheader data after the signature has been stored at its start, as the inner loop of
`sas_emit_meta_pages` does before it copies the data to the page: 4 bytes in 32-bit mode; in
64-bit mode the 8 bytes of `(int64_t)(int32_t)signature32` for a signature from 0xFF000000 on,
and 4 bytes otherwise. -/
def sas_subheader_signed (hinfo : sas_header_info_t) (subheader : sas_subheader_t) : List Nat :=
  let signature32 : Nat := subheader.signature % 2 ^ 32
  if hinfo.u64 then
    if signature32 ≥ 0xFF000000 then
      mem_write subheader.data 0 (le_bytes_int 8 (to_int32 (signature32 : Int)))
    else mem_write subheader.data 0 (le_bytes 4 signature32)
  else mem_write subheader.data 0 (le_bytes 4 signature32)

/-- The body of the inner loop of `sas_emit_meta_pages` for one subheader: the signature is
stored at the start of the subheader data, the pointer goes to the front of the page and the
data to the back. -/
def sas_emit_subheader (env : sas_env) (hinfo : sas_header_info_t) (st : sas_meta_page_state)
    (subheader : sas_subheader_t) (rest : List sas_subheader_t) : sas_meta_page_state :=
  let shp_ptr_offset := st.shp_ptr_offset
  let page := if hinfo.u64 then
      let page := mem_write st.page shp_ptr_offset (le_bytes 8 (st.shp_data_offset - subheader.len))
      let page := mem_write page (shp_ptr_offset + 8) (le_bytes 8 subheader.len)
      mem_write page (shp_ptr_offset + 17) [sas_subheader_type env subheader.signature]
    else
      let page := mem_write st.page shp_ptr_offset (le_bytes 4 (st.shp_data_offset - subheader.len))
      let page := mem_write page (shp_ptr_offset + 4) (le_bytes 4 subheader.len)
      mem_write page (shp_ptr_offset + 9) [sas_subheader_type env subheader.signature]
  let data := sas_subheader_signed hinfo subheader
  let shp_data_offset := st.shp_data_offset - subheader.len
  { remaining := rest
    page := mem_write page shp_data_offset (read_bytes data 0 subheader.len)
    shp_count := st.shp_count + 1
    shp_data_offset := shp_data_offset
    shp_ptr_offset := shp_ptr_offset + hinfo.subheader_pointer_size }

/-- The inner loop of `sas_emit_meta_pages`: subheaders are placed while there are any left and
the next one satisfies `len + shp_ptr_size < shp_data_offset - shp_ptr_offset`.  The first
argument is the list the loop walks (the `remaining` field of the state). -/
def sas_emit_meta_page_loop (env : sas_env) (hinfo : sas_header_info_t) :
    List sas_subheader_t → sas_meta_page_state → sas_meta_page_state
  | [], st => { st with remaining := [] }
  | subheader :: rest, st =>
    if subheader.len + hinfo.subheader_pointer_size < st.shp_data_offset - st.shp_ptr_offset then
      sas_emit_meta_page_loop env hinfo rest (sas_emit_subheader env hinfo st subheader rest)
    else { st with remaining := subheader :: rest }

/-- One iteration of the outer loop of `sas_emit_meta_pages` up to the write: the finished
page and the subheaders left for the following pages. -/
def sas_emit_meta_page (env : sas_env) (hinfo : sas_header_info_t)
    (sarray : List sas_subheader_t) : sas_meta_page_state :=
  let page := List.replicate PAGE_SIZE 0
  let page := mem_write page (hinfo.page_header_size - 8) (le_bytes_int 2 env.PAGE_TYPE_META)
  let st := sas_emit_meta_page_loop env hinfo sarray
    { remaining := sarray, page := page, shp_count := 0,
      shp_data_offset := hinfo.page_size, shp_ptr_offset := hinfo.page_header_size }
  let page := if hinfo.u64 then
      mem_write (mem_write st.page 34 (le_bytes_int 2 st.shp_count)) 36 (le_bytes_int 2 st.shp_count)
    else
      mem_write (mem_write st.page 18 (le_bytes_int 2 st.shp_count)) 20 (le_bytes_int 2 st.shp_count)
  { st with page := page }

/-- `sas_emit_meta_pages`: the outer loop runs while subheaders are left; `fuel` bounds the
number of its iterations (pages). -/
def sas_emit_meta_pages (env : sas_env) (hinfo : sas_header_info_t) :
    Nat → readstat_writer_t → List sas_subheader_t → Except sas_stop readstat_writer_t
  | _, w, [] => .ok w
  | 0, _, _ :: _ => .error .out_of_fuel
  | fuel + 1, w, subheader :: rest =>
    let st := sas_emit_meta_page env hinfo (subheader :: rest)
    match readstat_write_bytes w (read_bytes st.page 0 PAGE_SIZE) with
    | .error e => .error e
    | .ok w1 => sas_emit_meta_pages env hinfo fuel w1 st.remaining

/-- `sas_begin_data` up to the assignment of `hinfo->page_count`: the header context with the
page count, and the subheader array. -/
def sas_begin_data_init (env : sas_env) (w : readstat_writer_t) :
    Except sas_stop (sas_header_info_t × List sas_subheader_t) :=
  let hinfo := sas_header_info_init w
  let sarray := sas_subheader_array_init env w hinfo
  match sas_count_data_pages w hinfo with
  | .error e => .error e
  | .ok data_pages =>
    .ok ({ hinfo with page_count := sas_count_meta_pages hinfo sarray + data_pages }, sarray)

/-- `sas_begin_data`: header and meta pages; on success the header context becomes the
module context of the writer. -/
def sas_begin_data (env : sas_env) (fuel : Nat) (w : readstat_writer_t) :
    Except sas_stop readstat_writer_t := do
  let init ← sas_begin_data_init env w
  let w ← sas_emit_header env w init.1
  let w ← sas_emit_meta_pages env init.1 fuel w init.2
  pure { w with module_ctx := some init.1 }

/-- `sas_end_data`: pads the last page; the header context is freed (`module_ctx` becomes
`none`). -/
def sas_end_data (w : readstat_writer_t) : Except sas_stop readstat_writer_t :=
  match w.module_ctx with
  | none => .error .null_deref
  | some hinfo =>
    match sas_fill_page w hinfo with
    | .error e => .error e
    | .ok w1 => .ok { w1 with module_ctx := none }

/-! ## Cell writers

A `double` is passed as its 8-byte object representation.  A `char` tag is passed as its
byte value; the comparisons with 'a' (97) and 'z' (122) have the same outcome for a signed and
an unsigned `char`, because a byte above 127 is negative (below 'a') in one reading and above
'z' in the other. -/

/-- `sas_write_double`: copies the 8 bytes of the value to the start of the cell. -/
def sas_write_double (row : List Nat) (_var : readstat_variable_t) (value : List Nat) :
    readstat_error_t × List Nat :=
  (.READSTAT_OK, mem_write row 0 (read_bytes value 0 8))

/-- `sas_write_missing_tagged_raw`: the bytes of NAN with byte 5 replaced by `~tag`. -/
def sas_write_missing_tagged_raw (env : sas_env) (row : List Nat) (var : readstat_variable_t)
    (tag : Nat) : readstat_error_t × List Nat :=
  let nan_value := read_bytes env.nan_image 0 8
  let nan_value := nan_value.set 5 (bit_not8 tag)
  sas_write_double row var nan_value

/-- `sas_write_missing_tagged` -/
def sas_write_missing_tagged (env : sas_env) (row : List Nat) (var : readstat_variable_t)
    (tag : Nat) : readstat_error_t × List Nat :=
  if tag < 97 ∨ tag > 122 then (.READSTAT_ERROR_VALUE_OUT_OF_RANGE, row)
  else sas_write_missing_tagged_raw env row var tag

/-- `sas_write_missing_numeric` -/
def sas_write_missing_numeric (env : sas_env) (row : List Nat) (var : readstat_variable_t) :
    readstat_error_t × List Nat :=
  sas_write_missing_tagged_raw env row var 0

/-- `sas_write_string`; `value = none` is the NULL pointer. -/
def sas_write_string (row : List Nat) (var : readstat_variable_t) (value : Option (List Nat)) :
    readstat_error_t × List Nat :=
  let max_len := var.storage_width
  match value with
  | none => (.READSTAT_OK, mem_write row 0 (List.replicate max_len 0))
  | some [] => (.READSTAT_OK, mem_write row 0 (List.replicate max_len 0))
  | some (c :: cs) => (.READSTAT_OK, mem_write row 0 (strncpy_bytes (c :: cs) max_len))

/-- `sas_write_missing_string` -/
def sas_write_missing_string (row : List Nat) (var : readstat_variable_t) :
    readstat_error_t × List Nat :=
  sas_write_string row var none

/-! ## Rows -/

/-- The data-page header that `sas_write_row` builds: `page_header_size` zero bytes with the
16-bit `page_row_count` at `page_header_size - 6` and the 16-bit page type DATA at
`page_header_size - 8`. -/
def sas_data_page_header (env : sas_env) (hinfo : sas_header_info_t) (page_row_count : Int) :
    List Nat :=
  let header := List.replicate hinfo.page_header_size 0
  let header := mem_write header (hinfo.page_header_size - 6) (le_bytes_int 2 page_row_count)
  let header := mem_write header (hinfo.page_header_size - 8) (le_bytes_int 2 env.PAGE_TYPE_DATA)
  read_bytes header 0 hinfo.page_header_size

/-- `sas_write_row` -/
def sas_write_row (env : sas_env) (w : readstat_writer_t) (bytes : List Nat) (len : Nat) :
    Except sas_stop readstat_writer_t :=
  match w.module_ctx with
  | none => .error .null_deref
  | some hinfo => do
    let rows_per_page ← sas_rows_per_page w hinfo
    if rows_per_page = 0 then throw .div_by_zero
    let w ←
      if w.current_row.tmod rows_per_page = 0 then do
        let w ← sas_fill_page w hinfo
        let page_row_count :=
          if w.row_count - w.current_row < rows_per_page then w.row_count - w.current_row
          else rows_per_page
        readstat_write_bytes w (sas_data_page_header env hinfo page_row_count)
      else pure w
    readstat_write_bytes w (read_bytes bytes 0 len)

/-- `readstat_begin_writing_sas7bdat`: stores the row count, replaces version 0 by the default
version and marks the writer initialised (the callback table it fills holds the functions
above). -/
def readstat_begin_writing_sas7bdat (w : readstat_writer_t) (row_count : Int) :
    readstat_error_t × readstat_writer_t :=
  (.READSTAT_OK,
   { w with
      row_count := row_count
      version := if w.version = 0 then SAS_DEFAULT_FILE_VERSION else w.version
      initialized := true })

/-- Modelled from the spec: the row loop of the writer skeleton (readstat_writer.c is not among
the sources): each row buffer is handed to `write_row` with the row length, and `current_row`
advances by one after a successful write. -/
def write_rows (env : sas_env) : List (List Nat) → readstat_writer_t →
    Except sas_stop readstat_writer_t
  | [], w => .ok w
  | row :: rows, w =>
    match sas_write_row env w row (sas_row_length w) with
    | .error e => .error e
    | .ok w1 => write_rows env rows { w1 with current_row := w1.current_row + 1 }

/-- The writer life cycle of the spec after the schema is complete: `begin_data`, one
`write_row` per row, `end_data`. -/
def sas_write_file (env : sas_env) (fuel : Nat) (w : readstat_writer_t)
    (rows : List (List Nat)) : Except sas_stop readstat_writer_t := do
  let w ← sas_begin_data env fuel w
  let w ← write_rows env rows w
  sas_end_data w

/-! ## The buffer-backed I/O handlers of the test harness (test/test_read.c)

`size_t` values are natural numbers below `2 ^ 64`; `readstat_off_t` and `ssize_t` are 64-bit
signed integers.  A sum or difference computed in `size_t` and stored in a signed variable is
reduced with `to_int64`. -/

/-- Conversion of an integer value to a 64-bit signed integer (`readstat_off_t`, `ssize_t`). -/
def to_int64 (v : Int) : Int :=
  (v + 2 ^ 63) % 2 ^ 64 - 2 ^ 63

/-- The fields of `rt_buffer_t` that the handlers read (test_buffer.h is not among the
sources): the bytes and the number of bytes in use. -/
structure rt_buffer_t where
  bytes : List Nat
  used : Nat
  deriving DecidableEq, Repr

/-- `rt_buffer_ctx_t`: the buffer and the position of the next read. -/
structure rt_buffer_ctx_t where
  buffer : rt_buffer_t
  pos : Nat
  deriving DecidableEq, Repr

/-- The values of `readstat_io_flags_t` (readstat.h is not among the sources): the three seek
origins, and any other value the `int`-sized argument can carry. -/
inductive readstat_io_flags_t
  | READSTAT_SEEK_SET
  | READSTAT_SEEK_CUR
  | READSTAT_SEEK_END
  | other (v : Int)
  deriving DecidableEq, Repr

/-- `rt_seek_handler`: the return value and the context afterwards. -/
def rt_seek_handler (offset : Int) (whence : readstat_io_flags_t) (buffer_ctx : rt_buffer_ctx_t) :
    Int × rt_buffer_ctx_t :=
  let newpos : Int :=
    match whence with
    | .READSTAT_SEEK_SET => offset
    | .READSTAT_SEEK_CUR => to_int64 ((buffer_ctx.pos : Int) + offset)
    | .READSTAT_SEEK_END => to_int64 ((buffer_ctx.buffer.used : Int) + offset)
    | .other _ => -1
  if newpos < 0 then (-1, buffer_ctx)
  else if newpos > (buffer_ctx.buffer.used : Int) then (-1, buffer_ctx)
  else (newpos, { buffer_ctx with pos := newpos.toNat })

/-- `rt_read_handler`: the return value, the destination `buf` afterwards and the context
afterwards.  The comparison `nbytes <= bytes_left` is made in `size_t`. -/
def rt_read_handler (buf : List Nat) (nbytes : Nat) (buffer_ctx : rt_buffer_ctx_t) :
    Int × List Nat × rt_buffer_ctx_t :=
  let bytes_left : Int := to_int64 ((buffer_ctx.buffer.used : Int) - (buffer_ctx.pos : Int))
  let r : Int × List Nat :=
    if nbytes ≤ (bytes_left % 2 ^ 64).toNat then
      (to_int64 (nbytes : Int),
        mem_write buf 0 (read_bytes buffer_ctx.buffer.bytes buffer_ctx.pos nbytes))
    else if bytes_left > 0 then
      (bytes_left,
        mem_write buf 0 (read_bytes buffer_ctx.buffer.bytes buffer_ctx.pos bytes_left.toNat))
    else (0, buf)
  (r.1, r.2, { buffer_ctx with pos := (((buffer_ctx.pos : Int) + r.1) % 2 ^ 64).toNat })

/-- `rt_update_handler`: the status and the context afterwards.  The progress callback, if
there is one, receives the quotient of the position and the used size as a `double`; it is
given here as a function of the two numbers, and its result is the `int` it returns. -/
def rt_update_handler (progress_handler : Option (Nat → Nat → Int))
    (buffer_ctx : rt_buffer_ctx_t) : readstat_error_t × rt_buffer_ctx_t :=
  match progress_handler with
  | none => (.READSTAT_OK, buffer_ctx)
  | some handler =>
    if handler buffer_ctx.pos buffer_ctx.buffer.used ≠ 0 then
      (.READSTAT_ERROR_USER_ABORT, buffer_ctx)
    else (.READSTAT_OK, buffer_ctx)

/-! ## The command-line driver (bin/readstat.c) -/

/-- `RS_FORMAT_UNKNOWN` -/
def RS_FORMAT_UNKNOWN : Nat := 0x00

/-- `RS_FORMAT_DTA` -/
def RS_FORMAT_DTA : Nat := 0x01

/-- `RS_FORMAT_SAV` -/
def RS_FORMAT_SAV : Nat := 0x02

/-- `RS_FORMAT_POR` -/
def RS_FORMAT_POR : Nat := 0x04

/-- `RS_FORMAT_SAS_DATA` -/
def RS_FORMAT_SAS_DATA : Nat := 0x08

/-- `RS_FORMAT_SAS_CATALOG` -/
def RS_FORMAT_SAS_CATALOG : Nat := 0x10

/-- Whether `strncmp(a, b, n) == 0`, for two C strings given by their bytes before the NUL:
the first `n` characters agree, the terminating NUL included when it comes earlier. -/
def strncmp_eq (a b : List Nat) (n : Nat) : Bool :=
  decide ((a ++ [0]).take n = (b ++ [0]).take n)

/-- `format`: the format code for a file name (".dta", ".sav", ".por", ".sas7bdat",
".sas7bcat" are the string literals of the source, as bytes). -/
def format (filename : List Nat) : Nat :=
  let len := filename.length
  if len < 4 then RS_FORMAT_UNKNOWN
  else if strncmp_eq (filename.drop (len - 4)) [46, 100, 116, 97] 4 then RS_FORMAT_DTA
  else if strncmp_eq (filename.drop (len - 4)) [46, 115, 97, 118] 4 then RS_FORMAT_SAV
  else if strncmp_eq (filename.drop (len - 4)) [46, 112, 111, 114] 4 then RS_FORMAT_POR
  else if len < 9 then RS_FORMAT_UNKNOWN
  else if strncmp_eq (filename.drop (len - 9)) [46, 115, 97, 115, 55, 98, 100, 97, 116] 9 then
    RS_FORMAT_SAS_DATA
  else if strncmp_eq (filename.drop (len - 9)) [46, 115, 97, 115, 55, 98, 99, 97, 116] 9 then
    RS_FORMAT_SAS_CATALOG
  else RS_FORMAT_UNKNOWN

/-- `is_catalog` (the `int` result as a truth value). -/
def is_catalog (filename : List Nat) : Bool :=
  decide (format filename = RS_FORMAT_SAS_CATALOG)

/-- `can_read` (the `int` result as a truth value). -/
def can_read (filename : List Nat) : Bool :=
  decide (format filename ≠ RS_FORMAT_UNKNOWN)

/-- The field of `rs_module_t` that `handle_value` uses (module.h is not among the sources):
the value handler of the output module, which may be NULL.  It receives the indices, the
value (of a type `V`) and the module context (of a type `M`) and returns its status and the
module context it leaves. -/
structure rs_module_t (V M : Type) where
  handle_value : Option (Int → Int → V → M → Int × M)

/-- `rs_ctx_t`; the counters are `long` and do not overflow, since they count at most once
per `int` index. -/
structure rs_ctx_t (V M : Type) where
  module : rs_module_t V M
  module_ctx : M
  row_count : Int
  var_count : Int

/-- `handle_value`: the status it returns and the context afterwards. -/
def handle_value {V M : Type} (obs_index var_index : Int) (value : V) (rs_ctx : rs_ctx_t V M) :
    Int × rs_ctx_t V M :=
  let rs_ctx := if var_index = 0 then { rs_ctx with row_count := rs_ctx.row_count + 1 }
    else rs_ctx
  let rs_ctx := if obs_index = 0 then { rs_ctx with var_count := rs_ctx.var_count + 1 }
    else rs_ctx
  match rs_ctx.module.handle_value with
  | some handler =>
    let r := handler obs_index var_index value rs_ctx.module_ctx
    (r.1, { rs_ctx with module_ctx := r.2 })
  | none => (0, rs_ctx)

/-- Modelled from the spec: the calls of the value handler that a parser makes for a dataset
of `R` rows and `V` variables, once per cell in row-major order (the parsers are not among the
sources); `value` gives the value of each cell.  The context after the last call. -/
def handle_values {V M : Type} (R C : Nat) (value : Nat → Nat → V) (rs_ctx : rs_ctx_t V M) :
    rs_ctx_t V M :=
  (List.range R).foldl
    (fun (ctx : rs_ctx_t V M) (i : Nat) => (List.range C).foldl
      (fun (ctx : rs_ctx_t V M) (j : Nat) =>
        (handle_value (i : Int) (j : Int) (value i j) ctx).2) ctx)
    rs_ctx

/-- The context with which `main` starts the parse: `calloc` zeroes the counters. -/
def rs_ctx_init {V M : Type} (module : rs_module_t V M) (module_ctx : M) : rs_ctx_t V M :=
  { module := module, module_ctx := module_ctx, row_count := 0, var_count := 0 }

/-! ## Notions used to state the properties -/

/-- IEEE 754 double NaN test on the 64-bit pattern: exponent field all ones, fraction not zero. -/
def is_nan_bits (v : Nat) : Prop :=
  v / 2 ^ 52 % 2 ^ 11 = 2 ^ 11 - 1 ∧ v % 2 ^ 52 ≠ 0

instance (v : Nat) : Decidable (is_nan_bits v) := by
  unfold is_nan_bits
  infer_instance

/-- The integer whose little-endian representation is the byte list. -/
def le_value : List Nat → Nat
  | [] => 0
  | b :: bs => b + 256 * le_value bs

/-- The missing-value tag a reader recovers from a numeric cell: the complement of byte 5. -/
def sas_missing_tag_of (cell : List Nat) : Nat :=
  bit_not8 (cell.getD 5 0)

/-- A concrete instance of the parameters of the model, used to evaluate it: the signature,
page-type and column-type values and the structure sizes of a little-endian 64-bit build, a
zero-filled header start and timestamps, a header end with the 8-byte release field at offset 0
followed by the host "W32_VSPRO", and the quiet NaN 0x7FF8000000000000. -/
def example_env : sas_env :=
  { SIGNATURE_ROW_SIZE := 0xF7F7F7F7
    SIGNATURE_COLUMN_SIZE := 0xF6F6F6F6
    SIGNATURE_COLUMN_NAME := 0xFFFFFFFF
    SIGNATURE_COLUMN_ATTRS := 0xFFFFFFFC
    SIGNATURE_COLUMN_FORMAT := 0xFFFFFBFE
    SIGNATURE_COLUMN_TEXT := 0xFFFFFFFD
    SIGNATURE_COLUMN_LIST := 0xFFFFFFFE
    PAGE_TYPE_META := 0
    PAGE_TYPE_DATA := 256
    COLUMN_TYPE_NUM := 1
    COLUMN_TYPE_CHR := 2
    sizeof_header_start := 164
    header_start_image := fun _ _ => []
    sizeof_header_end := 120
    header_end_init :=
      List.replicate 8 0 ++ [87, 51, 50, 95, 86, 83, 80, 82, 79] ++ List.replicate 103 0
    offsetof_release := 0
    sizeof_release := 8
    time_image := fun _ => []
    nan_image := [0, 0, 0, 0, 0, 0, 0xF8, 0x7F] }

/-- A writer for a schema and a declared row count, as it stands before `begin_data`: nothing
written, a sink that never fails, the given version. -/
def example_writer (vars : List readstat_variable_t) (row_count : Int) (version : Int) :
    readstat_writer_t :=
  { vars := vars, row_count := row_count, current_row := 0, version := version, timestamp := 0,
    file_label := [116], bytes_written := 0, out := [], room := none, module_ctx := none,
    initialized := true }

/-- A numeric (double) variable without format and label. -/
def example_double (name : List Nat) : readstat_variable_t :=
  { type := .READSTAT_TYPE_DOUBLE, name := name, format := none, label := none,
    storage_width := 8 }

/-- A pool array as the writer keeps it: at least one buffer, and the `index` field of every
buffer is its position in the array. -/
def pool_wf (cta : List sas_column_text_t) : Prop :=
  cta ≠ [] ∧ ∀ i, i < cta.length → (cta[i]?).map (fun b => b.index) = some i

instance (cta : List sas_column_text_t) : Decidable (pool_wf cta) := by
  unfold pool_wf
  infer_instance

/-- The pool after a sequence of `make_text_ref` calls, one per string, in order. -/
def make_text_refs (cta : List sas_column_text_t) (strings : List (List Nat)) :
    List sas_column_text_t :=
  strings.foldl (fun c s => (make_text_ref c s).1) cta

/-- The pool `b` keeps everything of the pool `a`: every buffer of `a` is still at its position
in `b`, with the same index and capacity, a used count that did not shrink, and the same bytes
below the used count it had in `a`. -/
def pool_extends (a b : List sas_column_text_t) : Prop :=
  ∀ (j : Nat) (x : sas_column_text_t), a[j]? = some x →
    ∃ y : sas_column_text_t, b[j]? = some y ∧ y.index = x.index ∧ y.capacity = x.capacity ∧ x.used ≤ y.used ∧
      ∀ pos, pos < x.used → y.data.getD pos 0 = x.data.getD pos 0

/-- The number of data pages as the spec states it: the ceiling of
`row_count / rows_per_page`. -/
def spec_data_pages (row_count rows_per_page : Int) : Int :=
  ⌈(row_count : ℚ) / (rows_per_page : ℚ)⌉

/-- The header context as the spec describes it for a writer: that of `sas_header_info_init`
with the page count set to the meta pages counted by `sas_count_meta_pages` plus the ceiling
of `row_count / rows_per_page`, where `rows_per_page` is the floor of
`(page_size - page_header_size) / row_length`. -/
def spec_header_info (env : sas_env) (w : readstat_writer_t) : sas_header_info_t :=
  { sas_header_info_init w with
    page_count :=
      sas_count_meta_pages (sas_header_info_init w)
        (sas_subheader_array_init env w (sas_header_info_init w))
      + spec_data_pages w.row_count
          ((((sas_header_info_init w).page_size - (sas_header_info_init w).page_header_size)
            / sas_row_length w : Nat) : Int) }

/-- The `bytes_written` of the writer a computation returns, if it returns one. -/
def bytes_written_of (r : Except sas_stop readstat_writer_t) : Option Nat :=
  match r with
  | .ok w => some w.bytes_written
  | .error _ => none

/-- The page count stored in the header context that `sas_begin_data` computes. -/
def page_count_of (r : Except sas_stop (sas_header_info_t × List sas_subheader_t)) :
    Option Int :=
  match r with
  | .ok init => some init.1.page_count
  | .error _ => none

/-- A schema of 31 double columns without formats and labels: 24 with the 8-byte names
"variabla" .. "variablx" and 7 with the 1-byte names "a" .. "g". -/
def example_exact_fit_vars : List readstat_variable_t :=
  (List.range 24).map (fun i => example_double [118, 97, 114, 105, 97, 98, 108, 97 + i])
    ++ (List.range 7).map (fun i => example_double [97 + i])

/-- The subheaders left for later pages after one meta page has been filled, as a function of
the lengths only: `gap` is the room between the pointer table and the data area. -/
def meta_page_rest (shp_ptr_size : Nat) : Nat → List sas_subheader_t → List sas_subheader_t
  | _, [] => []
  | gap, subheader :: rest =>
    if subheader.len + shp_ptr_size < gap then
      meta_page_rest shp_ptr_size (gap - (subheader.len + shp_ptr_size)) rest
    else subheader :: rest

/-- The number of pages `sas_emit_meta_pages` writes for a subheader array when no write
fails, as a function of the lengths only; `none` when `fuel` iterations do not finish the
array. -/
def meta_pages_written (hinfo : sas_header_info_t) : Nat → List sas_subheader_t → Option Nat
  | _, [] => some 0
  | 0, _ :: _ => none
  | fuel + 1, subheader :: rest =>
    (meta_pages_written hinfo fuel
      (meta_page_rest hinfo.subheader_pointer_size (hinfo.page_size - hinfo.page_header_size)
        (subheader :: rest))).map (fun k => k + 1)

/-- The fields of the writer that no write changes. -/
def same_schema (w w1 : readstat_writer_t) : Prop :=
  w1.vars = w.vars ∧ w1.row_count = w.row_count ∧ w1.current_row = w.current_row ∧
  w1.version = w.version ∧ w1.room = w.room ∧ w1.module_ctx = w.module_ctx

/-- A schema of 251 double columns named "x000" .. "x250", without formats and labels. -/
def example_wide_vars : List readstat_variable_t :=
  (List.range 251).map
    (fun i => example_double [120, 48 + i / 100, 48 + i / 10 % 10, 48 + i % 10])

/-- A schema with one long-string column "x" of storage width 20 (64-bit file, no rows). -/
def example_long_string_writer : readstat_writer_t :=
  example_writer
    [{ type := .READSTAT_TYPE_LONG_STRING, name := [120], format := none, label := none,
       storage_width := 20 }] 0 90101

/-- A pool with the single buffer of the 64-bit layout filled up to 4 bytes below its capacity
(used = 4028 of 4032): the next string of more than 4 bytes does not fit. -/
def example_full_pool : List sas_column_text_t :=
  [{ data := [], capacity := COLUMN_TEXT_SIZE_64BIT, used := 4028, index := 0 }]

/-- The strings that `sas_col_format_subheader_init` stores for a variable: the format, then
the label, each if present. -/
def format_strings (v : readstat_variable_t) : List (List Nat) :=
  v.format.toList ++ v.label.toList

/-- The pool after `sas_col_name_subheader_init` has stored the variable names. -/
def pool_after_names (env : sas_env) (w : readstat_writer_t) (hinfo : sas_header_info_t) :
    List sas_column_text_t :=
  (sas_col_name_subheader_init env w hinfo (sas_column_text_array_init hinfo)).2

/-- The pool with which `sas_subheader_array_init` builds the COLUMN_FORMAT subheader of
variable `k`: after the names and after the formats and labels of the variables before `k`. -/
def pool_before_format (env : sas_env) (w : readstat_writer_t) (hinfo : sas_header_info_t)
    (k : Nat) : List sas_column_text_t :=
  (sas_col_format_loop env hinfo (w.vars.take k) (pool_after_names env w hinfo)).2

/-- The pool from which `sas_subheader_array_init` builds the COLUMN_TEXT subheaders. -/
def pool_final (env : sas_env) (w : readstat_writer_t) (hinfo : sas_header_info_t) :
    List sas_column_text_t :=
  (sas_col_format_loop env hinfo w.vars (pool_after_names env w hinfo)).2

/-- The value of the local `uint32_t width` of `sas_col_attrs_subheader_init` for a variable:
the storage width converted to 32 bits for string and long-string variables, 8 otherwise. -/
def recorded_width (v : readstat_variable_t) : Nat :=
  if v.type = .READSTAT_TYPE_STRING ∨ v.type = .READSTAT_TYPE_LONG_STRING then
    v.storage_width % 2 ^ 32
  else 8

/-- The column type stored for a variable, as a byte. -/
def recorded_type (env : sas_env) (v : readstat_variable_t) : Nat :=
  (if v.type = .READSTAT_TYPE_STRING ∨ v.type = .READSTAT_TYPE_LONG_STRING then
    env.COLUMN_TYPE_CHR else env.COLUMN_TYPE_NUM) % 256

/-- A string column "s" whose storage width, `2 ^ 32 + 5`, does not fit 32 bits. -/
def example_huge_string : readstat_variable_t :=
  { type := .READSTAT_TYPE_STRING, name := [115], format := none, label := none,
    storage_width := 2 ^ 32 + 5 }

/-- The release string as the spec writes it, "<maj>.<4-digit-min>M0", for a version `v ≥ 0`:
the decimal digits of `v / 10000`, a dot, the four decimal digits of `v % 10000`, "M0". -/
def spec_release_string (v : Nat) : List Nat :=
  dec_digits (v / 10000 + 1) (v / 10000) ++ [46]
    ++ [48 + v % 10000 / 1000, 48 + v % 10000 / 100 % 10, 48 + v % 10000 / 10 % 10,
      48 + v % 10000 % 10]
    ++ [77, 48]

/-- The offset of the header-end block in the header that `sas_emit_header` writes. -/
def header_end_offset (env : sas_env) (hinfo : sas_header_info_t) : Nat :=
  env.sizeof_header_start + hinfo.pad1 + 8 + 8 + 16 + 4 + 4 + (if hinfo.u64 then 8 else 4) + 8

/-- A writer as `sas_begin_data` leaves it for the schema of one double column "x" with three
declared rows (64-bit file): the header and one meta page, 5120 bytes, have been written, and
the header context is in place. -/
def example_rows_writer : readstat_writer_t :=
  { example_writer [example_double [120]] 3 90101 with
    bytes_written := 5120
    out := List.replicate 5120 0
    module_ctx := some (sas_header_info_init (example_writer [example_double [120]] 3 90101)) }

/-- Three 8-byte rows. -/
def example_rows : List (List Nat) :=
  [[1, 0, 0, 0, 0, 0, 0, 0], [2, 0, 0, 0, 0, 0, 0, 0], [3, 0, 0, 0, 0, 0, 0, 0]]

/-- The subheaders that one meta page takes, as a function of the lengths only (the part of
the array that `meta_page_rest` leaves out); `gap` is the room between the pointer table and
the data area. -/
def meta_page_placed (shp_ptr_size : Nat) : Nat → List sas_subheader_t → List sas_subheader_t
  | _, [] => []
  | gap, subheader :: rest =>
    if subheader.len + shp_ptr_size < gap then
      subheader :: meta_page_placed shp_ptr_size (gap - (subheader.len + shp_ptr_size)) rest
    else []

/-- The target of a seek as the interface describes it: the offset itself, or the offset from
the position, or the offset from the end; none for any other origin. -/
def seek_target (offset : Int) (whence : readstat_io_flags_t) (buffer_ctx : rt_buffer_ctx_t) :
    Option Int :=
  match whence with
  | .READSTAT_SEEK_SET => some offset
  | .READSTAT_SEEK_CUR => some ((buffer_ctx.pos : Int) + offset)
  | .READSTAT_SEEK_END => some ((buffer_ctx.buffer.used : Int) + offset)
  | .other _ => none

/-- The subheaders that the successive meta pages take, page by page, as a function of the
lengths only; `fuel` bounds the number of pages as in `sas_emit_meta_pages`. -/
def meta_page_chunks (hinfo : sas_header_info_t) :
    Nat → List sas_subheader_t → List (List sas_subheader_t)
  | _, [] => []
  | 0, _ :: _ => []
  | fuel + 1, subheader :: rest =>
    meta_page_placed hinfo.subheader_pointer_size (hinfo.page_size - hinfo.page_header_size)
        (subheader :: rest)
      :: meta_page_chunks hinfo fuel
          (meta_page_rest hinfo.subheader_pointer_size
            (hinfo.page_size - hinfo.page_header_size) (subheader :: rest))

/-- A 4033-byte string ("x" repeated), one byte longer than a 64-bit pool buffer. -/
def example_long_label : List Nat :=
  List.replicate 4033 120

/-- A 64-bit schema with a double column "x" followed by a long-string column "y" of storage
width 20, no rows. -/
def example_mixed_writer : readstat_writer_t :=
  example_writer
    [example_double [120],
     { type := .READSTAT_TYPE_LONG_STRING, name := [121], format := none, label := none,
       storage_width := 20 }] 0 90101

/-- A 64-bit schema of two string columns "a" and "b" of storage widths `2 ^ 63` and
`2 ^ 63 + 7`, whose sum does not fit a `size_t`; no rows. -/
def example_wrapping_writer : readstat_writer_t :=
  example_writer
    [{ type := .READSTAT_TYPE_STRING, name := [97], format := none, label := none,
       storage_width := 2 ^ 63 },
     { type := .READSTAT_TYPE_STRING, name := [98], format := none, label := none,
       storage_width := 2 ^ 63 + 7 }] 0 90101

/-- The writer `example_rows_writer` with `4294967296 * 507` declared rows: with 507 rows per
page the rows fill `2 ^ 32` data pages. -/
def example_many_rows_writer : readstat_writer_t :=
  { example_rows_writer with row_count := 4294967296 * 507 }

/-! ## Lemmas on the memory helpers -/

theorem read_bytes_length (buf : List Nat) (off n : Nat) : (read_bytes buf off n).length = n := by
  induction n generalizing off with
  | zero => rfl
  | succ n ih => simp [read_bytes, ih]

theorem read_bytes_eq_take_drop (buf : List Nat) (off n : Nat) (h : off + n ≤ buf.length) :
    read_bytes buf off n = (buf.drop off).take n := by
  induction n generalizing off with
  | zero => simp [read_bytes]
  | succ n ih =>
    have hlt : off < buf.length := by omega
    rw [read_bytes, ih (off + 1) (by omega)]
    rw [List.drop_eq_getElem_cons hlt, List.take_succ_cons]
    simp [List.getElem?_eq_getElem hlt]

theorem read_bytes_self (buf : List Nat) : read_bytes buf 0 buf.length = buf := by
  rw [read_bytes_eq_take_drop buf 0 buf.length (by omega)]
  simp

theorem mem_write_zero (buf bytes : List Nat) :
    mem_write buf 0 bytes = bytes ++ buf.drop bytes.length := by
  simp [mem_write]

theorem tagged_raw_eq (env : sas_env) (row : List Nat) (var : readstat_variable_t) (tag : Nat)
    (hlen : env.nan_image.length = 8) :
    sas_write_missing_tagged_raw env row var tag =
      (.READSTAT_OK, env.nan_image.set 5 (bit_not8 tag) ++ row.drop 8) := by
  have h := read_bytes_self env.nan_image
  rw [hlen] at h
  have h2 : read_bytes ((env.nan_image).set 5 (bit_not8 tag)) 0 8
      = (env.nan_image).set 5 (bit_not8 tag) := by
    have := read_bytes_self ((env.nan_image).set 5 (bit_not8 tag))
    rw [List.length_set, hlen] at this
    exact this
  simp only [sas_write_missing_tagged_raw, sas_write_double, h, h2, mem_write_zero,
    List.length_set, hlen]

theorem nan_set5 (nan : List Nat) (x : Nat) (hlen : nan.length = 8)
    (hbytes : ∀ b ∈ nan, b < 256) (hnan : is_nan_bits (le_value nan)) (hx : 0 < x)
    (hx2 : x < 256) : is_nan_bits (le_value (nan.set 5 x)) := by
  rcases nan with _ | ⟨b0, _ | ⟨b1, _ | ⟨b2, _ | ⟨b3, _ | ⟨b4, _ | ⟨b5, _ | ⟨b6, _ | ⟨b7, _ | ⟨b8, t⟩⟩⟩⟩⟩⟩⟩⟩⟩ <;>
    simp at hlen
  simp only [List.mem_cons, List.mem_singleton, forall_eq_or_imp, forall_eq, List.not_mem_nil,
    IsEmpty.forall_iff, implies_true, and_true] at hbytes
  obtain ⟨h0, h1, h2, h3, h4, h5, h6, h7⟩ := hbytes
  simp only [is_nan_bits, le_value, List.set] at hnan ⊢
  omega

theorem getD_mem_write_lt (buf bytes : List Nat) (off pos : Nat) (h : pos < off) :
    (mem_write buf off bytes).getD pos 0 = buf.getD pos 0 := by
  simp only [mem_write, List.getD_eq_getElem?_getD, List.append_assoc]
  by_cases hp : pos < buf.length
  · rw [List.getElem?_append_left (by simp; omega)]
    simp [List.getElem?_take, h]
  · rw [List.getElem?_append_right (by simp; omega)]
    rw [List.getElem?_append_left (by simp; omega)]
    have : buf[pos]? = none := by simp; omega
    simp [this, List.getElem?_replicate]
    split <;> rfl

theorem getD_mem_write_mid (buf bytes : List Nat) (off pos : Nat) (h : pos < bytes.length) :
    (mem_write buf off bytes).getD (off + pos) 0 = bytes.getD pos 0 := by
  simp only [mem_write, List.getD_eq_getElem?_getD]
  have hl : (List.take off buf ++ List.replicate (off - buf.length) 0).length = off := by
    simp; omega
  rw [List.append_assoc (List.take off buf ++ List.replicate (off - buf.length) 0)]
  rw [List.getElem?_append_right (by omega)]
  rw [hl, Nat.add_sub_cancel_left, List.getElem?_append_left h]

theorem getD_mem_write_ge (buf bytes : List Nat) (off pos : Nat)
    (h : off + bytes.length ≤ pos) :
    (mem_write buf off bytes).getD pos 0 = buf.getD pos 0 := by
  simp only [mem_write, List.getD_eq_getElem?_getD]
  have hl : (List.take off buf ++ List.replicate (off - buf.length) 0 ++ bytes).length
      = off + bytes.length := by
    simp; omega
  rw [List.getElem?_append_right (by omega), hl, List.getElem?_drop]
  congr 2
  omega

theorem mem_write_length (buf bytes : List Nat) (off : Nat) :
    (mem_write buf off bytes).length = max buf.length (off + bytes.length) := by
  simp only [mem_write, List.length_append, List.length_take, List.length_replicate,
    List.length_drop]
  omega

theorem getD_read_bytes (buf : List Nat) (off n i : Nat) (h : i < n) :
    (read_bytes buf off n).getD i 0 = buf.getD (off + i) 0 := by
  induction n generalizing off i with
  | zero => omega
  | succ n ih =>
    cases i with
    | zero => simp [read_bytes]
    | succ i =>
      simp only [read_bytes, List.getD_cons_succ]
      rw [ih (off + 1) i (by omega)]
      congr 1
      omega

theorem read_bytes_eq_of_getD (buf l : List Nat) (off : Nat)
    (h : ∀ i, i < l.length → buf.getD (off + i) 0 = l.getD i 0) :
    read_bytes buf off l.length = l := by
  apply List.ext_getElem (read_bytes_length _ _ _)
  intro i h1 h2
  have := getD_read_bytes buf off l.length i h2
  rw [List.getD_eq_getElem _ _ h1, h i h2, List.getD_eq_getElem _ _ h2] at this
  exact this

theorem getD_strncpy_bytes (s : List Nat) (n i : Nat) (h : i < s.length) (hn : s.length ≤ n) :
    (strncpy_bytes s n).getD i 0 = s.getD i 0 := by
  simp only [strncpy_bytes, List.getD_eq_getElem?_getD]
  rw [List.take_of_length_le hn, List.getElem?_append_left h]

theorem strncpy_bytes_length (s : List Nat) (n : Nat) : (strncpy_bytes s n).length = n := by
  simp only [strncpy_bytes, List.length_append, List.length_take, List.length_replicate]
  omega

theorem padded_len_ge (len : Nat) : len ≤ (len + 3) / 4 * 4 := by omega

theorem le_bytes_length (n v : Nat) : (le_bytes n v).length = n := by
  induction n generalizing v with
  | zero => rfl
  | succ n ih => simp [le_bytes, ih]

theorem getLast?_eq_getElem? (cta : List sas_column_text_t) :
    cta.getLast? = cta[cta.length - 1]? := by
  rw [List.getLast?_eq_getElem?]

/-- The two branches of `make_text_ref` on a non-empty pool. -/
theorem make_text_ref_eq (cta : List sas_column_text_t) (s : List Nat)
    (last : sas_column_text_t) (hlast : cta[cta.length - 1]? = some last) :
    make_text_ref cta s =
      if last.used + (s.length + 3) / 4 * 4 > last.capacity then
        (cta ++ [(make_text_ref_store
            (sas_column_text_init cta.length last.capacity) s).1],
          (make_text_ref_store (sas_column_text_init cta.length last.capacity) s).2)
      else
        (cta.set (cta.length - 1) (make_text_ref_store last s).1,
          (make_text_ref_store last s).2) := by
  simp only [make_text_ref, getLast?_eq_getElem?, hlast]

theorem pool_wf_last (cta : List sas_column_text_t) (hwf : pool_wf cta) :
    ∃ last, cta[cta.length - 1]? = some last ∧ last.index = cta.length - 1 ∧
      0 < cta.length := by
  obtain ⟨hne, hidx⟩ := hwf
  have hpos : 0 < cta.length := List.length_pos.mpr hne
  have hlt : cta.length - 1 < cta.length := by omega
  refine ⟨cta[cta.length - 1], List.getElem?_eq_getElem hlt, ?_, hpos⟩
  have := hidx (cta.length - 1) hlt
  rw [List.getElem?_eq_getElem hlt] at this
  simpa using this

/-- What `make_text_ref_store` does to the buffer it is given. -/
theorem make_text_ref_store_spec (b : sas_column_text_t) (s : List Nat) :
    (make_text_ref_store b s).1.index = b.index ∧
    (make_text_ref_store b s).1.capacity = b.capacity ∧
    (make_text_ref_store b s).1.used = b.used + (s.length + 3) / 4 * 4 ∧
    (make_text_ref_store b s).2 = { index := b.index, offset := b.used + 28, length := s.length } ∧
    (∀ pos, pos < b.used → (make_text_ref_store b s).1.data.getD pos 0 = b.data.getD pos 0) ∧
    (∀ i, i < s.length → (make_text_ref_store b s).1.data.getD (b.used + i) 0 = s.getD i 0) := by
  refine ⟨rfl, rfl, rfl, rfl, ?_, ?_⟩
  · intro pos hpos
    exact getD_mem_write_lt _ _ _ _ hpos
  · intro i hi
    simp only [make_text_ref_store]
    rw [getD_mem_write_mid _ _ _ _ (by rw [strncpy_bytes_length]; have := padded_len_ge s.length; omega)]
    exact getD_strncpy_bytes _ _ _ hi (padded_len_ge _)

/-- `make_text_ref` keeps the pool well formed. -/
theorem pool_wf_make_text_ref (cta : List sas_column_text_t) (s : List Nat)
    (hwf : pool_wf cta) : pool_wf (make_text_ref cta s).1 := by
  obtain ⟨last, hlast, hidx, hpos⟩ := pool_wf_last cta hwf
  rw [make_text_ref_eq cta s last hlast]
  split
  · refine ⟨by simp, ?_⟩
    intro i hi
    simp only [List.length_append, List.length_singleton] at hi
    by_cases h : i < cta.length
    · rw [List.getElem?_append_left h]
      exact hwf.2 i h
    · have : i = cta.length := by omega
      subst this
      rw [List.getElem?_append_right (by omega)]
      simp [make_text_ref_store, sas_column_text_init]
  · refine ⟨by intro h; have := congrArg List.length h; rw [List.length_set, List.length_nil] at this; omega, ?_⟩
    intro i hi
    simp only [List.length_set] at hi
    by_cases h : i = cta.length - 1
    · subst h
      rw [List.getElem?_set_self hi]
      simp [make_text_ref_store, hidx]
    · rw [List.getElem?_set_ne (by omega)]
      exact hwf.2 i hi

/-- `make_text_ref` on a well-formed pool: the string goes through `make_text_ref_store` into
one buffer `old` (the last buffer, or a fresh one appended behind it), which ends up at
position `old.index`; every other position of the array is unchanged. -/
theorem make_text_ref_spec (cta : List sas_column_text_t) (s : List Nat) (hwf : pool_wf cta) :
    ∃ old : sas_column_text_t,
      (make_text_ref cta s).2 = (make_text_ref_store old s).2 ∧
      (make_text_ref cta s).1[old.index]? = some (make_text_ref_store old s).1 ∧
      (∀ j, j ≠ old.index → (make_text_ref cta s).1[j]? = cta[j]?) ∧
      (cta[old.index]? = some old ∨
        (cta[old.index]? = none ∧ old.used = 0 ∧ old.index = cta.length)) ∧
      cta.length ≤ (make_text_ref cta s).1.length := by
  obtain ⟨last, hlast, hidx, hpos⟩ := pool_wf_last cta hwf
  rw [make_text_ref_eq cta s last hlast]
  split
  · refine ⟨sas_column_text_init cta.length last.capacity, rfl, ?_, ?_, ?_, ?_⟩
    · simp [sas_column_text_init]
    · intro j hj
      simp only [sas_column_text_init] at hj
      by_cases h : j < cta.length
      · exact List.getElem?_append_left h
      · rw [List.getElem?_append_right (by omega)]
        have h1 : cta[j]? = none := by simp; omega
        rw [h1]
        simp
        omega
    · right
      simp [sas_column_text_init]
    · simp
  · refine ⟨last, rfl, ?_, ?_, ?_, ?_⟩
    · rw [hidx]
      exact List.getElem?_set_self (by omega)
    · intro j hj
      rw [hidx] at hj
      exact List.getElem?_set_ne (by omega)
    · left
      rw [hidx]
      exact hlast
    · simp

theorem pool_extends_refl (a : List sas_column_text_t) : pool_extends a a := by
  intro _ x hx
  exact ⟨x, hx, rfl, rfl, Nat.le_refl _, fun _ _ => rfl⟩

theorem pool_extends_trans (a b c : List sas_column_text_t) (hab : pool_extends a b)
    (hbc : pool_extends b c) : pool_extends a c := by
  intro j x hx
  obtain ⟨y, hy, hi, hc, hu, hd⟩ := hab j x hx
  obtain ⟨z, hz, hi2, hc2, hu2, hd2⟩ := hbc j y hy
  refine ⟨z, hz, hi2.trans hi, hc2.trans hc, Nat.le_trans hu hu2, ?_⟩
  intro pos hpos
  rw [hd2 pos (by omega), hd pos hpos]

/-- One call of `make_text_ref` keeps everything of a well-formed pool. -/
theorem pool_extends_make_text_ref (cta : List sas_column_text_t) (s : List Nat)
    (hwf : pool_wf cta) : pool_extends cta (make_text_ref cta s).1 := by
  obtain ⟨old, _, hget, hother, hold, _⟩ := make_text_ref_spec cta s hwf
  obtain ⟨hi, hc, hu, _, hkeep, _⟩ := make_text_ref_store_spec old s
  intro j x hx
  by_cases hj : j = old.index
  · subst hj
    rcases hold with h | ⟨h, _, _⟩
    · rw [hx] at h
      cases h
      exact ⟨_, hget, hi, hc, by omega, hkeep⟩
    · rw [hx] at h
      cases h
  · exact ⟨x, (hother j hj).trans hx, rfl, rfl, Nat.le_refl _, fun _ _ => rfl⟩

theorem pool_wf_make_text_refs (cta : List sas_column_text_t) (strings : List (List Nat))
    (hwf : pool_wf cta) : pool_wf (make_text_refs cta strings) := by
  induction strings generalizing cta with
  | nil => exact hwf
  | cons s rest ih => exact ih _ (pool_wf_make_text_ref cta s hwf)

/-- Any sequence of `make_text_ref` calls keeps everything of a well-formed pool. -/
theorem pool_extends_make_text_refs (cta : List sas_column_text_t)
    (strings : List (List Nat)) (hwf : pool_wf cta) :
    pool_extends cta (make_text_refs cta strings) := by
  induction strings generalizing cta with
  | nil => exact pool_extends_refl cta
  | cons s rest ih =>
    exact pool_extends_trans _ _ _ (pool_extends_make_text_ref cta s hwf)
      (ih _ (pool_wf_make_text_ref cta s hwf))

theorem read_bytes_congr (a b : List Nat) (off n : Nat)
    (h : ∀ i, i < n → a.getD (off + i) 0 = b.getD (off + i) 0) :
    read_bytes a off n = read_bytes b off n := by
  apply List.ext_getElem (by simp [read_bytes_length])
  intro i h1 h2
  rw [read_bytes_length] at h1
  have e1 := getD_read_bytes a off n i h1
  have e2 := getD_read_bytes b off n i h1
  rw [List.getD_eq_getElem _ _ (by rw [read_bytes_length]; exact h1)] at e1 e2
  rw [e1, e2, h i h1]

/-- The buffer named by the reference that `make_text_ref` returns holds the string, inside
its used part. -/
theorem make_text_ref_stored (cta : List sas_column_text_t) (s : List Nat) (hwf : pool_wf cta) :
    ∃ buf : sas_column_text_t,
      (make_text_ref cta s).1[(make_text_ref cta s).2.index]? = some buf ∧
      buf.index = (make_text_ref cta s).2.index ∧
      (make_text_ref cta s).2.offset - 28 + (make_text_ref cta s).2.length ≤ buf.used ∧
      read_bytes buf.data ((make_text_ref cta s).2.offset - 28) (make_text_ref cta s).2.length
        = s := by
  obtain ⟨old, href, hget, _, _, _⟩ := make_text_ref_spec cta s hwf
  obtain ⟨hi, _, hu, hr, _, hdata⟩ := make_text_ref_store_spec old s
  rw [href, hr]
  simp only
  have hpad := padded_len_ge s.length
  refine ⟨(make_text_ref_store old s).1, hget, hi, by omega, ?_⟩
  apply read_bytes_eq_of_getD
  intro i hi2
  rw [Nat.add_sub_cancel]
  exact hdata i hi2

theorem to_int32_of_range (v : Int) (h0 : -2 ^ 31 ≤ v) (h1 : v < 2 ^ 31) : to_int32 v = v := by
  simp only [to_int32]
  omega

/-- The code's `(row_count + (rows_per_page - 1)) / rows_per_page` is the ceiling of the
quotient, for a non-negative row count and a positive number of rows per page. -/
theorem tdiv_eq_spec_data_pages (r p : Int) (hr : 0 ≤ r) (hp : 1 ≤ p) :
    (r + (p - 1)).tdiv p = spec_data_pages r p := by
  rw [Int.tdiv_eq_ediv (by omega) (by omega)]
  symm
  simp only [spec_data_pages]
  rw [Int.ceil_eq_iff]
  have hpq : (0 : ℚ) < (p : ℚ) := by exact_mod_cast (by omega : (0 : Int) < p)
  have hdm := Int.ediv_add_emod (r + (p - 1)) p
  have hm0 := Int.emod_nonneg (r + (p - 1)) (by omega : p ≠ 0)
  have hm1 := Int.emod_lt_of_pos (r + (p - 1)) (by omega : 0 < p)
  constructor
  · rw [lt_div_iff₀ hpq]
    have : ((r + (p - 1)) / p - 1) * p < r := by nlinarith
    exact_mod_cast this
  · rw [div_le_iff₀ hpq]
    have : r ≤ ((r + (p - 1)) / p) * p := by nlinarith
    exact_mod_cast this

theorem spec_data_pages_bounds (r p : Int) (hr : 0 ≤ r) (hp : 1 ≤ p) :
    0 ≤ spec_data_pages r p ∧ spec_data_pages r p ≤ r := by
  rw [← tdiv_eq_spec_data_pages r p hr hp, Int.tdiv_eq_ediv (by omega) (by omega)]
  constructor
  · exact Int.ediv_nonneg (by omega) (by omega)
  · by_cases h : r = 0
    · subst h
      rw [Int.ediv_eq_zero_of_lt (by omega) (by omega)]
    · have : (r + (p - 1)) / p ≤ (r * p) / p := by
        apply Int.ediv_le_ediv (by omega)
        nlinarith [mul_nonneg (by omega : (0 : Int) ≤ r - 1) (by omega : (0 : Int) ≤ p - 1)]
      rw [Int.mul_ediv_cancel _ (by omega)] at this
      exact this

theorem sas_rows_per_page_eq (w : readstat_writer_t) (hinfo : sas_header_info_t)
    (hL : sas_row_length w ≠ 0) :
    sas_rows_per_page w hinfo
      = .ok (((PAGE_SIZE - hinfo.page_header_size) / sas_row_length w : Nat) : Int) := by
  simp only [sas_rows_per_page, if_neg hL]
  have h1 : (PAGE_SIZE - hinfo.page_header_size) / sas_row_length w ≤ 4096 :=
    Nat.le_trans (Nat.div_le_self _ _) (by simp [PAGE_SIZE])
  generalize (PAGE_SIZE - hinfo.page_header_size) / sas_row_length w = q at h1
  rw [to_int32_of_range _ (by omega) (by omega)]

theorem sas_count_data_pages_eq (w : readstat_writer_t) (hinfo : sas_header_info_t)
    (h0 : 0 ≤ w.row_count) (h1 : w.row_count < 2 ^ 31 - 4096)
    (hrpp : 1 ≤ (PAGE_SIZE - hinfo.page_header_size) / sas_row_length w) :
    sas_count_data_pages w hinfo
      = .ok (spec_data_pages w.row_count
          (((PAGE_SIZE - hinfo.page_header_size) / sas_row_length w : Nat) : Int)) := by
  have hL : sas_row_length w ≠ 0 := by
    intro h
    rw [h, Nat.div_zero] at hrpp
    omega
  have hp : (1 : Int) ≤ (((PAGE_SIZE - hinfo.page_header_size) / sas_row_length w : Nat) : Int) := by
    exact_mod_cast hrpp
  simp only [sas_count_data_pages, sas_rows_per_page_eq w hinfo hL]
  rw [if_neg (by omega), tdiv_eq_spec_data_pages _ _ h0 hp]
  have hb := spec_data_pages_bounds _ _ h0 hp
  rw [to_int32_of_range _ (by omega) (by omega)]

/-! ## Writes on a sink that never fails -/

theorem readstat_write_bytes_none (w : readstat_writer_t) (bytes : List Nat)
    (h : w.room = none) :
    readstat_write_bytes w bytes
      = .ok { w with bytes_written := w.bytes_written + bytes.length, out := w.out ++ bytes } := by
  simp only [readstat_write_bytes, h]

theorem same_schema_refl (w : readstat_writer_t) : same_schema w w :=
  ⟨rfl, rfl, rfl, rfl, rfl, rfl⟩

theorem same_schema_trans {a b c : readstat_writer_t} (h1 : same_schema a b)
    (h2 : same_schema b c) : same_schema a c := by
  unfold same_schema at h1 h2 ⊢
  refine ⟨?_, ?_, ?_, ?_, ?_, ?_⟩
  · rw [h2.1, h1.1]
  · rw [h2.2.1, h1.2.1]
  · rw [h2.2.2.1, h1.2.2.1]
  · rw [h2.2.2.2.1, h1.2.2.2.1]
  · rw [h2.2.2.2.2.1, h1.2.2.2.2.1]
  · rw [h2.2.2.2.2.2, h1.2.2.2.2.2]

/-- A write on a sink that never fails: it succeeds, adds the number of bytes to
`bytes_written` and leaves the schema fields alone. -/
theorem write_bytes_ok (w : readstat_writer_t) (bytes : List Nat) (h : w.room = none) :
    ∃ w1, readstat_write_bytes w bytes = .ok w1 ∧
      w1.bytes_written = w.bytes_written + bytes.length ∧ same_schema w w1 :=
  ⟨_, readstat_write_bytes_none w bytes h, rfl, rfl, rfl, rfl, rfl, rfl, rfl⟩

theorem write_zeros_ok (w : readstat_writer_t) (n : Nat) (h : w.room = none) :
    ∃ w1, readstat_write_zeros w n = .ok w1 ∧
      w1.bytes_written = w.bytes_written + n ∧ same_schema w w1 := by
  obtain ⟨w1, h1, h2, h3⟩ := write_bytes_ok w (List.replicate n 0) h
  exact ⟨w1, h1, by rw [h2, List.length_replicate], h3⟩

/-- `sas_emit_header` on a sink that never fails returns a writer. -/
theorem sas_emit_header_ok (env : sas_env) (w : readstat_writer_t) (hinfo : sas_header_info_t)
    (h : w.room = none) :
    ∃ w1, sas_emit_header env w hinfo = .ok w1 ∧ same_schema w w1 ∧
      (w.bytes_written + env.sizeof_header_start + hinfo.pad1 + 8 + 8 + 16 + 4 + 4
          + (if hinfo.u64 then 8 else 4) + 8 + env.sizeof_header_end ≤ hinfo.header_size →
        w1.bytes_written = hinfo.header_size) := by
  simp only [sas_emit_header]
  obtain ⟨a1, e1, b1, s1⟩ := write_bytes_ok w
    (read_bytes (env.header_start_image hinfo.u64 w.file_label) 0 env.sizeof_header_start) h
  obtain ⟨a2, e2, b2, s2⟩ := write_zeros_ok a1 hinfo.pad1 (s1.2.2.2.2.1.trans h)
  have r2 := (same_schema_trans s1 s2)
  obtain ⟨a3, e3, b3, s3⟩ := write_bytes_ok a2
    (read_bytes (env.time_image hinfo.creation_time) 0 8) (r2.2.2.2.2.1.trans h)
  have r3 := (same_schema_trans r2 s3)
  obtain ⟨a4, e4, b4, s4⟩ := write_bytes_ok a3
    (read_bytes (env.time_image hinfo.modification_time) 0 8) (r3.2.2.2.2.1.trans h)
  have r4 := (same_schema_trans r3 s4)
  obtain ⟨a5, e5, b5, s5⟩ := write_zeros_ok a4 16 (r4.2.2.2.2.1.trans h)
  have r5 := (same_schema_trans r4 s5)
  obtain ⟨a6, e6, b6, s6⟩ := write_bytes_ok a5 (le_bytes 4 hinfo.header_size)
    (r5.2.2.2.2.1.trans h)
  have r6 := (same_schema_trans r5 s6)
  obtain ⟨a7, e7, b7, s7⟩ := write_bytes_ok a6 (le_bytes 4 hinfo.page_size)
    (r6.2.2.2.2.1.trans h)
  have r7 := (same_schema_trans r6 s7)
  obtain ⟨a8, e8, b8, s8⟩ : ∃ w1,
      (if hinfo.u64 then readstat_write_bytes a7 (le_bytes_int 8 hinfo.page_count)
        else readstat_write_bytes a7 (le_bytes_int 4 hinfo.page_count)) = .ok w1 ∧
      w1.bytes_written = a7.bytes_written + (if hinfo.u64 then 8 else 4) ∧
      same_schema a7 w1 := by
    cases hu : hinfo.u64
    · obtain ⟨x, hx1, hx2, hx3⟩ := write_bytes_ok a7 (le_bytes_int 4 hinfo.page_count)
        (r7.2.2.2.2.1.trans h)
      exact ⟨x, by simpa using hx1, by simpa [le_bytes_int, le_bytes_length] using hx2, hx3⟩
    · obtain ⟨x, hx1, hx2, hx3⟩ := write_bytes_ok a7 (le_bytes_int 8 hinfo.page_count)
        (r7.2.2.2.2.1.trans h)
      exact ⟨x, by simpa using hx1, by simpa [le_bytes_int, le_bytes_length] using hx2, hx3⟩
  have r8 := (same_schema_trans r7 s8)
  obtain ⟨a9, e9, b9, s9⟩ := write_zeros_ok a8 8 (r8.2.2.2.2.1.trans h)
  have r9 := (same_schema_trans r8 s9)
  obtain ⟨a10, e10, b10, s10⟩ := write_bytes_ok a9
    (read_bytes (sas_header_end_image env a9.version) 0 env.sizeof_header_end)
    (r9.2.2.2.2.1.trans h)
  have r10 := (same_schema_trans r9 s10)
  obtain ⟨a11, e11, b11, s11⟩ := write_zeros_ok a10
    (size_t_sub hinfo.header_size a10.bytes_written) (r10.2.2.2.2.1.trans h)
  refine ⟨a11, ?_, same_schema_trans r10 s11, ?_⟩
  · simp only [e1, e2, e3, e4, e5, e6, e7, e8, e9, e10, e11, bind, Except.bind]
  · intro hfit
    simp only [read_bytes_length, le_bytes_length] at b1 b3 b4 b6 b7 b10
    rw [b11]
    simp only [size_t_sub]
    rw [if_pos (by omega)]
    omega

/-! ## Meta pages: which subheaders a page takes -/

theorem sas_emit_meta_page_loop_remaining (env : sas_env) (hinfo : sas_header_info_t)
    (subs : List sas_subheader_t) (st : sas_meta_page_state) :
    (sas_emit_meta_page_loop env hinfo subs st).remaining
      = meta_page_rest hinfo.subheader_pointer_size (st.shp_data_offset - st.shp_ptr_offset)
          subs := by
  induction subs generalizing st with
  | nil => rfl
  | cons sh rest ih =>
    simp only [sas_emit_meta_page_loop, meta_page_rest]
    by_cases h : sh.len + hinfo.subheader_pointer_size < st.shp_data_offset - st.shp_ptr_offset
    · rw [if_pos h, if_pos h, ih]
      congr 1
      simp only [sas_emit_subheader]
      omega
    · rw [if_neg h, if_neg h]

theorem sas_emit_meta_page_remaining (env : sas_env) (hinfo : sas_header_info_t)
    (subs : List sas_subheader_t) :
    (sas_emit_meta_page env hinfo subs).remaining
      = meta_page_rest hinfo.subheader_pointer_size (hinfo.page_size - hinfo.page_header_size)
          subs := by
  simp only [sas_emit_meta_page, sas_emit_meta_page_loop_remaining]

/-- With a sink that never fails, `sas_emit_meta_pages` returns exactly when
`meta_pages_written` gives a page count, and then it has written that many pages of
`PAGE_SIZE` bytes; otherwise it runs out of fuel. -/
theorem sas_emit_meta_pages_none (env : sas_env) (hinfo : sas_header_info_t) (fuel : Nat)
    (w : readstat_writer_t) (subs : List sas_subheader_t) (h : w.room = none) :
    match meta_pages_written hinfo fuel subs with
    | some k => ∃ w1, sas_emit_meta_pages env hinfo fuel w subs = .ok w1 ∧
        w1.bytes_written = w.bytes_written + PAGE_SIZE * k ∧ same_schema w w1
    | none => sas_emit_meta_pages env hinfo fuel w subs = .error .out_of_fuel := by
  induction fuel generalizing w subs with
  | zero =>
    cases subs with
    | nil => exact ⟨w, rfl, by simp, same_schema_refl w⟩
    | cons sh rest => rfl
  | succ fuel ih =>
    cases subs with
    | nil => exact ⟨w, rfl, by simp, same_schema_refl w⟩
    | cons sh rest =>
      obtain ⟨w1, e1, b1, s1⟩ := write_bytes_ok w
        (read_bytes (sas_emit_meta_page env hinfo (sh :: rest)).page 0 PAGE_SIZE) h
      have hstep : sas_emit_meta_pages env hinfo (fuel + 1) w (sh :: rest)
          = sas_emit_meta_pages env hinfo fuel w1
              (meta_page_rest hinfo.subheader_pointer_size
                (hinfo.page_size - hinfo.page_header_size) (sh :: rest)) := by
        simp only [sas_emit_meta_pages, e1, sas_emit_meta_page_remaining]
      have ih1 := ih w1 (meta_page_rest hinfo.subheader_pointer_size
        (hinfo.page_size - hinfo.page_header_size) (sh :: rest)) (s1.2.2.2.2.1.trans h)
      simp only [meta_pages_written]
      rw [hstep]
      cases hm : meta_pages_written hinfo fuel (meta_page_rest hinfo.subheader_pointer_size
        (hinfo.page_size - hinfo.page_header_size) (sh :: rest)) with
      | none =>
        rw [hm] at ih1
        simpa using ih1
      | some k =>
        rw [hm] at ih1
        obtain ⟨w2, e2, b2, s2⟩ := ih1
        refine ⟨w2, e2, ?_, same_schema_trans s1 s2⟩
        rw [b2, b1, read_bytes_length]
        simp only [PAGE_SIZE]
        omega

/-- A subheader that does not fit into an empty page is never taken by a page. -/
theorem meta_page_rest_keeps_oversize (ptr usable gap : Nat) (subs : List sas_subheader_t)
    (hgap : gap ≤ usable) (hbad : ∃ b ∈ subs, usable ≤ b.len + ptr) :
    ∃ b ∈ meta_page_rest ptr gap subs, usable ≤ b.len + ptr := by
  induction subs generalizing gap with
  | nil => simp at hbad
  | cons sh rest ih =>
    simp only [meta_page_rest]
    by_cases h : sh.len + ptr < gap
    · rw [if_pos h]
      apply ih _ (by omega)
      obtain ⟨b, hb, hb2⟩ := hbad
      rcases List.mem_cons.mp hb with rfl | hmem
      · omega
      · exact ⟨b, hmem, hb2⟩
    · rw [if_neg h]
      exact hbad

/-- With a subheader in the array that does not fit into an empty page, no amount of fuel
lets the page loop finish. -/
theorem meta_pages_written_oversize (hinfo : sas_header_info_t) (fuel : Nat)
    (subs : List sas_subheader_t)
    (hbad : ∃ b ∈ subs, hinfo.page_size - hinfo.page_header_size
      ≤ b.len + hinfo.subheader_pointer_size) :
    meta_pages_written hinfo fuel subs = none := by
  induction fuel generalizing subs with
  | zero =>
    cases subs with
    | nil => simp at hbad
    | cons sh rest => rfl
  | succ fuel ih =>
    cases subs with
    | nil => simp at hbad
    | cons sh rest =>
      simp only [meta_pages_written]
      rw [ih _ (meta_page_rest_keeps_oversize _ _ _ _ (Nat.le_refl _) hbad)]
      rfl

theorem meta_pages_written_page_count (hinfo : sas_header_info_t) (pc : Int) (fuel : Nat)
    (subs : List sas_subheader_t) :
    meta_pages_written { hinfo with page_count := pc } fuel subs
      = meta_pages_written hinfo fuel subs := by
  induction fuel generalizing subs with
  | zero => cases subs <;> rfl
  | succ fuel ih =>
    cases subs with
    | nil => rfl
    | cons sh rest =>
      simp only [meta_pages_written]
      rw [ih]

/-- `sas_begin_data` reaches the header with the header context of `sas_header_info_init` and
some page count whenever the row length gives at least one row per page. -/
theorem sas_begin_data_init_ok (env : sas_env) (w : readstat_writer_t)
    (hrpp : 1 ≤ (PAGE_SIZE - (sas_header_info_init w).page_header_size) / sas_row_length w) :
    ∃ pc, sas_begin_data_init env w
      = .ok ({ sas_header_info_init w with page_count := pc },
             sas_subheader_array_init env w (sas_header_info_init w)) := by
  have hL : sas_row_length w ≠ 0 := by
    intro h
    rw [h, Nat.div_zero] at hrpp
    omega
  have hp : (1 : Int)
      ≤ (((PAGE_SIZE - (sas_header_info_init w).page_header_size) / sas_row_length w : Nat)
          : Int) := by
    exact_mod_cast hrpp
  simp only [sas_begin_data_init, sas_count_data_pages,
    sas_rows_per_page_eq w (sas_header_info_init w) hL]
  rw [if_neg (by omega)]
  exact ⟨_, rfl⟩

/-- `sas_begin_data` on a sink that never fails, from an empty output: if the page loop
finishes with `k` pages the writer has `header_size + k * page_size` bytes, and if it does
not finish within the fuel `sas_begin_data` does not return. -/
theorem sas_begin_data_none (env : sas_env) (fuel : Nat) (w : readstat_writer_t)
    (hroom : w.room = none)
    (hrpp : 1 ≤ (PAGE_SIZE - (sas_header_info_init w).page_header_size) / sas_row_length w) :
    match meta_pages_written (sas_header_info_init w) fuel
        (sas_subheader_array_init env w (sas_header_info_init w)) with
    | some k => ∃ w1 pc, sas_begin_data env fuel w = .ok w1 ∧ same_schema w
          { w1 with module_ctx := w.module_ctx } ∧
        w1.module_ctx = some { sas_header_info_init w with page_count := pc } ∧
        (w.bytes_written = 0 → env.sizeof_header_start + 56
            + (if (sas_header_info_init w).u64 then 8 else 4) + env.sizeof_header_end ≤ HEADER_SIZE →
          w1.bytes_written = HEADER_SIZE + PAGE_SIZE * k)
    | none => sas_begin_data env fuel w = .error .out_of_fuel := by
  obtain ⟨pc, hinit⟩ := sas_begin_data_init_ok env w hrpp
  obtain ⟨w1, e1, s1, b1⟩ := sas_emit_header_ok env w
    { sas_header_info_init w with page_count := pc } hroom
  have hm := sas_emit_meta_pages_none env { sas_header_info_init w with page_count := pc } fuel
    w1 (sas_subheader_array_init env w (sas_header_info_init w)) (s1.2.2.2.2.1.trans hroom)
  rw [meta_pages_written_page_count] at hm
  cases hk : meta_pages_written (sas_header_info_init w) fuel
      (sas_subheader_array_init env w (sas_header_info_init w)) with
  | none =>
    rw [hk] at hm
    simp only [sas_begin_data, hinit, e1, bind, Except.bind] at hm ⊢
    rw [hm]
  | some k =>
    rw [hk] at hm
    obtain ⟨w2, e2, b2, s2⟩ := hm
    refine ⟨{ w2 with module_ctx := some { sas_header_info_init w with page_count := pc } }, pc,
      ?_, ?_, rfl, ?_⟩
    · simp only [sas_begin_data, hinit, e1, e2, bind, Except.bind]
      rfl
    · obtain ⟨a1, a2, a3, a4, a5, _⟩ := same_schema_trans s1 s2
      exact ⟨a1, a2, a3, a4, a5, rfl⟩
    · intro hz hfit
      simp only
      rw [b2, b1]
      · rfl
      · rw [hz]
        simp only [sas_header_info_init, HEADER_SIZE] at hfit ⊢
        omega

theorem sas_begin_data_some (env : sas_env) (fuel : Nat) (w : readstat_writer_t) (k : Nat)
    (hroom : w.room = none)
    (hrpp : 1 ≤ (PAGE_SIZE - (sas_header_info_init w).page_header_size) / sas_row_length w)
    (hk : meta_pages_written (sas_header_info_init w) fuel
        (sas_subheader_array_init env w (sas_header_info_init w)) = some k) :
    ∃ w1 pc, sas_begin_data env fuel w = .ok w1 ∧ same_schema w
          { w1 with module_ctx := w.module_ctx } ∧
        w1.module_ctx = some { sas_header_info_init w with page_count := pc } ∧
        (w.bytes_written = 0 → env.sizeof_header_start + 56
            + (if (sas_header_info_init w).u64 then 8 else 4) + env.sizeof_header_end ≤ HEADER_SIZE →
          w1.bytes_written = HEADER_SIZE + PAGE_SIZE * k) := by
  have h := sas_begin_data_none env fuel w hroom hrpp
  rw [hk] at h
  exact h

theorem sas_begin_data_out_of_fuel (env : sas_env) (fuel : Nat) (w : readstat_writer_t)
    (hroom : w.room = none)
    (hrpp : 1 ≤ (PAGE_SIZE - (sas_header_info_init w).page_header_size) / sas_row_length w)
    (hk : meta_pages_written (sas_header_info_init w) fuel
        (sas_subheader_array_init env w (sas_header_info_init w)) = none) :
    sas_begin_data env fuel w = .error .out_of_fuel := by
  have h := sas_begin_data_none env fuel w hroom hrpp
  rw [hk] at h
  exact h

/-! ## Data pages on a sink that never fails -/

theorem sas_row_length_congr (w w1 : readstat_writer_t) (h : w1.vars = w.vars) :
    sas_row_length w1 = sas_row_length w := by
  simp only [sas_row_length, h]

/-- `sas_fill_page` on a sink that never fails, for a position inside page `m` (or at its
end): the output is padded to the end of page `m`. -/
theorem sas_fill_page_none (w : readstat_writer_t) (hinfo : sas_header_info_t) (m : Nat)
    (hroom : w.room = none) (hps : hinfo.page_size = 4096) (hhs : hinfo.header_size = 1024)
    (hb1 : w.bytes_written ≤ 1024 + 4096 * m) (hb2 : 1024 + 4096 * m < w.bytes_written + 4096)
    (hb0 : 1024 ≤ w.bytes_written) :
    ∃ w1, sas_fill_page w hinfo = .ok w1 ∧ w1.bytes_written = 1024 + 4096 * m ∧
      same_schema w w1 := by
  simp only [sas_fill_page, hps, hhs, size_t_sub]
  rw [if_neg (by omega), if_pos hb0]
  by_cases h : (w.bytes_written - 1024) % 4096 = 0
  · rw [if_neg (by simpa using h)]
    exact ⟨w, rfl, by omega, same_schema_refl w⟩
  · rw [if_pos h]
    obtain ⟨w1, e1, b1, s1⟩ := write_zeros_ok w (4096 - (w.bytes_written - 1024) % 4096) hroom
    exact ⟨w1, e1, by omega, s1⟩

theorem sas_data_page_header_length (env : sas_env) (hinfo : sas_header_info_t) (c : Int) :
    (sas_data_page_header env hinfo c).length = hinfo.page_header_size := by
  simp only [sas_data_page_header, read_bytes_length]

/-- `sas_write_row` when the row count says that a new page starts: the previous page is
padded, a page header and the row are written. -/
theorem sas_write_row_new_page (env : sas_env) (w : readstat_writer_t)
    (hinfo : sas_header_info_t) (row : List Nat) (len r m : Nat)
    (hctx : w.module_ctx = some hinfo) (hroom : w.room = none)
    (hps : hinfo.page_size = 4096) (hhs : hinfo.header_size = 1024)
    (hr : sas_rows_per_page w hinfo = .ok (r : Int)) (hr0 : r ≠ 0)
    (hmod : w.current_row.tmod (r : Int) = 0)
    (hb1 : w.bytes_written ≤ 1024 + 4096 * m) (hb2 : 1024 + 4096 * m < w.bytes_written + 4096)
    (hb0 : 1024 ≤ w.bytes_written) :
    ∃ w1, sas_write_row env w row len = .ok w1 ∧
      w1.bytes_written = 1024 + 4096 * m + hinfo.page_header_size + len ∧
      same_schema w w1 := by
  obtain ⟨a1, e1, b1, s1⟩ := sas_fill_page_none w hinfo m hroom hps hhs hb1 hb2 hb0
  have hr1 : ((r : Int) = 0) = False := by simp; exact hr0
  simp only [sas_write_row, hctx, hr, bind, Except.bind, hr1, if_false, hmod, if_true, e1,
    pure, Except.pure]
  obtain ⟨a2, e2, b2, s2⟩ := write_bytes_ok a1
    (sas_data_page_header env hinfo
      (if a1.row_count - a1.current_row < (r : Int) then a1.row_count - a1.current_row
        else (r : Int))) (s1.2.2.2.2.1.trans hroom)
  simp only [e2]
  obtain ⟨a3, e3, b3, s3⟩ := write_bytes_ok a2 (read_bytes row 0 len)
    ((same_schema_trans s1 s2).2.2.2.2.1.trans hroom)
  refine ⟨a3, e3, ?_, same_schema_trans (same_schema_trans s1 s2) s3⟩
  rw [b3, b2, b1, read_bytes_length, sas_data_page_header_length]

/-- `sas_write_row` inside a page: only the row is written. -/
theorem sas_write_row_same_page (env : sas_env) (w : readstat_writer_t)
    (hinfo : sas_header_info_t) (row : List Nat) (len r : Nat)
    (hctx : w.module_ctx = some hinfo) (hroom : w.room = none)
    (hr : sas_rows_per_page w hinfo = .ok (r : Int)) (hr0 : r ≠ 0)
    (hmod : w.current_row.tmod (r : Int) ≠ 0) :
    ∃ w1, sas_write_row env w row len = .ok w1 ∧
      w1.bytes_written = w.bytes_written + len ∧ same_schema w w1 := by
  have hr1 : ((r : Int) = 0) = False := by simp; exact hr0
  simp only [sas_write_row, hctx, hr, bind, Except.bind, hr1, if_false, hmod, pure,
    Except.pure]
  obtain ⟨a3, e3, b3, s3⟩ := write_bytes_ok w (read_bytes row 0 len) hroom
  exact ⟨a3, e3, by rw [b3, read_bytes_length], s3⟩

theorem sas_rows_per_page_congr (w w1 : readstat_writer_t) (hinfo : sas_header_info_t)
    (h : w1.vars = w.vars) : sas_rows_per_page w1 hinfo = sas_rows_per_page w hinfo := by
  simp only [sas_rows_per_page, sas_row_length_congr w w1 h]

/-- The row loop on a sink that never fails.  `i` rows have been written before, behind `k`
meta pages; the position is either the end of the meta pages (`i = 0`) or inside data page
`q` after `t` rows of that page, with `i = q * r + t` and `1 ≤ t ≤ r`.  The loop returns and
the same description holds afterwards for `i + rows.length`. -/
theorem write_rows_none (env : sas_env) (hinfo : sas_header_info_t) (L r k : Nat)
    (hps : hinfo.page_size = 4096) (hhs : hinfo.header_size = 1024) (hr0 : 1 ≤ r)
    (hfit : hinfo.page_header_size + r * L ≤ 4096) (hL : 1 ≤ L)
    (rows : List (List Nat)) (w : readstat_writer_t) (i : Nat)
    (hctx : w.module_ctx = some hinfo) (hroom : w.room = none)
    (hlen : sas_row_length w = L) (hr : sas_rows_per_page w hinfo = .ok (r : Int))
    (hcur : w.current_row = (i : Int))
    (hpos : (i = 0 ∧ w.bytes_written = 1024 + 4096 * k) ∨
      ∃ q t, i = q * r + t ∧ 1 ≤ t ∧ t ≤ r ∧
        w.bytes_written = 1024 + 4096 * (k + q) + hinfo.page_header_size + t * L) :
    ∃ w1, write_rows env rows w = .ok w1 ∧ w1.vars = w.vars ∧ w1.room = none ∧
      w1.module_ctx = some hinfo ∧ w1.row_count = w.row_count ∧
      ((i + rows.length = 0 ∧ w1.bytes_written = 1024 + 4096 * k) ∨
        ∃ q t, i + rows.length = q * r + t ∧ 1 ≤ t ∧ t ≤ r ∧
          w1.bytes_written = 1024 + 4096 * (k + q) + hinfo.page_header_size + t * L) := by
  induction rows generalizing w i with
  | nil => exact ⟨w, rfl, rfl, hroom, hctx, rfl, by simpa using hpos⟩
  | cons row rest ih =>
    have hstep : ∃ w1, sas_write_row env w row (sas_row_length w) = .ok w1 ∧
        same_schema w w1 ∧
        ∃ q t, i + 1 = q * r + t ∧ 1 ≤ t ∧ t ≤ r ∧
          w1.bytes_written = 1024 + 4096 * (k + q) + hinfo.page_header_size + t * L := by
      rcases hpos with ⟨hi, hb⟩ | ⟨q, t, hi, ht1, ht2, hb⟩
      · have hmod : w.current_row.tmod (r : Int) = 0 := by
          rw [hcur, hi]
          simp
        obtain ⟨w1, e1, b1, s1⟩ := sas_write_row_new_page env w hinfo row (sas_row_length w)
          r k hctx hroom hps hhs hr (by omega) hmod (by omega) (by omega) (by omega)
        refine ⟨w1, e1, s1, 0, 1, by omega, by omega, hr0, ?_⟩
        rw [b1, hlen]
        omega
      · by_cases htr : t = r
        · have hmod : w.current_row.tmod (r : Int) = 0 := by
            rw [hcur, ← Int.ofNat_tmod, hi, htr]
            have : (q * r + r) % r = 0 := by simp
            rw [this]
            rfl
          have hrl : t * L = r * L := by rw [htr]
          rw [hrl] at hb
          have hpos0 : 1 ≤ r * L := Nat.mul_pos (by omega) (by omega)
          generalize r * L = x at hb hfit hpos0
          obtain ⟨w1, e1, b1, s1⟩ := sas_write_row_new_page env w hinfo row
            (sas_row_length w) r (k + q + 1) hctx hroom hps hhs hr (by omega) hmod
            (by omega) (by omega) (by omega)
          refine ⟨w1, e1, s1, q + 1, 1, ?_, by omega, hr0, ?_⟩
          · rw [hi, htr, Nat.add_mul]
            omega
          · rw [b1, hlen]
            omega
        · have hmod : w.current_row.tmod (r : Int) ≠ 0 := by
            rw [hcur, ← Int.ofNat_tmod, hi]
            have : (q * r + t) % r = t := by
              rw [Nat.mul_comm, Nat.mul_add_mod, Nat.mod_eq_of_lt (by omega)]
            rw [this]
            exact_mod_cast (by omega : t ≠ 0)
          obtain ⟨w1, e1, b1, s1⟩ := sas_write_row_same_page env w hinfo row
            (sas_row_length w) r hctx hroom hr (by omega) hmod
          refine ⟨w1, e1, s1, q, t + 1, by omega, by omega, by omega, ?_⟩
          rw [b1, hb, hlen, Nat.add_mul]
          omega
    obtain ⟨w1, e1, s1, hpos1⟩ := hstep
    obtain ⟨v1, v2, v3, v4, v5, v6⟩ := s1
    have ih1 := ih { w1 with current_row := w1.current_row + 1 } (i + 1)
      (v6.trans hctx) (v5.trans hroom)
      ((sas_row_length_congr w _ v1).trans hlen)
      ((sas_rows_per_page_congr w _ hinfo v1).trans hr)
      (by simp only [v3, hcur]; push_cast; rfl) (Or.inr hpos1)
    obtain ⟨w2, e2, a1, a2, a3, a4, a5⟩ := ih1
    refine ⟨w2, ?_, a1.trans v1, a2, a3, a4.trans v2, ?_⟩
    · simp only [write_rows, e1, e2]
    · have : i + (row :: rest).length = i + 1 + rest.length := by
        simp only [List.length_cons]
        omega
      rw [this]
      exact a5

theorem spec_data_pages_of_rows (q r t : Nat) (ht1 : 1 ≤ t) (ht2 : t ≤ r) :
    spec_data_pages ((q * r + t : Nat) : Int) (r : Int) = ((q + 1 : Nat) : Int) := by
  have hr : 1 ≤ r := by omega
  rw [← tdiv_eq_spec_data_pages _ _ (by omega) (by omega),
    Int.tdiv_eq_ediv (by omega) (by omega)]
  have h1 : ((q * r + t : Nat) : Int) + ((r : Int) - 1) = ((q * r + t + (r - 1) : Nat) : Int) := by
    push_cast
    omega
  rw [h1, ← Int.natCast_div]
  congr 1
  apply Nat.div_eq_of_lt_le
  · rw [Nat.add_mul]
    omega
  · rw [Nat.add_mul, Nat.add_mul]
    omega

theorem sas_header_info_init_phs (w : readstat_writer_t) :
    (sas_header_info_init w).page_header_size ≤ 4096 := by
  simp only [sas_header_info_init, SAS_PAGE_HEADER_SIZE_64BIT, SAS_PAGE_HEADER_SIZE_32BIT]
  split <;> omega

/-- What the writer does when the meta-page loop finishes: from an empty output, with a sink
that never fails, header structures that fit into the header, a row length `L` with
`1 ≤ L ≤ page_size - page_header_size` and a subheader array for which `sas_emit_meta_pages`
finishes after `k` pages, the life cycle `begin_data`, one `write_row` per row, `end_data`
returns and leaves `bytes_written = header_size + (k + ⌈R / rows_per_page⌉) * page_size`, where
`R` is the number of rows written. -/
theorem sas_write_file_page_aligned (env : sas_env) (fuel : Nat) (w : readstat_writer_t)
    (rows : List (List Nat)) (k : Nat) (hroom : w.room = none) (hbw : w.bytes_written = 0)
    (hcur : w.current_row = 0)
    (hhead : env.sizeof_header_start + 56 + (if (sas_header_info_init w).u64 then 8 else 4)
      + env.sizeof_header_end ≤ HEADER_SIZE)
    (hL1 : 1 ≤ sas_row_length w)
    (hL2 : sas_row_length w ≤ PAGE_SIZE - (sas_header_info_init w).page_header_size)
    (hk : meta_pages_written (sas_header_info_init w) fuel
      (sas_subheader_array_init env w (sas_header_info_init w)) = some k) :
    ∃ w1, sas_write_file env fuel w rows = .ok w1 ∧
      (w1.bytes_written : Int) = HEADER_SIZE + PAGE_SIZE *
        (k + spec_data_pages rows.length
          (((PAGE_SIZE - (sas_header_info_init w).page_header_size) / sas_row_length w : Nat)
            : Int)) := by
  have hrpp : 1 ≤ (PAGE_SIZE - (sas_header_info_init w).page_header_size) / sas_row_length w :=
    (Nat.one_le_div_iff (by omega)).mpr hL2
  obtain ⟨w1, pc, e1, s1, c1, b1⟩ := sas_begin_data_some env fuel w k hroom hrpp hk
  have b1 := b1 hbw hhead
  obtain ⟨v1, v2, v3, v4, v5, _⟩ := s1
  simp only at v1 v2 v3 v4 v5
  have hphs := sas_header_info_init_phs w
  have hfit : (sas_header_info_init w).page_header_size
      + (PAGE_SIZE - (sas_header_info_init w).page_header_size) / sas_row_length w
        * sas_row_length w ≤ 4096 := by
    have := Nat.div_mul_le_self (PAGE_SIZE - (sas_header_info_init w).page_header_size)
      (sas_row_length w)
    simp only [PAGE_SIZE] at this ⊢
    omega
  have hrp : sas_rows_per_page w1 { sas_header_info_init w with page_count := pc }
      = .ok (((PAGE_SIZE - (sas_header_info_init w).page_header_size) / sas_row_length w : Nat)
          : Int) := by
    rw [sas_rows_per_page_congr w w1 _ v1]
    exact sas_rows_per_page_eq w _ (by omega)
  obtain ⟨w2, e2, a1, a2, a3, _, a5⟩ := write_rows_none env
    { sas_header_info_init w with page_count := pc } (sas_row_length w)
    ((PAGE_SIZE - (sas_header_info_init w).page_header_size) / sas_row_length w) k rfl rfl hrpp
    hfit hL1 rows w1 0 c1 (v5.trans hroom) (sas_row_length_congr w w1 v1) hrp
    (by rw [v3, hcur]; rfl) (Or.inl ⟨rfl, by rw [b1]; rfl⟩)
  have hend : ∀ m : Nat, w2.bytes_written ≤ 1024 + 4096 * m →
      1024 + 4096 * m < w2.bytes_written + 4096 → 1024 ≤ w2.bytes_written →
      ∃ w3, sas_write_file env fuel w rows = .ok w3 ∧ w3.bytes_written = 1024 + 4096 * m := by
    intro m h1 h2 h3
    obtain ⟨w3, e3, b3, _⟩ := sas_fill_page_none w2
      { sas_header_info_init w with page_count := pc } m a2 rfl rfl h1 h2 h3
    refine ⟨{ w3 with module_ctx := none }, ?_, b3⟩
    simp only [sas_write_file, e1, e2, bind, Except.bind, sas_end_data, a3, e3]
  rw [Nat.zero_add] at a5
  rcases a5 with ⟨hz, hb⟩ | ⟨q, t, hi, ht1, ht2, hb⟩
  · obtain ⟨w3, e3, b3⟩ := hend k (by omega) (by omega) (by omega)
    refine ⟨w3, e3, ?_⟩
    rw [b3, hz]
    simp [spec_data_pages, HEADER_SIZE, PAGE_SIZE]
  · have htl : t * sas_row_length w
        ≤ (PAGE_SIZE - (sas_header_info_init w).page_header_size) / sas_row_length w
          * sas_row_length w := Nat.mul_le_mul_right _ ht2
    have htl0 : 1 ≤ t * sas_row_length w := Nat.mul_pos (by omega) (by omega)
    simp only at hb
    obtain ⟨w3, e3, b3⟩ := hend (k + q + 1) (by omega) (by omega) (by omega)
    refine ⟨w3, e3, ?_⟩
    rw [b3, hi, spec_data_pages_of_rows q _ t ht1 ht2]
    simp only [HEADER_SIZE, PAGE_SIZE]
    push_cast
    ring

set_option maxRecDepth 100000 in
/-- The page-aligned end on a concrete run: one double column and three rows in a 64-bit file
give the header, one meta page and one data page. -/
theorem sas_write_file_page_aligned_example :
    ∃ w1, sas_write_file example_env 10 (example_writer [example_double [120]] 3 90101)
        [[1], [2], [3]] = .ok w1 ∧
      (w1.bytes_written : Int) = 1024 + 4096 * 2 := by
  obtain ⟨w1, e1, b1⟩ := sas_write_file_page_aligned example_env 10
    (example_writer [example_double [120]] 3 90101) [[1], [2], [3]] 1 rfl rfl rfl
    (by decide!) (by decide!) (by decide!) (by decide!)
  refine ⟨w1, e1, ?_⟩
  rw [b1]
  have h : spec_data_pages ((3 : Nat) : Int) (((4096 - 40) / 8 : Nat) : Int) = 1 := by
    rw [← tdiv_eq_spec_data_pages _ _ (by decide) (by decide)]
    decide
  exact congrArg (fun x => (1024 : Int) + 4096 * ((1 : Int) + x)) h

/-! ## The pool: when a buffer is appended -/

theorem read_bytes_strncpy (s : List Nat) (n : Nat) (h : s.length ≤ n) :
    read_bytes (strncpy_bytes s n) 0 n = s ++ List.replicate (n - s.length) 0 := by
  have h1 := read_bytes_self (strncpy_bytes s n)
  rw [strncpy_bytes_length] at h1
  rw [h1, strncpy_bytes, List.take_of_length_le h]

/-- The bytes that `make_text_ref_store` writes: the string and NULs up to the padded
length, starting at the old used count. -/
theorem make_text_ref_store_bytes (b : sas_column_text_t) (s : List Nat) :
    read_bytes (make_text_ref_store b s).1.data b.used ((s.length + 3) / 4 * 4)
      = s ++ List.replicate ((s.length + 3) / 4 * 4 - s.length) 0 := by
  have hpad := padded_len_ge s.length
  have hlen : (s ++ List.replicate ((s.length + 3) / 4 * 4 - s.length) 0).length
      = (s.length + 3) / 4 * 4 := by
    simp only [List.length_append, List.length_replicate]
    omega
  have h := read_bytes_eq_of_getD (make_text_ref_store b s).1.data
    (s ++ List.replicate ((s.length + 3) / 4 * 4 - s.length) 0) b.used
  rw [hlen] at h
  apply h
  intro i hi
  simp only [make_text_ref_store]
  rw [getD_mem_write_mid _ _ _ _ (by rw [strncpy_bytes_length]; exact hi)]
  simp only [strncpy_bytes, List.take_of_length_le hpad]

/-! ## More lemmas on reading and writing memory -/

theorem read_bytes_add (buf : List Nat) (off m n : Nat) :
    read_bytes buf off (m + n) = read_bytes buf off m ++ read_bytes buf (off + m) n := by
  induction m generalizing off with
  | zero => simp [read_bytes]
  | succ m ih =>
    have h : m + 1 + n = (m + n) + 1 := by omega
    rw [h]
    simp only [read_bytes, List.cons_append]
    rw [ih (off + 1)]
    have h2 : off + 1 + m = off + (m + 1) := by omega
    rw [h2]

theorem read_bytes_mem_write_same (buf bytes : List Nat) (off : Nat) :
    read_bytes (mem_write buf off bytes) off bytes.length = bytes := by
  apply read_bytes_eq_of_getD
  intro i hi
  exact getD_mem_write_mid buf bytes off i hi

theorem read_bytes_mem_write_disjoint (buf bytes : List Nat) (off off2 n : Nat)
    (h : off2 + n ≤ off ∨ off + bytes.length ≤ off2) :
    read_bytes (mem_write buf off bytes) off2 n = read_bytes buf off2 n := by
  apply read_bytes_congr
  intro i hi
  rcases h with h | h
  · exact getD_mem_write_lt _ _ _ _ (by omega)
  · exact getD_mem_write_ge _ _ _ _ (by omega)

theorem getD_replicate_zero (m pos : Nat) : (List.replicate m 0).getD pos 0 = 0 := by
  simp only [List.getD_eq_getElem?_getD, List.getElem?_replicate]
  split <;> rfl

theorem read_bytes_replicate_zero (m off n : Nat) :
    read_bytes (List.replicate m 0) off n = List.replicate n 0 := by
  have h := read_bytes_eq_of_getD (List.replicate m 0) (List.replicate n 0) off
  rw [List.length_replicate] at h
  apply h
  intro i _
  rw [getD_replicate_zero, getD_replicate_zero]

theorem le_bytes_mod (n v : Nat) : le_bytes n (v % 256 ^ n) = le_bytes n v := by
  induction n generalizing v with
  | zero => rfl
  | succ n ih =>
    simp only [le_bytes]
    have h1 : v % 256 ^ (n + 1) % 256 = v % 256 := by
      rw [pow_succ]
      exact Nat.mod_mul_left_mod v (256 ^ n) 256
    have h2 : v % 256 ^ (n + 1) / 256 = (v / 256) % 256 ^ n := by
      rw [pow_succ, Nat.mul_comm, Nat.mod_mul_right_div_self]
    rw [h1, h2, ih]

theorem le_value_le_bytes (n v : Nat) : le_value (le_bytes n v) = v % 256 ^ n := by
  induction n generalizing v with
  | zero => simp [le_bytes, le_value, Nat.mod_one]
  | succ n ih =>
    simp only [le_bytes, le_value, ih]
    rw [pow_succ, Nat.mul_comm (256 ^ n) 256, Nat.mod_mul]

/-! ## The subheader array -/

theorem make_text_refs_append (cta : List sas_column_text_t) (a b : List (List Nat)) :
    make_text_refs cta (a ++ b) = make_text_refs (make_text_refs cta a) b := by
  simp only [make_text_refs, List.foldl_append]

theorem sas_col_name_loop_pool (vars : List readstat_variable_t) (data : List Nat) (ptrs : Nat)
    (cta : List sas_column_text_t) :
    (sas_col_name_loop vars data ptrs cta).2 = make_text_refs cta (vars.map (fun v => v.name)) := by
  induction vars generalizing data ptrs cta with
  | nil => rfl
  | cons v rest ih =>
    simp only [sas_col_name_loop, ih, List.map_cons, make_text_refs, List.foldl_cons]

theorem sas_col_format_subheader_init_pool (env : sas_env) (v : readstat_variable_t)
    (hinfo : sas_header_info_t) (cta : List sas_column_text_t) :
    (sas_col_format_subheader_init env v hinfo cta).2 = make_text_refs cta (format_strings v) := by
  simp only [sas_col_format_subheader_init, format_strings, make_text_refs]
  cases v.format <;> cases v.label <;> rfl

theorem sas_col_format_loop_pool (env : sas_env) (hinfo : sas_header_info_t)
    (vars : List readstat_variable_t) (cta : List sas_column_text_t) :
    (sas_col_format_loop env hinfo vars cta).2
      = make_text_refs cta (vars.map format_strings).flatten := by
  induction vars generalizing cta with
  | nil => rfl
  | cons v rest ih =>
    simp only [sas_col_format_loop, ih, List.map_cons, List.flatten_cons, make_text_refs_append,
      sas_col_format_subheader_init_pool]

theorem sas_col_format_loop_length (env : sas_env) (hinfo : sas_header_info_t)
    (vars : List readstat_variable_t) (cta : List sas_column_text_t) :
    (sas_col_format_loop env hinfo vars cta).1.length = vars.length := by
  induction vars generalizing cta with
  | nil => rfl
  | cons v rest ih => simp only [sas_col_format_loop, List.length_cons, ih]

theorem sas_col_format_loop_signature (env : sas_env) (hinfo : sas_header_info_t)
    (vars : List readstat_variable_t) (cta : List sas_column_text_t) :
    (sas_col_format_loop env hinfo vars cta).1.map (fun sh => sh.signature)
      = List.replicate vars.length env.SIGNATURE_COLUMN_FORMAT := by
  induction vars generalizing cta with
  | nil => rfl
  | cons v rest ih =>
    simp only [sas_col_format_loop, List.map_cons, ih, List.length_cons, List.replicate_succ]
    rfl

/-- The `k`-th subheader of the COLUMN_FORMAT loop is the one built for variable `k`, with
the pool left by the variables before it. -/
theorem sas_col_format_loop_getElem (env : sas_env) (hinfo : sas_header_info_t)
    (vars : List readstat_variable_t) (cta : List sas_column_text_t) (k : Nat)
    (v : readstat_variable_t) (hv : vars[k]? = some v) :
    (sas_col_format_loop env hinfo vars cta).1[k]?
      = some (sas_col_format_subheader_init env v hinfo
          (sas_col_format_loop env hinfo (vars.take k) cta).2).1 := by
  induction vars generalizing cta k with
  | nil => simp at hv
  | cons u rest ih =>
    cases k with
    | zero =>
      simp only [List.getElem?_cons_zero, Option.some.injEq] at hv
      subst hv
      simp only [sas_col_format_loop, List.getElem?_cons_zero, List.take_zero]
    | succ k =>
      simp only [List.getElem?_cons_succ] at hv
      simp only [sas_col_format_loop, List.getElem?_cons_succ, List.take_succ_cons]
      exact ih _ k hv

theorem pool_wf_init (hinfo : sas_header_info_t) : pool_wf (sas_column_text_array_init hinfo) := by
  refine ⟨by simp [sas_column_text_array_init], ?_⟩
  intro i hi
  simp only [sas_column_text_array_init, List.length_singleton] at hi
  have : i = 0 := by omega
  subst this
  rfl

theorem pool_wf_after_names (env : sas_env) (w : readstat_writer_t) (hinfo : sas_header_info_t) :
    pool_wf (pool_after_names env w hinfo) := by
  simp only [pool_after_names, sas_col_name_subheader_init, sas_col_name_loop_pool]
  exact pool_wf_make_text_refs _ _ (pool_wf_init hinfo)

theorem pool_wf_final (env : sas_env) (w : readstat_writer_t) (hinfo : sas_header_info_t) :
    pool_wf (pool_final env w hinfo) := by
  simp only [pool_final, sas_col_format_loop_pool]
  exact pool_wf_make_text_refs _ _ (pool_wf_after_names env w hinfo)

/-- The subheader array, written out. -/
theorem sas_subheader_array_init_eq (env : sas_env) (w : readstat_writer_t)
    (hinfo : sas_header_info_t) :
    sas_subheader_array_init env w hinfo
      = [sas_row_size_subheader_init env w hinfo, sas_col_size_subheader_init env w hinfo,
          (sas_col_name_subheader_init env w hinfo (sas_column_text_array_init hinfo)).1,
          sas_col_attrs_subheader_init env w hinfo]
        ++ (sas_col_format_loop env hinfo w.vars (pool_after_names env w hinfo)).1
        ++ (pool_final env w hinfo).map (sas_col_text_subheader_init env hinfo) := rfl

/-! ## The COLUMN_NAME subheader -/

/-- The loop of `sas_col_name_subheader_init` leaves every byte before its first record, and the
last two bytes of every 8-byte record, as they were. -/
theorem sas_col_name_loop_getD (vars : List readstat_variable_t) (data : List Nat) (ptrs : Nat)
    (cta : List sas_column_text_t) (j : Nat) (h : j < ptrs ∨ 6 ≤ (j - ptrs) % 8) :
    (sas_col_name_loop vars data ptrs cta).1.getD j 0 = data.getD j 0 := by
  induction vars generalizing data ptrs cta with
  | nil => rfl
  | cons v rest ih =>
    simp only [sas_col_name_loop]
    have hj : j < ptrs + 8 ∨ 6 ≤ (j - (ptrs + 8)) % 8 := by omega
    rw [ih _ _ _ hj]
    rcases Nat.lt_or_ge j ptrs with hlt | hge
    · rw [getD_mem_write_lt _ _ _ _ (by omega), getD_mem_write_lt _ _ _ _ (by omega),
        getD_mem_write_lt _ _ _ _ hlt]
    · have h6 : ptrs + 6 ≤ j := by omega
      rw [getD_mem_write_ge _ _ _ _ (by rw [le_bytes_length]; omega),
        getD_mem_write_ge _ _ _ _ (by rw [le_bytes_length]; omega),
        getD_mem_write_ge _ _ _ _ (by rw [le_bytes_length]; omega)]

theorem sas_col_name_loop_length (vars : List readstat_variable_t) (data : List Nat) (ptrs : Nat)
    (cta : List sas_column_text_t) (h : ptrs + 8 * vars.length ≤ data.length) :
    (sas_col_name_loop vars data ptrs cta).1.length = data.length := by
  induction vars generalizing data ptrs cta with
  | nil => rfl
  | cons v rest ih =>
    simp only [sas_col_name_loop]
    simp only [List.length_cons] at h
    have hl : (mem_write (mem_write (mem_write data ptrs
        (le_bytes 2 (make_text_ref cta v.name).2.index)) (ptrs + 2)
        (le_bytes 2 (make_text_ref cta v.name).2.offset)) (ptrs + 4)
        (le_bytes 2 (make_text_ref cta v.name).2.length)).length = data.length := by
      simp only [mem_write_length, le_bytes_length]
      omega
    rw [ih _ _ _ (by rw [hl]; omega), hl]

/-- The three fields stored by one round of the loop, read back. -/
theorem read_text_ref_fields (data : List Nat) (ptrs a b c : Nat) :
    read_bytes (mem_write (mem_write (mem_write data ptrs (le_bytes 2 a)) (ptrs + 2)
        (le_bytes 2 b)) (ptrs + 4) (le_bytes 2 c)) ptrs 6
      = le_bytes 2 a ++ le_bytes 2 b ++ le_bytes 2 c := by
  have h6 : (6 : Nat) = 2 + (2 + 2) := rfl
  rw [h6, read_bytes_add, read_bytes_add, List.append_assoc]
  have e3 := read_bytes_mem_write_same (mem_write (mem_write data ptrs (le_bytes 2 a)) (ptrs + 2)
    (le_bytes 2 b)) (le_bytes 2 c) (ptrs + 4)
  have e2 := read_bytes_mem_write_same (mem_write data ptrs (le_bytes 2 a)) (le_bytes 2 b)
    (ptrs + 2)
  have e1 := read_bytes_mem_write_same data (le_bytes 2 a) ptrs
  rw [le_bytes_length] at e1 e2 e3
  have hp : ptrs + 2 + 2 = ptrs + 4 := by omega
  rw [hp, e3]
  rw [read_bytes_mem_write_disjoint _ _ (ptrs + 4) (ptrs + 2) 2 (Or.inl (by omega)), e2]
  rw [read_bytes_mem_write_disjoint _ _ (ptrs + 4) ptrs 2 (Or.inl (by omega)),
    read_bytes_mem_write_disjoint _ _ (ptrs + 2) ptrs 2 (Or.inl (by omega)), e1]

/-- The record of variable `i` holds the reference issued for its name, the pool being the one
left by the names before it. -/
theorem sas_col_name_loop_record (vars : List readstat_variable_t) (data : List Nat) (ptrs : Nat)
    (cta : List sas_column_text_t) (i : Nat) (v : readstat_variable_t)
    (hv : vars[i]? = some v) :
    read_bytes (sas_col_name_loop vars data ptrs cta).1 (ptrs + 8 * i) 6
      = le_bytes 2 (make_text_ref (make_text_refs cta ((vars.take i).map (fun u => u.name)))
          v.name).2.index
        ++ le_bytes 2 (make_text_ref (make_text_refs cta ((vars.take i).map (fun u => u.name)))
          v.name).2.offset
        ++ le_bytes 2 (make_text_ref (make_text_refs cta ((vars.take i).map (fun u => u.name)))
          v.name).2.length := by
  induction vars generalizing data ptrs cta i with
  | nil => simp at hv
  | cons u rest ih =>
    cases i with
    | zero =>
      simp only [List.getElem?_cons_zero, Option.some.injEq] at hv
      subst hv
      simp only [sas_col_name_loop, Nat.mul_zero, Nat.add_zero, List.take_zero, List.map_nil]
      have hm : make_text_refs cta [] = cta := rfl
      rw [hm, ← read_text_ref_fields data ptrs]
      apply read_bytes_congr
      intro k hk
      exact sas_col_name_loop_getD _ _ _ _ _ (Or.inl (by omega))
    | succ i =>
      simp only [List.getElem?_cons_succ] at hv
      simp only [sas_col_name_loop, List.take_succ_cons, List.map_cons]
      have hp : ptrs + 8 * (i + 1) = ptrs + 8 + 8 * i := by omega
      have hm : make_text_refs cta (u.name :: (rest.take i).map (fun u => u.name))
          = make_text_refs (make_text_ref cta u.name).1 ((rest.take i).map (fun u => u.name)) :=
        rfl
      rw [hp, hm]
      exact ih _ _ _ i hv

/-! ## The COLUMN_ATTRS subheader -/

theorem le_bytes_congr_mod (n a b : Nat) (h : a % 256 ^ n = b % 256 ^ n) :
    le_bytes n a = le_bytes n b := by
  rw [← le_bytes_mod n a, ← le_bytes_mod n b, h]

/-- One round of the loop of `sas_col_attrs_subheader_init` in 64-bit mode. -/
theorem sas_col_attrs_loop_cons64 (env : sas_env) (hinfo : sas_header_info_t)
    (hu : hinfo.u64 = true) (v : readstat_variable_t) (rest : List readstat_variable_t)
    (data : List Nat) (ptrs offset : Nat) :
    sas_col_attrs_loop env hinfo (v :: rest) data ptrs offset
      = sas_col_attrs_loop env hinfo rest
          (mem_write (mem_write (mem_write (mem_write data ptrs (le_bytes 8 offset))
            (ptrs + 14) [recorded_type env v]) (ptrs + 8) (le_bytes 4 (recorded_width v)))
            (ptrs + 12) (le_bytes 2 (if v.name.length ≤ 8 then 4 else 2048)))
          (ptrs + 16) ((offset + recorded_width v) % 2 ^ 64) := by
  simp only [sas_col_attrs_loop, hu, if_true, recorded_type, recorded_width, decide_eq_true_eq,
    Nat.add_assoc]

/-- One round of the loop of `sas_col_attrs_subheader_init` in 32-bit mode. -/
theorem sas_col_attrs_loop_cons32 (env : sas_env) (hinfo : sas_header_info_t)
    (hu : hinfo.u64 = false) (v : readstat_variable_t) (rest : List readstat_variable_t)
    (data : List Nat) (ptrs offset : Nat) :
    sas_col_attrs_loop env hinfo (v :: rest) data ptrs offset
      = sas_col_attrs_loop env hinfo rest
          (mem_write (mem_write (mem_write (mem_write data ptrs (le_bytes 4 offset))
            (ptrs + 10) [recorded_type env v]) (ptrs + 4) (le_bytes 4 (recorded_width v)))
            (ptrs + 8) (le_bytes 2 (if v.name.length ≤ 8 then 4 else 2048)))
          (ptrs + 12) ((offset + recorded_width v) % 2 ^ 64) := by
  simp only [sas_col_attrs_loop, hu, Bool.false_eq_true, if_false, recorded_type,
    recorded_width, decide_eq_true_eq, Nat.add_assoc]

/-- What one round stores, read back: `a` is the size of the offset field. -/
theorem read_attrs_record (data : List Nat) (ptrs a : Nat) (o t wd fl : List Nat)
    (ho : o.length = a) (ht : t.length = 1) (hw : wd.length = 4) (hf : fl.length = 2) :
    read_bytes (mem_write (mem_write (mem_write (mem_write data ptrs o) (ptrs + (a + 6)) t)
        (ptrs + a) wd) (ptrs + (a + 4)) fl) ptrs (a + 8)
      = o ++ wd ++ fl ++ t ++ [data.getD (ptrs + (a + 7)) 0] := by
  have h8 : a + 8 = a + (4 + (2 + (1 + 1))) := by omega
  rw [h8, read_bytes_add, read_bytes_add, read_bytes_add, read_bytes_add]
  have p1 : ptrs + a + 4 = ptrs + (a + 4) := by omega
  have p2 : ptrs + (a + 4) + 2 = ptrs + (a + 6) := by omega
  have p3 : ptrs + (a + 6) + 1 = ptrs + (a + 7) := by omega
  rw [p1, p2, p3]
  -- the offset field
  have e1 : read_bytes (mem_write (mem_write (mem_write (mem_write data ptrs o) (ptrs + (a + 6)) t)
      (ptrs + a) wd) (ptrs + (a + 4)) fl) ptrs a = o := by
    rw [read_bytes_mem_write_disjoint _ _ (ptrs + (a + 4)) ptrs a (Or.inl (by omega)),
      read_bytes_mem_write_disjoint _ _ (ptrs + a) ptrs a (Or.inl (by omega)),
      read_bytes_mem_write_disjoint _ _ (ptrs + (a + 6)) ptrs a (Or.inl (by omega))]
    have := read_bytes_mem_write_same data o ptrs
    rw [ho] at this
    exact this
  -- the width field
  have e2 : read_bytes (mem_write (mem_write (mem_write (mem_write data ptrs o) (ptrs + (a + 6)) t)
      (ptrs + a) wd) (ptrs + (a + 4)) fl) (ptrs + a) 4 = wd := by
    rw [read_bytes_mem_write_disjoint _ _ (ptrs + (a + 4)) (ptrs + a) 4 (Or.inl (by omega))]
    have := read_bytes_mem_write_same (mem_write (mem_write data ptrs o) (ptrs + (a + 6)) t) wd
      (ptrs + a)
    rw [hw] at this
    exact this
  -- the name length flag
  have e3 : read_bytes (mem_write (mem_write (mem_write (mem_write data ptrs o) (ptrs + (a + 6)) t)
      (ptrs + a) wd) (ptrs + (a + 4)) fl) (ptrs + (a + 4)) 2 = fl := by
    have := read_bytes_mem_write_same (mem_write (mem_write (mem_write data ptrs o)
      (ptrs + (a + 6)) t) (ptrs + a) wd) fl (ptrs + (a + 4))
    rw [hf] at this
    exact this
  -- the type byte
  have e4 : read_bytes (mem_write (mem_write (mem_write (mem_write data ptrs o) (ptrs + (a + 6)) t)
      (ptrs + a) wd) (ptrs + (a + 4)) fl) (ptrs + (a + 6)) 1 = t := by
    rw [read_bytes_mem_write_disjoint _ _ (ptrs + (a + 4)) (ptrs + (a + 6)) 1
        (Or.inr (by omega)),
      read_bytes_mem_write_disjoint _ _ (ptrs + a) (ptrs + (a + 6)) 1 (Or.inr (by omega))]
    have := read_bytes_mem_write_same (mem_write data ptrs o) t (ptrs + (a + 6))
    rw [ht] at this
    exact this
  -- the byte no store touches
  have e5 : read_bytes (mem_write (mem_write (mem_write (mem_write data ptrs o) (ptrs + (a + 6)) t)
      (ptrs + a) wd) (ptrs + (a + 4)) fl) (ptrs + (a + 7)) 1
      = [data.getD (ptrs + (a + 7)) 0] := by
    rw [read_bytes_mem_write_disjoint _ _ (ptrs + (a + 4)) (ptrs + (a + 7)) 1
        (Or.inr (by omega)),
      read_bytes_mem_write_disjoint _ _ (ptrs + a) (ptrs + (a + 7)) 1 (Or.inr (by omega)),
      read_bytes_mem_write_disjoint _ _ (ptrs + (a + 6)) (ptrs + (a + 7)) 1 (Or.inr (by omega)),
      read_bytes_mem_write_disjoint _ _ ptrs (ptrs + (a + 7)) 1 (Or.inr (by omega))]
    rfl
  rw [e1, e2, e3, e4, e5]
  simp only [List.append_assoc]

/-- A round of the loop changes no byte outside its record (`a` as in `read_attrs_record`). -/
theorem getD_attrs_record (data : List Nat) (ptrs a j : Nat) (o t wd fl : List Nat)
    (ho : o.length = a) (ht : t.length = 1) (hw : wd.length = 4) (hf : fl.length = 2)
    (h : j < ptrs ∨ ptrs + (a + 7) ≤ j) :
    (mem_write (mem_write (mem_write (mem_write data ptrs o) (ptrs + (a + 6)) t)
        (ptrs + a) wd) (ptrs + (a + 4)) fl).getD j 0 = data.getD j 0 := by
  rcases h with h | h
  · rw [getD_mem_write_lt _ _ _ _ (by omega), getD_mem_write_lt _ _ _ _ (by omega),
      getD_mem_write_lt _ _ _ _ (by omega), getD_mem_write_lt _ _ _ _ h]
  · rw [getD_mem_write_ge _ _ _ _ (by omega), getD_mem_write_ge _ _ _ _ (by omega),
      getD_mem_write_ge _ _ _ _ (by omega), getD_mem_write_ge _ _ _ _ (by omega)]

theorem sas_col_attrs_loop_getD_lt (env : sas_env) (hinfo : sas_header_info_t)
    (vars : List readstat_variable_t) (data : List Nat) (ptrs offset j : Nat) (h : j < ptrs) :
    (sas_col_attrs_loop env hinfo vars data ptrs offset).getD j 0 = data.getD j 0 := by
  induction vars generalizing data ptrs offset with
  | nil => rfl
  | cons v rest ih =>
    cases hu : hinfo.u64
    · rw [sas_col_attrs_loop_cons32 env hinfo hu, ih _ _ _ (by omega)]
      exact getD_attrs_record data ptrs 4 j _ _ _ _ (le_bytes_length _ _) rfl
        (le_bytes_length _ _) (le_bytes_length _ _) (Or.inl h)
    · rw [sas_col_attrs_loop_cons64 env hinfo hu, ih _ _ _ (by omega)]
      exact getD_attrs_record data ptrs 8 j _ _ _ _ (le_bytes_length _ _) rfl
        (le_bytes_length _ _) (le_bytes_length _ _) (Or.inl h)

/-- The record of variable `i`, in 64-bit mode. -/
theorem sas_col_attrs_loop_record64 (env : sas_env) (hinfo : sas_header_info_t)
    (hu : hinfo.u64 = true) (vars : List readstat_variable_t) (data : List Nat)
    (ptrs offset i : Nat) (v : readstat_variable_t) (hv : vars[i]? = some v) :
    read_bytes (sas_col_attrs_loop env hinfo vars data ptrs offset) (ptrs + 16 * i) 16
      = le_bytes 8 (offset + ((vars.take i).map recorded_width).sum)
        ++ le_bytes 4 (recorded_width v)
        ++ le_bytes 2 (if v.name.length ≤ 8 then 4 else 2048)
        ++ [recorded_type env v] ++ [data.getD (ptrs + 16 * i + 15) 0] := by
  induction vars generalizing data ptrs offset i with
  | nil => simp at hv
  | cons u rest ih =>
    rw [sas_col_attrs_loop_cons64 env hinfo hu]
    cases i with
    | zero =>
      simp only [List.getElem?_cons_zero, Option.some.injEq] at hv
      subst hv
      simp only [Nat.mul_zero, Nat.add_zero, List.take_zero, List.map_nil, List.sum_nil]
      have e := read_attrs_record data ptrs 8 (le_bytes 8 offset) [recorded_type env u]
        (le_bytes 4 (recorded_width u)) (le_bytes 2 (if u.name.length ≤ 8 then 4 else 2048))
        (le_bytes_length _ _) rfl (le_bytes_length _ _) (le_bytes_length _ _)
      refine Eq.trans ?_ e
      apply read_bytes_congr
      intro k hk
      exact sas_col_attrs_loop_getD_lt env hinfo _ _ (ptrs + 16) _ (ptrs + k) (by omega)
    | succ i =>
      simp only [List.getElem?_cons_succ] at hv
      have hp : ptrs + 16 * (i + 1) = ptrs + 16 + 16 * i := by omega
      have hg := getD_attrs_record data ptrs 8 (ptrs + 16 + 16 * i + 15) (le_bytes 8 offset)
        [recorded_type env u] (le_bytes 4 (recorded_width u))
        (le_bytes 2 (if u.name.length ≤ 8 then 4 else 2048))
        (le_bytes_length _ _) rfl (le_bytes_length _ _) (le_bytes_length _ _)
        (Or.inr (by omega))
      have ho : le_bytes 8 ((offset + recorded_width u) % 2 ^ 64
            + ((rest.take i).map recorded_width).sum)
          = le_bytes 8 (offset + (recorded_width u + ((rest.take i).map recorded_width).sum)) := by
        apply le_bytes_congr_mod
        have h64 : (256 : Nat) ^ 8 = 2 ^ 64 := by norm_num
        rw [h64, Nat.add_mod, Nat.mod_mod, ← Nat.add_mod, Nat.add_assoc]
      rw [hp, ih _ _ _ i hv, hg, ho]
      simp only [List.take_succ_cons, List.map_cons, List.sum_cons]

/-- The record of variable `i`, in 32-bit mode. -/
theorem sas_col_attrs_loop_record32 (env : sas_env) (hinfo : sas_header_info_t)
    (hu : hinfo.u64 = false) (vars : List readstat_variable_t) (data : List Nat)
    (ptrs offset i : Nat) (v : readstat_variable_t) (hv : vars[i]? = some v) :
    read_bytes (sas_col_attrs_loop env hinfo vars data ptrs offset) (ptrs + 12 * i) 12
      = le_bytes 4 (offset + ((vars.take i).map recorded_width).sum)
        ++ le_bytes 4 (recorded_width v)
        ++ le_bytes 2 (if v.name.length ≤ 8 then 4 else 2048)
        ++ [recorded_type env v] ++ [data.getD (ptrs + 12 * i + 11) 0] := by
  induction vars generalizing data ptrs offset i with
  | nil => simp at hv
  | cons u rest ih =>
    rw [sas_col_attrs_loop_cons32 env hinfo hu]
    cases i with
    | zero =>
      simp only [List.getElem?_cons_zero, Option.some.injEq] at hv
      subst hv
      simp only [Nat.mul_zero, Nat.add_zero, List.take_zero, List.map_nil, List.sum_nil]
      have e := read_attrs_record data ptrs 4 (le_bytes 4 offset) [recorded_type env u]
        (le_bytes 4 (recorded_width u)) (le_bytes 2 (if u.name.length ≤ 8 then 4 else 2048))
        (le_bytes_length _ _) rfl (le_bytes_length _ _) (le_bytes_length _ _)
      refine Eq.trans ?_ e
      apply read_bytes_congr
      intro k hk
      exact sas_col_attrs_loop_getD_lt env hinfo _ _ (ptrs + 12) _ (ptrs + k) (by omega)
    | succ i =>
      simp only [List.getElem?_cons_succ] at hv
      have hp : ptrs + 12 * (i + 1) = ptrs + 12 + 12 * i := by omega
      have hg := getD_attrs_record data ptrs 4 (ptrs + 12 + 12 * i + 11) (le_bytes 4 offset)
        [recorded_type env u] (le_bytes 4 (recorded_width u))
        (le_bytes 2 (if u.name.length ≤ 8 then 4 else 2048))
        (le_bytes_length _ _) rfl (le_bytes_length _ _) (le_bytes_length _ _)
        (Or.inr (by omega))
      have ho : le_bytes 4 ((offset + recorded_width u) % 2 ^ 64
            + ((rest.take i).map recorded_width).sum)
          = le_bytes 4 (offset + (recorded_width u + ((rest.take i).map recorded_width).sum)) := by
        apply le_bytes_congr_mod
        have h64 : (2 : Nat) ^ 64 = 256 ^ 4 * 2 ^ 32 := by norm_num
        rw [h64, Nat.add_mod, Nat.mod_mul_right_mod, ← Nat.add_mod, Nat.add_assoc]
      rw [hp, ih _ _ _ i hv, hg, ho]
      simp only [List.take_succ_cons, List.map_cons, List.sum_cons]

/-! ## The header: what a successful `sas_emit_header` has written -/

theorem readstat_write_bytes_inv (w w1 : readstat_writer_t) (bytes : List Nat)
    (h : readstat_write_bytes w bytes = .ok w1) :
    w1 = { w with bytes_written := w.bytes_written + bytes.length, out := w.out ++ bytes } := by
  unfold readstat_write_bytes at h
  cases hr : w.room with
  | none =>
    rw [hr] at h
    simp only [Except.ok.injEq] at h
    rw [← h]
  | some n =>
    rw [hr] at h
    simp only at h
    split at h
    · simp only [Except.ok.injEq] at h
      rw [← h]
    · cases h

theorem readstat_write_zeros_inv (w w1 : readstat_writer_t) (n : Nat)
    (h : readstat_write_zeros w n = .ok w1) :
    w1 = { w with bytes_written := w.bytes_written + n, out := w.out ++ List.replicate n 0 } := by
  have := readstat_write_bytes_inv w w1 (List.replicate n 0) h
  rw [List.length_replicate] at this
  exact this

theorem except_bind_ok {α β : Type} (x : Except sas_stop α) (f : α → Except sas_stop β) (b : β)
    (h : (x >>= f) = .ok b) : ∃ a, x = .ok a ∧ f a = .ok b := by
  cases x with
  | error e => cases h
  | ok a => exact ⟨a, rfl, h⟩

/-- The bytes a successful `sas_emit_header` appends to the output, and the byte count. -/
theorem sas_emit_header_inv (env : sas_env) (w w1 : readstat_writer_t)
    (hinfo : sas_header_info_t) (hok : sas_emit_header env w hinfo = .ok w1) :
    w1.out = w.out
      ++ read_bytes (env.header_start_image hinfo.u64 w.file_label) 0 env.sizeof_header_start
      ++ List.replicate hinfo.pad1 0
      ++ read_bytes (env.time_image hinfo.creation_time) 0 8
      ++ read_bytes (env.time_image hinfo.modification_time) 0 8
      ++ List.replicate 16 0
      ++ le_bytes 4 hinfo.header_size
      ++ le_bytes 4 hinfo.page_size
      ++ (if hinfo.u64 then le_bytes_int 8 hinfo.page_count
          else le_bytes_int 4 hinfo.page_count)
      ++ List.replicate 8 0
      ++ read_bytes (sas_header_end_image env w.version) 0 env.sizeof_header_end
      ++ List.replicate (size_t_sub hinfo.header_size
          (w.bytes_written + env.sizeof_header_start + hinfo.pad1 + 8 + 8 + 16 + 4 + 4
            + (if hinfo.u64 then 8 else 4) + 8 + env.sizeof_header_end)) 0 ∧
    w1.bytes_written = w.bytes_written + env.sizeof_header_start + hinfo.pad1 + 8 + 8 + 16 + 4 + 4
        + (if hinfo.u64 then 8 else 4) + 8 + env.sizeof_header_end
      + size_t_sub hinfo.header_size
          (w.bytes_written + env.sizeof_header_start + hinfo.pad1 + 8 + 8 + 16 + 4 + 4
            + (if hinfo.u64 then 8 else 4) + 8 + env.sizeof_header_end) := by
  simp only [sas_emit_header] at hok
  obtain ⟨a1, e1, hok⟩ := except_bind_ok _ _ _ hok
  obtain ⟨a2, e2, hok⟩ := except_bind_ok _ _ _ hok
  obtain ⟨a3, e3, hok⟩ := except_bind_ok _ _ _ hok
  obtain ⟨a4, e4, hok⟩ := except_bind_ok _ _ _ hok
  obtain ⟨a5, e5, hok⟩ := except_bind_ok _ _ _ hok
  obtain ⟨a6, e6, hok⟩ := except_bind_ok _ _ _ hok
  obtain ⟨a7, e7, hok⟩ := except_bind_ok _ _ _ hok
  obtain ⟨a8, e8, hok⟩ := except_bind_ok _ _ _ hok
  obtain ⟨a9, e9, hok⟩ := except_bind_ok _ _ _ hok
  obtain ⟨a10, e10, hok⟩ := except_bind_ok _ _ _ hok
  have i1 := readstat_write_bytes_inv _ _ _ e1
  have i2 := readstat_write_zeros_inv _ _ _ e2
  have i3 := readstat_write_bytes_inv _ _ _ e3
  have i4 := readstat_write_bytes_inv _ _ _ e4
  have i5 := readstat_write_zeros_inv _ _ _ e5
  have i6 := readstat_write_bytes_inv _ _ _ e6
  have i7 := readstat_write_bytes_inv _ _ _ e7
  have i8 : a8 = { a7 with
      bytes_written := a7.bytes_written + (if hinfo.u64 then 8 else 4)
      out := a7.out ++ (if hinfo.u64 then le_bytes_int 8 hinfo.page_count
        else le_bytes_int 4 hinfo.page_count) } := by
    cases hu : hinfo.u64
    · rw [hu] at e8
      have := readstat_write_bytes_inv _ _ _ e8
      simpa [le_bytes_int, le_bytes_length] using this
    · rw [hu] at e8
      have := readstat_write_bytes_inv _ _ _ e8
      simpa [le_bytes_int, le_bytes_length] using this
  have i9 := readstat_write_zeros_inv _ _ _ e9
  have i10 := readstat_write_bytes_inv _ _ _ e10
  have i11 := readstat_write_zeros_inv _ _ _ hok
  simp only [read_bytes_length, le_bytes_length] at i1 i3 i4 i6 i7 i10
  subst i1 i2 i3 i4 i5 i6 i7 i8 i9 i10 i11
  exact ⟨rfl, rfl⟩

/-! ## Reading inside a concatenation -/

theorem read_bytes_eq_read_bytes (a b : List Nat) (offa offb n : Nat)
    (h : ∀ i, i < n → a.getD (offa + i) 0 = b.getD (offb + i) 0) :
    read_bytes a offa n = read_bytes b offb n := by
  apply List.ext_getElem (by simp [read_bytes_length])
  intro i h1 h2
  rw [read_bytes_length] at h1
  have e1 := getD_read_bytes a offa n i h1
  have e2 := getD_read_bytes b offb n i h1
  rw [List.getD_eq_getElem _ _ (by rw [read_bytes_length]; exact h1)] at e1 e2
  rw [e1, e2, h i h1]

theorem getD_append_mid (pre mid post : List Nat) (i : Nat) (h : i < mid.length) :
    (pre ++ mid ++ post).getD (pre.length + i) 0 = mid.getD i 0 := by
  simp only [List.getD_eq_getElem?_getD]
  rw [List.getElem?_append_left (by rw [List.length_append]; omega),
    List.getElem?_append_right (by omega), Nat.add_sub_cancel_left]

theorem read_bytes_append_mid (pre mid post : List Nat) (o n : Nat) (h : o + n ≤ mid.length) :
    read_bytes (pre ++ mid ++ post) (pre.length + o) n = read_bytes mid o n := by
  apply read_bytes_eq_read_bytes
  intro i hi
  rw [Nat.add_assoc]
  exact getD_append_mid pre mid post (o + i) (by omega)

theorem read_bytes_append_whole (pre mid post : List Nat) :
    read_bytes (pre ++ mid ++ post) pre.length mid.length = mid := by
  have := read_bytes_append_mid pre mid post 0 mid.length (by omega)
  rw [Nat.add_zero, read_bytes_self] at this
  exact this

theorem getD_append_replicate_zero (pre : List Nat) (n pos : Nat) (h : pre.length ≤ pos) :
    (pre ++ List.replicate n 0).getD pos 0 = 0 := by
  simp only [List.getD_eq_getElem?_getD]
  rw [List.getElem?_append_right h, List.getElem?_replicate]
  split <;> rfl

theorem read_bytes_read_bytes (buf : List Nat) (n o m : Nat) (h : o + m ≤ n) :
    read_bytes (read_bytes buf 0 n) o m = read_bytes buf o m := by
  apply read_bytes_eq_read_bytes
  intro i hi
  rw [getD_read_bytes _ _ _ _ (by omega), Nat.zero_add]

theorem page_count_bytes_length (hinfo : sas_header_info_t) :
    (if hinfo.u64 then le_bytes_int 8 hinfo.page_count
      else le_bytes_int 4 hinfo.page_count).length = (if hinfo.u64 then 8 else 4) := by
  cases hinfo.u64 <;> simp [le_bytes_int, le_bytes_length]

/-! ## The release field -/

theorem dec_digits_one (f n : Nat) (h : n < 10) : dec_digits (f + 1) n = [48 + n] := by
  simp only [dec_digits, if_pos h]

theorem dec_digits_two (f n : Nat) (h1 : 10 ≤ n) (h2 : n < 100) :
    dec_digits (f + 2) n = [48 + n / 10, 48 + n % 10] := by
  rw [dec_digits, if_neg (by omega), dec_digits_one f (n / 10) (by omega)]
  rfl

theorem dec_digits_three (f n : Nat) (h1 : 100 ≤ n) (h2 : n < 1000) :
    dec_digits (f + 3) n = [48 + n / 10 / 10, 48 + n / 10 % 10, 48 + n % 10] := by
  rw [dec_digits, if_neg (by omega), dec_digits_two f (n / 10) (by omega) (by omega)]
  rfl

theorem dec_digits_four (f n : Nat) (h1 : 1000 ≤ n) (h2 : n < 10000) :
    dec_digits (f + 4) n
      = [48 + n / 10 / 10 / 10, 48 + n / 10 / 10 % 10, 48 + n / 10 % 10, 48 + n % 10] := by
  rw [dec_digits, if_neg (by omega), dec_digits_three f (n / 10) (by omega) (by omega)]
  rfl

/-- `%04ld` of a value below 10000 is its four decimal digits. -/
theorem format_04ld_four (r : Nat) (h : r < 10000) :
    format_04ld (r : Int) = [48 + r / 1000, 48 + r / 100 % 10, 48 + r / 10 % 10, 48 + r % 10] := by
  have hneg : ¬ ((r : Int) < 0) := by omega
  simp only [format_04ld, if_neg hneg, Int.natAbs_ofNat]
  rcases Nat.lt_or_ge r 10 with h10 | h10
  · rw [dec_digits_one r r h10]
    have e1 : r / 1000 = 0 := by omega
    have e2 : r / 100 % 10 = 0 := by omega
    have e3 : r / 10 % 10 = 0 := by omega
    have e4 : r % 10 = r := by omega
    rw [e1, e2, e3, e4]
    rfl
  · rcases Nat.lt_or_ge r 100 with h100 | h100
    · have hf : r + 1 = (r - 1) + 2 := by omega
      rw [hf, dec_digits_two (r - 1) r h10 h100]
      have e1 : r / 1000 = 0 := by omega
      have e2 : r / 100 % 10 = 0 := by omega
      have e3 : r / 10 % 10 = r / 10 := by omega
      rw [e1, e2, e3]
      rfl
    · rcases Nat.lt_or_ge r 1000 with h1000 | h1000
      · have hf : r + 1 = (r - 2) + 3 := by omega
        rw [hf, dec_digits_three (r - 2) r h100 h1000]
        have e1 : r / 1000 = 0 := by omega
        have e2 : r / 100 % 10 = r / 10 / 10 := by omega
        rw [e1, e2]
        rfl
      · have hf : r + 1 = (r - 3) + 4 := by omega
        rw [hf, dec_digits_four (r - 3) r h1000 h]
        have e1 : r / 1000 = r / 10 / 10 / 10 := by omega
        have e2 : r / 100 % 10 = r / 10 / 10 % 10 := by omega
        rw [e1, e2]
        rfl

/-- The release field of the header-end object for a version with a one-digit major part. -/
theorem sas_header_end_image_release (env : sas_env) (n : Nat) (h8 : env.sizeof_release = 8)
    (h1 : n < 100000) :
    read_bytes (sas_header_end_image env (n : Int)) env.offsetof_release 8
      = spec_release_string n := by
  have hm : n / 10000 < 10 := by omega
  have hr : n % 10000 < 10000 := Nat.mod_lt _ (by norm_num)
  have hdiv : (n : Int).tdiv 10000 = ((n / 10000 : Nat) : Int) := rfl
  have hmod : (n : Int).tmod 10000 = ((n % 10000 : Nat) : Int) := rfl
  have hneg : ¬ (((n / 10000 : Nat) : Int) < 0) := by omega
  have hspec : spec_release_string n
      = [48 + n / 10000, 46, 48 + n % 10000 / 1000, 48 + n % 10000 / 100 % 10,
          48 + n % 10000 / 10 % 10, 48 + n % 10000 % 10, 77, 48] := by
    simp only [spec_release_string, dec_digits_one _ _ hm]
    rfl
  have hfmt : format_ld ((n : Int).tdiv 10000) ++ [46] ++ format_04ld ((n : Int).tmod 10000)
        ++ [77, 48]
      = [48 + n / 10000, 46, 48 + n % 10000 / 1000, 48 + n % 10000 / 100 % 10,
          48 + n % 10000 / 10 % 10, 48 + n % 10000 % 10, 77, 48] := by
    rw [hdiv, hmod, format_04ld_four _ hr]
    simp only [format_ld, if_neg hneg, Int.natAbs_ofNat, dec_digits_one _ _ hm]
    rfl
  rw [hspec]
  simp only [sas_header_end_image, hfmt, h8, snprintf_bytes]
  have hl := read_bytes_eq_of_getD
    (mem_write (mem_write (read_bytes env.header_end_init 0 env.sizeof_header_end)
        env.offsetof_release
        (List.take (8 - 1) [48 + n / 10000, 46, 48 + n % 10000 / 1000,
          48 + n % 10000 / 100 % 10, 48 + n % 10000 / 10 % 10, 48 + n % 10000 % 10, 77, 48]
          ++ [0]))
      (env.offsetof_release + (8 - 1)) [48])
    [48 + n / 10000, 46, 48 + n % 10000 / 1000, 48 + n % 10000 / 100 % 10,
      48 + n % 10000 / 10 % 10, 48 + n % 10000 % 10, 77, 48] env.offsetof_release
  apply hl
  intro i hi
  simp only [List.length_cons, List.length_nil] at hi
  rcases Nat.lt_or_ge i 7 with h7 | h7
  · rw [getD_mem_write_lt _ _ _ _ (by omega), getD_mem_write_mid _ _ _ _ (by simp; omega)]
    have hc : i = 0 ∨ i = 1 ∨ i = 2 ∨ i = 3 ∨ i = 4 ∨ i = 5 ∨ i = 6 := by omega
    rcases hc with rfl | rfl | rfl | rfl | rfl | rfl | rfl <;> rfl
  · have hi7 : i = 7 := by omega
    subst hi7
    exact getD_mem_write_mid _ [48] (env.offsetof_release + (8 - 1)) 0 (by simp)

/-- The header that a successful `sas_emit_header` has appended, split at the header-end
block: what precedes it has `header_end_offset` bytes, and zeros follow it. -/
theorem sas_emit_header_split (env : sas_env) (w w1 : readstat_writer_t)
    (hinfo : sas_header_info_t) (hok : sas_emit_header env w hinfo = .ok w1) :
    ∃ pre : List Nat, pre.length = header_end_offset env hinfo ∧
      w1.out.drop w.out.length = pre
        ++ read_bytes (sas_header_end_image env w.version) 0 env.sizeof_header_end
        ++ List.replicate (size_t_sub hinfo.header_size
            (w.bytes_written + header_end_offset env hinfo + env.sizeof_header_end)) 0 := by
  obtain ⟨hout, _⟩ := sas_emit_header_inv env w w1 hinfo hok
  refine ⟨read_bytes (env.header_start_image hinfo.u64 w.file_label) 0 env.sizeof_header_start
      ++ List.replicate hinfo.pad1 0
      ++ read_bytes (env.time_image hinfo.creation_time) 0 8
      ++ read_bytes (env.time_image hinfo.modification_time) 0 8
      ++ List.replicate 16 0
      ++ le_bytes 4 hinfo.header_size
      ++ le_bytes 4 hinfo.page_size
      ++ (if hinfo.u64 then le_bytes_int 8 hinfo.page_count
          else le_bytes_int 4 hinfo.page_count)
      ++ List.replicate 8 0, ?_, ?_⟩
  · simp only [List.length_append, read_bytes_length, List.length_replicate, le_bytes_length,
      page_count_bytes_length, header_end_offset]
  · rw [hout]
    simp only [List.append_assoc, List.drop_left, header_end_offset, Nat.add_assoc]

/-- The fields between the timestamps and the header-end block. -/
theorem sas_emit_header_counts (env : sas_env) (w w1 : readstat_writer_t)
    (hinfo : sas_header_info_t) (hok : sas_emit_header env w hinfo = .ok w1) :
    ∃ pre post : List Nat, pre.length = env.sizeof_header_start + hinfo.pad1 + 8 + 8 + 16 ∧
      w1.out.drop w.out.length = pre
        ++ (le_bytes 4 hinfo.header_size ++ le_bytes 4 hinfo.page_size
          ++ (if hinfo.u64 then le_bytes_int 8 hinfo.page_count
              else le_bytes_int 4 hinfo.page_count))
        ++ post := by
  obtain ⟨hout, _⟩ := sas_emit_header_inv env w w1 hinfo hok
  refine ⟨read_bytes (env.header_start_image hinfo.u64 w.file_label) 0 env.sizeof_header_start
      ++ List.replicate hinfo.pad1 0
      ++ read_bytes (env.time_image hinfo.creation_time) 0 8
      ++ read_bytes (env.time_image hinfo.modification_time) 0 8
      ++ List.replicate 16 0,
    List.replicate 8 0
      ++ read_bytes (sas_header_end_image env w.version) 0 env.sizeof_header_end
      ++ List.replicate (size_t_sub hinfo.header_size
          (w.bytes_written + env.sizeof_header_start + hinfo.pad1 + 8 + 8 + 16 + 4 + 4
            + (if hinfo.u64 then 8 else 4) + 8 + env.sizeof_header_end)) 0, ?_, ?_⟩
  · simp only [List.length_append, read_bytes_length, List.length_replicate]
  · rw [hout]
    simp only [List.append_assoc, List.drop_left]

/-- The release field inside the header written by a successful `sas_emit_header` is the
release field of the header-end object. -/
theorem sas_emit_header_release_bytes (env : sas_env) (w w1 : readstat_writer_t)
    (hinfo : sas_header_info_t) (hin : env.offsetof_release + 8 ≤ env.sizeof_header_end)
    (hok : sas_emit_header env w hinfo = .ok w1) :
    read_bytes (w1.out.drop w.out.length) (header_end_offset env hinfo + env.offsetof_release) 8
      = read_bytes (sas_header_end_image env w.version) env.offsetof_release 8 := by
  obtain ⟨pre, hpre, hsplit⟩ := sas_emit_header_split env w w1 hinfo hok
  rw [hsplit, ← hpre, read_bytes_append_mid _ _ _ _ _ (by rw [read_bytes_length]; exact hin),
    read_bytes_read_bytes _ _ _ _ hin]

theorem spec_release_string_eq (n : Nat) (h : n < 100000) :
    spec_release_string n
      = [48 + n / 10000, 46, 48 + n % 10000 / 1000, 48 + n % 10000 / 100 % 10,
          48 + n % 10000 / 10 % 10, 48 + n % 10000 % 10, 77, 48] := by
  simp only [spec_release_string, dec_digits_one _ _ (show n / 10000 < 10 by omega)]
  rfl

/-! ## Rows: what a successful `sas_write_row` has written -/

theorem sas_fill_page_inv (w w1 : readstat_writer_t) (hinfo : sas_header_info_t)
    (h : sas_fill_page w hinfo = .ok w1) :
    ∃ z, w1 = { w with bytes_written := w.bytes_written + z,
                       out := w.out ++ List.replicate z 0 } := by
  unfold sas_fill_page at h
  split at h
  · cases h
  · split at h
    · exact ⟨_, readstat_write_zeros_inv _ _ _ h⟩
    · simp only [Except.ok.injEq] at h
      refine ⟨0, ?_⟩
      rw [← h]
      simp

/-- A successful `sas_write_row` appends, when `current_row` is a multiple of
`rows_per_page`, padding zeros, the data-page header and the row, and otherwise the row
alone. -/
theorem sas_write_row_inv (env : sas_env) (w w1 : readstat_writer_t) (hinfo : sas_header_info_t)
    (row : List Nat) (len : Nat) (r : Int) (hctx : w.module_ctx = some hinfo)
    (hr : sas_rows_per_page w hinfo = .ok r)
    (hok : sas_write_row env w row len = .ok w1) :
    (w.current_row.tmod r = 0 →
      ∃ z, w1.out = w.out ++ List.replicate z 0
          ++ sas_data_page_header env hinfo
            (if w.row_count - w.current_row < r then w.row_count - w.current_row else r)
          ++ read_bytes row 0 len ∧
        w1.bytes_written = w.bytes_written + z + hinfo.page_header_size + len) ∧
    (w.current_row.tmod r ≠ 0 →
      w1.out = w.out ++ read_bytes row 0 len ∧ w1.bytes_written = w.bytes_written + len) := by
  simp only [sas_write_row, hctx, hr, bind, Except.bind] at hok
  by_cases h0 : r = 0
  · simp only [h0, if_true, throw, throwThe, MonadExceptOf.throw] at hok
    cases hok
  · simp only [h0, if_false, pure, Except.pure] at hok
    by_cases hmod : w.current_row.tmod r = 0
    · simp only [hmod, if_true] at hok
      refine ⟨fun _ => ?_, fun hne => absurd hmod hne⟩
      cases hf : sas_fill_page w hinfo with
      | error e =>
        rw [hf] at hok
        cases hok
      | ok a1 =>
        rw [hf] at hok
        simp only at hok
        obtain ⟨z, hz⟩ := sas_fill_page_inv w a1 hinfo hf
        cases hh : readstat_write_bytes a1 (sas_data_page_header env hinfo
            (if a1.row_count - a1.current_row < r then a1.row_count - a1.current_row
              else r)) with
        | error e =>
          rw [hh] at hok
          cases hok
        | ok a2 =>
          rw [hh] at hok
          simp only at hok
          have i2 := readstat_write_bytes_inv _ _ _ hh
          have i3 := readstat_write_bytes_inv _ _ _ hok
          rw [sas_data_page_header_length] at i2
          rw [read_bytes_length] at i3
          subst hz
          subst i2
          subst i3
          exact ⟨z, rfl, rfl⟩
    · simp only [hmod, if_false] at hok
      refine ⟨fun he => absurd he hmod, fun _ => ?_⟩
      have i3 := readstat_write_bytes_inv _ _ _ hok
      rw [read_bytes_length] at i3
      subst i3
      exact ⟨rfl, rfl⟩

/-! ## Rows: where a run of `write_row` calls puts headers and rows -/

theorem read_bytes_append_left (a b : List Nat) (off n : Nat) (h : off + n ≤ a.length) :
    read_bytes (a ++ b) off n = read_bytes a off n := by
  apply read_bytes_congr
  intro i hi
  simp only [List.getD_eq_getElem?_getD]
  rw [List.getElem?_append_left (by omega)]

theorem mul_add_unique (r q t q1 t1 : Nat) (ht : t < r) (ht1 : t1 < r)
    (h : q * r + t = q1 * r + t1) : q = q1 ∧ t = t1 := by
  have hr : 0 < r := by omega
  have hd := congrArg (fun x => x / r) h
  have hm := congrArg (fun x => x % r) h
  simp only [Nat.mul_comm _ r, Nat.mul_add_div hr, Nat.div_eq_of_lt ht, Nat.div_eq_of_lt ht1,
    Nat.mul_add_mod, Nat.mod_eq_of_lt ht, Nat.mod_eq_of_lt ht1, Nat.add_zero] at hd hm
  exact ⟨hd, hm⟩

/-- A call of `sas_write_row` that opens data page `q` (behind `k` meta pages): the page
header stands at the start of the page and the row right after it. -/
theorem sas_write_row_opens_page (env : sas_env) (hinfo : sas_header_info_t) (L r k q : Nat)
    (hps : hinfo.page_size = 4096) (hhs : hinfo.header_size = 1024) (hr0 : 1 ≤ r)
    (row : List Nat) (w : readstat_writer_t)
    (hctx : w.module_ctx = some hinfo) (hroom : w.room = none)
    (hlen : sas_row_length w = L) (hr : sas_rows_per_page w hinfo = .ok (r : Int))
    (hcur : w.current_row = ((q * r : Nat) : Int)) (hout : w.out.length = w.bytes_written)
    (hb1 : w.bytes_written ≤ 1024 + 4096 * (k + q))
    (hb2 : 1024 + 4096 * (k + q) < w.bytes_written + 4096) (hb0 : 1024 ≤ w.bytes_written) :
    ∃ w1, sas_write_row env w row (sas_row_length w) = .ok w1 ∧ same_schema w w1 ∧
      w1.out.length = w1.bytes_written ∧ (∃ more, w1.out = w.out ++ more) ∧
      w1.bytes_written = 1024 + 4096 * (k + q) + hinfo.page_header_size + L ∧
      read_bytes w1.out (1024 + 4096 * (k + q) + hinfo.page_header_size) L
        = read_bytes row 0 L ∧
      read_bytes w1.out (1024 + 4096 * (k + q)) hinfo.page_header_size
        = sas_data_page_header env hinfo
            (if w.row_count - ((q * r : Nat) : Int) < (r : Int)
              then w.row_count - ((q * r : Nat) : Int) else (r : Int)) := by
  have hmod : w.current_row.tmod (r : Int) = 0 := by
    rw [hcur, ← Int.ofNat_tmod]
    have : q * r % r = 0 := by simp
    rw [this]
    rfl
  obtain ⟨w1, e1, b1, s1⟩ := sas_write_row_new_page env w hinfo row (sas_row_length w)
    r (k + q) hctx hroom hps hhs hr (by omega) hmod hb1 hb2 hb0
  obtain ⟨z, ho, hb⟩ := (sas_write_row_inv env w w1 hinfo row (sas_row_length w) (r : Int)
    hctx hr e1).1 hmod
  rw [hcur, hlen] at ho
  rw [hlen] at hb b1
  have hpre : (w.out ++ List.replicate z 0).length = 1024 + 4096 * (k + q) := by
    rw [List.length_append, List.length_replicate, hout]
    omega
  refine ⟨w1, e1, s1, ?_, ?_, b1, ?_, ?_⟩
  · rw [ho, hb]
    simp only [List.length_append, List.length_replicate, sas_data_page_header_length,
      read_bytes_length, hout]
  · refine ⟨List.replicate z 0 ++ (sas_data_page_header env hinfo
        (if w.row_count - ((q * r : Nat) : Int) < (r : Int)
          then w.row_count - ((q * r : Nat) : Int) else (r : Int)) ++ read_bytes row 0 L), ?_⟩
    rw [ho]
    simp only [List.append_assoc]
  · have e := read_bytes_append_whole
      (w.out ++ List.replicate z 0 ++ sas_data_page_header env hinfo
        (if w.row_count - ((q * r : Nat) : Int) < (r : Int)
          then w.row_count - ((q * r : Nat) : Int) else (r : Int)))
      (read_bytes row 0 L) []
    rw [List.append_nil, List.length_append, hpre, sas_data_page_header_length,
      read_bytes_length] at e
    rw [ho]
    exact e
  · have e := read_bytes_append_whole (w.out ++ List.replicate z 0)
      (sas_data_page_header env hinfo
        (if w.row_count - ((q * r : Nat) : Int) < (r : Int)
          then w.row_count - ((q * r : Nat) : Int) else (r : Int)))
      (read_bytes row 0 L)
    rw [hpre, sas_data_page_header_length] at e
    rw [ho]
    exact e

/-- A call of `sas_write_row` inside a data page: the row stands at the end of what was
written before. -/
theorem sas_write_row_inside_page (env : sas_env) (hinfo : sas_header_info_t) (L r q t : Nat)
    (row : List Nat) (w : readstat_writer_t)
    (hctx : w.module_ctx = some hinfo) (hroom : w.room = none)
    (hlen : sas_row_length w = L) (hr : sas_rows_per_page w hinfo = .ok (r : Int))
    (hcur : w.current_row = ((q * r + t : Nat) : Int)) (ht1 : 1 ≤ t) (ht2 : t < r)
    (hout : w.out.length = w.bytes_written) :
    ∃ w1, sas_write_row env w row (sas_row_length w) = .ok w1 ∧ same_schema w w1 ∧
      w1.out.length = w1.bytes_written ∧ (∃ more, w1.out = w.out ++ more) ∧
      w1.bytes_written = w.bytes_written + L ∧
      read_bytes w1.out w.bytes_written L = read_bytes row 0 L := by
  have hmod : w.current_row.tmod (r : Int) ≠ 0 := by
    rw [hcur, ← Int.ofNat_tmod]
    have : (q * r + t) % r = t := by
      rw [Nat.mul_comm, Nat.mul_add_mod, Nat.mod_eq_of_lt ht2]
    rw [this]
    exact_mod_cast (by omega : t ≠ 0)
  obtain ⟨w1, e1, b1, s1⟩ := sas_write_row_same_page env w hinfo row (sas_row_length w) r
    hctx hroom hr (by omega) hmod
  obtain ⟨ho, hb⟩ := (sas_write_row_inv env w w1 hinfo row (sas_row_length w) (r : Int)
    hctx hr e1).2 hmod
  rw [hlen] at ho hb
  refine ⟨w1, e1, s1, ?_, ⟨_, ho⟩, hb, ?_⟩
  · rw [ho, hb, List.length_append, read_bytes_length, hout]
  · have e := read_bytes_append_whole w.out (read_bytes row 0 L) []
    rw [List.append_nil, read_bytes_length, hout] at e
    rw [ho]
    exact e

/-- The row loop on a sink that never fails, with the output: after `i` rows (described as in
`write_rows_none`), the loop returns, only appends to the output, puts the row with index
`q * r + t` at offset `t * L` behind the header of data page `q`, and puts at the start of
every data page `q` it opens the header with the `page_row_count` computed at row `q * r`. -/
theorem write_rows_layout (env : sas_env) (hinfo : sas_header_info_t) (L r k : Nat)
    (hps : hinfo.page_size = 4096) (hhs : hinfo.header_size = 1024) (hr0 : 1 ≤ r)
    (hfit : hinfo.page_header_size + r * L ≤ 4096) (hL : 1 ≤ L)
    (rows : List (List Nat)) (w : readstat_writer_t) (i : Nat)
    (hctx : w.module_ctx = some hinfo) (hroom : w.room = none)
    (hlen : sas_row_length w = L) (hr : sas_rows_per_page w hinfo = .ok (r : Int))
    (hcur : w.current_row = (i : Int)) (hout : w.out.length = w.bytes_written)
    (hpos : (i = 0 ∧ w.bytes_written = 1024 + 4096 * k) ∨
      ∃ q t, i = q * r + t ∧ 1 ≤ t ∧ t ≤ r ∧
        w.bytes_written = 1024 + 4096 * (k + q) + hinfo.page_header_size + t * L) :
    ∃ w1, write_rows env rows w = .ok w1 ∧ w1.out.length = w1.bytes_written ∧
      (∃ more, w1.out = w.out ++ more) ∧
      (∀ (j q t : Nat) (row : List Nat), rows[j]? = some row → t < r → i + j = q * r + t →
        read_bytes w1.out (1024 + 4096 * (k + q) + hinfo.page_header_size + t * L) L
          = read_bytes row 0 L) ∧
      (∀ j q : Nat, j < rows.length → i + j = q * r →
        read_bytes w1.out (1024 + 4096 * (k + q)) hinfo.page_header_size
          = sas_data_page_header env hinfo
              (if w.row_count - ((q * r : Nat) : Int) < (r : Int)
                then w.row_count - ((q * r : Nat) : Int) else (r : Int))) := by
  induction rows generalizing w i with
  | nil =>
    refine ⟨w, rfl, hout, ⟨[], by simp⟩, ?_, ?_⟩
    · intro j q t row hj
      simp at hj
    · intro j q hj
      simp at hj
  | cons row rest ih =>
    have hstep : ∃ w1, sas_write_row env w row (sas_row_length w) = .ok w1 ∧
        same_schema w w1 ∧ w1.out.length = w1.bytes_written ∧
        (∃ more, w1.out = w.out ++ more) ∧
        (∃ q t, i + 1 = q * r + t ∧ 1 ≤ t ∧ t ≤ r ∧
          w1.bytes_written = 1024 + 4096 * (k + q) + hinfo.page_header_size + t * L) ∧
        (∀ q t : Nat, t < r → i = q * r + t →
          1024 + 4096 * (k + q) + hinfo.page_header_size + t * L + L ≤ w1.bytes_written ∧
          read_bytes w1.out (1024 + 4096 * (k + q) + hinfo.page_header_size + t * L) L
            = read_bytes row 0 L) ∧
        (∀ q : Nat, i = q * r →
          1024 + 4096 * (k + q) + hinfo.page_header_size ≤ w1.bytes_written ∧
          read_bytes w1.out (1024 + 4096 * (k + q)) hinfo.page_header_size
            = sas_data_page_header env hinfo
                (if w.row_count - ((q * r : Nat) : Int) < (r : Int)
                  then w.row_count - ((q * r : Nat) : Int) else (r : Int))) := by
      have hnew : ∀ qm : Nat, i = qm * r → w.bytes_written ≤ 1024 + 4096 * (k + qm) →
          1024 + 4096 * (k + qm) < w.bytes_written + 4096 → 1024 ≤ w.bytes_written →
          ∃ w1, sas_write_row env w row (sas_row_length w) = .ok w1 ∧
            same_schema w w1 ∧ w1.out.length = w1.bytes_written ∧
            (∃ more, w1.out = w.out ++ more) ∧
            (∃ q t, i + 1 = q * r + t ∧ 1 ≤ t ∧ t ≤ r ∧
              w1.bytes_written = 1024 + 4096 * (k + q) + hinfo.page_header_size + t * L) ∧
            (∀ q t : Nat, t < r → i = q * r + t →
              1024 + 4096 * (k + q) + hinfo.page_header_size + t * L + L ≤ w1.bytes_written ∧
              read_bytes w1.out (1024 + 4096 * (k + q) + hinfo.page_header_size + t * L) L
                = read_bytes row 0 L) ∧
            (∀ q : Nat, i = q * r →
              1024 + 4096 * (k + q) + hinfo.page_header_size ≤ w1.bytes_written ∧
              read_bytes w1.out (1024 + 4096 * (k + q)) hinfo.page_header_size
                = sas_data_page_header env hinfo
                    (if w.row_count - ((q * r : Nat) : Int) < (r : Int)
                      then w.row_count - ((q * r : Nat) : Int) else (r : Int))) := by
        intro qm hi hb1 hb2 hb0
        obtain ⟨w1, e1, s1, o1, m1, b1, rd1, hd1⟩ := sas_write_row_opens_page env hinfo L r k qm
          hps hhs hr0 row w hctx hroom hlen hr (by rw [hcur, hi]) hout hb1 hb2 hb0
        refine ⟨w1, e1, s1, o1, m1, ⟨qm, 1, by omega, by omega, hr0, by omega⟩, ?_, ?_⟩
        · intro q t ht hqt
          have hu := mul_add_unique r q t qm 0 ht (by omega) (by omega)
          obtain ⟨hq, ht0⟩ := hu
          subst hq
          subst ht0
          refine ⟨by omega, ?_⟩
          have hz : 1024 + 4096 * (k + q) + hinfo.page_header_size + 0 * L
              = 1024 + 4096 * (k + q) + hinfo.page_header_size := by omega
          rw [hz]
          exact rd1
        · intro q hq
          have hu := mul_add_unique r q 0 qm 0 (by omega) (by omega) (by omega)
          obtain ⟨hq1, _⟩ := hu
          subst hq1
          exact ⟨by omega, hd1⟩
      rcases hpos with ⟨hi, hb⟩ | ⟨q1, t1, hi, ht1, ht2, hb⟩
      · exact hnew 0 (by omega) (by omega) (by omega) (by omega)
      · by_cases htr : t1 = r
        · have hrl : t1 * L = r * L := by rw [htr]
          rw [hrl] at hb
          have hpos0 : 1 ≤ r * L := Nat.mul_pos (by omega) (by omega)
          have hi2 : i = (q1 + 1) * r := by
            rw [hi, htr, Nat.add_mul]
            omega
          generalize r * L = x at hb hfit hpos0
          exact hnew (q1 + 1) hi2 (by omega) (by omega) (by omega)
        · have ht3 : t1 < r := by omega
          obtain ⟨w1, e1, s1, o1, m1, b1, rd1⟩ := sas_write_row_inside_page env hinfo L r q1 t1
            row w hctx hroom hlen hr (by rw [hcur, hi]) ht1 ht3 hout
          refine ⟨w1, e1, s1, o1, m1, ⟨q1, t1 + 1, by omega, by omega, by omega, ?_⟩, ?_, ?_⟩
          · rw [b1, hb, Nat.add_mul]
            omega
          · intro q t ht hqt
            have hu := mul_add_unique r q t q1 t1 ht ht3 (by omega)
            obtain ⟨hq, ht0⟩ := hu
            subst hq
            subst ht0
            rw [← hb]
            exact ⟨by omega, rd1⟩
          · intro q hq
            have hu := mul_add_unique r q 0 q1 t1 (by omega) ht3 (by omega)
            omega
    obtain ⟨w1, e1, s1, o1, ⟨more1, m1⟩, hpos1, hrow1, hhdr1⟩ := hstep
    obtain ⟨v1, v2, v3, v4, v5, v6⟩ := s1
    have ih1 := ih { w1 with current_row := w1.current_row + 1 } (i + 1)
      (v6.trans hctx) (v5.trans hroom)
      ((sas_row_length_congr w _ v1).trans hlen)
      ((sas_rows_per_page_congr w _ hinfo v1).trans hr)
      (by simp only [v3, hcur]; push_cast; rfl) o1 (Or.inr hpos1)
    obtain ⟨w2, e2, o2, ⟨more2, m2⟩, hrow2, hhdr2⟩ := ih1
    have m2a : w2.out = w1.out ++ more2 := m2
    refine ⟨w2, ?_, o2, ⟨more1 ++ more2, ?_⟩, ?_, ?_⟩
    · simp only [write_rows, e1, e2]
    · rw [m2a, m1, List.append_assoc]
    · intro j q t row1 hj ht hqt
      cases j with
      | zero =>
        simp only [List.getElem?_cons_zero, Option.some.injEq] at hj
        subst hj
        obtain ⟨hbound, hread⟩ := hrow1 q t ht (by omega)
        rw [m2a, read_bytes_append_left _ _ _ _ (by rw [o1]; exact hbound)]
        exact hread
      | succ j =>
        simp only [List.getElem?_cons_succ] at hj
        exact hrow2 j q t row1 hj ht (by omega)
    · intro j q hj hq
      cases j with
      | zero =>
        obtain ⟨hbound, hread⟩ := hhdr1 q (by omega)
        rw [m2a, read_bytes_append_left _ _ _ _ (by rw [o1]; exact hbound)]
        exact hread
      | succ j =>
        simp only [List.length_cons] at hj
        have := hhdr2 j q (by omega) (by omega)
        have hrc : ({ w1 with current_row := w1.current_row + 1 } : readstat_writer_t).row_count
            = w.row_count := v2
        rw [hrc] at this
        exact this

theorem le_bytes_int_length (n : Nat) (v : Int) : (le_bytes_int n v).length = n := by
  simp only [le_bytes_int, le_bytes_length]

/-- The content of a data-page header. -/
theorem sas_data_page_header_content (env : sas_env) (hinfo : sas_header_info_t) (c : Int)
    (h8 : 8 ≤ hinfo.page_header_size) :
    read_bytes (sas_data_page_header env hinfo c) (hinfo.page_header_size - 8) 2
      = le_bytes_int 2 env.PAGE_TYPE_DATA ∧
    read_bytes (sas_data_page_header env hinfo c) (hinfo.page_header_size - 6) 2
      = le_bytes_int 2 c ∧
    (∀ pos, pos < hinfo.page_header_size - 8 ∨ hinfo.page_header_size - 4 ≤ pos →
      (sas_data_page_header env hinfo c).getD pos 0 = 0) := by
  refine ⟨?_, ?_, ?_⟩
  · simp only [sas_data_page_header]
    rw [read_bytes_read_bytes _ _ _ _ (by omega)]
    have e := read_bytes_mem_write_same
      (mem_write (List.replicate hinfo.page_header_size 0) (hinfo.page_header_size - 6)
        (le_bytes_int 2 c)) (le_bytes_int 2 env.PAGE_TYPE_DATA) (hinfo.page_header_size - 8)
    rw [le_bytes_int_length] at e
    exact e
  · simp only [sas_data_page_header]
    rw [read_bytes_read_bytes _ _ _ _ (by omega),
      read_bytes_mem_write_disjoint _ _ _ _ _
        (Or.inr (by rw [le_bytes_int_length]; omega))]
    have e := read_bytes_mem_write_same (List.replicate hinfo.page_header_size 0)
      (le_bytes_int 2 c) (hinfo.page_header_size - 6)
    rw [le_bytes_int_length] at e
    exact e
  · intro pos hpos
    rcases Nat.lt_or_ge pos hinfo.page_header_size with hlt | hge
    · simp only [sas_data_page_header]
      have e := getD_read_bytes
        (mem_write (mem_write (List.replicate hinfo.page_header_size 0)
          (hinfo.page_header_size - 6) (le_bytes_int 2 c)) (hinfo.page_header_size - 8)
          (le_bytes_int 2 env.PAGE_TYPE_DATA)) 0 hinfo.page_header_size pos hlt
      rw [Nat.zero_add] at e
      rw [e]
      rcases hpos with h | h
      · rw [getD_mem_write_lt _ _ _ _ h, getD_mem_write_lt _ _ _ _ (by omega),
          getD_replicate_zero]
      · rw [getD_mem_write_ge _ _ _ _ (by rw [le_bytes_int_length]; omega),
          getD_mem_write_ge _ _ _ _ (by rw [le_bytes_int_length]; omega), getD_replicate_zero]
    · exact List.getD_eq_default _ _ (by rw [sas_data_page_header_length]; exact hge)

/-- The ceiling that `sas_count_data_pages` computes, as a natural number. -/
theorem spec_data_pages_nat (n r : Nat) (hr : 1 ≤ r) :
    spec_data_pages (n : Int) (r : Int) = (((n + (r - 1)) / r : Nat) : Int) := by
  rw [← tdiv_eq_spec_data_pages _ _ (by omega) (by omega)]
  have h : ((n : Int) + ((r : Int) - 1)) = ((n + (r - 1) : Nat) : Int) := by omega
  rw [h]
  rfl

theorem lt_ceil_div_iff (n r q : Nat) (hr : 1 ≤ r) :
    q * r < n ↔ q < (n + (r - 1)) / r := by
  have h : q < (n + (r - 1)) / r ↔ q + 1 ≤ (n + (r - 1)) / r := Iff.rfl
  rw [h, Nat.le_div_iff_mul_le (by omega), Nat.add_mul]
  generalize q * r = x
  omega

/-- The data-page count of the code is the ceiling of `row_count / rows_per_page` whenever
that ceiling fits an `int32_t`. -/
theorem sas_count_data_pages_nat (w : readstat_writer_t) (hinfo : sas_header_info_t)
    (n r : Nat) (hrc : w.row_count = (n : Int))
    (hr : sas_rows_per_page w hinfo = .ok (r : Int)) (hr0 : 1 ≤ r)
    (hp : (n + (r - 1)) / r < 2 ^ 31) :
    sas_count_data_pages w hinfo = .ok (((n + (r - 1)) / r : Nat) : Int) := by
  have hne : ((r : Int) = 0) = False := by
    simp only [eq_iff_iff, iff_false]
    omega
  simp only [sas_count_data_pages, hr, hne, if_false, hrc]
  rw [tdiv_eq_spec_data_pages _ _ (by omega) (by omega), spec_data_pages_nat _ _ hr0]
  generalize (n + (r - 1)) / r = p at hp
  rw [to_int32_of_range _ (by omega) (by omega)]

/-! ## The signature field of a subheader -/

theorem le_bytes_append (m n v : Nat) :
    le_bytes (m + n) v = le_bytes m v ++ le_bytes n (v / 256 ^ m) := by
  induction m generalizing v with
  | zero => simp [le_bytes]
  | succ m ih =>
    have h : m + 1 + n = (m + n) + 1 := by omega
    rw [h]
    simp only [le_bytes, List.cons_append]
    rw [ih (v / 256), Nat.div_div_eq_div_mul, pow_succ, Nat.mul_comm 256]

/-- The 8 bytes of `(int64_t)(int32_t)s` for a 32-bit value with the top bit set: the 4 bytes of
`s`, then four bytes 0xFF. -/
theorem le_bytes_int_sign_extend (s : Nat) (h1 : 2 ^ 31 ≤ s) (h2 : s < 2 ^ 32) :
    le_bytes_int 8 (to_int32 (s : Int)) = le_bytes 4 s ++ [255, 255, 255, 255] := by
  have hv : to_int32 (s : Int) = (s : Int) - 2 ^ 32 := by
    unfold to_int32
    omega
  have hn : (((s : Int) - 2 ^ 32) % ((256 ^ 8 : Nat) : Int)).toNat
      = 18446744069414584320 + s := by
    norm_num
    omega
  have e := le_bytes_append 4 4 (18446744069414584320 + s)
  have hq : (18446744069414584320 + s) / 256 ^ 4 = 4294967295 := by
    norm_num
    omega
  have hl : le_bytes 4 (18446744069414584320 + s) = le_bytes 4 s := by
    apply le_bytes_congr_mod
    norm_num
    omega
  rw [hq, hl] at e
  rw [le_bytes_int, hv, hn]
  exact e

theorem getD_write_text_ref_lt (data : List Nat) (off pos : Nat) (ref : sas_text_ref_t)
    (h : pos < off) : (write_text_ref data off ref).getD pos 0 = data.getD pos 0 := by
  simp only [write_text_ref]
  rw [getD_mem_write_lt _ _ _ _ (by omega), getD_mem_write_lt _ _ _ _ (by omega),
    getD_mem_write_lt _ _ _ _ (by omega)]

theorem sas_col_format_loop_mem (env : sas_env) (hinfo : sas_header_info_t)
    (vars : List readstat_variable_t) (cta : List sas_column_text_t) (sh : sas_subheader_t)
    (h : sh ∈ (sas_col_format_loop env hinfo vars cta).1) :
    ∃ v c, sh = (sas_col_format_subheader_init env v hinfo c).1 := by
  induction vars generalizing cta with
  | nil => simp [sas_col_format_loop] at h
  | cons u rest ih =>
    simp only [sas_col_format_loop, List.mem_cons] at h
    rcases h with h | h
    · exact ⟨u, cta, h⟩
    · exact ih _ h

theorem row_size_prefix_zero (env : sas_env) (w : readstat_writer_t) (hinfo : sas_header_info_t)
    (pos : Nat) (hpos : pos < 8) :
    (sas_row_size_subheader_init env w hinfo).data.getD pos 0 = 0 := by
  cases hu : hinfo.u64
  · simp only [sas_row_size_subheader_init, sas_subheader_init, hu, Bool.false_eq_true,
      if_false]
    rw [getD_mem_write_lt _ _ _ _ (by omega), getD_mem_write_lt _ _ _ _ (by omega),
      getD_mem_write_lt _ _ _ _ (by omega), getD_replicate_zero]
  · simp only [sas_row_size_subheader_init, sas_subheader_init, hu, if_true]
    rw [getD_mem_write_lt _ _ _ _ (by omega), getD_mem_write_lt _ _ _ _ (by omega),
      getD_mem_write_lt _ _ _ _ (by omega), getD_replicate_zero]

theorem col_size_prefix_zero (env : sas_env) (w : readstat_writer_t) (hinfo : sas_header_info_t)
    (pos : Nat) (hpos : pos < (if hinfo.u64 then 8 else 4)) :
    (sas_col_size_subheader_init env w hinfo).data.getD pos 0 = 0 := by
  cases hu : hinfo.u64
  · rw [hu] at hpos
    simp only [sas_col_size_subheader_init, sas_subheader_init, hu, Bool.false_eq_true,
      if_false] at hpos ⊢
    rw [getD_mem_write_lt _ _ _ _ hpos, getD_replicate_zero]
  · rw [hu] at hpos
    simp only [sas_col_size_subheader_init, sas_subheader_init, hu, if_true] at hpos ⊢
    rw [getD_mem_write_lt _ _ _ _ hpos, getD_replicate_zero]

theorem col_name_prefix_zero (env : sas_env) (w : readstat_writer_t) (hinfo : sas_header_info_t)
    (cta : List sas_column_text_t) (pos : Nat) (hpos : pos < (if hinfo.u64 then 8 else 4)) :
    (sas_col_name_subheader_init env w hinfo cta).1.data.getD pos 0 = 0 := by
  simp only [sas_col_name_subheader_init, sas_subheader_init]
  rw [sas_col_name_loop_getD _ _ ((if hinfo.u64 then 8 else 4) + 8) _ pos (Or.inl (by omega)),
    getD_mem_write_lt _ _ _ _ hpos, getD_replicate_zero]

theorem col_attrs_prefix_zero (env : sas_env) (w : readstat_writer_t) (hinfo : sas_header_info_t)
    (pos : Nat) (hpos : pos < (if hinfo.u64 then 8 else 4)) :
    (sas_col_attrs_subheader_init env w hinfo).data.getD pos 0 = 0 := by
  simp only [sas_col_attrs_subheader_init, sas_subheader_init]
  rw [sas_col_attrs_loop_getD_lt env hinfo _ _ ((if hinfo.u64 then 8 else 4) + 8) _ pos
      (by omega),
    getD_mem_write_lt _ _ _ _ hpos, getD_replicate_zero]

theorem col_format_prefix_zero (env : sas_env) (v : readstat_variable_t)
    (hinfo : sas_header_info_t) (cta : List sas_column_text_t) (pos : Nat) (hpos : pos < 8) :
    (sas_col_format_subheader_init env v hinfo cta).1.data.getD pos 0 = 0 := by
  have h1 : pos < (if hinfo.u64 then 46 else 34) := by
    cases hinfo.u64 <;> simp <;> omega
  have h2 : pos < (if hinfo.u64 then 52 else 40) := by
    cases hinfo.u64 <;> simp <;> omega
  simp only [sas_col_format_subheader_init, sas_subheader_init]
  cases v.format <;> cases v.label
  · exact getD_replicate_zero _ _
  · simp only
    rw [getD_write_text_ref_lt _ _ _ _ h2, getD_replicate_zero]
  · simp only
    rw [getD_write_text_ref_lt _ _ _ _ h1, getD_replicate_zero]
  · simp only
    rw [getD_write_text_ref_lt _ _ _ _ h2, getD_write_text_ref_lt _ _ _ _ h1,
      getD_replicate_zero]

theorem col_text_prefix_zero (env : sas_env) (hinfo : sas_header_info_t)
    (b : sas_column_text_t) (pos : Nat) (hpos : pos < (if hinfo.u64 then 8 else 4)) :
    (sas_col_text_subheader_init env hinfo b).data.getD pos 0 = 0 := by
  simp only [sas_col_text_subheader_init, sas_subheader_init]
  rw [getD_mem_write_lt _ _ _ _ (by omega), getD_mem_write_lt _ _ _ _ (by omega),
    getD_mem_write_lt _ _ _ _ hpos, getD_replicate_zero]

/-- Every subheader that `sas_subheader_array_init` builds leaves the signature field of its
data zero. -/
theorem subheader_array_prefix_zero (env : sas_env) (w : readstat_writer_t)
    (hinfo : sas_header_info_t) (sh : sas_subheader_t)
    (hmem : sh ∈ sas_subheader_array_init env w hinfo) (pos : Nat)
    (hpos : pos < (if hinfo.u64 then 8 else 4)) : sh.data.getD pos 0 = 0 := by
  have h8 : pos < 8 := by
    cases hu : hinfo.u64
    · rw [hu] at hpos
      simp only [Bool.false_eq_true, if_false] at hpos
      omega
    · rw [hu] at hpos
      simpa using hpos
  rw [sas_subheader_array_init_eq] at hmem
  simp only [List.mem_append, List.mem_cons, List.mem_singleton, List.mem_map,
    List.not_mem_nil, or_false] at hmem
  rcases hmem with ((h | h | h | h) | h) | ⟨b, _, h⟩
  · rw [h]
    exact row_size_prefix_zero env w hinfo pos h8
  · rw [h]
    exact col_size_prefix_zero env w hinfo pos hpos
  · rw [h]
    exact col_name_prefix_zero env w hinfo _ pos hpos
  · rw [h]
    exact col_attrs_prefix_zero env w hinfo pos hpos
  · obtain ⟨v, c, hv⟩ := sas_col_format_loop_mem env hinfo _ _ sh h
    rw [hv]
    exact col_format_prefix_zero env v hinfo c pos h8
  · rw [← h]
    exact col_text_prefix_zero env hinfo b pos hpos

/-! ## Meta pages: pointers and data on the page -/

theorem meta_page_placed_append_rest (ps gap : Nat) (subs : List sas_subheader_t) :
    meta_page_placed ps gap subs ++ meta_page_rest ps gap subs = subs := by
  induction subs generalizing gap with
  | nil => rfl
  | cons s rest ih =>
    simp only [meta_page_placed, meta_page_rest]
    by_cases h : s.len + ps < gap
    · rw [if_pos h, if_pos h, List.cons_append, ih]
    · rw [if_neg h, if_neg h, List.nil_append]

/-- The pointers and the data of the placed subheaders fit the gap. -/
theorem meta_page_placed_fits (ps gap : Nat) (subs : List sas_subheader_t) :
    ps * (meta_page_placed ps gap subs).length
      + ((meta_page_placed ps gap subs).map (fun s => s.len)).sum ≤ gap := by
  induction subs generalizing gap with
  | nil => simp [meta_page_placed]
  | cons s rest ih =>
    simp only [meta_page_placed]
    by_cases h : s.len + ps < gap
    · rw [if_pos h]
      have := ih (gap - (s.len + ps))
      simp only [List.length_cons, List.map_cons, List.sum_cons, Nat.mul_succ]
      generalize ps * (meta_page_placed ps (gap - (s.len + ps)) rest).length = x at this
      omega
    · rw [if_neg h]
      simp

/-- The four stores of one round of the inner loop do not change a byte outside the pointer
and the data; inside the pointer they leave the byte at `2 * a` and the bytes from
`2 * a + 2` on as they were (`a` is the size of the offset and length fields). -/
theorem getD_pointer_and_data (page : List Nat) (ptr a doff pos : Nat) (o l d : List Nat)
    (t : Nat) (ho : o.length = a) (hl : l.length = a) (hd : ptr + (2 * a + 2) ≤ doff)
    (hpos : pos < ptr ∨ pos = ptr + 2 * a ∨ (ptr + (2 * a + 2) ≤ pos ∧ pos < doff) ∨
      doff + d.length ≤ pos) :
    (mem_write (mem_write (mem_write (mem_write page ptr o) (ptr + a) l) (ptr + (2 * a + 1)) [t])
      doff d).getD pos 0 = page.getD pos 0 := by
  rcases hpos with h | h | h | h
  · rw [getD_mem_write_lt _ _ _ _ (by omega), getD_mem_write_lt _ _ _ _ (by omega),
      getD_mem_write_lt _ _ _ _ (by omega), getD_mem_write_lt _ _ _ _ h]
  · rw [getD_mem_write_lt _ _ _ _ (by omega), getD_mem_write_lt _ _ _ _ (by omega),
      getD_mem_write_ge _ _ _ _ (by rw [hl]; omega),
      getD_mem_write_ge _ _ _ _ (by rw [ho]; omega)]
  · rw [getD_mem_write_lt _ _ _ _ h.2,
      getD_mem_write_ge _ _ _ _ (by rw [List.length_singleton]; omega),
      getD_mem_write_ge _ _ _ _ (by rw [hl]; omega),
      getD_mem_write_ge _ _ _ _ (by rw [ho]; omega)]
  · rw [getD_mem_write_ge _ _ _ _ h,
      getD_mem_write_ge _ _ _ _ (by rw [List.length_singleton]; omega),
      getD_mem_write_ge _ _ _ _ (by rw [hl]; omega),
      getD_mem_write_ge _ _ _ _ (by rw [ho]; omega)]

/-- The pointer that one round of the inner loop stores, read back. -/
theorem read_pointer (page : List Nat) (ptr a doff : Nat) (o l d : List Nat) (t : Nat)
    (ho : o.length = a) (hl : l.length = a) (h2 : 2 ≤ a) (hd : ptr + 3 * a ≤ doff) :
    read_bytes (mem_write (mem_write (mem_write (mem_write page ptr o) (ptr + a) l)
        (ptr + (2 * a + 1)) [t]) doff d) ptr (3 * a)
      = o ++ l ++ [page.getD (ptr + 2 * a) 0, t] ++ read_bytes page (ptr + (2 * a + 2)) (a - 2) := by
  have hlen : 3 * a = (o ++ l ++ [page.getD (ptr + 2 * a) 0, t]
      ++ read_bytes page (ptr + (2 * a + 2)) (a - 2)).length := by
    simp only [List.length_append, ho, hl, List.length_cons, List.length_nil, read_bytes_length]
    omega
  rw [hlen]
  apply read_bytes_eq_of_getD
  intro i hi
  rw [← hlen] at hi
  simp only [List.getD_eq_getElem?_getD]
  rcases Nat.lt_or_ge i a with h1 | h1
  · -- the offset field
    have e := getD_mem_write_mid page o ptr i (by omega)
    rw [List.append_assoc, List.append_assoc, List.getElem?_append_left (by omega)]
    simp only [List.getD_eq_getElem?_getD] at e
    rw [← e]
    have f1 := getD_mem_write_lt (mem_write (mem_write (mem_write page ptr o) (ptr + a) l)
      (ptr + (2 * a + 1)) [t]) d doff (ptr + i) (by omega)
    have f2 := getD_mem_write_lt (mem_write (mem_write page ptr o) (ptr + a) l) [t]
      (ptr + (2 * a + 1)) (ptr + i) (by omega)
    have f3 := getD_mem_write_lt (mem_write page ptr o) l (ptr + a) (ptr + i) (by omega)
    simp only [List.getD_eq_getElem?_getD] at f1 f2 f3
    rw [f1, f2, f3]
  · rcases Nat.lt_or_ge i (2 * a) with h3 | h3
    · -- the length field
      have e := getD_mem_write_mid (mem_write page ptr o) l (ptr + a) (i - a) (by omega)
      have hp : ptr + a + (i - a) = ptr + i := by omega
      rw [hp] at e
      rw [List.append_assoc, List.append_assoc, List.getElem?_append_right (by omega),
        List.getElem?_append_left (by omega), ho]
      simp only [List.getD_eq_getElem?_getD] at e
      rw [← e]
      have f1 := getD_mem_write_lt (mem_write (mem_write (mem_write page ptr o) (ptr + a) l)
        (ptr + (2 * a + 1)) [t]) d doff (ptr + i) (by omega)
      have f2 := getD_mem_write_lt (mem_write (mem_write page ptr o) (ptr + a) l) [t]
        (ptr + (2 * a + 1)) (ptr + i) (by omega)
      simp only [List.getD_eq_getElem?_getD] at f1 f2
      rw [f1, f2]
    · have hol : (o ++ l).length = 2 * a := by
        rw [List.length_append, ho, hl]
        omega
      rw [List.append_assoc (o ++ l), List.getElem?_append_right (by omega), hol]
      rcases Nat.lt_or_ge i (2 * a + 2) with h4 | h4
      · rw [List.getElem?_append_left (by simp; omega)]
        have hc : i = 2 * a ∨ i = 2 * a + 1 := by omega
        rcases hc with hc | hc
        · subst hc
          have g := getD_pointer_and_data page ptr a doff (ptr + 2 * a) o l d t ho hl
            (by omega) (Or.inr (Or.inl rfl))
          simp only [List.getD_eq_getElem?_getD] at g
          rw [g, Nat.sub_self]
          rfl
        · subst hc
          have f1 := getD_mem_write_lt (mem_write (mem_write (mem_write page ptr o) (ptr + a) l)
            (ptr + (2 * a + 1)) [t]) d doff (ptr + (2 * a + 1)) (by omega)
          have e := getD_mem_write_mid (mem_write (mem_write page ptr o) (ptr + a) l) [t]
            (ptr + (2 * a + 1)) 0 (by simp)
          simp only [List.getD_eq_getElem?_getD, Nat.add_zero] at f1 e
          rw [f1, e]
          have hs : 2 * a + 1 - 2 * a = 1 := by omega
          rw [hs]
          rfl
      · rw [List.getElem?_append_right (by simp; omega)]
        have g := getD_pointer_and_data page ptr a doff (ptr + i) o l d t ho hl
          (by omega) (Or.inr (Or.inr (Or.inl ⟨by omega, by omega⟩)))
        have e := getD_read_bytes page (ptr + (2 * a + 2)) (a - 2) (i - (2 * a + 2)) (by omega)
        have hp : ptr + (2 * a + 2) + (i - (2 * a + 2)) = ptr + i := by omega
        rw [hp] at e
        simp only [List.getD_eq_getElem?_getD] at g e
        rw [g, ← e]
        congr 2

/-- The page after one round of the inner loop, with the field size `a` (8 or 4). -/
theorem sas_emit_subheader_page (env : sas_env) (hinfo : sas_header_info_t) (a : Nat)
    (ha : a = if hinfo.u64 then 8 else 4) (st : sas_meta_page_state) (sh : sas_subheader_t)
    (rest : List sas_subheader_t) :
    (sas_emit_subheader env hinfo st sh rest).page
      = mem_write (mem_write (mem_write (mem_write st.page st.shp_ptr_offset
            (le_bytes a (st.shp_data_offset - sh.len))) (st.shp_ptr_offset + a)
            (le_bytes a sh.len)) (st.shp_ptr_offset + (2 * a + 1))
            [sas_subheader_type env sh.signature])
          (st.shp_data_offset - sh.len) (read_bytes (sas_subheader_signed hinfo sh) 0 sh.len) := by
  subst ha
  simp only [sas_emit_subheader]
  cases hinfo.u64 <;> rfl

theorem read_bytes_zero (page : List Nat) (off n : Nat)
    (h : ∀ i, i < n → page.getD (off + i) 0 = 0) :
    read_bytes page off n = List.replicate n 0 := by
  have e := read_bytes_eq_of_getD page (List.replicate n 0) off
  rw [List.length_replicate] at e
  apply e
  intro i hi
  rw [h i hi, getD_replicate_zero]

theorem field_size_ge_two (hinfo : sas_header_info_t) (a : Nat)
    (ha : a = if hinfo.u64 then 8 else 4) : 4 ≤ a := by
  subst ha
  cases hinfo.u64 <;> simp

/-- The inner loop leaves every byte before the pointer table position and from the data
position on as it was. -/
theorem sas_emit_meta_page_loop_frame (env : sas_env) (hinfo : sas_header_info_t) (a : Nat)
    (ha : a = if hinfo.u64 then 8 else 4) (hps : hinfo.subheader_pointer_size = 3 * a)
    (subs : List sas_subheader_t) (st : sas_meta_page_state) (pos : Nat)
    (hpos : pos < st.shp_ptr_offset ∨ st.shp_data_offset ≤ pos) :
    (sas_emit_meta_page_loop env hinfo subs st).page.getD pos 0 = st.page.getD pos 0 := by
  have h4 := field_size_ge_two hinfo a ha
  induction subs generalizing st with
  | nil => rfl
  | cons s rest ih =>
    simp only [sas_emit_meta_page_loop]
    by_cases g : s.len + hinfo.subheader_pointer_size < st.shp_data_offset - st.shp_ptr_offset
    · rw [if_pos g]
      have hp1 : (sas_emit_subheader env hinfo st s rest).shp_ptr_offset
          = st.shp_ptr_offset + hinfo.subheader_pointer_size := rfl
      have hp2 : (sas_emit_subheader env hinfo st s rest).shp_data_offset
          = st.shp_data_offset - s.len := rfl
      rw [ih _ (by rw [hp1, hp2]; omega), sas_emit_subheader_page env hinfo a ha]
      apply getD_pointer_and_data _ _ _ _ _ _ _ _ _ (le_bytes_length _ _) (le_bytes_length _ _)
        (by omega)
      rw [read_bytes_length]
      omega
    · rw [if_neg g]

/-- The inner loop does not change the length of the page. -/
theorem sas_emit_meta_page_loop_length (env : sas_env) (hinfo : sas_header_info_t) (a : Nat)
    (ha : a = if hinfo.u64 then 8 else 4) (hps : hinfo.subheader_pointer_size = 3 * a)
    (subs : List sas_subheader_t) (st : sas_meta_page_state)
    (hlen : st.shp_data_offset ≤ st.page.length) :
    (sas_emit_meta_page_loop env hinfo subs st).page.length = st.page.length := by
  have h4 := field_size_ge_two hinfo a ha
  induction subs generalizing st with
  | nil => rfl
  | cons s rest ih =>
    simp only [sas_emit_meta_page_loop]
    by_cases g : s.len + hinfo.subheader_pointer_size < st.shp_data_offset - st.shp_ptr_offset
    · rw [if_pos g]
      have hp2 : (sas_emit_subheader env hinfo st s rest).shp_data_offset
          = st.shp_data_offset - s.len := rfl
      have hl : (sas_emit_subheader env hinfo st s rest).page.length = st.page.length := by
        rw [sas_emit_subheader_page env hinfo a ha]
        simp only [mem_write_length, le_bytes_length, List.length_singleton, read_bytes_length]
        omega
      rw [ih _ (by rw [hp2, hl]; omega), hl]
    · rw [if_neg g]

/-- The loop variables after the inner loop. -/
theorem sas_emit_meta_page_loop_vars (env : sas_env) (hinfo : sas_header_info_t)
    (subs : List sas_subheader_t) (st : sas_meta_page_state) :
    (sas_emit_meta_page_loop env hinfo subs st).shp_count
      = st.shp_count + ((meta_page_placed hinfo.subheader_pointer_size
          (st.shp_data_offset - st.shp_ptr_offset) subs).length : Int) ∧
    (sas_emit_meta_page_loop env hinfo subs st).shp_ptr_offset
      = st.shp_ptr_offset + hinfo.subheader_pointer_size
          * (meta_page_placed hinfo.subheader_pointer_size
              (st.shp_data_offset - st.shp_ptr_offset) subs).length ∧
    (sas_emit_meta_page_loop env hinfo subs st).shp_data_offset
      = st.shp_data_offset - ((meta_page_placed hinfo.subheader_pointer_size
          (st.shp_data_offset - st.shp_ptr_offset) subs).map (fun s => s.len)).sum := by
  induction subs generalizing st with
  | nil => simp [sas_emit_meta_page_loop, meta_page_placed]
  | cons s rest ih =>
    simp only [sas_emit_meta_page_loop, meta_page_placed]
    by_cases g : s.len + hinfo.subheader_pointer_size < st.shp_data_offset - st.shp_ptr_offset
    · rw [if_pos g, if_pos g]
      have hgap : (sas_emit_subheader env hinfo st s rest).shp_data_offset
            - (sas_emit_subheader env hinfo st s rest).shp_ptr_offset
          = st.shp_data_offset - st.shp_ptr_offset - (s.len + hinfo.subheader_pointer_size) := by
        simp only [sas_emit_subheader]
        omega
      obtain ⟨h1, h2, h3⟩ := ih (sas_emit_subheader env hinfo st s rest)
      rw [hgap] at h1 h2 h3
      refine ⟨?_, ?_, ?_⟩
      · rw [h1]
        simp only [sas_emit_subheader, List.length_cons]
        push_cast
        omega
      · rw [h2]
        simp only [sas_emit_subheader, List.length_cons, Nat.mul_succ]
        omega
      · rw [h3]
        simp only [sas_emit_subheader, List.map_cons, List.sum_cons]
        omega
    · rw [if_neg g, if_neg g]
      simp

/-- The pointer and the data of the `k`-th subheader that the inner loop places, as they stand
on the page when the loop ends; the page is zero between the pointer table and the data area
when the loop starts. -/
theorem sas_emit_meta_page_loop_placed (env : sas_env) (hinfo : sas_header_info_t) (a : Nat)
    (ha : a = if hinfo.u64 then 8 else 4) (hps : hinfo.subheader_pointer_size = 3 * a)
    (subs : List sas_subheader_t) (st : sas_meta_page_state) (k : Nat) (sh : sas_subheader_t)
    (hk : (meta_page_placed hinfo.subheader_pointer_size
      (st.shp_data_offset - st.shp_ptr_offset) subs)[k]? = some sh)
    (hz : ∀ pos, st.shp_ptr_offset ≤ pos → pos < st.shp_data_offset → st.page.getD pos 0 = 0) :
    read_bytes (sas_emit_meta_page_loop env hinfo subs st).page
        (st.shp_ptr_offset + hinfo.subheader_pointer_size * k) hinfo.subheader_pointer_size
      = le_bytes a (st.shp_data_offset
          - (((meta_page_placed hinfo.subheader_pointer_size
              (st.shp_data_offset - st.shp_ptr_offset) subs).take (k + 1)).map
                (fun s => s.len)).sum)
        ++ le_bytes a sh.len ++ [0, sas_subheader_type env sh.signature]
        ++ List.replicate (a - 2) 0 ∧
    read_bytes (sas_emit_meta_page_loop env hinfo subs st).page
        (st.shp_data_offset
          - (((meta_page_placed hinfo.subheader_pointer_size
              (st.shp_data_offset - st.shp_ptr_offset) subs).take (k + 1)).map
                (fun s => s.len)).sum) sh.len
      = read_bytes (sas_subheader_signed hinfo sh) 0 sh.len := by
  have h4 := field_size_ge_two hinfo a ha
  induction subs generalizing st k with
  | nil => simp [meta_page_placed] at hk
  | cons s rest ih =>
    simp only [meta_page_placed] at hk ⊢
    simp only [sas_emit_meta_page_loop]
    by_cases g : s.len + hinfo.subheader_pointer_size < st.shp_data_offset - st.shp_ptr_offset
    · rw [if_pos g] at hk ⊢
      rw [if_pos g]
      have hp1 : (sas_emit_subheader env hinfo st s rest).shp_ptr_offset
          = st.shp_ptr_offset + hinfo.subheader_pointer_size := rfl
      have hp2 : (sas_emit_subheader env hinfo st s rest).shp_data_offset
          = st.shp_data_offset - s.len := rfl
      have hgap : (sas_emit_subheader env hinfo st s rest).shp_data_offset
            - (sas_emit_subheader env hinfo st s rest).shp_ptr_offset
          = st.shp_data_offset - st.shp_ptr_offset - (s.len + hinfo.subheader_pointer_size) := by
        rw [hp1, hp2]
        omega
      have hpage := sas_emit_subheader_page env hinfo a ha st s rest
      cases k with
      | zero =>
        simp only [List.getElem?_cons_zero, Option.some.injEq] at hk
        subst hk
        simp only [Nat.mul_zero, Nat.add_zero, Nat.zero_add, List.take_succ_cons, List.take_zero,
          List.map_cons, List.map_nil, List.sum_cons, List.sum_nil]
        constructor
        · have e := read_pointer st.page st.shp_ptr_offset a (st.shp_data_offset - s.len)
            (le_bytes a (st.shp_data_offset - s.len)) (le_bytes a s.len)
            (read_bytes (sas_subheader_signed hinfo s) 0 s.len)
            (sas_subheader_type env s.signature) (le_bytes_length _ _) (le_bytes_length _ _)
            (by omega) (by omega)
          rw [hz _ (by omega) (by omega),
            read_bytes_zero st.page _ _ (fun i hi => hz _ (by omega) (by omega))] at e
          rw [hps]
          refine Eq.trans ?_ e
          rw [← hpage]
          apply read_bytes_congr
          intro i hi
          exact sas_emit_meta_page_loop_frame env hinfo a ha hps rest _ _
            (Or.inl (by rw [hp1]; omega))
        · have e := read_bytes_mem_write_same
            (mem_write (mem_write (mem_write st.page st.shp_ptr_offset
              (le_bytes a (st.shp_data_offset - s.len))) (st.shp_ptr_offset + a)
              (le_bytes a s.len)) (st.shp_ptr_offset + (2 * a + 1))
              [sas_subheader_type env s.signature])
            (read_bytes (sas_subheader_signed hinfo s) 0 s.len) (st.shp_data_offset - s.len)
          rw [read_bytes_length, ← hpage] at e
          refine Eq.trans ?_ e
          apply read_bytes_congr
          intro i hi
          exact sas_emit_meta_page_loop_frame env hinfo a ha hps rest _ _
            (Or.inr (by rw [hp2]; omega))
      | succ k =>
        simp only [List.getElem?_cons_succ] at hk
        rw [← hgap] at hk
        have hz1 : ∀ pos, (sas_emit_subheader env hinfo st s rest).shp_ptr_offset ≤ pos →
            pos < (sas_emit_subheader env hinfo st s rest).shp_data_offset →
            (sas_emit_subheader env hinfo st s rest).page.getD pos 0 = 0 := by
          intro pos h1 h2
          rw [hp1] at h1
          rw [hp2] at h2
          rw [hpage, getD_pointer_and_data _ _ _ _ _ _ _ _ _ (le_bytes_length _ _)
            (le_bytes_length _ _) (by omega)
            (Or.inr (Or.inr (Or.inl ⟨by omega, h2⟩)))]
          exact hz pos (by omega) (by omega)
        obtain ⟨i1, i2⟩ := ih (sas_emit_subheader env hinfo st s rest) k hk hz1
        rw [hgap] at i1 i2
        have hpos : st.shp_ptr_offset + hinfo.subheader_pointer_size * (k + 1)
            = (sas_emit_subheader env hinfo st s rest).shp_ptr_offset
              + hinfo.subheader_pointer_size * k := by
          rw [hp1, Nat.mul_succ]
          omega
        have hsum : ∀ x : Nat, st.shp_data_offset - (s.len + x)
            = (sas_emit_subheader env hinfo st s rest).shp_data_offset - x := by
          intro x
          rw [hp2]
          omega
        simp only [List.take_succ_cons, List.map_cons, List.sum_cons]
        rw [hpos, hsum]
        exact ⟨i1, i2⟩
    · rw [if_neg g] at hk
      simp at hk

/-- The page of `sas_emit_meta_page`: the page that the inner loop leaves, with the subheader
count stored twice. -/
theorem sas_emit_meta_page_page (env : sas_env) (hinfo : sas_header_info_t)
    (sarray : List sas_subheader_t) :
    (sas_emit_meta_page env hinfo sarray).page
      = mem_write (mem_write
          (sas_emit_meta_page_loop env hinfo sarray
            { remaining := sarray
              page := mem_write (List.replicate PAGE_SIZE 0) (hinfo.page_header_size - 8)
                (le_bytes_int 2 env.PAGE_TYPE_META)
              shp_count := 0
              shp_data_offset := hinfo.page_size
              shp_ptr_offset := hinfo.page_header_size }).page
          (if hinfo.u64 then 34 else 18)
          (le_bytes_int 2 (sas_emit_meta_page_loop env hinfo sarray
            { remaining := sarray
              page := mem_write (List.replicate PAGE_SIZE 0) (hinfo.page_header_size - 8)
                (le_bytes_int 2 env.PAGE_TYPE_META)
              shp_count := 0
              shp_data_offset := hinfo.page_size
              shp_ptr_offset := hinfo.page_header_size }).shp_count))
          (if hinfo.u64 then 36 else 20)
          (le_bytes_int 2 (sas_emit_meta_page_loop env hinfo sarray
            { remaining := sarray
              page := mem_write (List.replicate PAGE_SIZE 0) (hinfo.page_header_size - 8)
                (le_bytes_int 2 env.PAGE_TYPE_META)
              shp_count := 0
              shp_data_offset := hinfo.page_size
              shp_ptr_offset := hinfo.page_header_size }).shp_count) := by
  simp only [sas_emit_meta_page]
  cases hinfo.u64 <;> rfl

theorem sas_subheader_type_eq_one_iff (env : sas_env) (signature : Nat) :
    sas_subheader_type env signature = 1 ↔
      (signature = env.SIGNATURE_COLUMN_TEXT ∨ signature = env.SIGNATURE_COLUMN_NAME ∨
        signature = env.SIGNATURE_COLUMN_ATTRS ∨ signature = env.SIGNATURE_COLUMN_LIST) := by
  unfold sas_subheader_type
  constructor
  · intro h
    by_contra hc
    rw [if_neg hc] at h
    cases h
  · intro h
    rw [if_pos h]

/-! ## The buffer-backed handlers -/

theorem to_int64_of_range (v : Int) (h0 : -2 ^ 63 ≤ v) (h1 : v < 2 ^ 63) : to_int64 v = v := by
  unfold to_int64
  omega

theorem to_int64_neg_of_large (v : Int) (h0 : 2 ^ 63 ≤ v) (h1 : v < 2 ^ 64) :
    to_int64 v < 0 := by
  unfold to_int64
  omega

/-- What `rt_seek_handler` does with a target that is the sum of a buffer quantity and an
offset. -/
theorem seek_sum (base used : Nat) (offset : Int) (hb : base ≤ used) (hu : used < 2 ^ 63)
    (h0 : -2 ^ 63 ≤ offset) (h1 : offset < 2 ^ 63) :
    (0 ≤ (base : Int) + offset ∧ (base : Int) + offset ≤ (used : Int) →
      to_int64 ((base : Int) + offset) = (base : Int) + offset) ∧
    (¬ (0 ≤ (base : Int) + offset ∧ (base : Int) + offset ≤ (used : Int)) →
      to_int64 ((base : Int) + offset) < 0 ∨ to_int64 ((base : Int) + offset) > (used : Int)) := by
  constructor
  · intro h
    exact to_int64_of_range _ (by omega) (by omega)
  · intro h
    rcases Int.lt_or_le ((base : Int) + offset) (2 ^ 63) with hlt | hge
    · rw [to_int64_of_range _ (by omega) hlt]
      omega
    · exact Or.inl (to_int64_neg_of_large _ hge (by omega))

/-- `rt_read_handler` on a context with `pos ≤ used < 2 ^ 63`, written out. -/
theorem rt_read_handler_eq (buf : List Nat) (nbytes : Nat) (buffer_ctx : rt_buffer_ctx_t)
    (hpos : buffer_ctx.pos ≤ buffer_ctx.buffer.used) (hused : buffer_ctx.buffer.used < 2 ^ 63)
    (hn : nbytes < 2 ^ 64) :
    rt_read_handler buf nbytes buffer_ctx
      = (((min nbytes (buffer_ctx.buffer.used - buffer_ctx.pos) : Nat) : Int),
          mem_write buf 0 (read_bytes buffer_ctx.buffer.bytes buffer_ctx.pos
            (min nbytes (buffer_ctx.buffer.used - buffer_ctx.pos))),
          { buffer_ctx with
            pos := buffer_ctx.pos + min nbytes (buffer_ctx.buffer.used - buffer_ctx.pos) }) := by
  have hleft : to_int64 ((buffer_ctx.buffer.used : Int) - (buffer_ctx.pos : Int))
      = ((buffer_ctx.buffer.used - buffer_ctx.pos : Nat) : Int) := by
    rw [to_int64_of_range _ (by omega) (by omega)]
    omega
  have hconv : (((buffer_ctx.buffer.used - buffer_ctx.pos : Nat) : Int) % 2 ^ 64).toNat
      = buffer_ctx.buffer.used - buffer_ctx.pos := by
    omega
  simp only [rt_read_handler, hleft, hconv]
  by_cases h1 : nbytes ≤ buffer_ctx.buffer.used - buffer_ctx.pos
  · rw [if_pos h1, Nat.min_eq_left h1, to_int64_of_range _ (by omega) (by omega)]
    have hp : (((buffer_ctx.pos : Int) + (nbytes : Int)) % 2 ^ 64).toNat
        = buffer_ctx.pos + nbytes := by omega
    rw [hp]
  · rw [if_neg h1, Nat.min_eq_right (by omega)]
    by_cases h2 : ((buffer_ctx.buffer.used - buffer_ctx.pos : Nat) : Int) > 0
    · rw [if_pos h2]
      have hp : (((buffer_ctx.pos : Int)
          + ((buffer_ctx.buffer.used - buffer_ctx.pos : Nat) : Int)) % 2 ^ 64).toNat
          = buffer_ctx.pos + (buffer_ctx.buffer.used - buffer_ctx.pos) := by omega
      rw [hp, Int.toNat_ofNat]
    · rw [if_neg h2]
      have hz : buffer_ctx.buffer.used - buffer_ctx.pos = 0 := by omega
      have hp : (((buffer_ctx.pos : Int) + 0) % 2 ^ 64).toNat = buffer_ctx.pos + 0 := by omega
      rw [hp, hz]
      simp only [read_bytes, Nat.cast_zero]
      rw [mem_write_zero]
      rfl

/-! ## File name extensions -/

/-- For an extension of `k` bytes and a name of at least `k` bytes, the comparison of the last
`k` bytes with `strncmp` succeeds exactly when the name ends with the extension. -/
theorem strncmp_eq_suffix (filename ext : List Nat) (k : Nat) (hk : ext.length = k)
    (hlen : k ≤ filename.length) :
    strncmp_eq (filename.drop (filename.length - k)) ext k = true ↔ ext <:+ filename := by
  have hd : (filename.drop (filename.length - k)).length = k := by
    rw [List.length_drop]
    omega
  have t1 : ((filename.drop (filename.length - k)) ++ [0]).take k
      = filename.drop (filename.length - k) := by
    rw [List.take_append_of_le_length (by omega), List.take_of_length_le (by omega)]
  have t2 : (ext ++ [0]).take k = ext := by
    rw [List.take_append_of_le_length (by omega), List.take_of_length_le (by omega)]
  simp only [strncmp_eq, decide_eq_true_eq, t1, t2]
  rw [List.suffix_iff_eq_drop, hk]
  exact eq_comm

theorem suffix_length_le (filename ext : List Nat) (h : ext <:+ filename) :
    ext.length ≤ filename.length := h.length_le

/-- The last four bytes of a name decide which of the short extensions it ends with, and a
name that ends with a long extension ends with the last four bytes of that extension. -/
theorem format_exclusive (filename : List Nat) :
    ([46, 100, 116, 97] <:+ filename →
      ¬ [46, 115, 97, 118] <:+ filename ∧ ¬ [46, 112, 111, 114] <:+ filename ∧
      ¬ [46, 115, 97, 115, 55, 98, 100, 97, 116] <:+ filename ∧
      ¬ [46, 115, 97, 115, 55, 98, 99, 97, 116] <:+ filename) ∧
    ([46, 115, 97, 118] <:+ filename →
      ¬ [46, 100, 116, 97] <:+ filename ∧ ¬ [46, 112, 111, 114] <:+ filename ∧
      ¬ [46, 115, 97, 115, 55, 98, 100, 97, 116] <:+ filename ∧
      ¬ [46, 115, 97, 115, 55, 98, 99, 97, 116] <:+ filename) ∧
    ([46, 112, 111, 114] <:+ filename →
      ¬ [46, 100, 116, 97] <:+ filename ∧ ¬ [46, 115, 97, 118] <:+ filename ∧
      ¬ [46, 115, 97, 115, 55, 98, 100, 97, 116] <:+ filename ∧
      ¬ [46, 115, 97, 115, 55, 98, 99, 97, 116] <:+ filename) ∧
    ([46, 115, 97, 115, 55, 98, 100, 97, 116] <:+ filename →
      ¬ [46, 100, 116, 97] <:+ filename ∧ ¬ [46, 115, 97, 118] <:+ filename ∧
      ¬ [46, 112, 111, 114] <:+ filename ∧
      ¬ [46, 115, 97, 115, 55, 98, 99, 97, 116] <:+ filename) ∧
    ([46, 115, 97, 115, 55, 98, 99, 97, 116] <:+ filename →
      ¬ [46, 100, 116, 97] <:+ filename ∧ ¬ [46, 115, 97, 118] <:+ filename ∧
      ¬ [46, 112, 111, 114] <:+ filename ∧
      ¬ [46, 115, 97, 115, 55, 98, 100, 97, 116] <:+ filename) := by
  -- two suffixes of the same length are equal; a suffix of a suffix is a suffix
  have same : ∀ a b : List Nat, a <:+ filename → b <:+ filename → a.length = b.length →
      a = b := by
    intro a b ha hb hl
    exact (List.suffix_of_suffix_length_le ha hb (by omega)).eq_of_length hl
  have t1 : [98, 100, 97, 116] <:+ [46, 115, 97, 115, 55, 98, 100, 97, 116] :=
    ⟨[46, 115, 97, 115, 55], rfl⟩
  have t2 : [98, 99, 97, 116] <:+ [46, 115, 97, 115, 55, 98, 99, 97, 116] :=
    ⟨[46, 115, 97, 115, 55], rfl⟩
  have ne : ∀ a b : List Nat, a <:+ filename → a.length = b.length → a ≠ b →
      ¬ b <:+ filename := by
    intro a b ha hl hne hb
    exact hne (same a b ha hb hl)
  refine ⟨?_, ?_, ?_, ?_, ?_⟩
  · intro h
    exact ⟨ne _ _ h (by decide) (by decide), ne _ _ h (by decide) (by decide),
      fun h9 => ne _ _ h (by decide) (by decide) (t1.trans h9),
      fun h9 => ne _ _ h (by decide) (by decide) (t2.trans h9)⟩
  · intro h
    exact ⟨ne _ _ h (by decide) (by decide), ne _ _ h (by decide) (by decide),
      fun h9 => ne _ _ h (by decide) (by decide) (t1.trans h9),
      fun h9 => ne _ _ h (by decide) (by decide) (t2.trans h9)⟩
  · intro h
    exact ⟨ne _ _ h (by decide) (by decide), ne _ _ h (by decide) (by decide),
      fun h9 => ne _ _ h (by decide) (by decide) (t1.trans h9),
      fun h9 => ne _ _ h (by decide) (by decide) (t2.trans h9)⟩
  · intro h
    exact ⟨ne _ _ (t1.trans h) (by decide) (by decide), ne _ _ (t1.trans h) (by decide) (by decide),
      ne _ _ (t1.trans h) (by decide) (by decide), ne _ _ h (by decide) (by decide)⟩
  · intro h
    exact ⟨ne _ _ (t2.trans h) (by decide) (by decide), ne _ _ (t2.trans h) (by decide) (by decide),
      ne _ _ (t2.trans h) (by decide) (by decide), ne _ _ h (by decide) (by decide)⟩

/-- The value of `format`, with the outcome of the comparisons it made. -/
theorem format_cases (filename : List Nat) :
    (format filename = RS_FORMAT_UNKNOWN ∧ ¬ [46, 100, 116, 97] <:+ filename ∧
      ¬ [46, 115, 97, 118] <:+ filename ∧ ¬ [46, 112, 111, 114] <:+ filename ∧
      ¬ [46, 115, 97, 115, 55, 98, 100, 97, 116] <:+ filename ∧
      ¬ [46, 115, 97, 115, 55, 98, 99, 97, 116] <:+ filename) ∨
    (format filename = RS_FORMAT_DTA ∧ [46, 100, 116, 97] <:+ filename) ∨
    (format filename = RS_FORMAT_SAV ∧ [46, 115, 97, 118] <:+ filename) ∨
    (format filename = RS_FORMAT_POR ∧ [46, 112, 111, 114] <:+ filename) ∨
    (format filename = RS_FORMAT_SAS_DATA ∧
      [46, 115, 97, 115, 55, 98, 100, 97, 116] <:+ filename) ∨
    (format filename = RS_FORMAT_SAS_CATALOG ∧
      [46, 115, 97, 115, 55, 98, 99, 97, 116] <:+ filename) := by
  have short : ∀ ext : List Nat, filename.length < ext.length → ¬ ext <:+ filename := by
    intro ext hl h
    have := suffix_length_le _ _ h
    omega
  unfold format
  simp only
  by_cases h4 : filename.length < 4
  · rw [if_pos h4]
    exact Or.inl ⟨rfl, short _ (by simpa using h4), short _ (by simpa using h4),
      short _ (by simpa using h4), short _ (by simp; omega), short _ (by simp; omega)⟩
  · rw [if_neg h4]
    have e1 := strncmp_eq_suffix filename [46, 100, 116, 97] 4 rfl (by omega)
    have e2 := strncmp_eq_suffix filename [46, 115, 97, 118] 4 rfl (by omega)
    have e3 := strncmp_eq_suffix filename [46, 112, 111, 114] 4 rfl (by omega)
    by_cases c1 : strncmp_eq (filename.drop (filename.length - 4)) [46, 100, 116, 97] 4 = true
    · rw [if_pos c1]
      exact Or.inr (Or.inl ⟨rfl, e1.1 c1⟩)
    · rw [if_neg c1]
      by_cases c2 : strncmp_eq (filename.drop (filename.length - 4)) [46, 115, 97, 118] 4 = true
      · rw [if_pos c2]
        exact Or.inr (Or.inr (Or.inl ⟨rfl, e2.1 c2⟩))
      · rw [if_neg c2]
        by_cases c3 : strncmp_eq (filename.drop (filename.length - 4)) [46, 112, 111, 114] 4
            = true
        · rw [if_pos c3]
          exact Or.inr (Or.inr (Or.inr (Or.inl ⟨rfl, e3.1 c3⟩)))
        · rw [if_neg c3]
          by_cases h9 : filename.length < 9
          · rw [if_pos h9]
            exact Or.inl ⟨rfl, fun h => c1 (e1.2 h), fun h => c2 (e2.2 h),
              fun h => c3 (e3.2 h), short _ (by simpa using h9), short _ (by simpa using h9)⟩
          · rw [if_neg h9]
            have e4 := strncmp_eq_suffix filename [46, 115, 97, 115, 55, 98, 100, 97, 116] 9
              rfl (by omega)
            have e5 := strncmp_eq_suffix filename [46, 115, 97, 115, 55, 98, 99, 97, 116] 9
              rfl (by omega)
            by_cases c4 : strncmp_eq (filename.drop (filename.length - 9))
                [46, 115, 97, 115, 55, 98, 100, 97, 116] 9 = true
            · rw [if_pos c4]
              exact Or.inr (Or.inr (Or.inr (Or.inr (Or.inl ⟨rfl, e4.1 c4⟩))))
            · rw [if_neg c4]
              by_cases c5 : strncmp_eq (filename.drop (filename.length - 9))
                  [46, 115, 97, 115, 55, 98, 99, 97, 116] 9 = true
              · rw [if_pos c5]
                exact Or.inr (Or.inr (Or.inr (Or.inr (Or.inr ⟨rfl, e5.1 c5⟩))))
              · rw [if_neg c5]
                exact Or.inl ⟨rfl, fun h => c1 (e1.2 h), fun h => c2 (e2.2 h),
                  fun h => c3 (e3.2 h), fun h => c4 (e4.2 h), fun h => c5 (e5.2 h)⟩

/-! ## The counters of the driver -/

theorem handle_value_counts {V M : Type} (obs_index var_index : Int) (value : V)
    (rs_ctx : rs_ctx_t V M) :
    (handle_value obs_index var_index value rs_ctx).2.row_count
      = rs_ctx.row_count + (if var_index = 0 then 1 else 0) ∧
    (handle_value obs_index var_index value rs_ctx).2.var_count
      = rs_ctx.var_count + (if obs_index = 0 then 1 else 0) ∧
    (handle_value obs_index var_index value rs_ctx).2.module = rs_ctx.module := by
  unfold handle_value
  by_cases hv : var_index = 0 <;> by_cases ho : obs_index = 0 <;>
    cases hm : rs_ctx.module.handle_value <;> simp [hv, ho, hm]

/-- The calls for the cells of one row `i` of `C` variables. -/
theorem handle_values_row {V M : Type} (i C : Nat) (value : Nat → V) (rs_ctx : rs_ctx_t V M) :
    ((List.range C).foldl
      (fun (ctx : rs_ctx_t V M) (j : Nat) =>
        (handle_value (i : Int) (j : Int) (value j) ctx).2) rs_ctx).row_count
      = rs_ctx.row_count + (if C = 0 then 0 else 1) ∧
    ((List.range C).foldl
      (fun (ctx : rs_ctx_t V M) (j : Nat) =>
        (handle_value (i : Int) (j : Int) (value j) ctx).2) rs_ctx).var_count
      = rs_ctx.var_count + (if i = 0 then (C : Int) else 0) := by
  induction C with
  | zero => simp
  | succ C ih =>
    rw [List.range_succ, List.foldl_append]
    simp only [List.foldl_cons, List.foldl_nil]
    obtain ⟨h1, h2, _⟩ := handle_value_counts (i : Int) (C : Int) (value C)
      ((List.range C).foldl
        (fun (ctx : rs_ctx_t V M) (j : Nat) =>
          (handle_value (i : Int) (j : Int) (value j) ctx).2) rs_ctx)
    rw [h1, h2, ih.1, ih.2]
    constructor
    · by_cases hc : C = 0
      · subst hc
        simp
      · have : ¬ ((C : Int) = 0) := by omega
        simp [hc, this]
    · by_cases hi : i = 0
      · subst hi
        simp
        omega
      · have : ¬ ((i : Int) = 0) := by omega
        simp [hi, this]

/-- The calls for all cells of `R` rows of `C` variables. -/
theorem handle_values_counts {V M : Type} (R C : Nat) (value : Nat → Nat → V)
    (rs_ctx : rs_ctx_t V M) :
    (handle_values R C value rs_ctx).row_count
      = rs_ctx.row_count + (if C = 0 then 0 else (R : Int)) ∧
    (handle_values R C value rs_ctx).var_count
      = rs_ctx.var_count + (if R = 0 then 0 else (C : Int)) := by
  unfold handle_values
  induction R with
  | zero => simp
  | succ R ih =>
    rw [List.range_succ, List.foldl_append]
    simp only [List.foldl_cons, List.foldl_nil]
    obtain ⟨h1, h2⟩ := handle_values_row R C (value R)
      ((List.range R).foldl
        (fun (ctx : rs_ctx_t V M) (i : Nat) => (List.range C).foldl
          (fun (ctx : rs_ctx_t V M) (j : Nat) =>
            (handle_value (i : Int) (j : Int) (value i j) ctx).2) ctx) rs_ctx)
    rw [h1, h2, ih.1, ih.2]
    constructor
    · by_cases hc : C = 0
      · simp [hc]
      · simp [hc]
        omega
    · by_cases hr : R = 0
      · subst hr
        simp
      · simp [hr]

/-! ## The ROW_SIZE subheader -/

theorem foldl_add_eq_sum (vars : List readstat_variable_t) (f : readstat_variable_t → Nat)
    (a : Nat) : vars.foldl (fun len v => len + f v) a = a + (vars.map f).sum := by
  induction vars generalizing a with
  | nil => simp
  | cons v rest ih =>
    simp only [List.foldl_cons, List.map_cons, List.sum_cons, ih]
    omega

/-- A sum accumulated with a reduction modulo `m` after every addition is the sum reduced
modulo `m`. -/
theorem foldl_add_mod_eq_sum (vars : List readstat_variable_t) (f : readstat_variable_t → Nat)
    (m a : Nat) :
    vars.foldl (fun len v => (len + f v) % m) a % m = (a + (vars.map f).sum) % m := by
  induction vars generalizing a with
  | nil => simp
  | cons v rest ih =>
    simp only [List.foldl_cons, List.map_cons, List.sum_cons]
    rw [ih ((a + f v) % m), Nat.mod_add_mod, Nat.add_assoc]

theorem foldl_add_mod_lt (vars : List readstat_variable_t) (f : readstat_variable_t → Nat)
    (m a : Nat) (hm : 0 < m) (ha : a < m) :
    vars.foldl (fun len v => (len + f v) % m) a < m := by
  induction vars generalizing a with
  | nil => exact ha
  | cons v rest ih =>
    simp only [List.foldl_cons]
    exact ih _ (Nat.mod_lt _ hm)

/-- The row length is a `size_t`. -/
theorem sas_row_length_lt (w : readstat_writer_t) : sas_row_length w < 2 ^ 64 :=
  foldl_add_mod_lt w.vars (fun v => sas_variable_width v.type v.storage_width) (2 ^ 64) 0
    (by norm_num) (by norm_num)

/-- The row length is the sum of the widths reduced modulo `2 ^ 64`. -/
theorem sas_row_length_eq_sum_mod (w : readstat_writer_t) :
    sas_row_length w
      = (w.vars.map (fun v => sas_variable_width v.type v.storage_width)).sum % 2 ^ 64 := by
  have h := foldl_add_mod_eq_sum w.vars
    (fun v => sas_variable_width v.type v.storage_width) (2 ^ 64) 0
  rw [Nat.zero_add] at h
  rw [← h]
  exact (Nat.mod_eq_of_lt (sas_row_length_lt w)).symm

/-- The row length is the sum of the widths when that sum fits a `size_t`. -/
theorem sas_row_length_eq_sum (w : readstat_writer_t)
    (h : (w.vars.map (fun v => sas_variable_width v.type v.storage_width)).sum < 2 ^ 64) :
    sas_row_length w
      = (w.vars.map (fun v => sas_variable_width v.type v.storage_width)).sum := by
  rw [sas_row_length_eq_sum_mod, Nat.mod_eq_of_lt h]

/-- Three fields stored into a zero-filled buffer of `n` bytes: the fields read back, the
length, and zeros everywhere else. -/
theorem three_fields (n o1 o2 o3 : Nat) (f1 f2 f3 : List Nat)
    (h12 : o1 + f1.length ≤ o2) (h23 : o2 + f2.length ≤ o3) (h3n : o3 + f3.length ≤ n) :
    (mem_write (mem_write (mem_write (List.replicate n 0) o1 f1) o2 f2) o3 f3).length = n ∧
    read_bytes (mem_write (mem_write (mem_write (List.replicate n 0) o1 f1) o2 f2) o3 f3)
      o1 f1.length = f1 ∧
    read_bytes (mem_write (mem_write (mem_write (List.replicate n 0) o1 f1) o2 f2) o3 f3)
      o2 f2.length = f2 ∧
    read_bytes (mem_write (mem_write (mem_write (List.replicate n 0) o1 f1) o2 f2) o3 f3)
      o3 f3.length = f3 ∧
    (∀ pos, ¬ (o1 ≤ pos ∧ pos < o1 + f1.length) → ¬ (o2 ≤ pos ∧ pos < o2 + f2.length) →
      ¬ (o3 ≤ pos ∧ pos < o3 + f3.length) →
      (mem_write (mem_write (mem_write (List.replicate n 0) o1 f1) o2 f2) o3 f3).getD pos 0
        = 0) := by
  refine ⟨?_, ?_, ?_, ?_, ?_⟩
  · simp only [mem_write_length, List.length_replicate]
    omega
  · rw [read_bytes_mem_write_disjoint _ _ _ _ _ (Or.inl (by omega)),
      read_bytes_mem_write_disjoint _ _ _ _ _ (Or.inl (by omega))]
    exact read_bytes_mem_write_same _ _ _
  · rw [read_bytes_mem_write_disjoint _ _ _ _ _ (Or.inl (by omega))]
    exact read_bytes_mem_write_same _ _ _
  · exact read_bytes_mem_write_same _ _ _
  · intro pos h1 h2 h3
    have g3 : (mem_write (mem_write (mem_write (List.replicate n 0) o1 f1) o2 f2) o3 f3).getD
        pos 0 = (mem_write (mem_write (List.replicate n 0) o1 f1) o2 f2).getD pos 0 := by
      rcases Nat.lt_or_ge pos o3 with h | h
      · exact getD_mem_write_lt _ _ _ _ h
      · exact getD_mem_write_ge _ _ _ _ (by omega)
    have g2 : (mem_write (mem_write (List.replicate n 0) o1 f1) o2 f2).getD pos 0
        = (mem_write (List.replicate n 0) o1 f1).getD pos 0 := by
      rcases Nat.lt_or_ge pos o2 with h | h
      · exact getD_mem_write_lt _ _ _ _ h
      · exact getD_mem_write_ge _ _ _ _ (by omega)
    have g1 : (mem_write (List.replicate n 0) o1 f1).getD pos 0
        = (List.replicate n 0).getD pos 0 := by
      rcases Nat.lt_or_ge pos o1 with h | h
      · exact getD_mem_write_lt _ _ _ _ h
      · exact getD_mem_write_ge _ _ _ _ (by omega)
    rw [g3, g2, g1, getD_replicate_zero]

/-! ## Meta pages: the loop over the pages -/

/-- What one page leaves for the next pages is a suffix of what it was given. -/
theorem meta_page_rest_mem (ps gap : Nat) (subs : List sas_subheader_t) (sh : sas_subheader_t)
    (h : sh ∈ meta_page_rest ps gap subs) : sh ∈ subs := by
  rw [← meta_page_placed_append_rest ps gap subs]
  exact List.mem_append_right _ h

/-- A page takes at least the first subheader when that one fits an empty page. -/
theorem meta_page_placed_ne_nil (ps gap : Nat) (s : sas_subheader_t)
    (rest : List sas_subheader_t) (h : s.len + ps < gap) :
    meta_page_placed ps gap (s :: rest) ≠ [] := by
  simp only [meta_page_placed, if_pos h]
  exact List.cons_ne_nil _ _

theorem meta_page_rest_length_lt (ps gap : Nat) (s : sas_subheader_t)
    (rest : List sas_subheader_t) (h : s.len + ps < gap) :
    (meta_page_rest ps gap (s :: rest)).length < (s :: rest).length := by
  have e := congrArg List.length (meta_page_placed_append_rest ps gap (s :: rest))
  rw [List.length_append] at e
  have hp : 0 < (meta_page_placed ps gap (s :: rest)).length :=
    List.length_pos.mpr (meta_page_placed_ne_nil ps gap s rest h)
  omega

/-- The outer loop of `sas_emit_meta_pages` on a sink that never fails, when every subheader
fits an empty page: it returns with at most one page per subheader, and page `i` of its
output is the page built from the subheaders that the pages before it left. -/
theorem sas_emit_meta_pages_chunks (env : sas_env) (hinfo : sas_header_info_t) (fuel : Nat)
    (w : readstat_writer_t) (sarray : List sas_subheader_t)
    (hfit : ∀ sh, sh ∈ sarray →
      sh.len + hinfo.subheader_pointer_size < hinfo.page_size - hinfo.page_header_size)
    (hroom : w.room = none) (hfuel : sarray.length ≤ fuel) :
    ∃ w1 pages, sas_emit_meta_pages env hinfo fuel w sarray = .ok w1 ∧
      (meta_page_chunks hinfo fuel sarray).flatten = sarray ∧
      (∀ c, c ∈ meta_page_chunks hinfo fuel sarray → c ≠ []) ∧
      (meta_page_chunks hinfo fuel sarray).length ≤ sarray.length ∧
      w1.bytes_written
        = w.bytes_written + PAGE_SIZE * (meta_page_chunks hinfo fuel sarray).length ∧
      w1.out = w.out ++ pages ∧
      pages.length = PAGE_SIZE * (meta_page_chunks hinfo fuel sarray).length ∧
      (∀ (i : Nat) (c : List sas_subheader_t),
        (meta_page_chunks hinfo fuel sarray)[i]? = some c →
        read_bytes pages (PAGE_SIZE * i) PAGE_SIZE
          = read_bytes (sas_emit_meta_page env hinfo
              ((meta_page_chunks hinfo fuel sarray).drop i).flatten).page 0 PAGE_SIZE ∧
        c = meta_page_placed hinfo.subheader_pointer_size
              (hinfo.page_size - hinfo.page_header_size)
              ((meta_page_chunks hinfo fuel sarray).drop i).flatten ∧
        (sas_emit_meta_page env hinfo
            ((meta_page_chunks hinfo fuel sarray).drop i).flatten).remaining
          = ((meta_page_chunks hinfo fuel sarray).drop (i + 1)).flatten) := by
  induction fuel generalizing w sarray with
  | zero =>
    have hnil : sarray = [] := List.length_eq_zero.mp (by omega)
    subst hnil
    refine ⟨w, [], rfl, rfl, ?_, Nat.le_refl _, rfl, by simp, rfl, ?_⟩
    · intro c hc
      simp [meta_page_chunks] at hc
    · intro i c hc
      simp [meta_page_chunks] at hc
  | succ f ih =>
    cases sarray with
    | nil =>
      refine ⟨w, [], rfl, rfl, ?_, Nat.le_refl _, rfl, by simp, rfl, ?_⟩
      · intro c hc
        simp [meta_page_chunks] at hc
      · intro i c hc
        simp [meta_page_chunks] at hc
    | cons s rest =>
      have hs := hfit s (List.mem_cons_self _ _)
      have hlt := meta_page_rest_length_lt hinfo.subheader_pointer_size
        (hinfo.page_size - hinfo.page_header_size) s rest hs
      have hrem := sas_emit_meta_page_remaining env hinfo (s :: rest)
      have happ := meta_page_placed_append_rest hinfo.subheader_pointer_size
        (hinfo.page_size - hinfo.page_header_size) (s :: rest)
      obtain ⟨w1, pages, e1, f1, n1, l1, b1, o1, pl1, r1⟩ := ih
        { w with bytes_written := w.bytes_written
                    + (read_bytes (sas_emit_meta_page env hinfo (s :: rest)).page 0
                        PAGE_SIZE).length,
                 out := w.out ++ read_bytes (sas_emit_meta_page env hinfo (s :: rest)).page 0
                    PAGE_SIZE }
        (meta_page_rest hinfo.subheader_pointer_size
          (hinfo.page_size - hinfo.page_header_size) (s :: rest))
        (fun sh hsh => hfit sh (meta_page_rest_mem _ _ _ sh hsh)) hroom
        (by simp only [List.length_cons] at hlt hfuel; omega)
      refine ⟨w1, read_bytes (sas_emit_meta_page env hinfo (s :: rest)).page 0 PAGE_SIZE ++ pages,
        ?_, ?_, ?_, ?_, ?_, ?_, ?_, ?_⟩
      · simp only [sas_emit_meta_pages, readstat_write_bytes_none _ _ hroom, hrem]
        exact e1
      · simp only [meta_page_chunks, List.flatten_cons, f1]
        exact happ
      · intro c hc
        simp only [meta_page_chunks, List.mem_cons] at hc
        rcases hc with hc | hc
        · rw [hc]
          exact meta_page_placed_ne_nil _ _ s rest hs
        · exact n1 c hc
      · simp only [meta_page_chunks, List.length_cons] at hlt ⊢
        omega
      · rw [b1]
        simp only [meta_page_chunks, List.length_cons, read_bytes_length, Nat.mul_succ]
        omega
      · rw [o1]
        simp only [List.append_assoc]
      · simp only [List.length_append, read_bytes_length, pl1, meta_page_chunks,
          List.length_cons, Nat.mul_succ]
        omega
      · intro i c hc
        cases i with
        | zero =>
          simp only [meta_page_chunks, List.getElem?_cons_zero, Option.some.injEq] at hc
          simp only [meta_page_chunks, List.drop_zero, List.flatten_cons, f1, happ,
            Nat.mul_zero, Nat.zero_add, List.drop_succ_cons]
          refine ⟨?_, hc.symm, hrem⟩
          rw [read_bytes_append_left _ _ _ _ (by rw [read_bytes_length]; omega)]
          have := read_bytes_self (read_bytes (sas_emit_meta_page env hinfo (s :: rest)).page 0
            PAGE_SIZE)
          rw [read_bytes_length] at this
          exact this
        | succ i =>
          simp only [meta_page_chunks, List.getElem?_cons_succ] at hc
          have hi : i < (meta_page_chunks hinfo f (meta_page_rest hinfo.subheader_pointer_size
              (hinfo.page_size - hinfo.page_header_size) (s :: rest))).length := by
            rcases Nat.lt_or_ge i (meta_page_chunks hinfo f
              (meta_page_rest hinfo.subheader_pointer_size
                (hinfo.page_size - hinfo.page_header_size) (s :: rest))).length with h | h
            · exact h
            · rw [List.getElem?_eq_none h] at hc
              cases hc
          obtain ⟨q1, q2, q3⟩ := r1 i c hc
          simp only [meta_page_chunks, List.drop_succ_cons]
          refine ⟨?_, q2, q3⟩
          rw [← q1]
          have e := read_bytes_append_mid
            (read_bytes (sas_emit_meta_page env hinfo (s :: rest)).page 0 PAGE_SIZE) pages []
            (PAGE_SIZE * i) PAGE_SIZE (by
              rw [pl1]
              have : PAGE_SIZE * i + PAGE_SIZE = PAGE_SIZE * (i + 1) := by
                rw [Nat.mul_succ]
              rw [this]
              exact Nat.mul_le_mul_left _ hi)
          rw [List.append_nil, read_bytes_length] at e
          have hp : PAGE_SIZE * (i + 1) = PAGE_SIZE + PAGE_SIZE * i := by
            rw [Nat.mul_succ]
            omega
          rw [hp]
          exact e

/-! ## The text pool: used counts -/

/-- One `make_text_ref` call with a string whose padded length is at most the common capacity
keeps every used count a multiple of 4 and within the capacity. -/
theorem make_text_ref_bounded (cta : List sas_column_text_t) (s : List Nat) (cap : Nat)
    (hne : cta ≠ []) (hs : (s.length + 3) / 4 * 4 ≤ cap)
    (hinv : ∀ b, b ∈ cta → b.capacity = cap ∧ b.used ≤ b.capacity ∧ b.used % 4 = 0) :
    (make_text_ref cta s).1 ≠ [] ∧
    ∀ b, b ∈ (make_text_ref cta s).1 → b.capacity = cap ∧ b.used ≤ b.capacity ∧ b.used % 4 = 0 := by
  have hpos : 0 < cta.length := List.length_pos.mpr hne
  have hl : cta.length - 1 < cta.length := by omega
  have hlast : cta[cta.length - 1]? = some (cta[cta.length - 1]) := List.getElem?_eq_getElem hl
  have hmem : cta[cta.length - 1] ∈ cta := List.getElem_mem hl
  obtain ⟨c1, c2, c3⟩ := hinv _ hmem
  rw [make_text_ref_eq cta s _ hlast]
  split
  · refine ⟨by simp, ?_⟩
    intro b hb
    rcases List.mem_append.mp hb with hb | hb
    · exact hinv b hb
    · rw [List.mem_singleton] at hb
      subst hb
      simp only [make_text_ref_store, sas_column_text_init, Nat.zero_add]
      exact ⟨c1, by omega, by omega⟩
  · rename_i hfit
    refine ⟨?_, ?_⟩
    · intro h
      have := congrArg List.length h
      rw [List.length_set] at this
      simp only [List.length_nil] at this
      omega
    · intro b hb
      rcases List.mem_or_eq_of_mem_set hb with hb | hb
      · exact hinv b hb
      · subst hb
        simp only [make_text_ref_store]
        exact ⟨c1, by omega, by omega⟩

/-- Any sequence of `make_text_ref` calls from the initial pool, with strings whose padded
lengths are at most the capacity, keeps every used count a multiple of 4 within the capacity. -/
theorem make_text_refs_bounded (cta : List sas_column_text_t) (strings : List (List Nat))
    (cap : Nat) (hne : cta ≠ [])
    (hs : ∀ s, s ∈ strings → (s.length + 3) / 4 * 4 ≤ cap)
    (hinv : ∀ b, b ∈ cta → b.capacity = cap ∧ b.used ≤ b.capacity ∧ b.used % 4 = 0) :
    ∀ b, b ∈ make_text_refs cta strings →
      b.capacity = cap ∧ b.used ≤ b.capacity ∧ b.used % 4 = 0 := by
  induction strings generalizing cta with
  | nil => exact hinv
  | cons s rest ih =>
    have h1 := make_text_ref_bounded cta s cap hne (hs s (List.mem_cons_self _ _)) hinv
    exact ih _ h1.1 (fun t ht => hs t (List.mem_cons_of_mem _ ht)) h1.2

/-! ## Recorded widths and the row length -/

/-- For a variable that is not a long string and whose storage width fits 32 bits, the width
recorded in COLUMN_ATTRS is the width `sas_variable_width` gives. -/
theorem recorded_width_eq_variable_width (v : readstat_variable_t)
    (hl : v.type ≠ .READSTAT_TYPE_LONG_STRING) (hw : v.storage_width < 2 ^ 32) :
    recorded_width v = sas_variable_width v.type v.storage_width := by
  unfold recorded_width sas_variable_width
  by_cases hs : v.type = .READSTAT_TYPE_STRING
  · rw [if_pos (Or.inl hs), if_pos hs]
    exact Nat.mod_eq_of_lt hw
  · rw [if_neg (by intro h; rcases h with h | h; exact hs h; exact hl h), if_neg hs]

/-- In a schema without long-string variables, with storage widths below `2 ^ 32` and
recorded widths that add up to less than `2 ^ 64`, the recorded widths add up to the row
length, and every column extent `[row_offset, row_offset + width)` lies inside the row. -/
theorem recorded_widths_tile_row (w : readstat_writer_t)
    (hvars : ∀ v, v ∈ w.vars →
      v.type ≠ .READSTAT_TYPE_LONG_STRING ∧ v.storage_width < 2 ^ 32)
    (hfit : (w.vars.map recorded_width).sum < 2 ^ 64) :
    (w.vars.map recorded_width).sum = sas_row_length w ∧
    ∀ (i : Nat) (v : readstat_variable_t), w.vars[i]? = some v →
      ((w.vars.take i).map recorded_width).sum + recorded_width v ≤ sas_row_length w := by
  have hmap : w.vars.map recorded_width
      = w.vars.map (fun v => sas_variable_width v.type v.storage_width) := by
    apply List.map_congr_left
    intro v hv
    exact recorded_width_eq_variable_width v (hvars v hv).1 (hvars v hv).2
  have hsum : (w.vars.map recorded_width).sum = sas_row_length w := by
    rw [sas_row_length_eq_sum w (by rw [← hmap]; exact hfit), hmap]
  refine ⟨hsum, ?_⟩
  intro i v hv
  have hi : i < w.vars.length := by
    rcases Nat.lt_or_ge i w.vars.length with h | h
    · exact h
    · rw [List.getElem?_eq_none h] at hv
      cases hv
  have hsplit : w.vars = w.vars.take i ++ v :: w.vars.drop (i + 1) := by
    have hget : w.vars[i] = v := by
      rw [List.getElem?_eq_getElem hi] at hv
      exact Option.some.inj hv
    rw [← hget]
    exact (List.take_append_drop i w.vars).symm.trans
      (congrArg (fun t => w.vars.take i ++ t) (List.drop_eq_getElem_cons hi))
  have e := congrArg (fun l => (l.map recorded_width).sum) hsplit
  simp only [List.map_append, List.sum_append, List.map_cons, List.sum_cons] at e
  rw [← hsum]
  omega

/-! ## Stops of the row path -/

/-- The only way `readstat_write_bytes` stops is the IO error of the sink. -/
theorem readstat_write_bytes_error (w : readstat_writer_t) (bytes : List Nat) (e : sas_stop)
    (h : readstat_write_bytes w bytes = .error e) :
    e = .status .READSTAT_ERROR_IO_KIND := by
  unfold readstat_write_bytes at h
  cases hr : w.room with
  | none =>
    rw [hr] at h
    cases h
  | some n =>
    rw [hr] at h
    simp only at h
    split at h
    · cases h
    · simp only [Except.error.injEq] at h
      exact h.symm

/-- With a page size other than zero, `sas_fill_page` stops only on the IO error of the sink. -/
theorem sas_fill_page_error (w : readstat_writer_t) (hinfo : sas_header_info_t) (e : sas_stop)
    (hps : hinfo.page_size ≠ 0) (h : sas_fill_page w hinfo = .error e) :
    e = .status .READSTAT_ERROR_IO_KIND := by
  unfold sas_fill_page at h
  rw [if_neg hps] at h
  split at h
  · exact readstat_write_bytes_error _ _ e h
  · cases h

/-- With at least one row per page and a page size other than zero, `sas_write_row` stops only
on the IO error of the sink: neither its modulo nor the division in `sas_rows_per_page` has a
zero divisor. -/
theorem sas_write_row_error (env : sas_env) (w : readstat_writer_t) (hinfo : sas_header_info_t)
    (row : List Nat) (len : Nat) (r : Int) (e : sas_stop)
    (hctx : w.module_ctx = some hinfo) (hr : sas_rows_per_page w hinfo = .ok r) (hr0 : r ≠ 0)
    (hps : hinfo.page_size ≠ 0) (h : sas_write_row env w row len = .error e) :
    e = .status .READSTAT_ERROR_IO_KIND := by
  simp only [sas_write_row, hctx, hr, bind, Except.bind, hr0, if_false, pure, Except.pure] at h
  by_cases hm : w.current_row.tmod r = 0
  · simp only [hm, if_true] at h
    cases hf : sas_fill_page w hinfo with
    | error e1 =>
      rw [hf] at h
      simp only [Except.error.injEq] at h
      rw [← h]
      exact sas_fill_page_error w hinfo e1 hps hf
    | ok w1 =>
      rw [hf] at h
      simp only at h
      cases hh : readstat_write_bytes w1 (sas_data_page_header env hinfo
          (if w1.row_count - w1.current_row < r then w1.row_count - w1.current_row else r)) with
      | error e1 =>
        rw [hh] at h
        simp only [Except.error.injEq] at h
        rw [← h]
        exact readstat_write_bytes_error _ _ e1 hh
      | ok w2 =>
        rw [hh] at h
        exact readstat_write_bytes_error _ _ e h
  · simp only [hm, if_false] at h
    exact readstat_write_bytes_error _ _ e h

/-! ## Meta pages: what a page holds -/

/-- The page that `sas_emit_meta_page` builds from the subheaders still to be written: it has
`PAGE_SIZE` bytes, holds the number of placed subheaders at both count offsets, and for the
`k`-th placed subheader its pointer in the pointer table and its data (with the signature) at
the offset the pointer names.  Pointer and data lie inside the page. -/
theorem sas_emit_meta_page_content (env : sas_env) (hinfo : sas_header_info_t)
    (sarray : List sas_subheader_t) (k : Nat) (sh : sas_subheader_t)
    (hphs : hinfo.page_header_size = if hinfo.u64 then 40 else 24)
    (hps : hinfo.subheader_pointer_size = if hinfo.u64 then 24 else 12)
    (hpage : hinfo.page_size = PAGE_SIZE)
    (hk : (meta_page_placed hinfo.subheader_pointer_size
      (hinfo.page_size - hinfo.page_header_size) sarray)[k]? = some sh) :
    read_bytes (sas_emit_meta_page env hinfo sarray).page
        (hinfo.page_header_size + hinfo.subheader_pointer_size * k)
        hinfo.subheader_pointer_size
      = le_bytes (if hinfo.u64 then 8 else 4) (hinfo.page_size
          - (((meta_page_placed hinfo.subheader_pointer_size
              (hinfo.page_size - hinfo.page_header_size) sarray).take (k + 1)).map
                (fun s => s.len)).sum)
        ++ le_bytes (if hinfo.u64 then 8 else 4) sh.len
        ++ [0, sas_subheader_type env sh.signature]
        ++ List.replicate ((if hinfo.u64 then 8 else 4) - 2) 0 ∧
    read_bytes (sas_emit_meta_page env hinfo sarray).page
        (hinfo.page_size
          - (((meta_page_placed hinfo.subheader_pointer_size
              (hinfo.page_size - hinfo.page_header_size) sarray).take (k + 1)).map
                (fun s => s.len)).sum) sh.len
      = read_bytes (sas_subheader_signed hinfo sh) 0 sh.len ∧
    read_bytes (sas_emit_meta_page env hinfo sarray).page (if hinfo.u64 then 34 else 18) 2
      = le_bytes_int 2 ((meta_page_placed hinfo.subheader_pointer_size
          (hinfo.page_size - hinfo.page_header_size) sarray).length : Int) ∧
    read_bytes (sas_emit_meta_page env hinfo sarray).page (if hinfo.u64 then 36 else 20) 2
      = le_bytes_int 2 ((meta_page_placed hinfo.subheader_pointer_size
          (hinfo.page_size - hinfo.page_header_size) sarray).length : Int) ∧
    (sas_emit_meta_page env hinfo sarray).page.length = PAGE_SIZE ∧
    hinfo.page_header_size + hinfo.subheader_pointer_size * k + hinfo.subheader_pointer_size
      ≤ hinfo.page_size ∧
    sh.len ≤ (((meta_page_placed hinfo.subheader_pointer_size
        (hinfo.page_size - hinfo.page_header_size) sarray).take (k + 1)).map
          (fun s => s.len)).sum ∧
    (((meta_page_placed hinfo.subheader_pointer_size
        (hinfo.page_size - hinfo.page_header_size) sarray).take (k + 1)).map
          (fun s => s.len)).sum ≤ hinfo.page_size := by
  have ha : (if hinfo.u64 then 8 else 4) = if hinfo.u64 then 8 else 4 := rfl
  have hps3 : hinfo.subheader_pointer_size = 3 * (if hinfo.u64 then 8 else 4) := by
    rw [hps]
    cases hinfo.u64 <;> rfl
  have h4 := field_size_ge_two hinfo _ ha
  have hP : PAGE_SIZE = 4096 := rfl
  have hphs2 : hinfo.page_header_size = 3 * (if hinfo.u64 then 8 else 4) + 16 ∨
      hinfo.page_header_size = 3 * (if hinfo.u64 then 8 else 4) + 12 := by
    rw [hphs]
    cases hinfo.u64 <;> simp
  have hc1 : (if hinfo.u64 then 34 else 18) + 6 = hinfo.page_header_size := by
    rw [hphs]
    cases hinfo.u64 <;> rfl
  have hc2 : (if hinfo.u64 then 36 else 20) + 4 = hinfo.page_header_size := by
    rw [hphs]
    cases hinfo.u64 <;> rfl
  have hphs_le : hinfo.page_header_size ≤ 40 := by
    rw [hphs]
    cases hinfo.u64 <;> simp
  -- the state with which the inner loop starts
  have hz : ∀ pos, hinfo.page_header_size ≤ pos → pos < hinfo.page_size →
      (mem_write (List.replicate PAGE_SIZE 0) (hinfo.page_header_size - 8)
        (le_bytes_int 2 env.PAGE_TYPE_META)).getD pos 0 = 0 := by
    intro pos h1 _
    rw [getD_mem_write_ge _ _ _ _ (by rw [le_bytes_int_length]; omega), getD_replicate_zero]
  obtain ⟨v1, v2, v3⟩ := sas_emit_meta_page_loop_vars env hinfo sarray
    { remaining := sarray
      page := mem_write (List.replicate PAGE_SIZE 0) (hinfo.page_header_size - 8)
        (le_bytes_int 2 env.PAGE_TYPE_META)
      shp_count := 0
      shp_data_offset := hinfo.page_size
      shp_ptr_offset := hinfo.page_header_size }
  obtain ⟨p1, p2⟩ := sas_emit_meta_page_loop_placed env hinfo _ ha hps3 sarray
    { remaining := sarray
      page := mem_write (List.replicate PAGE_SIZE 0) (hinfo.page_header_size - 8)
        (le_bytes_int 2 env.PAGE_TYPE_META)
      shp_count := 0
      shp_data_offset := hinfo.page_size
      shp_ptr_offset := hinfo.page_header_size } k sh hk hz
  have hlen := sas_emit_meta_page_loop_length env hinfo _ ha hps3 sarray
    { remaining := sarray
      page := mem_write (List.replicate PAGE_SIZE 0) (hinfo.page_header_size - 8)
        (le_bytes_int 2 env.PAGE_TYPE_META)
      shp_count := 0
      shp_data_offset := hinfo.page_size
      shp_ptr_offset := hinfo.page_header_size }
    (by
      simp only [mem_write_length, List.length_replicate, le_bytes_int_length]
      omega)
  simp only [mem_write_length, List.length_replicate, le_bytes_int_length] at hlen
  dsimp only at v1 v2 v3 p1 p2
  simp only [Int.zero_add] at v1
  have hfits := meta_page_placed_fits hinfo.subheader_pointer_size
    (hinfo.page_size - hinfo.page_header_size) sarray
  -- the k-th subheader lies inside the placed ones
  have hklt : k < (meta_page_placed hinfo.subheader_pointer_size
      (hinfo.page_size - hinfo.page_header_size) sarray).length := by
    rcases Nat.lt_or_ge k (meta_page_placed hinfo.subheader_pointer_size
      (hinfo.page_size - hinfo.page_header_size) sarray).length with h | h
    · exact h
    · rw [List.getElem?_eq_none h] at hk
      cases hk
  have hpage_eq := sas_emit_meta_page_page env hinfo sarray
  have hlenP : (sas_emit_meta_page env hinfo sarray).page.length = PAGE_SIZE := by
    rw [hpage_eq]
    simp only [mem_write_length, le_bytes_int_length, hlen]
    omega
  refine ⟨?_, ?_, ?_, ?_, hlenP, ?_, ?_, ?_⟩
  · rw [hpage_eq,
      read_bytes_mem_write_disjoint _ _ _ _ _ (Or.inr (by rw [le_bytes_int_length]; omega)),
      read_bytes_mem_write_disjoint _ _ _ _ _ (Or.inr (by rw [le_bytes_int_length]; omega))]
    exact p1
  · have hsum : hinfo.page_header_size
        ≤ hinfo.page_size - (((meta_page_placed hinfo.subheader_pointer_size
          (hinfo.page_size - hinfo.page_header_size) sarray).take (k + 1)).map
            (fun s => s.len)).sum := by
      have h1 : (((meta_page_placed hinfo.subheader_pointer_size
          (hinfo.page_size - hinfo.page_header_size) sarray).take (k + 1)).map
            (fun s => s.len)).sum
          ≤ ((meta_page_placed hinfo.subheader_pointer_size
            (hinfo.page_size - hinfo.page_header_size) sarray).map (fun s => s.len)).sum := by
        rw [List.map_take]
        exact List.Sublist.sum_le_sum ((List.take_sublist _ _)) (fun _ _ => Nat.zero_le _)
      omega
    rw [hpage_eq,
      read_bytes_mem_write_disjoint _ _ _ _ _ (Or.inr (by rw [le_bytes_int_length]; omega)),
      read_bytes_mem_write_disjoint _ _ _ _ _ (Or.inr (by rw [le_bytes_int_length]; omega))]
    exact p2
  · rw [hpage_eq,
      read_bytes_mem_write_disjoint _ _ _ _ _ (Or.inl (by
        cases hinfo.u64 <;> simp)), v1]
    have e := read_bytes_mem_write_same
      (sas_emit_meta_page_loop env hinfo sarray
        { remaining := sarray
          page := mem_write (List.replicate PAGE_SIZE 0) (hinfo.page_header_size - 8)
            (le_bytes_int 2 env.PAGE_TYPE_META)
          shp_count := 0
          shp_data_offset := hinfo.page_size
          shp_ptr_offset := hinfo.page_header_size }).page
      (le_bytes_int 2 ((meta_page_placed hinfo.subheader_pointer_size
        (hinfo.page_size - hinfo.page_header_size) sarray).length : Int))
      (if hinfo.u64 then 34 else 18)
    rw [le_bytes_int_length] at e
    exact e
  · rw [hpage_eq, v1]
    have e := read_bytes_mem_write_same
      (mem_write (sas_emit_meta_page_loop env hinfo sarray
        { remaining := sarray
          page := mem_write (List.replicate PAGE_SIZE 0) (hinfo.page_header_size - 8)
            (le_bytes_int 2 env.PAGE_TYPE_META)
          shp_count := 0
          shp_data_offset := hinfo.page_size
          shp_ptr_offset := hinfo.page_header_size }).page (if hinfo.u64 then 34 else 18)
        (le_bytes_int 2 ((meta_page_placed hinfo.subheader_pointer_size
          (hinfo.page_size - hinfo.page_header_size) sarray).length : Int)))
      (le_bytes_int 2 ((meta_page_placed hinfo.subheader_pointer_size
        (hinfo.page_size - hinfo.page_header_size) sarray).length : Int))
      (if hinfo.u64 then 36 else 20)
    rw [le_bytes_int_length] at e
    exact e
  · have hk1 : hinfo.subheader_pointer_size * (k + 1)
        ≤ hinfo.subheader_pointer_size
          * (meta_page_placed hinfo.subheader_pointer_size
              (hinfo.page_size - hinfo.page_header_size) sarray).length :=
      Nat.mul_le_mul_left _ hklt
    rw [Nat.mul_succ] at hk1
    generalize hinfo.subheader_pointer_size
      * (meta_page_placed hinfo.subheader_pointer_size
          (hinfo.page_size - hinfo.page_header_size) sarray).length = x at hk1 hfits
    generalize hinfo.subheader_pointer_size * k = y at hk1
    omega
  · rw [List.take_succ, hk]
    simp only [Option.toList, List.map_append, List.sum_append, List.map_cons, List.map_nil,
      List.sum_cons, List.sum_nil]
    omega
  · have h1 : (((meta_page_placed hinfo.subheader_pointer_size
        (hinfo.page_size - hinfo.page_header_size) sarray).take (k + 1)).map
          (fun s => s.len)).sum
        ≤ ((meta_page_placed hinfo.subheader_pointer_size
          (hinfo.page_size - hinfo.page_header_size) sarray).map (fun s => s.len)).sum := by
      rw [List.map_take]
      exact List.Sublist.sum_le_sum ((List.take_sublist _ _)) (fun _ _ => Nat.zero_le _)
    omega

/-- Reading inside page `i` of a run of pages of `P` bytes. -/
theorem read_bytes_in_page (pages page : List Nat) (P i off n : Nat)
    (h : read_bytes pages (P * i) P = read_bytes page 0 P) (hb : off + n ≤ P) :
    read_bytes pages (P * i + off) n = read_bytes page off n := by
  have e1 : read_bytes (read_bytes pages (P * i) P) off n = read_bytes pages (P * i + off) n := by
    apply read_bytes_eq_read_bytes
    intro j hj
    rw [getD_read_bytes _ _ _ _ (by omega), Nat.add_assoc]
  rw [← e1, h]
  exact read_bytes_read_bytes page P off n hb

/-! ## The properties C1 .. C32 of the specification -/

/-- C1 (what the code does): for a 64-bit file with at least 251 variables, a row length
between 1 and the usable page size and a sink that never fails, the COLUMN_ATTRS subheader
(28 + 16 n bytes) never satisfies the placement test of `sas_emit_meta_pages`, so the page
loop does not finish with any amount of fuel: `sas_begin_data` does not return and the
life cycle `begin_data`, rows, `end_data` never reaches a page-aligned end. -/
theorem C1_wide_schema_never_returns (env : sas_env) (fuel : Nat) (w : readstat_writer_t)
    (rows : List (List Nat)) (hroom : w.room = none) (hver : w.version ≥ 90000)
    (hn : 251 ≤ w.vars.length) (hL : 1 ≤ sas_row_length w)
    (hL2 : sas_row_length w ≤ PAGE_SIZE - (sas_header_info_init w).page_header_size) :
    sas_begin_data env fuel w = .error .out_of_fuel ∧
    sas_write_file env fuel w rows = .error .out_of_fuel := by
  have hrpp : 1 ≤ (PAGE_SIZE - (sas_header_info_init w).page_header_size) / sas_row_length w :=
    (Nat.one_le_div_iff (by omega)).mpr hL2
  have hu : (sas_header_info_init w).u64 = true := by simp [sas_header_info_init, hver]
  have hbad : ∃ b ∈ sas_subheader_array_init env w (sas_header_info_init w),
      (sas_header_info_init w).page_size - (sas_header_info_init w).page_header_size
        ≤ b.len + (sas_header_info_init w).subheader_pointer_size := by
    refine ⟨sas_col_attrs_subheader_init env w (sas_header_info_init w), ?_, ?_⟩
    · simp [sas_subheader_array_init]
    · simp only [sas_col_attrs_subheader_init, sas_subheader_init, hu, if_true]
      simp only [sas_header_info_init, hver, decide_True, if_true, PAGE_SIZE,
        SAS_PAGE_HEADER_SIZE_64BIT, SAS_SUBHEADER_POINTER_SIZE_64BIT]
      omega
  have hb := sas_begin_data_out_of_fuel env fuel w hroom hrpp
    (meta_pages_written_oversize _ _ _ hbad)
  refine ⟨hb, ?_⟩
  simp only [sas_write_file, hb, bind, Except.bind]

set_option maxRecDepth 100000 in
/-- Witness of C1: 251 double columns "x000" .. "x250", no rows, version 90101, fuel 1000. -/
theorem C1_wide_schema_never_returns_witness :
    sas_write_file example_env 1000 (example_writer example_wide_vars 0 90101) []
      = .error .out_of_fuel :=
  (C1_wide_schema_never_returns example_env 1000 (example_writer example_wide_vars 0 90101) []
    rfl (by decide) (by decide) (by decide) (by decide)).2

set_option maxRecDepth 100000 in
/-- C2 (what the code does): for 31 double columns, 24 with the 8-byte names "variabla" ..
"variablx" and 7 with the 1-byte names "a" .. "g" (64-bit, no rows), the 36 subheaders with their pointers fill the usable 4056 bytes of a page
exactly; `sas_count_meta_pages` (test `>`) counts 1 meta page and the header gets page count 1,
while `sas_emit_meta_pages` (test `<`) leaves the last subheader for a second page and writes
2 pages. -/
theorem C2_exact_fit_page_count_mismatch :
    sas_count_meta_pages (sas_header_info_init (example_writer example_exact_fit_vars 0 90101))
      (sas_subheader_array_init example_env (example_writer example_exact_fit_vars 0 90101)
        (sas_header_info_init (example_writer example_exact_fit_vars 0 90101))) = 1 ∧
    page_count_of (sas_begin_data_init example_env
      (example_writer example_exact_fit_vars 0 90101)) = some 1 ∧
    meta_pages_written (sas_header_info_init (example_writer example_exact_fit_vars 0 90101)) 10
      (sas_subheader_array_init example_env (example_writer example_exact_fit_vars 0 90101)
        (sas_header_info_init (example_writer example_exact_fit_vars 0 90101))) = some 2 ∧
    bytes_written_of (sas_begin_data example_env 10
      (example_writer example_exact_fit_vars 0 90101)) = some (HEADER_SIZE + 2 * PAGE_SIZE) := by
  have hk : meta_pages_written
      (sas_header_info_init (example_writer example_exact_fit_vars 0 90101)) 10
      (sas_subheader_array_init example_env (example_writer example_exact_fit_vars 0 90101)
        (sas_header_info_init (example_writer example_exact_fit_vars 0 90101))) = some 2 := by
    decide!
  refine ⟨by decide!, by decide!, hk, ?_⟩
  obtain ⟨w1, pc, e, _, _, hbytes⟩ := sas_begin_data_some example_env 10
    (example_writer example_exact_fit_vars 0 90101) 2 rfl (by decide!) hk
  rw [e]
  simp only [bytes_written_of]
  rw [hbytes rfl (by decide!)]
  rfl

/-- C3: for a row count `0 ≤ row_count < 2^31 - 4096` and a row length that gives at least
one row per page, `rows_per_page` is the floor of `(page_size - page_header_size) / row_length`,
the code's data-page count `(row_count + (rows_per_page - 1)) / rows_per_page` is the ceiling of
`row_count / rows_per_page` (0 when `row_count = 0`), `sas_begin_data` computes the page count
as `sas_count_meta_pages` plus that ceiling, and it is the header context with this page count
that `sas_begin_data` hands to `sas_emit_header`. -/
theorem C3_page_count (env : sas_env) (w : readstat_writer_t) (h0 : 0 ≤ w.row_count)
    (h1 : w.row_count < 2 ^ 31 - 4096)
    (hrpp : 1 ≤ (PAGE_SIZE - (sas_header_info_init w).page_header_size) / sas_row_length w) :
    sas_rows_per_page w (sas_header_info_init w)
      = .ok (((PAGE_SIZE - (sas_header_info_init w).page_header_size) / sas_row_length w : Nat)
          : Int) ∧
    (sas_header_info_init w).page_size = PAGE_SIZE ∧
    sas_count_data_pages w (sas_header_info_init w)
      = .ok (spec_data_pages w.row_count
          (((PAGE_SIZE - (sas_header_info_init w).page_header_size) / sas_row_length w : Nat)
            : Int)) ∧
    (w.row_count = 0 → sas_count_data_pages w (sas_header_info_init w) = .ok 0) ∧
    sas_begin_data_init env w
      = .ok (spec_header_info env w, sas_subheader_array_init env w (sas_header_info_init w)) ∧
    (∀ fuel, sas_begin_data env fuel w
      = (sas_emit_header env w (spec_header_info env w)).bind
          (fun w1 =>
            (sas_emit_meta_pages env (spec_header_info env w) fuel w1
              (sas_subheader_array_init env w (sas_header_info_init w))).bind
            (fun w2 => .ok { w2 with module_ctx := some (spec_header_info env w) }))) := by
  have hL : sas_row_length w ≠ 0 := by
    intro h
    rw [h, Nat.div_zero] at hrpp
    omega
  have hcd := sas_count_data_pages_eq w (sas_header_info_init w) h0 h1 hrpp
  have hinit : sas_begin_data_init env w
      = .ok (spec_header_info env w, sas_subheader_array_init env w (sas_header_info_init w)) := by
    simp only [sas_begin_data_init, hcd]
    rfl
  refine ⟨sas_rows_per_page_eq w _ hL, rfl, hcd, ?_, hinit, ?_⟩
  · intro hz
    rw [hcd, hz]
    simp [spec_data_pages]
  · intro fuel
    simp only [sas_begin_data, hinit]
    rfl

/-- Witness of C3: one double column, three declared rows, version 90101. -/
theorem C3_page_count_witness :
    sas_count_data_pages (example_writer [example_double [120]] 3 90101)
        (sas_header_info_init (example_writer [example_double [120]] 3 90101))
      = .ok (spec_data_pages 3 (((PAGE_SIZE - 40) / 8 : Nat) : Int)) :=
  (C3_page_count example_env (example_writer [example_double [120]] 3 90101)
    (by decide) (by decide) (by decide)).2.2.1

/-- C4 (what the code does): for a schema without variables the row length is 0, so
`sas_rows_per_page`, which `sas_begin_data` reaches through `sas_count_data_pages` before
anything is written, divides by zero; `sas_begin_data` does not return OK, whatever the row
count and the version. -/
theorem C4_empty_schema_divides_by_zero (env : sas_env) (fuel : Nat) (w : readstat_writer_t)
    (hvars : w.vars = []) :
    sas_row_length w = 0 ∧
    sas_rows_per_page w (sas_header_info_init w) = .error .div_by_zero ∧
    sas_begin_data env fuel w = .error .div_by_zero := by
  have hL : sas_row_length w = 0 := by simp [sas_row_length, hvars]
  have hr : sas_rows_per_page w (sas_header_info_init w) = .error .div_by_zero := by
    simp [sas_rows_per_page, hL]
  refine ⟨hL, hr, ?_⟩
  simp only [sas_begin_data, sas_begin_data_init, sas_count_data_pages, hr]
  rfl

/-- Witness of C4: the empty schema with zero rows and version 90101. -/
theorem C4_empty_schema_divides_by_zero_witness :
    sas_begin_data example_env 10 (example_writer [] 0 90101) = .error .div_by_zero :=
  (C4_empty_schema_divides_by_zero example_env 10 (example_writer [] 0 90101) rfl).2.2

/-- C5: `sas_write_missing_tagged` returns VALUE_OUT_OF_RANGE exactly for tags outside 'a'..'z'
(97..122) and then leaves the row bytes unchanged; for tags inside it returns OK; the
system-missing writer `sas_write_missing_numeric` always returns OK. -/
theorem C5_missing_tag_domain (env : sas_env) (row : List Nat) (var : readstat_variable_t)
    (tag : Nat) :
    ((sas_write_missing_tagged env row var tag).1 = .READSTAT_ERROR_VALUE_OUT_OF_RANGE ↔
        ¬ (97 ≤ tag ∧ tag ≤ 122)) ∧
    (¬ (97 ≤ tag ∧ tag ≤ 122) → (sas_write_missing_tagged env row var tag).2 = row) ∧
    ((97 ≤ tag ∧ tag ≤ 122) → (sas_write_missing_tagged env row var tag).1 = .READSTAT_OK) ∧
    (sas_write_missing_numeric env row var).1 = .READSTAT_OK := by
  refine ⟨?_, ?_, ?_, ?_⟩
  · by_cases h : tag < 97 ∨ tag > 122
    · simp only [sas_write_missing_tagged, if_pos h]
      constructor
      · intro _; omega
      · intro _; trivial
    · simp only [sas_write_missing_tagged, if_neg h, sas_write_missing_tagged_raw,
        sas_write_double]
      constructor
      · intro hc; cases hc
      · intro hc; omega
  · intro h
    have h' : tag < 97 ∨ tag > 122 := by omega
    simp only [sas_write_missing_tagged, if_pos h']
  · intro h
    have h' : ¬ (tag < 97 ∨ tag > 122) := by omega
    simp only [sas_write_missing_tagged, if_neg h', sas_write_missing_tagged_raw,
      sas_write_double]
  · simp only [sas_write_missing_numeric, sas_write_missing_tagged_raw, sas_write_double]

/-- C6: for a host whose NAN is an 8-byte NaN pattern and every tag `t` in 'a'..'z', the
tagged-missing writer stores the NaN bytes with byte 5 replaced by the complement of `t`
(0x9E for 'a'), the system-missing writer stores them with byte 5 = 0xFF, both results are
still NaN patterns, the tag is recovered as the complement of byte 5, distinct tags give
distinct encodings and no tagged encoding equals the system-missing encoding. -/
theorem C6_missing_nan_encoding (env : sas_env) (row : List Nat) (var : readstat_variable_t)
    (t : Nat) (hlen : env.nan_image.length = 8) (hbytes : ∀ b ∈ env.nan_image, b < 256)
    (hnan : is_nan_bits (le_value env.nan_image)) (ht : 97 ≤ t ∧ t ≤ 122) :
    sas_write_missing_tagged env row var t
        = (.READSTAT_OK, env.nan_image.set 5 (bit_not8 t) ++ row.drop 8) ∧
    bit_not8 t = 255 - t ∧ bit_not8 97 = 0x9E ∧
    sas_write_missing_numeric env row var
        = (.READSTAT_OK, env.nan_image.set 5 0xFF ++ row.drop 8) ∧
    is_nan_bits (le_value ((sas_write_missing_tagged env row var t).2.take 8)) ∧
    is_nan_bits (le_value ((sas_write_missing_numeric env row var).2.take 8)) ∧
    sas_missing_tag_of (sas_write_missing_tagged env row var t).2 = t ∧
    (∀ t2, 97 ≤ t2 ∧ t2 ≤ 122 → t2 ≠ t →
      (sas_write_missing_tagged env row var t2).2.take 8
        ≠ (sas_write_missing_tagged env row var t).2.take 8) ∧
    (sas_write_missing_tagged env row var t).2.take 8
      ≠ (sas_write_missing_numeric env row var).2.take 8 := by
  have htag : ∀ u, 97 ≤ u ∧ u ≤ 122 → sas_write_missing_tagged env row var u
      = (.READSTAT_OK, env.nan_image.set 5 (bit_not8 u) ++ row.drop 8) := by
    intro u hu
    have h' : ¬ (u < 97 ∨ u > 122) := by omega
    simp only [sas_write_missing_tagged, if_neg h', tagged_raw_eq env row var u hlen]
  have hsys : sas_write_missing_numeric env row var
      = (.READSTAT_OK, env.nan_image.set 5 0xFF ++ row.drop 8) := by
    simp only [sas_write_missing_numeric, tagged_raw_eq env row var 0 hlen]
    rfl
  have htake : ∀ x, ((env.nan_image.set 5 x) ++ row.drop 8).take 8 = env.nan_image.set 5 x := by
    intro x
    rw [List.take_append_of_le_length (by simp [hlen])]
    exact List.take_of_length_le (by simp [hlen])
  have hget : ∀ x, (env.nan_image.set 5 x).getD 5 0 = x := by
    intro x
    simp [List.getD, List.getElem?_set, hlen]
  have hnot : ∀ u, u ≤ 122 → bit_not8 u = 255 - u := by
    intro u hu
    simp only [bit_not8]
    rw [Nat.mod_eq_of_lt (by omega)]
  refine ⟨htag t ht, hnot t ht.2, by decide, hsys, ?_, ?_, ?_, ?_, ?_⟩
  · rw [htag t ht]
    simp only [htake]
    exact nan_set5 _ _ hlen hbytes hnan (by rw [hnot t ht.2]; omega) (by rw [hnot t ht.2]; omega)
  · rw [hsys]
    simp only [htake]
    exact nan_set5 _ _ hlen hbytes hnan (by omega) (by omega)
  · rw [htag t ht]
    simp only [sas_missing_tag_of]
    have h5 : (env.nan_image.set 5 (bit_not8 t) ++ row.drop 8).getD 5 0 = bit_not8 t := by
      rw [List.getD_append _ _ _ _ (by simp [hlen])]
      exact hget _
    rw [h5, hnot t ht.2]
    simp only [bit_not8]
    omega
  · intro t2 ht2 hne heq
    rw [htag t ht, htag t2 ht2] at heq
    simp only [htake] at heq
    have := congrArg (fun l => l.getD 5 0) heq
    simp only [hget, hnot t ht.2, hnot t2 ht2.2] at this
    omega
  · intro heq
    rw [htag t ht, hsys] at heq
    simp only [htake] at heq
    have := congrArg (fun l => l.getD 5 0) heq
    simp only [hget, hnot t ht.2] at this
    omega

/-- Witness of C6 on the quiet NaN 0x7FF8000000000000 and the tag 'a'. -/
theorem C6_missing_nan_encoding_witness :
    sas_write_missing_tagged example_env [1, 2, 3, 4, 5, 6, 7, 8, 9]
        (example_double [120]) 97
      = (.READSTAT_OK, [0, 0, 0, 0, 0, 0x9E, 0xF8, 0x7F, 9]) ∧
    sas_missing_tag_of (sas_write_missing_tagged example_env [1, 2, 3, 4, 5, 6, 7, 8, 9]
        (example_double [120]) 97).2 = 97 :=
  have h := C6_missing_nan_encoding example_env [1, 2, 3, 4, 5, 6, 7, 8, 9]
    (example_double [120]) 97 (by decide) (by decide) (by decide) (by decide)
  ⟨h.1, h.2.2.2.2.2.2.1⟩

/-- C7 (what the code does): `sas_variable_width` returns the user width only for
READSTAT_TYPE_STRING and 8 for every other type; for a long string of user width 20 it
returns 8, the row length counts 8 bytes for it, while the COLUMN_ATTRS record built by
`sas_col_attrs_subheader_init` declares it as a character column of width 20. -/
theorem C7_variable_width_long_string :
    (∀ type user_width, sas_variable_width type user_width
        = if type = .READSTAT_TYPE_STRING then user_width else 8) ∧
    sas_variable_width .READSTAT_TYPE_LONG_STRING 20 = 8 ∧
    sas_row_length example_long_string_writer = 8 ∧
    read_bytes (sas_col_attrs_subheader_init example_env example_long_string_writer
        (sas_header_info_init example_long_string_writer)).data 24 7
      = [20, 0, 0, 0, 4, 0, example_env.COLUMN_TYPE_CHR] := by
  refine ⟨fun _ _ => rfl, by decide, by decide, by decide⟩

/-- C8: `sas_header_info_init` sets header size 1024 and page size 4096, selects 64-bit mode
exactly for versions from 90000 on, and sets (page header size, subheader pointer size) to the
64-bit constants (40, 24) in 64-bit mode and to the 32-bit constants (24, 12) in 32-bit mode;
a writer begun with version 0 gets version 90101 and so the 64-bit layout. -/
theorem C8_header_info_init (w : readstat_writer_t) :
    (sas_header_info_init w).header_size = 1024 ∧
    (sas_header_info_init w).page_size = 4096 ∧
    ((sas_header_info_init w).u64 = true ↔ w.version ≥ 90000) ∧
    ((sas_header_info_init w).u64 = true →
      (sas_header_info_init w).page_header_size = SAS_PAGE_HEADER_SIZE_64BIT ∧
      (sas_header_info_init w).subheader_pointer_size = SAS_SUBHEADER_POINTER_SIZE_64BIT ∧
      (sas_header_info_init w).page_header_size = 40 ∧
      (sas_header_info_init w).subheader_pointer_size = 24) ∧
    ((sas_header_info_init w).u64 = false →
      (sas_header_info_init w).page_header_size = SAS_PAGE_HEADER_SIZE_32BIT ∧
      (sas_header_info_init w).subheader_pointer_size = SAS_SUBHEADER_POINTER_SIZE_32BIT ∧
      (sas_header_info_init w).page_header_size = 24 ∧
      (sas_header_info_init w).subheader_pointer_size = 12) ∧
    (∀ row_count, w.version = 0 →
      (readstat_begin_writing_sas7bdat w row_count).1 = .READSTAT_OK ∧
      (readstat_begin_writing_sas7bdat w row_count).2.version = 90101 ∧
      (sas_header_info_init (readstat_begin_writing_sas7bdat w row_count).2).u64 = true ∧
      (sas_header_info_init (readstat_begin_writing_sas7bdat w row_count).2).page_header_size
        = 40 ∧
      (sas_header_info_init
        (readstat_begin_writing_sas7bdat w row_count).2).subheader_pointer_size = 24) := by
  refine ⟨rfl, rfl, ?_, ?_, ?_, ?_⟩
  · simp [sas_header_info_init]
  · intro h
    simp only [sas_header_info_init] at h ⊢
    simp [h, SAS_PAGE_HEADER_SIZE_64BIT, SAS_SUBHEADER_POINTER_SIZE_64BIT]
  · intro h
    simp only [sas_header_info_init] at h ⊢
    simp [h, SAS_PAGE_HEADER_SIZE_32BIT, SAS_SUBHEADER_POINTER_SIZE_32BIT]
  · intro row_count hv
    simp [readstat_begin_writing_sas7bdat, sas_header_info_init, hv, SAS_DEFAULT_FILE_VERSION,
      SAS_PAGE_HEADER_SIZE_64BIT, SAS_SUBHEADER_POINTER_SIZE_64BIT]

/-- C9: for a string `s` stored by `make_text_ref` in a well-formed pool, with returned
reference `r`: the buffer at position `r.index` of the new pool carries that index and is the
only position that changed, `r.offset` is that buffer's used count before the call (0 for a
buffer that did not exist) plus 28, `r.length` is the length of `s`, the buffer holds `s` at
`r.offset - 28`, and the COLUMN_TEXT subheader built from it holds the `r.length` bytes of `s`
at `signature_len + r.offset`, inside the subheader, in 32-bit and in 64-bit mode. -/
theorem C9_text_ref_roundtrip (env : sas_env) (hinfo : sas_header_info_t)
    (cta : List sas_column_text_t) (s : List Nat) (hwf : pool_wf cta) :
    ∃ buf : sas_column_text_t,
      (make_text_ref cta s).1[(make_text_ref cta s).2.index]? = some buf ∧
      buf.index = (make_text_ref cta s).2.index ∧
      (∀ j, j ≠ (make_text_ref cta s).2.index → (make_text_ref cta s).1[j]? = cta[j]?) ∧
      (make_text_ref cta s).2.offset
        = ((cta[(make_text_ref cta s).2.index]?).map (fun b => b.used)).getD 0 + 28 ∧
      (make_text_ref cta s).2.length = s.length ∧
      read_bytes buf.data ((make_text_ref cta s).2.offset - 28) (make_text_ref cta s).2.length
        = s ∧
      (sas_col_text_subheader_init env hinfo buf).data.length
        = (sas_col_text_subheader_init env hinfo buf).len ∧
      (if hinfo.u64 then 8 else 4) + (make_text_ref cta s).2.offset
          + (make_text_ref cta s).2.length ≤ (sas_col_text_subheader_init env hinfo buf).len ∧
      read_bytes (sas_col_text_subheader_init env hinfo buf).data
          ((if hinfo.u64 then 8 else 4) + (make_text_ref cta s).2.offset)
          (make_text_ref cta s).2.length = s := by
  obtain ⟨old, href, hget, hother, hold, _⟩ := make_text_ref_spec cta s hwf
  obtain ⟨hi, _, hu, hr, _, hdata⟩ := make_text_ref_store_spec old s
  rw [href, hr]
  simp only
  rw [hr] at href
  have hpad := padded_len_ge s.length
  refine ⟨(make_text_ref_store old s).1, hget, hi, hother, ?_, trivial, ?_, ?_, ?_, ?_⟩
  · rcases hold with h | ⟨h, h0, _⟩
    · simp [h]
    · simp [h, h0]
  · apply read_bytes_eq_of_getD
    intro i hi2
    rw [Nat.add_sub_cancel]
    exact hdata i hi2
  · simp only [sas_col_text_subheader_init, sas_subheader_init, mem_write_length,
      List.length_replicate, le_bytes_length, read_bytes_length, hu]
    split <;> omega
  · simp only [sas_col_text_subheader_init, sas_subheader_init, hu]
    split <;> omega
  · apply read_bytes_eq_of_getD
    intro i hi2
    simp only [sas_col_text_subheader_init, sas_subheader_init]
    have hpos : (if hinfo.u64 = true then 8 else 4) + (old.used + 28) + i
        = ((if hinfo.u64 = true then 8 else 4) + 28) + (old.used + i) := by omega
    rw [hpos, getD_mem_write_mid _ _ _ _ (by rw [read_bytes_length, hu]; omega),
      getD_read_bytes _ _ _ _ (by rw [hu]; omega), Nat.zero_add]
    exact hdata i hi2

/-- Witness of C9: the string "abc" stored in the initial pool of a 64-bit file. -/
theorem C9_text_ref_roundtrip_witness :
    ∃ buf : sas_column_text_t,
      (make_text_ref (sas_column_text_array_init (sas_header_info_init
        (example_writer [] 0 90101))) [97, 98, 99]).1[0]? = some buf ∧
      read_bytes (sas_col_text_subheader_init example_env
        (sas_header_info_init (example_writer [] 0 90101)) buf).data (8 + 28) 3
        = [97, 98, 99] := by
  obtain ⟨buf, h1, _, _, _, _, _, _, _, h9⟩ :=
    C9_text_ref_roundtrip example_env (sas_header_info_init (example_writer [] 0 90101))
      (sas_column_text_array_init (sas_header_info_init (example_writer [] 0 90101)))
      [97, 98, 99] (by decide)
  exact ⟨buf, h1, h9⟩

/-- C10: a reference issued by `make_text_ref` for a string `s` on a well-formed pool still
locates `s` (buffer `index`, bytes `offset - 28 .. offset - 28 + length`) after any sequence
of later calls, whether or not they append buffers; and every buffer that existed after the
issuing call keeps its position, index and capacity and the bytes below its used count. -/
theorem C10_text_refs_stay_valid (cta : List sas_column_text_t) (s : List Nat)
    (later : List (List Nat)) (hwf : pool_wf cta) :
    (∃ buf : sas_column_text_t,
      (make_text_refs (make_text_ref cta s).1 later)[(make_text_ref cta s).2.index]? = some buf ∧
      buf.index = (make_text_ref cta s).2.index ∧
      read_bytes buf.data ((make_text_ref cta s).2.offset - 28) (make_text_ref cta s).2.length
        = s) ∧
    (∀ (j : Nat) (x : sas_column_text_t), (make_text_ref cta s).1[j]? = some x →
      ∃ y : sas_column_text_t, (make_text_refs (make_text_ref cta s).1 later)[j]? = some y ∧
        y.index = x.index ∧ y.capacity = x.capacity ∧
        read_bytes y.data 0 x.used = read_bytes x.data 0 x.used) := by
  have hwf1 := pool_wf_make_text_ref cta s hwf
  have hext := pool_extends_make_text_refs (make_text_ref cta s).1 later hwf1
  constructor
  · obtain ⟨buf, hget, hidx, hle, hread⟩ := make_text_ref_stored cta s hwf
    obtain ⟨y, hy, hi, _, _, hd⟩ := hext _ buf hget
    refine ⟨y, hy, hi.trans hidx, ?_⟩
    refine Eq.trans ?_ hread
    apply read_bytes_congr
    intro i hi2
    exact hd _ (by omega)
  · intro j x hx
    obtain ⟨y, hy, hi, hc, _, hd⟩ := hext j x hx
    refine ⟨y, hy, hi, hc, ?_⟩
    apply read_bytes_congr
    intro i hi2
    exact hd _ (by omega)

/-- Witness of C10: "abc" stored in the initial pool of a 64-bit file, followed by a second
string "defgh". -/
theorem C10_text_refs_stay_valid_witness :
    ∃ buf : sas_column_text_t,
      (make_text_refs (make_text_ref (sas_column_text_array_init (sas_header_info_init
          (example_writer [] 0 90101))) [97, 98, 99]).1 [[100, 101, 102, 103, 104]])[
        (make_text_ref (sas_column_text_array_init (sas_header_info_init
          (example_writer [] 0 90101))) [97, 98, 99]).2.index]? = some buf ∧
      read_bytes buf.data
        ((make_text_ref (sas_column_text_array_init (sas_header_info_init
          (example_writer [] 0 90101))) [97, 98, 99]).2.offset - 28)
        (make_text_ref (sas_column_text_array_init (sas_header_info_init
          (example_writer [] 0 90101))) [97, 98, 99]).2.length = [97, 98, 99] := by
  obtain ⟨⟨buf, h1, _, h3⟩, _⟩ :=
    C10_text_refs_stay_valid (sas_column_text_array_init (sas_header_info_init
      (example_writer [] 0 90101))) [97, 98, 99] [[100, 101, 102, 103, 104]] (by decide)
  exact ⟨buf, h1, h3⟩

/-- C11: on a pool whose last buffer is `last`, `make_text_ref` appends a buffer exactly when
`last.used + padded_len > last.capacity`, with `padded_len` the string length rounded up to a
multiple of 4.  The appended buffer has the capacity of `last` and the old buffer count as its
index, the reference is (old count, 28, length), and the buffer holds the string at offset 0.
Otherwise the buffer count is unchanged, the other buffers are untouched and the string goes
into the last buffer at its old used count.  In both cases the used count of the receiving
buffer grows by exactly `padded_len` and the bytes written are the string followed by NULs. -/
theorem C11_make_text_ref_append (cta : List sas_column_text_t) (s : List Nat)
    (last : sas_column_text_t) (hlast : cta[cta.length - 1]? = some last) :
    ((make_text_ref cta s).1.length = cta.length + 1
      ↔ last.used + (s.length + 3) / 4 * 4 > last.capacity) ∧
    (last.used + (s.length + 3) / 4 * 4 > last.capacity →
      ∃ fresh : sas_column_text_t,
        (make_text_ref cta s).1 = cta ++ [fresh] ∧
        fresh.capacity = last.capacity ∧ fresh.index = cta.length ∧
        (make_text_ref cta s).2 = { index := cta.length, offset := 28, length := s.length } ∧
        fresh.used = (s.length + 3) / 4 * 4 ∧
        read_bytes fresh.data 0 ((s.length + 3) / 4 * 4)
          = s ++ List.replicate ((s.length + 3) / 4 * 4 - s.length) 0) ∧
    (¬ last.used + (s.length + 3) / 4 * 4 > last.capacity →
      ∃ filled : sas_column_text_t,
        (make_text_ref cta s).1 = cta.set (cta.length - 1) filled ∧
        (make_text_ref cta s).1.length = cta.length ∧
        filled.capacity = last.capacity ∧ filled.index = last.index ∧
        (make_text_ref cta s).2
          = { index := last.index, offset := last.used + 28, length := s.length } ∧
        filled.used = last.used + (s.length + 3) / 4 * 4 ∧
        read_bytes filled.data 0 last.used = read_bytes last.data 0 last.used ∧
        read_bytes filled.data last.used ((s.length + 3) / 4 * 4)
          = s ++ List.replicate ((s.length + 3) / 4 * 4 - s.length) 0) := by
  have heq := make_text_ref_eq cta s last hlast
  refine ⟨?_, ?_, ?_⟩
  · rw [heq]
    by_cases h : last.used + (s.length + 3) / 4 * 4 > last.capacity
    · rw [if_pos h]
      simp [h]
    · rw [if_neg h]
      simp only [List.length_set]
      constructor
      · intro hc; omega
      · intro hc; exact absurd hc h
  · intro h
    rw [heq, if_pos h]
    refine ⟨(make_text_ref_store (sas_column_text_init cta.length last.capacity) s).1,
      rfl, rfl, rfl, rfl, ?_, ?_⟩
    · simp [make_text_ref_store, sas_column_text_init]
    · exact make_text_ref_store_bytes (sas_column_text_init cta.length last.capacity) s
  · intro h
    rw [heq, if_neg h]
    refine ⟨(make_text_ref_store last s).1, rfl, by simp, rfl, rfl, rfl, rfl, ?_, ?_⟩
    · apply read_bytes_congr
      intro i hi
      exact getD_mem_write_lt _ _ _ _ (by omega)
    · exact make_text_ref_store_bytes last s

/-- Witness of C11: a 5-byte string on a pool whose only buffer has 4 bytes left. -/
theorem C11_make_text_ref_append_witness :
    (make_text_ref example_full_pool [104, 101, 108, 108, 111]).1.length = 2 ∧
    (make_text_ref example_full_pool [104, 101, 108, 108, 111]).2
      = { index := 1, offset := 28, length := 5 } :=
  have h := C11_make_text_ref_append example_full_pool [104, 101, 108, 108, 111]
    { data := [], capacity := COLUMN_TEXT_SIZE_64BIT, used := 4028, index := 0 } rfl
  have hgt : 4028 + (5 + 3) / 4 * 4 > COLUMN_TEXT_SIZE_64BIT := by decide
  ⟨h.1.mpr hgt, (h.2.1 hgt).elim (fun _ hf => hf.2.2.2.1)⟩

/-- C12: for a schema with `n` variables whose strings leave `m` pool buffers,
`sas_subheader_array_init` returns exactly `4 + n + m` subheaders: ROW_SIZE, COLUMN_SIZE,
COLUMN_NAME, COLUMN_ATTRS, then the COLUMN_FORMAT subheader of each variable `0 .. n-1` in
declaration order (built for that variable with the pool as the variables before it left it),
then the COLUMN_TEXT subheader of each pool buffer `0 .. m-1` in pool order (buffer `j` has
index `j`). -/
theorem C12_subheader_array_order (env : sas_env) (w : readstat_writer_t)
    (hinfo : sas_header_info_t) :
    (sas_subheader_array_init env w hinfo).length
      = 4 + w.vars.length + (pool_final env w hinfo).length ∧
    (sas_subheader_array_init env w hinfo).map (fun sh => sh.signature)
      = [env.SIGNATURE_ROW_SIZE, env.SIGNATURE_COLUMN_SIZE, env.SIGNATURE_COLUMN_NAME,
          env.SIGNATURE_COLUMN_ATTRS]
        ++ List.replicate w.vars.length env.SIGNATURE_COLUMN_FORMAT
        ++ List.replicate (pool_final env w hinfo).length env.SIGNATURE_COLUMN_TEXT ∧
    (sas_subheader_array_init env w hinfo).take 4
      = [sas_row_size_subheader_init env w hinfo, sas_col_size_subheader_init env w hinfo,
          (sas_col_name_subheader_init env w hinfo (sas_column_text_array_init hinfo)).1,
          sas_col_attrs_subheader_init env w hinfo] ∧
    (∀ (k : Nat) (v : readstat_variable_t), w.vars[k]? = some v →
      (sas_subheader_array_init env w hinfo)[4 + k]?
        = some (sas_col_format_subheader_init env v hinfo
            (pool_before_format env w hinfo k)).1) ∧
    (∀ (j : Nat) (b : sas_column_text_t), (pool_final env w hinfo)[j]? = some b →
      b.index = j ∧
      (sas_subheader_array_init env w hinfo)[4 + w.vars.length + j]?
        = some (sas_col_text_subheader_init env hinfo b)) := by
  have hfl := sas_col_format_loop_length env hinfo w.vars (pool_after_names env w hinfo)
  rw [sas_subheader_array_init_eq]
  refine ⟨?_, ?_, ?_, ?_, ?_⟩
  · simp only [List.length_append, List.length_cons, List.length_nil, List.length_map, hfl]
  · simp only [List.map_append, List.map_cons, List.map_nil, sas_col_format_loop_signature,
      List.map_map]
    congr 1
    · congr 1
      simp only [sas_row_size_subheader_init, sas_col_size_subheader_init,
        sas_col_name_subheader_init, sas_col_attrs_subheader_init, sas_subheader_init]
      cases hinfo.u64 <;> rfl
    · rw [List.eq_replicate_iff]
      refine ⟨by simp, ?_⟩
      intro b hb
      simp only [List.mem_map, Function.comp] at hb
      obtain ⟨a, _, ha⟩ := hb
      rw [← ha]
      rfl
  · simp
  · intro k v hv
    have hk : k < w.vars.length := by
      rcases Nat.lt_or_ge k w.vars.length with h | h
      · exact h
      · rw [List.getElem?_eq_none h] at hv
        cases hv
    rw [List.append_assoc, List.getElem?_append_right (by simp)]
    simp only [List.length_cons, List.length_nil, Nat.add_sub_cancel_left]
    rw [List.getElem?_append_left (by rw [hfl]; exact hk)]
    exact sas_col_format_loop_getElem env hinfo w.vars _ k v hv
  · intro j b hb
    have hj : j < (pool_final env w hinfo).length := by
      rcases Nat.lt_or_ge j (pool_final env w hinfo).length with h | h
      · exact h
      · rw [List.getElem?_eq_none h] at hb
        cases hb
    constructor
    · have := (pool_wf_final env w hinfo).2 j hj
      rw [hb] at this
      simpa using this
    · rw [List.getElem?_append_right (by simp [hfl]; omega)]
      simp only [List.length_append, List.length_cons, List.length_nil, hfl]
      have h4 : 4 + w.vars.length + j - (0 + 1 + 1 + 1 + 1 + w.vars.length) = j := by omega
      rw [h4, List.getElem?_map, hb]
      rfl

/-- C13 (as stated, refuted): for the 64-bit schema with the single string column
`example_huge_string`, whose storage width is `2 ^ 32 + 5`, the width field of its COLUMN_ATTRS
record (4 bytes at `signature_len + 8 + 8 = 24`) holds 5, not the storage width. -/
theorem C13_width_field_truncated :
    (sas_header_info_init (example_writer [example_huge_string] 0 90101)).u64 = true ∧
    example_huge_string.type = .READSTAT_TYPE_STRING ∧
    example_huge_string.storage_width = 4294967301 ∧
    le_value (read_bytes (sas_col_attrs_subheader_init example_env
        (example_writer [example_huge_string] 0 90101)
        (sas_header_info_init (example_writer [example_huge_string] 0 90101))).data 24 4) = 5 := by
  decide

/-- C13 (amended): for every schema and every variable `i`, the COLUMN_ATTRS record of
variable `i` (16 bytes in 64-bit mode, 12 in 32-bit mode, starting at
`signature_len + 8 + record_size * i`) is: the row offset, the sum of the recorded widths of
variables `0 .. i-1`, as a little-endian 8-byte (64-bit mode) or 4-byte (32-bit mode) integer,
so reduced modulo `2 ^ 64` or `2 ^ 32`; the 4-byte recorded width; the 2-byte name length flag,
4 if the name is at most 8 bytes long and 2048 otherwise; the type byte, CHR for string and
long-string variables and NUM otherwise; and one zero byte.  The recorded width is the storage
width reduced modulo `2 ^ 32` for string and long-string variables (the storage width itself
when it is below `2 ^ 32`) and 8 otherwise. -/
theorem C13_column_attrs_records (env : sas_env) (w : readstat_writer_t)
    (hinfo : sas_header_info_t) :
    (∀ (i : Nat) (v : readstat_variable_t), w.vars[i]? = some v →
      read_bytes (sas_col_attrs_subheader_init env w hinfo).data
          ((if hinfo.u64 then 8 else 4) + 8 + (if hinfo.u64 then 16 else 12) * i)
          (if hinfo.u64 then 16 else 12)
        = le_bytes (if hinfo.u64 then 8 else 4) ((w.vars.take i).map recorded_width).sum
          ++ le_bytes 4 (recorded_width v)
          ++ le_bytes 2 (if v.name.length ≤ 8 then 4 else 2048)
          ++ [recorded_type env v, 0]) ∧
    (∀ v : readstat_variable_t,
      (v.type = .READSTAT_TYPE_STRING ∨ v.type = .READSTAT_TYPE_LONG_STRING →
        recorded_width v = v.storage_width % 2 ^ 32 ∧
        (v.storage_width < 2 ^ 32 → recorded_width v = v.storage_width) ∧
        recorded_type env v = env.COLUMN_TYPE_CHR % 256) ∧
      (¬ (v.type = .READSTAT_TYPE_STRING ∨ v.type = .READSTAT_TYPE_LONG_STRING) →
        recorded_width v = 8 ∧ recorded_type env v = env.COLUMN_TYPE_NUM % 256)) := by
  constructor
  · intro i v hv
    cases hu : hinfo.u64
    · simp only [Bool.false_eq_true, if_false]
      have e := sas_col_attrs_loop_record32 env hinfo hu w.vars
        (mem_write (List.replicate (20 + 12 * w.vars.length) 0) 4
          (le_bytes 2 (size_t_sub (20 + 12 * w.vars.length) (4 + 2 * 4)))) (4 + 8) 0 i v hv
      rw [getD_mem_write_ge _ _ _ _ (by rw [le_bytes_length]; omega), getD_replicate_zero,
        Nat.zero_add] at e
      simp only [sas_col_attrs_subheader_init, sas_subheader_init, hu, Bool.false_eq_true,
        if_false]
      rw [e]
      simp only [List.append_assoc, List.singleton_append]
    · simp only [if_true]
      have e := sas_col_attrs_loop_record64 env hinfo hu w.vars
        (mem_write (List.replicate (28 + 16 * w.vars.length) 0) 8
          (le_bytes 2 (size_t_sub (28 + 16 * w.vars.length) (4 + 2 * 8)))) (8 + 8) 0 i v hv
      rw [getD_mem_write_ge _ _ _ _ (by rw [le_bytes_length]; omega), getD_replicate_zero,
        Nat.zero_add] at e
      simp only [sas_col_attrs_subheader_init, sas_subheader_init, hu, if_true]
      rw [e]
      simp only [List.append_assoc, List.singleton_append]
  · intro v
    constructor
    · intro hc
      refine ⟨?_, ?_, ?_⟩
      · simp only [recorded_width, if_pos hc]
      · intro hlt
        simp only [recorded_width, if_pos hc]
        exact Nat.mod_eq_of_lt hlt
      · simp only [recorded_type, if_pos hc]
    · intro hc
      constructor
      · simp only [recorded_width, if_neg hc]
      · simp only [recorded_type, if_neg hc]

/-- C14: for a schema with `n` variables the COLUMN_NAME subheader has total length `28 + 8n`
(64-bit) or `20 + 8n` (32-bit); right after the signature (at `signature_len`) it stores the
16-bit remainder `total_len - (4 + 2 * signature_len)`, whose value is `8 + 8n` modulo `2 ^ 16`
in both modes; and for every variable `i` the 8 bytes at `signature_len + 8 + 8i` are the 16-bit
index, offset and length of the text reference that `make_text_ref` issued for the name of
variable `i` (the pool being the one left by the names of variables `0 .. i-1`, in declaration
order), followed by two zero bytes. -/
theorem C14_column_name_records (env : sas_env) (w : readstat_writer_t)
    (hinfo : sas_header_info_t) :
    (sas_col_name_subheader_init env w hinfo (sas_column_text_array_init hinfo)).1.len
      = (if hinfo.u64 then 28 else 20) + 8 * w.vars.length ∧
    (sas_col_name_subheader_init env w hinfo (sas_column_text_array_init hinfo)).1.data.length
      = (if hinfo.u64 then 28 else 20) + 8 * w.vars.length ∧
    read_bytes (sas_col_name_subheader_init env w hinfo (sas_column_text_array_init hinfo)).1.data
        (if hinfo.u64 then 8 else 4) 2
      = le_bytes 2 (size_t_sub
          (sas_col_name_subheader_init env w hinfo (sas_column_text_array_init hinfo)).1.len
          (4 + 2 * (if hinfo.u64 then 8 else 4))) ∧
    le_value (read_bytes
        (sas_col_name_subheader_init env w hinfo (sas_column_text_array_init hinfo)).1.data
        (if hinfo.u64 then 8 else 4) 2) = (8 + 8 * w.vars.length) % 2 ^ 16 ∧
    (∀ (i : Nat) (v : readstat_variable_t), w.vars[i]? = some v →
      read_bytes
          (sas_col_name_subheader_init env w hinfo (sas_column_text_array_init hinfo)).1.data
          ((if hinfo.u64 then 8 else 4) + 8 + 8 * i) 8
        = le_bytes 2 (make_text_ref (make_text_refs (sas_column_text_array_init hinfo)
            ((w.vars.take i).map (fun u => u.name))) v.name).2.index
          ++ le_bytes 2 (make_text_ref (make_text_refs (sas_column_text_array_init hinfo)
            ((w.vars.take i).map (fun u => u.name))) v.name).2.offset
          ++ le_bytes 2 (make_text_ref (make_text_refs (sas_column_text_array_init hinfo)
            ((w.vars.take i).map (fun u => u.name))) v.name).2.length
          ++ [0, 0]) := by
  have hlen : (sas_col_name_subheader_init env w hinfo (sas_column_text_array_init hinfo)).1.len
      = (if hinfo.u64 then 28 else 20) + 8 * w.vars.length := by
    simp only [sas_col_name_subheader_init, sas_subheader_init]
    cases hinfo.u64 <;> rfl
  have hsub : size_t_sub ((if hinfo.u64 then 28 else 20) + 8 * w.vars.length)
      (4 + 2 * (if hinfo.u64 then 8 else 4)) = 8 + 8 * w.vars.length := by
    unfold size_t_sub
    cases hinfo.u64
    · simp only [Bool.false_eq_true, if_false]
      rw [if_pos (by omega)]
      omega
    · simp only [if_true]
      rw [if_pos (by omega)]
      omega
  have hrem : read_bytes
      (sas_col_name_subheader_init env w hinfo (sas_column_text_array_init hinfo)).1.data
      (if hinfo.u64 then 8 else 4) 2 = le_bytes 2 (8 + 8 * w.vars.length) := by
    simp only [sas_col_name_subheader_init, sas_subheader_init]
    have e := read_bytes_mem_write_same
      (List.replicate (if hinfo.u64 then 28 + 8 * w.vars.length else 20 + 8 * w.vars.length) 0)
      (le_bytes 2 (size_t_sub
        (if hinfo.u64 then 28 + 8 * w.vars.length else 20 + 8 * w.vars.length)
        (4 + 2 * (if hinfo.u64 then 8 else 4)))) (if hinfo.u64 then 8 else 4)
    rw [le_bytes_length] at e
    have hs : size_t_sub (if hinfo.u64 then 28 + 8 * w.vars.length else 20 + 8 * w.vars.length)
        (4 + 2 * (if hinfo.u64 then 8 else 4)) = 8 + 8 * w.vars.length := by
      rw [← hsub]
      cases hinfo.u64 <;> rfl
    rw [hs] at e ⊢
    refine Eq.trans ?_ e
    apply read_bytes_congr
    intro k hk
    exact sas_col_name_loop_getD _ _ ((if hinfo.u64 then 8 else 4) + 8) _
      ((if hinfo.u64 then 8 else 4) + k) (Or.inl (by omega))
  refine ⟨hlen, ?_, ?_, ?_, ?_⟩
  · simp only [sas_col_name_subheader_init, sas_subheader_init]
    rw [sas_col_name_loop_length]
    · rw [mem_write_length, le_bytes_length, List.length_replicate]
      cases hinfo.u64
      · simp only [Bool.false_eq_true, if_false]
        omega
      · simp only [if_true]
        omega
    · rw [mem_write_length, le_bytes_length, List.length_replicate]
      cases hinfo.u64
      · simp only [Bool.false_eq_true, if_false]
        omega
      · simp only [if_true]
        omega
  · rw [hrem, hlen, hsub]
  · rw [hrem, le_value_le_bytes]
    rfl
  · intro i v hv
    have h8 : (8 : Nat) = 6 + 2 := rfl
    rw [h8, read_bytes_add]
    congr 1
    · simp only [sas_col_name_subheader_init, sas_subheader_init]
      exact sas_col_name_loop_record _ _ _ _ i v hv
    · simp only [sas_col_name_subheader_init, sas_subheader_init]
      have hz := read_bytes_eq_of_getD
        (sas_col_name_loop w.vars
          (mem_write
            (List.replicate (if hinfo.u64 then 28 + 8 * w.vars.length
              else 20 + 8 * w.vars.length) 0)
            (if hinfo.u64 then 8 else 4)
            (le_bytes 2 (size_t_sub
              (if hinfo.u64 then 28 + 8 * w.vars.length else 20 + 8 * w.vars.length)
              (4 + 2 * (if hinfo.u64 then 8 else 4)))))
          ((if hinfo.u64 then 8 else 4) + 8) (sas_column_text_array_init hinfo)).1
        [0, 0] ((if hinfo.u64 then 8 else 4) + (6 + 2) + 8 * i + 6)
      apply hz
      intro k hk
      simp only [List.length_cons, List.length_nil] at hk
      rw [sas_col_name_loop_getD _ _ ((if hinfo.u64 then 8 else 4) + 8) _
        ((if hinfo.u64 then 8 else 4) + (6 + 2) + 8 * i + 6 + k) (Or.inr (by omega))]
      rw [getD_mem_write_ge _ _ _ _ (by rw [le_bytes_length]; omega), getD_replicate_zero]
      have hk2 : k = 0 ∨ k = 1 := by omega
      rcases hk2 with rfl | rfl <;> rfl

/-- C15: for every subheader built by `sas_subheader_array_init`, the data that the inner loop
of `sas_emit_meta_pages` copies to the page starts with the signature: in 32-bit mode the
first 4 bytes are the 32-bit signature; in 64-bit mode the first 8 bytes are the signature
followed by four bytes 0xFF (the sign extension) when the signature is at least 0xFF000000,
and the signature followed by four zero bytes otherwise; every byte from the end of the
signature field on (offset 4 or 8) is the byte the subheader had there; and these are the
bytes `sas_emit_subheader` puts on the page. -/
theorem C15_signature_bytes (env : sas_env) (w : readstat_writer_t) (hinfo : sas_header_info_t)
    (sh : sas_subheader_t) (hmem : sh ∈ sas_subheader_array_init env w hinfo) :
    (hinfo.u64 = false →
      read_bytes (sas_subheader_signed hinfo sh) 0 4 = le_bytes 4 sh.signature) ∧
    (hinfo.u64 = true → 0xFF000000 ≤ sh.signature % 2 ^ 32 →
      read_bytes (sas_subheader_signed hinfo sh) 0 8
        = le_bytes 4 sh.signature ++ [255, 255, 255, 255]) ∧
    (hinfo.u64 = true → sh.signature % 2 ^ 32 < 0xFF000000 →
      read_bytes (sas_subheader_signed hinfo sh) 0 8
        = le_bytes 4 sh.signature ++ [0, 0, 0, 0]) ∧
    (∀ pos, (if hinfo.u64 then 8 else 4) ≤ pos →
      (sas_subheader_signed hinfo sh).getD pos 0 = sh.data.getD pos 0) ∧
    (∀ (st : sas_meta_page_state) (rest : List sas_subheader_t),
      read_bytes (sas_emit_subheader env hinfo st sh rest).page
          (st.shp_data_offset - sh.len) sh.len
        = read_bytes (sas_subheader_signed hinfo sh) 0 sh.len) := by
  have h32 : le_bytes 4 (sh.signature % 2 ^ 32) = le_bytes 4 sh.signature :=
    le_bytes_congr_mod 4 _ _ (by norm_num)
  refine ⟨?_, ?_, ?_, ?_, ?_⟩
  · intro hu
    simp only [sas_subheader_signed, hu, Bool.false_eq_true, if_false, h32]
    have e := read_bytes_mem_write_same sh.data (le_bytes 4 sh.signature) 0
    rw [le_bytes_length] at e
    exact e
  · intro hu hge
    have hlt : sh.signature % 2 ^ 32 < 2 ^ 32 := Nat.mod_lt _ (by norm_num)
    have hge2 : sh.signature % 2 ^ 32 ≥ 0xFF000000 := hge
    simp only [sas_subheader_signed, hu, if_true, hge2]
    rw [le_bytes_int_sign_extend _ (by omega) hlt, h32]
    have e := read_bytes_mem_write_same sh.data (le_bytes 4 sh.signature ++ [255, 255, 255, 255])
      0
    rw [List.length_append, le_bytes_length] at e
    exact e
  · intro hu hlt
    have hng : ¬ (sh.signature % 2 ^ 32 ≥ 0xFF000000) := by omega
    simp only [sas_subheader_signed, hu, if_true, hng, if_false, h32]
    have h8 : (8 : Nat) = 4 + 4 := rfl
    rw [h8, read_bytes_add]
    congr 1
    · have e := read_bytes_mem_write_same sh.data (le_bytes 4 sh.signature) 0
      rw [le_bytes_length] at e
      exact e
    · rw [read_bytes_mem_write_disjoint _ _ _ _ _ (Or.inr (by rw [le_bytes_length]))]
      have hz := read_bytes_eq_of_getD sh.data [0, 0, 0, 0] (0 + 4)
      apply hz
      intro i hi
      simp only [List.length_cons, List.length_nil] at hi
      rw [subheader_array_prefix_zero env w hinfo sh hmem (0 + 4 + i)
        (by rw [hu]; simp only [if_true]; omega)]
      have hc : i = 0 ∨ i = 1 ∨ i = 2 ∨ i = 3 := by omega
      rcases hc with rfl | rfl | rfl | rfl <;> rfl
  · intro pos hpos
    cases hu : hinfo.u64
    · rw [hu] at hpos
      simp only [Bool.false_eq_true, if_false] at hpos
      simp only [sas_subheader_signed, hu, Bool.false_eq_true, if_false]
      exact getD_mem_write_ge _ _ _ _ (by rw [le_bytes_length]; omega)
    · rw [hu] at hpos
      simp only [if_true] at hpos
      simp only [sas_subheader_signed, hu, if_true]
      split
      · exact getD_mem_write_ge _ _ _ _ (by rw [le_bytes_int_length]; omega)
      · exact getD_mem_write_ge _ _ _ _ (by rw [le_bytes_length]; omega)
  · intro st rest
    simp only [sas_emit_subheader]
    have e := read_bytes_mem_write_same
      (if hinfo.u64 then
        mem_write (mem_write (mem_write st.page st.shp_ptr_offset
          (le_bytes 8 (st.shp_data_offset - sh.len))) (st.shp_ptr_offset + 8)
          (le_bytes 8 sh.len)) (st.shp_ptr_offset + 17) [sas_subheader_type env sh.signature]
      else
        mem_write (mem_write (mem_write st.page st.shp_ptr_offset
          (le_bytes 4 (st.shp_data_offset - sh.len))) (st.shp_ptr_offset + 4)
          (le_bytes 4 sh.len)) (st.shp_ptr_offset + 9) [sas_subheader_type env sh.signature])
      (read_bytes (sas_subheader_signed hinfo sh) 0 sh.len) (st.shp_data_offset - sh.len)
    rw [read_bytes_length] at e
    exact e

/-- C15 at an instance: the ROW_SIZE subheader of the example schema in a 64-bit file. -/
theorem C15_signature_bytes_witness :
    read_bytes (sas_subheader_signed
        (sas_header_info_init (example_writer [example_double [120]] 3 90101))
        (sas_row_size_subheader_init example_env (example_writer [example_double [120]] 3 90101)
          (sas_header_info_init (example_writer [example_double [120]] 3 90101)))) 0 8
      = le_bytes 4 (sas_row_size_subheader_init example_env
          (example_writer [example_double [120]] 3 90101)
          (sas_header_info_init (example_writer [example_double [120]] 3 90101))).signature
        ++ [0, 0, 0, 0] :=
  (C15_signature_bytes example_env (example_writer [example_double [120]] 3 90101)
    (sas_header_info_init (example_writer [example_double [120]] 3 90101))
    (sas_row_size_subheader_init example_env (example_writer [example_double [120]] 3 90101)
      (sas_header_info_init (example_writer [example_double [120]] 3 90101)))
    (by rw [sas_subheader_array_init_eq]; simp)).2.2.1 rfl (by decide)

/-- C16: on the meta page that `sas_emit_meta_pages` builds from the subheaders still to be
written (page header size 40 / 24, pointer size 24 / 12, page size 4096), the subheaders
placed are a prefix of them, the rest is left for the next page, and the `k`-th placed
subheader (`k` from 0) has its pointer at `page_header_size + k * subheader_pointer_size`:
the offset, `page_size` minus the total length of the placed subheaders `0 .. k`, and the
length, each as an 8-byte (64-bit) or 4-byte (32-bit) integer, the compression flag 0, the type
flag, which is 1 if and only if the signature is COLUMN_TEXT, COLUMN_NAME, COLUMN_ATTRS or
COLUMN_LIST and 0 otherwise, and zero padding.  The page bytes from that offset on are the
subheader data (with the signature).  The number of placed subheaders is stored twice (at 34
and 36 in 64-bit mode, 18 and 20 in 32-bit mode), the pointer table ends at or before the
start of the data area, and this 4096-byte page is what the outer loop writes. -/
theorem C16_meta_page_layout (env : sas_env) (hinfo : sas_header_info_t)
    (sarray : List sas_subheader_t) (k : Nat) (sh : sas_subheader_t)
    (hphs : hinfo.page_header_size = if hinfo.u64 then 40 else 24)
    (hps : hinfo.subheader_pointer_size = if hinfo.u64 then 24 else 12)
    (hpage : hinfo.page_size = PAGE_SIZE)
    (hk : (meta_page_placed hinfo.subheader_pointer_size
      (hinfo.page_size - hinfo.page_header_size) sarray)[k]? = some sh) :
    meta_page_placed hinfo.subheader_pointer_size (hinfo.page_size - hinfo.page_header_size)
        sarray ++ (sas_emit_meta_page env hinfo sarray).remaining = sarray ∧
    read_bytes (sas_emit_meta_page env hinfo sarray).page
        (hinfo.page_header_size + hinfo.subheader_pointer_size * k)
        hinfo.subheader_pointer_size
      = le_bytes (if hinfo.u64 then 8 else 4) (hinfo.page_size
          - (((meta_page_placed hinfo.subheader_pointer_size
              (hinfo.page_size - hinfo.page_header_size) sarray).take (k + 1)).map
                (fun s => s.len)).sum)
        ++ le_bytes (if hinfo.u64 then 8 else 4) sh.len
        ++ [0, sas_subheader_type env sh.signature]
        ++ List.replicate ((if hinfo.u64 then 8 else 4) - 2) 0 ∧
    (sas_subheader_type env sh.signature = 1 ↔
      (sh.signature = env.SIGNATURE_COLUMN_TEXT ∨ sh.signature = env.SIGNATURE_COLUMN_NAME ∨
        sh.signature = env.SIGNATURE_COLUMN_ATTRS ∨ sh.signature = env.SIGNATURE_COLUMN_LIST)) ∧
    (sas_subheader_type env sh.signature = 0 ∨ sas_subheader_type env sh.signature = 1) ∧
    read_bytes (sas_emit_meta_page env hinfo sarray).page
        (hinfo.page_size
          - (((meta_page_placed hinfo.subheader_pointer_size
              (hinfo.page_size - hinfo.page_header_size) sarray).take (k + 1)).map
                (fun s => s.len)).sum) sh.len
      = read_bytes (sas_subheader_signed hinfo sh) 0 sh.len ∧
    read_bytes (sas_emit_meta_page env hinfo sarray).page (if hinfo.u64 then 34 else 18) 2
      = le_bytes_int 2 ((meta_page_placed hinfo.subheader_pointer_size
          (hinfo.page_size - hinfo.page_header_size) sarray).length : Int) ∧
    read_bytes (sas_emit_meta_page env hinfo sarray).page (if hinfo.u64 then 36 else 20) 2
      = le_bytes_int 2 ((meta_page_placed hinfo.subheader_pointer_size
          (hinfo.page_size - hinfo.page_header_size) sarray).length : Int) ∧
    (sas_emit_meta_page env hinfo sarray).shp_ptr_offset
      = hinfo.page_header_size + hinfo.subheader_pointer_size
          * (meta_page_placed hinfo.subheader_pointer_size
              (hinfo.page_size - hinfo.page_header_size) sarray).length ∧
    (sas_emit_meta_page env hinfo sarray).shp_data_offset
      = hinfo.page_size - ((meta_page_placed hinfo.subheader_pointer_size
          (hinfo.page_size - hinfo.page_header_size) sarray).map (fun s => s.len)).sum ∧
    (sas_emit_meta_page env hinfo sarray).shp_ptr_offset
      ≤ (sas_emit_meta_page env hinfo sarray).shp_data_offset ∧
    (sas_emit_meta_page env hinfo sarray).page.length = PAGE_SIZE ∧
    (∀ (fuel : Nat) (w : readstat_writer_t), w.room = none →
      sas_emit_meta_pages env hinfo (fuel + 1) w sarray
        = sas_emit_meta_pages env hinfo fuel
            { w with bytes_written := w.bytes_written + PAGE_SIZE,
                     out := w.out ++ (sas_emit_meta_page env hinfo sarray).page }
            (sas_emit_meta_page env hinfo sarray).remaining) := by
  have ha : (if hinfo.u64 then 8 else 4) = if hinfo.u64 then 8 else 4 := rfl
  have hps3 : hinfo.subheader_pointer_size = 3 * (if hinfo.u64 then 8 else 4) := by
    rw [hps]
    cases hinfo.u64 <;> rfl
  have h4 := field_size_ge_two hinfo _ ha
  have hP : PAGE_SIZE = 4096 := rfl
  have hphs2 : hinfo.page_header_size = 3 * (if hinfo.u64 then 8 else 4) + 16 ∨
      hinfo.page_header_size = 3 * (if hinfo.u64 then 8 else 4) + 12 := by
    rw [hphs]
    cases hinfo.u64 <;> simp
  have hc1 : (if hinfo.u64 then 34 else 18) + 6 = hinfo.page_header_size := by
    rw [hphs]
    cases hinfo.u64 <;> rfl
  have hc2 : (if hinfo.u64 then 36 else 20) + 4 = hinfo.page_header_size := by
    rw [hphs]
    cases hinfo.u64 <;> rfl
  have hphs_le : hinfo.page_header_size ≤ 40 := by
    rw [hphs]
    cases hinfo.u64 <;> simp
  -- the state with which the inner loop starts
  have hz : ∀ pos, hinfo.page_header_size ≤ pos → pos < hinfo.page_size →
      (mem_write (List.replicate PAGE_SIZE 0) (hinfo.page_header_size - 8)
        (le_bytes_int 2 env.PAGE_TYPE_META)).getD pos 0 = 0 := by
    intro pos h1 _
    rw [getD_mem_write_ge _ _ _ _ (by rw [le_bytes_int_length]; omega), getD_replicate_zero]
  obtain ⟨v1, v2, v3⟩ := sas_emit_meta_page_loop_vars env hinfo sarray
    { remaining := sarray
      page := mem_write (List.replicate PAGE_SIZE 0) (hinfo.page_header_size - 8)
        (le_bytes_int 2 env.PAGE_TYPE_META)
      shp_count := 0
      shp_data_offset := hinfo.page_size
      shp_ptr_offset := hinfo.page_header_size }
  obtain ⟨p1, p2⟩ := sas_emit_meta_page_loop_placed env hinfo _ ha hps3 sarray
    { remaining := sarray
      page := mem_write (List.replicate PAGE_SIZE 0) (hinfo.page_header_size - 8)
        (le_bytes_int 2 env.PAGE_TYPE_META)
      shp_count := 0
      shp_data_offset := hinfo.page_size
      shp_ptr_offset := hinfo.page_header_size } k sh hk hz
  have hlen := sas_emit_meta_page_loop_length env hinfo _ ha hps3 sarray
    { remaining := sarray
      page := mem_write (List.replicate PAGE_SIZE 0) (hinfo.page_header_size - 8)
        (le_bytes_int 2 env.PAGE_TYPE_META)
      shp_count := 0
      shp_data_offset := hinfo.page_size
      shp_ptr_offset := hinfo.page_header_size }
    (by
      simp only [mem_write_length, List.length_replicate, le_bytes_int_length]
      omega)
  simp only [mem_write_length, List.length_replicate, le_bytes_int_length] at hlen
  dsimp only at v1 v2 v3 p1 p2
  simp only [Int.zero_add] at v1
  have hfits := meta_page_placed_fits hinfo.subheader_pointer_size
    (hinfo.page_size - hinfo.page_header_size) sarray
  -- the k-th subheader lies inside the placed ones
  have hklt : k < (meta_page_placed hinfo.subheader_pointer_size
      (hinfo.page_size - hinfo.page_header_size) sarray).length := by
    rcases Nat.lt_or_ge k (meta_page_placed hinfo.subheader_pointer_size
      (hinfo.page_size - hinfo.page_header_size) sarray).length with h | h
    · exact h
    · rw [List.getElem?_eq_none h] at hk
      cases hk
  have hpage_eq := sas_emit_meta_page_page env hinfo sarray
  have hlenP : (sas_emit_meta_page env hinfo sarray).page.length = PAGE_SIZE := by
    rw [hpage_eq]
    simp only [mem_write_length, le_bytes_int_length, hlen]
    omega
  refine ⟨?_, ?_, ?_, ?_, ?_, ?_, ?_, v2, v3, ?_, hlenP, ?_⟩
  · rw [sas_emit_meta_page_remaining]
    exact meta_page_placed_append_rest _ _ _
  · rw [hpage_eq,
      read_bytes_mem_write_disjoint _ _ _ _ _ (Or.inr (by rw [le_bytes_int_length]; omega)),
      read_bytes_mem_write_disjoint _ _ _ _ _ (Or.inr (by rw [le_bytes_int_length]; omega))]
    exact p1
  · exact sas_subheader_type_eq_one_iff env sh.signature
  · simp only [sas_subheader_type]
    split
    · exact Or.inr rfl
    · exact Or.inl rfl
  · have hsum : hinfo.page_header_size
        ≤ hinfo.page_size - (((meta_page_placed hinfo.subheader_pointer_size
          (hinfo.page_size - hinfo.page_header_size) sarray).take (k + 1)).map
            (fun s => s.len)).sum := by
      have h1 : (((meta_page_placed hinfo.subheader_pointer_size
          (hinfo.page_size - hinfo.page_header_size) sarray).take (k + 1)).map
            (fun s => s.len)).sum
          ≤ ((meta_page_placed hinfo.subheader_pointer_size
            (hinfo.page_size - hinfo.page_header_size) sarray).map (fun s => s.len)).sum := by
        rw [List.map_take]
        exact List.Sublist.sum_le_sum ((List.take_sublist _ _)) (fun _ _ => Nat.zero_le _)
      omega
    rw [hpage_eq,
      read_bytes_mem_write_disjoint _ _ _ _ _ (Or.inr (by rw [le_bytes_int_length]; omega)),
      read_bytes_mem_write_disjoint _ _ _ _ _ (Or.inr (by rw [le_bytes_int_length]; omega))]
    exact p2
  · rw [hpage_eq,
      read_bytes_mem_write_disjoint _ _ _ _ _ (Or.inl (by
        cases hinfo.u64 <;> simp)), v1]
    have e := read_bytes_mem_write_same
      (sas_emit_meta_page_loop env hinfo sarray
        { remaining := sarray
          page := mem_write (List.replicate PAGE_SIZE 0) (hinfo.page_header_size - 8)
            (le_bytes_int 2 env.PAGE_TYPE_META)
          shp_count := 0
          shp_data_offset := hinfo.page_size
          shp_ptr_offset := hinfo.page_header_size }).page
      (le_bytes_int 2 ((meta_page_placed hinfo.subheader_pointer_size
        (hinfo.page_size - hinfo.page_header_size) sarray).length : Int))
      (if hinfo.u64 then 34 else 18)
    rw [le_bytes_int_length] at e
    exact e
  · rw [hpage_eq, v1]
    have e := read_bytes_mem_write_same
      (mem_write (sas_emit_meta_page_loop env hinfo sarray
        { remaining := sarray
          page := mem_write (List.replicate PAGE_SIZE 0) (hinfo.page_header_size - 8)
            (le_bytes_int 2 env.PAGE_TYPE_META)
          shp_count := 0
          shp_data_offset := hinfo.page_size
          shp_ptr_offset := hinfo.page_header_size }).page (if hinfo.u64 then 34 else 18)
        (le_bytes_int 2 ((meta_page_placed hinfo.subheader_pointer_size
          (hinfo.page_size - hinfo.page_header_size) sarray).length : Int)))
      (le_bytes_int 2 ((meta_page_placed hinfo.subheader_pointer_size
        (hinfo.page_size - hinfo.page_header_size) sarray).length : Int))
      (if hinfo.u64 then 36 else 20)
    rw [le_bytes_int_length] at e
    exact e
  · have w2 : (sas_emit_meta_page env hinfo sarray).shp_ptr_offset
        = hinfo.page_header_size + hinfo.subheader_pointer_size
          * (meta_page_placed hinfo.subheader_pointer_size
              (hinfo.page_size - hinfo.page_header_size) sarray).length := v2
    have w3 : (sas_emit_meta_page env hinfo sarray).shp_data_offset
        = hinfo.page_size - ((meta_page_placed hinfo.subheader_pointer_size
          (hinfo.page_size - hinfo.page_header_size) sarray).map (fun s => s.len)).sum := v3
    rw [w2, w3]
    generalize hinfo.subheader_pointer_size * (meta_page_placed hinfo.subheader_pointer_size
      (hinfo.page_size - hinfo.page_header_size) sarray).length = x at hfits
    omega
  · intro fuel w hroom
    cases sarray with
    | nil => simp [meta_page_placed] at hk
    | cons s rest =>
      have hrd : read_bytes (sas_emit_meta_page env hinfo (s :: rest)).page 0 PAGE_SIZE
          = (sas_emit_meta_page env hinfo (s :: rest)).page := by
        rw [← hlenP]
        exact read_bytes_self _
      simp only [sas_emit_meta_pages, readstat_write_bytes_none _ _ hroom, hrd, hlenP]

set_option maxRecDepth 100000 in
/-- C16 at an instance: on the first meta page of the schema with one double column "x"
(64-bit file) the ROW_SIZE subheader comes first, and its pointer stands at offset 40. -/
theorem C16_meta_page_layout_witness :
    read_bytes (sas_emit_meta_page example_env
        (sas_header_info_init (example_writer [example_double [120]] 3 90101))
        (sas_subheader_array_init example_env (example_writer [example_double [120]] 3 90101)
          (sas_header_info_init (example_writer [example_double [120]] 3 90101)))).page
      (40 + 24 * 0) 24
      = le_bytes 8 (4096 - 128) ++ le_bytes 8 128 ++ [0, 0] ++ List.replicate 6 0 :=
  (C16_meta_page_layout example_env
    (sas_header_info_init (example_writer [example_double [120]] 3 90101))
    (sas_subheader_array_init example_env (example_writer [example_double [120]] 3 90101)
      (sas_header_info_init (example_writer [example_double [120]] 3 90101)))
    0
    (sas_row_size_subheader_init example_env (example_writer [example_double [120]] 3 90101)
      (sas_header_info_init (example_writer [example_double [120]] 3 90101)))
    rfl rfl rfl rfl).2.1

/-- C17 (as stated, refuted): for the 64-bit schema of one double column (507 rows per page)
with `4294967296 * 507` declared rows, the rows fill `4294967296` data pages, each opened by a
header, and already the first `sas_write_row` call writes one; `sas_count_data_pages`, which
returns its quotient as an `int32_t`, gives 0. -/
theorem C17_page_count_truncated :
    sas_rows_per_page example_many_rows_writer
        (sas_header_info_init (example_writer [example_double [120]] 3 90101)) = .ok 507 ∧
    example_many_rows_writer.row_count = 4294967296 * 507 ∧
    example_many_rows_writer.current_row = 0 ∧
    sas_count_data_pages example_many_rows_writer
        (sas_header_info_init (example_writer [example_double [120]] 3 90101)) = .ok 0 ∧
    (∀ q : Nat, q * 507 < 4294967296 * 507 ↔ q < 4294967296) ∧
    ∃ w1 z, sas_write_row example_env example_many_rows_writer [1, 0, 0, 0, 0, 0, 0, 0] 8
        = .ok w1 ∧
      w1.out = example_many_rows_writer.out ++ List.replicate z 0
        ++ sas_data_page_header example_env
            (sas_header_info_init (example_writer [example_double [120]] 3 90101)) 507
        ++ [1, 0, 0, 0, 0, 0, 0, 0] := by
  have hr : sas_rows_per_page example_many_rows_writer
      (sas_header_info_init (example_writer [example_double [120]] 3 90101))
      = .ok ((507 : Nat) : Int) := by
    rfl
  have hc : sas_count_data_pages example_many_rows_writer
      (sas_header_info_init (example_writer [example_double [120]] 3 90101)) = .ok 0 := by
    rfl
  refine ⟨hr, rfl, rfl, hc, fun q => by omega, ?_⟩
  obtain ⟨w1, e1, _, _⟩ := sas_write_row_new_page example_env example_many_rows_writer
    (sas_header_info_init (example_writer [example_double [120]] 3 90101))
    [1, 0, 0, 0, 0, 0, 0, 0] 8 507 1 rfl rfl rfl rfl hr (by decide) (by decide)
    (by decide) (by decide) (by decide)
  obtain ⟨z, hz, _⟩ := (sas_write_row_inv example_env example_many_rows_writer w1
    (sas_header_info_init (example_writer [example_double [120]] 3 90101))
    [1, 0, 0, 0, 0, 0, 0, 0] 8 507 rfl hr e1).1 (by decide)
  exact ⟨w1, z, e1, hz⟩

/-- C17 (amended): a successful `sas_write_row` appends a data-page header (after padding
zeros, before the row) exactly when `current_row` is a multiple of `rows_per_page`, and
otherwise the row alone; the header is `page_header_size` bytes, all zero except the 16-bit
page type DATA at `page_header_size - 8` and the 16-bit `page_row_count`, the smaller of
`row_count - current_row` and `rows_per_page`, at `page_header_size - 6`.  Over a run of
`row_count` rows written behind `k` meta pages to a sink that never fails (row length `L ≥ 1`,
`r ≥ 1` rows per page), data page `q` starts with the header whose `page_row_count` is
`min (row_count - q * r) r`, the rows `q * r + t` with `t` below that number, and no others,
stand on page `q` at offset `t * L` behind its header, and, when the number of data pages is
below `2 ^ 31`, the pages with a header are the pages `q < P`, where `P` is the value of
`sas_count_data_pages`. -/
theorem C17_data_page_headers (env : sas_env) (hinfo : sas_header_info_t) (L r k : Nat)
    (rows : List (List Nat)) (w : readstat_writer_t)
    (hps : hinfo.page_size = 4096) (hhs : hinfo.header_size = 1024)
    (h8 : 8 ≤ hinfo.page_header_size)
    (hctx : w.module_ctx = some hinfo) (hroom : w.room = none)
    (hlen : sas_row_length w = L) (hL : 1 ≤ L)
    (hr : r = (PAGE_SIZE - hinfo.page_header_size) / L) (hr0 : 1 ≤ r)
    (hcur : w.current_row = 0) (hrc : w.row_count = (rows.length : Int))
    (hn : (rows.length + (r - 1)) / r < 2 ^ 31)
    (hbw : w.bytes_written = 1024 + 4096 * k) (hout : w.out.length = w.bytes_written) :
    (∀ (u u1 : readstat_writer_t) (row : List Nat) (len : Nat) (rp : Int),
      u.module_ctx = some hinfo → sas_rows_per_page u hinfo = .ok rp →
      sas_write_row env u row len = .ok u1 →
      (u.current_row.tmod rp = 0 →
        ∃ z, u1.out = u.out ++ List.replicate z 0
          ++ sas_data_page_header env hinfo
            (if u.row_count - u.current_row < rp then u.row_count - u.current_row else rp)
          ++ read_bytes row 0 len) ∧
      (u.current_row.tmod rp ≠ 0 → u1.out = u.out ++ read_bytes row 0 len)) ∧
    (∀ c : Int,
      (sas_data_page_header env hinfo c).length = hinfo.page_header_size ∧
      read_bytes (sas_data_page_header env hinfo c) (hinfo.page_header_size - 8) 2
        = le_bytes_int 2 env.PAGE_TYPE_DATA ∧
      read_bytes (sas_data_page_header env hinfo c) (hinfo.page_header_size - 6) 2
        = le_bytes_int 2 c ∧
      (∀ pos, pos < hinfo.page_header_size - 8 ∨ hinfo.page_header_size - 4 ≤ pos →
        (sas_data_page_header env hinfo c).getD pos 0 = 0)) ∧
    sas_rows_per_page w hinfo = .ok (r : Int) ∧
    sas_count_data_pages w hinfo = .ok (((rows.length + (r - 1)) / r : Nat) : Int) ∧
    (∀ q : Nat, q * r < rows.length ↔ q < (rows.length + (r - 1)) / r) ∧
    (∀ q t : Nat, t < min (rows.length - q * r) r ↔ (t < r ∧ q * r + t < rows.length)) ∧
    (∃ w1, write_rows env rows w = .ok w1 ∧
      (∀ q : Nat, q * r < rows.length →
        read_bytes w1.out (1024 + 4096 * (k + q)) hinfo.page_header_size
          = sas_data_page_header env hinfo ((min (rows.length - q * r) r : Nat) : Int)) ∧
      (∀ (q t : Nat) (row : List Nat), t < r → rows[q * r + t]? = some row →
        read_bytes w1.out (1024 + 4096 * (k + q) + hinfo.page_header_size + t * L) L
          = read_bytes row 0 L)) := by
  have hL0 : sas_row_length w ≠ 0 := by omega
  have hrpp : sas_rows_per_page w hinfo = .ok (r : Int) := by
    rw [sas_rows_per_page_eq w hinfo hL0, hlen, hr]
  have hfit : hinfo.page_header_size + r * L ≤ 4096 := by
    have h1 : r * L ≤ PAGE_SIZE - hinfo.page_header_size := by
      rw [hr]
      exact Nat.div_mul_le_self _ _
    have h2 : 1 ≤ r * L := Nat.mul_pos (by omega) (by omega)
    have h3 : PAGE_SIZE = 4096 := rfl
    generalize r * L = x at h1 h2
    omega
  refine ⟨?_, ?_, hrpp, ?_, ?_, ?_, ?_⟩
  · intro u u1 row len rp hc hrp hok
    obtain ⟨i1, i2⟩ := sas_write_row_inv env u u1 hinfo row len rp hc hrp hok
    refine ⟨fun hm => ?_, fun hm => (i2 hm).1⟩
    obtain ⟨z, hz, _⟩ := i1 hm
    exact ⟨z, hz⟩
  · intro c
    obtain ⟨a1, a2, a3⟩ := sas_data_page_header_content env hinfo c h8
    exact ⟨sas_data_page_header_length env hinfo c, a1, a2, a3⟩
  · exact sas_count_data_pages_nat w hinfo rows.length r hrc hrpp hr0 hn
  · intro q
    exact lt_ceil_div_iff _ _ _ hr0
  · intro q t
    generalize q * r = x
    omega
  · obtain ⟨w1, e1, _, _, hrow, hhdr⟩ := write_rows_layout env hinfo L r k hps hhs hr0 hfit hL
      rows w 0 hctx hroom hlen hrpp (by rw [hcur]; rfl) hout (Or.inl ⟨rfl, hbw⟩)
    refine ⟨w1, e1, ?_, ?_⟩
    · intro q hq
      have h := hhdr (q * r) q hq (by omega)
      rw [h, hrc]
      congr 1
      generalize q * r = x at hq
      split <;> omega
    · intro q t row ht hrw
      exact hrow (q * r + t) q t row hrw ht (by omega)

/-- C17 at an instance: three rows of one double column behind one meta page lie on one data
page, whose header stands at offset 5120 with `page_row_count` 3. -/
theorem C17_data_page_headers_witness :
    ∃ w1, write_rows example_env example_rows example_rows_writer = .ok w1 ∧
      read_bytes w1.out (1024 + 4096 * (1 + 0))
          (sas_header_info_init (example_writer [example_double [120]] 3 90101)).page_header_size
        = sas_data_page_header example_env
            (sas_header_info_init (example_writer [example_double [120]] 3 90101))
            ((min (example_rows.length - 0 * 507) 507 : Nat) : Int) := by
  obtain ⟨w1, e1, h1, _⟩ := (C17_data_page_headers example_env
    (sas_header_info_init (example_writer [example_double [120]] 3 90101)) 8 507 1
    example_rows example_rows_writer rfl rfl (by decide) rfl rfl (by decide) (by decide)
    (by decide) (by decide) rfl rfl (by decide) rfl (List.length_replicate _ _)).2.2.2.2.2.2
  exact ⟨w1, e1, h1 0 (by decide)⟩

/-- C18: `sas_write_string` returns OK and sets exactly the first `w` bytes of the cell, `w`
being the storage width of the variable: byte `i` is `value[i]` for `i` below the length of
the value and below `w`, and 0 for the other positions below `w` (a longer value is truncated
to `w` bytes); the bytes of the row from `w` on are unchanged; a NULL or empty value, and
`sas_write_missing_string`, give `w` zero bytes. -/
theorem C18_write_string (row : List Nat) (var : readstat_variable_t)
    (value : Option (List Nat)) :
    (sas_write_string row var value).1 = .READSTAT_OK ∧
    ((sas_write_string row var value).2.take var.storage_width).length = var.storage_width ∧
    (sas_write_string row var value).2.drop var.storage_width = row.drop var.storage_width ∧
    (∀ i, i < var.storage_width →
      (sas_write_string row var value).2.getD i 0
        = if i < min (value.getD []).length var.storage_width then (value.getD []).getD i 0
          else 0) ∧
    (value = none ∨ value = some [] →
      (sas_write_string row var value).2
        = List.replicate var.storage_width 0 ++ row.drop var.storage_width) ∧
    sas_write_missing_string row var
      = (.READSTAT_OK, List.replicate var.storage_width 0 ++ row.drop var.storage_width) := by
  have hzero : mem_write row 0 (List.replicate var.storage_width 0)
      = List.replicate var.storage_width 0 ++ row.drop var.storage_width := by
    rw [mem_write_zero, List.length_replicate]
  have hgen : ∀ v : List Nat, (sas_write_string row var (some v)).2
      = strncpy_bytes v var.storage_width ++ row.drop var.storage_width := by
    intro v
    cases v with
    | nil =>
      simp only [sas_write_string, hzero, strncpy_bytes]
      simp
    | cons c cs =>
      simp only [sas_write_string, mem_write_zero, strncpy_bytes_length]
  have hnone : (sas_write_string row var none).2
      = strncpy_bytes [] var.storage_width ++ row.drop var.storage_width := by
    simp only [sas_write_string, hzero, strncpy_bytes]
    simp
  have hall : (sas_write_string row var value).2
      = strncpy_bytes (value.getD []) var.storage_width ++ row.drop var.storage_width := by
    cases value with
    | none => exact hnone
    | some v => exact hgen v
  refine ⟨?_, ?_, ?_, ?_, ?_, ?_⟩
  · cases value with
    | none => rfl
    | some v => cases v <;> rfl
  · rw [hall, List.take_append_of_le_length (by rw [strncpy_bytes_length]),
      List.take_of_length_le (by rw [strncpy_bytes_length]), strncpy_bytes_length]
  · rw [hall, List.drop_append_of_le_length (by rw [strncpy_bytes_length]),
      List.drop_of_length_le (by rw [strncpy_bytes_length])]
    simp
  · intro i hi
    rw [hall, List.getD_append _ _ _ _ (by rw [strncpy_bytes_length]; exact hi)]
    simp only [strncpy_bytes, List.getD_eq_getElem?_getD]
    by_cases h : i < min (value.getD []).length var.storage_width
    · rw [if_pos h, List.getElem?_append_left (by simp; omega), List.getElem?_take]
      simp only [if_pos hi]
    · rw [if_neg h, List.getElem?_append_right (by simp; omega), List.getElem?_replicate]
      split <;> rfl
  · intro hv
    rcases hv with hv | hv <;> subst hv
    · simp only [sas_write_string, hzero]
    · simp only [sas_write_string, hzero]
  · simp only [sas_write_missing_string, sas_write_string, hzero]

/-- C19: starting from `bytes_written = 0`, a successful `sas_emit_header` (the header pieces
fitting the header size, as they do for the structure sizes of the format) leaves
`bytes_written` equal to the header size, which `sas_header_info_init` sets to 1024 in both
modes, and has appended that many bytes; after the header start, the padding, the two
timestamps and 16 zero bytes come the 4-byte header size, the 4-byte page size and directly
after them the page count, 8 bytes in 64-bit mode and 4 bytes in 32-bit mode; the header-end
block follows 8 bytes later, and every byte after it up to the header size is zero. -/
theorem C19_emit_header_layout (env : sas_env) (w w1 : readstat_writer_t)
    (hinfo : sas_header_info_t) (hbw : w.bytes_written = 0)
    (hfit : header_end_offset env hinfo + env.sizeof_header_end ≤ hinfo.header_size)
    (hok : sas_emit_header env w hinfo = .ok w1) :
    w1.bytes_written = hinfo.header_size ∧
    (sas_header_info_init w).header_size = 1024 ∧
    (w1.out.drop w.out.length).length = hinfo.header_size ∧
    read_bytes (w1.out.drop w.out.length)
        (env.sizeof_header_start + hinfo.pad1 + 8 + 8 + 16) 4 = le_bytes 4 hinfo.header_size ∧
    read_bytes (w1.out.drop w.out.length)
        (env.sizeof_header_start + hinfo.pad1 + 8 + 8 + 16 + 4) 4 = le_bytes 4 hinfo.page_size ∧
    read_bytes (w1.out.drop w.out.length)
        (env.sizeof_header_start + hinfo.pad1 + 8 + 8 + 16 + 4 + 4) (if hinfo.u64 then 8 else 4)
      = (if hinfo.u64 then le_bytes_int 8 hinfo.page_count
          else le_bytes_int 4 hinfo.page_count) ∧
    read_bytes (w1.out.drop w.out.length) (header_end_offset env hinfo) env.sizeof_header_end
      = read_bytes (sas_header_end_image env w.version) 0 env.sizeof_header_end ∧
    (∀ pos, header_end_offset env hinfo + env.sizeof_header_end ≤ pos →
      pos < hinfo.header_size → (w1.out.drop w.out.length).getD pos 0 = 0) := by
  obtain ⟨_, hbytes⟩ := sas_emit_header_inv env w w1 hinfo hok
  obtain ⟨pre, hpre, hsplit⟩ := sas_emit_header_split env w w1 hinfo hok
  obtain ⟨pre2, post2, hpre2, hcounts⟩ := sas_emit_header_counts env w w1 hinfo hok
  have hsub : size_t_sub hinfo.header_size
      (w.bytes_written + header_end_offset env hinfo + env.sizeof_header_end)
      = hinfo.header_size - (header_end_offset env hinfo + env.sizeof_header_end) := by
    unfold size_t_sub
    rw [hbw, Nat.zero_add, if_pos hfit]
  refine ⟨?_, rfl, ?_, ?_, ?_, ?_, ?_, ?_⟩
  · rw [hbytes]
    unfold header_end_offset at hfit hsub
    rw [hbw] at hsub ⊢
    simp only [Nat.zero_add] at hsub ⊢
    rw [hsub]
    omega
  · rw [hsplit, hsub]
    simp only [List.length_append, read_bytes_length, List.length_replicate, hpre]
    omega
  · have e := read_bytes_append_whole pre2 (le_bytes 4 hinfo.header_size)
      (le_bytes 4 hinfo.page_size
        ++ (if hinfo.u64 then le_bytes_int 8 hinfo.page_count
            else le_bytes_int 4 hinfo.page_count) ++ post2)
    rw [le_bytes_length, hpre2] at e
    rw [hcounts]
    simp only [List.append_assoc] at e ⊢
    exact e
  · have e := read_bytes_append_whole (pre2 ++ le_bytes 4 hinfo.header_size)
      (le_bytes 4 hinfo.page_size)
      ((if hinfo.u64 then le_bytes_int 8 hinfo.page_count
            else le_bytes_int 4 hinfo.page_count) ++ post2)
    rw [le_bytes_length, List.length_append, le_bytes_length, hpre2] at e
    rw [hcounts]
    simp only [List.append_assoc] at e ⊢
    exact e
  · have e := read_bytes_append_whole
      (pre2 ++ le_bytes 4 hinfo.header_size ++ le_bytes 4 hinfo.page_size)
      (if hinfo.u64 then le_bytes_int 8 hinfo.page_count else le_bytes_int 4 hinfo.page_count)
      post2
    rw [page_count_bytes_length, List.length_append, List.length_append, le_bytes_length,
      le_bytes_length, hpre2] at e
    rw [hcounts]
    simp only [List.append_assoc] at e ⊢
    exact e
  · have e := read_bytes_append_whole pre
      (read_bytes (sas_header_end_image env w.version) 0 env.sizeof_header_end)
      (List.replicate (size_t_sub hinfo.header_size
        (w.bytes_written + header_end_offset env hinfo + env.sizeof_header_end)) 0)
    rw [read_bytes_length, hpre] at e
    rw [hsplit]
    exact e
  · intro pos h1 _
    rw [hsplit]
    apply getD_append_replicate_zero
    rw [List.length_append, read_bytes_length, hpre]
    exact h1

/-- C19 at an instance: the 64-bit header of the example parameters, written to a sink that
never fails, is 1024 bytes long. -/
theorem C19_emit_header_layout_witness :
    ∃ w1, sas_emit_header example_env (example_writer [] 0 90101)
        (sas_header_info_init (example_writer [] 0 90101)) = .ok w1 ∧
      w1.bytes_written = 1024 := by
  obtain ⟨w1, h1, _⟩ := sas_emit_header_ok example_env (example_writer [] 0 90101)
    (sas_header_info_init (example_writer [] 0 90101)) rfl
  exact ⟨w1, h1, (C19_emit_header_layout example_env (example_writer [] 0 90101) w1
    (sas_header_info_init (example_writer [] 0 90101)) rfl (by decide) h1).1⟩

set_option maxRecDepth 100000 in
/-- C20 (as stated, refuted): for the version 100000 the string "<maj>.<4-digit-min>M0" is
"10.0000M0", 9 bytes long, while the 8-byte release field that `sas_emit_header` writes is
"10.00000". -/
theorem C20_release_two_digit_major :
    ∃ w1, sas_emit_header example_env (example_writer [] 0 100000)
        (sas_header_info_init (example_writer [] 0 100000)) = .ok w1 ∧
      read_bytes (w1.out.drop (example_writer [] 0 100000).out.length)
          (header_end_offset example_env (sas_header_info_init (example_writer [] 0 100000))
            + example_env.offsetof_release) 8
        = [49, 48, 46, 48, 48, 48, 48, 48] ∧
      spec_release_string 100000 = [49, 48, 46, 48, 48, 48, 48, 77, 48] := by
  obtain ⟨w1, h1, _⟩ := sas_emit_header_ok example_env (example_writer [] 0 100000)
    (sas_header_info_init (example_writer [] 0 100000)) rfl
  refine ⟨w1, h1, ?_, by decide⟩
  rw [sas_emit_header_release_bytes example_env _ w1 _ (by decide) h1]
  decide

/-- C20 (amended): for every writer version `v` with `0 ≤ v < 100000` (a one-digit major
part), the 8-byte release field written by a successful `sas_emit_header` is the string
"<maj>.<4-digit-min>M0" with maj = `v / 10000` and min = `v % 10000` zero-padded to four
digits, and no byte of the field is NUL. -/
theorem C20_release_field (env : sas_env) (w w1 : readstat_writer_t)
    (hinfo : sas_header_info_t) (h8 : env.sizeof_release = 8)
    (hin : env.offsetof_release + 8 ≤ env.sizeof_header_end)
    (h0 : 0 ≤ w.version) (h1 : w.version < 100000)
    (hok : sas_emit_header env w hinfo = .ok w1) :
    read_bytes (w1.out.drop w.out.length) (header_end_offset env hinfo + env.offsetof_release) 8
      = spec_release_string w.version.toNat ∧
    spec_release_string w.version.toNat
      = [48 + w.version.toNat / 10000, 46, 48 + w.version.toNat % 10000 / 1000,
          48 + w.version.toNat % 10000 / 100 % 10, 48 + w.version.toNat % 10000 / 10 % 10,
          48 + w.version.toNat % 10000 % 10, 77, 48] ∧
    (∀ b, b ∈ spec_release_string w.version.toNat → b ≠ 0) := by
  have hn : w.version.toNat < 100000 := by omega
  have hv : ((w.version.toNat : Nat) : Int) = w.version := Int.toNat_of_nonneg h0
  refine ⟨?_, spec_release_string_eq _ hn, ?_⟩
  · rw [sas_emit_header_release_bytes env w w1 hinfo hin hok, ← hv, Int.toNat_ofNat]
    exact sas_header_end_image_release env _ h8 hn
  · intro b hb
    rw [spec_release_string_eq _ hn] at hb
    simp only [List.mem_cons, List.mem_singleton, List.mem_nil_iff, or_false] at hb
    rcases hb with rfl | rfl | rfl | rfl | rfl | rfl | rfl | rfl <;> omega

/-- C20 at an instance: the default version 90101 gives the release field "9.0101M0". -/
theorem C20_release_field_witness :
    ∃ w1, sas_emit_header example_env (example_writer [] 0 90101)
        (sas_header_info_init (example_writer [] 0 90101)) = .ok w1 ∧
      read_bytes (w1.out.drop (example_writer [] 0 90101).out.length)
          (header_end_offset example_env (sas_header_info_init (example_writer [] 0 90101))
            + example_env.offsetof_release) 8
        = [57, 46, 48, 49, 48, 49, 77, 48] := by
  obtain ⟨w1, h1, _⟩ := sas_emit_header_ok example_env (example_writer [] 0 90101)
    (sas_header_info_init (example_writer [] 0 90101)) rfl
  exact ⟨w1, h1, (C20_release_field example_env (example_writer [] 0 90101) w1
    (sas_header_info_init (example_writer [] 0 90101)) rfl (by decide) (by decide) (by decide)
    h1).1.trans (by decide)⟩

set_option maxRecDepth 100000 in
/-- C21 (as stated, refuted): for the 64-bit schema of two string columns of storage widths
`2 ^ 63` and `2 ^ 63 + 7`, the widths add up to `2 ^ 64 + 7`, while `sas_row_length`, which
adds them in a `size_t`, gives 7, and 7 is the row length that the ROW_SIZE subheader holds. -/
theorem C21_row_length_wraps :
    (example_wrapping_writer.vars.map
      (fun v => sas_variable_width v.type v.storage_width)).sum = 2 ^ 64 + 7 ∧
    sas_row_length example_wrapping_writer = 7 ∧
    sas_row_length example_wrapping_writer
      ≠ (example_wrapping_writer.vars.map
          (fun v => sas_variable_width v.type v.storage_width)).sum ∧
    le_value (read_bytes (sas_row_size_subheader_init example_env example_wrapping_writer
        (sas_header_info_init example_wrapping_writer)).data 40 8) = 7 := by
  decide

/-- C21 (amended): for every schema, the ROW_SIZE subheader is 64 bytes long in 32-bit mode and
128 bytes in 64-bit mode and holds, as little-endian 32-bit values at offsets 20, 24 and 52 or
as 64-bit values at offsets 40, 48 and 104, the row length, the row count and the page size;
every other byte of its data is zero.  The row length is the sum of `sas_variable_width` over
the schema in declaration order reduced modulo `2 ^ 64`, so the sum itself when that is below
`2 ^ 64`, and it is the number of bytes of the row that a successful `sas_write_row` call
appends (last, after the padding and page header if any) when it is handed that length. -/
theorem C21_row_size_subheader (env : sas_env) (w : readstat_writer_t)
    (hinfo : sas_header_info_t) :
    (sas_row_size_subheader_init env w hinfo).len = (if hinfo.u64 then 128 else 64) ∧
    (sas_row_size_subheader_init env w hinfo).data.length = (if hinfo.u64 then 128 else 64) ∧
    (hinfo.u64 = false →
      read_bytes (sas_row_size_subheader_init env w hinfo).data 20 4
        = le_bytes 4 (sas_row_length w) ∧
      read_bytes (sas_row_size_subheader_init env w hinfo).data 24 4
        = le_bytes_int 4 w.row_count ∧
      read_bytes (sas_row_size_subheader_init env w hinfo).data 52 4
        = le_bytes 4 hinfo.page_size ∧
      (∀ pos, ¬ (20 ≤ pos ∧ pos < 28) → ¬ (52 ≤ pos ∧ pos < 56) →
        (sas_row_size_subheader_init env w hinfo).data.getD pos 0 = 0)) ∧
    (hinfo.u64 = true →
      read_bytes (sas_row_size_subheader_init env w hinfo).data 40 8
        = le_bytes 8 (sas_row_length w) ∧
      read_bytes (sas_row_size_subheader_init env w hinfo).data 48 8
        = le_bytes_int 8 w.row_count ∧
      read_bytes (sas_row_size_subheader_init env w hinfo).data 104 8
        = le_bytes 8 hinfo.page_size ∧
      (∀ pos, ¬ (40 ≤ pos ∧ pos < 56) → ¬ (104 ≤ pos ∧ pos < 112) →
        (sas_row_size_subheader_init env w hinfo).data.getD pos 0 = 0)) ∧
    sas_row_length w
      = (w.vars.map (fun v => sas_variable_width v.type v.storage_width)).sum % 2 ^ 64 ∧
    ((w.vars.map (fun v => sas_variable_width v.type v.storage_width)).sum < 2 ^ 64 →
      sas_row_length w
        = (w.vars.map (fun v => sas_variable_width v.type v.storage_width)).sum) ∧
    (∀ (u u1 : readstat_writer_t) (ctx : sas_header_info_t) (row : List Nat) (rp : Int),
      u.module_ctx = some ctx → sas_rows_per_page u ctx = .ok rp →
      sas_write_row env u row (sas_row_length u) = .ok u1 →
      (read_bytes row 0 (sas_row_length u)).length = sas_row_length u ∧
      ∃ pre, u1.out = u.out ++ pre ++ read_bytes row 0 (sas_row_length u)) := by
  refine ⟨?_, ?_, ?_, ?_, sas_row_length_eq_sum_mod w, sas_row_length_eq_sum w, ?_⟩
  · simp only [sas_row_size_subheader_init, sas_subheader_init]
    cases hinfo.u64 <;> rfl
  · cases hu : hinfo.u64
    · simp only [sas_row_size_subheader_init, sas_subheader_init, hu, Bool.false_eq_true,
        if_false]
      exact (three_fields 64 20 24 52 (le_bytes 4 (sas_row_length w))
        (le_bytes_int 4 w.row_count) (le_bytes 4 hinfo.page_size)
        (by simp [le_bytes_length]) (by simp [le_bytes_int_length])
        (by simp [le_bytes_length])).1
    · simp only [sas_row_size_subheader_init, sas_subheader_init, hu, if_true]
      exact (three_fields 128 40 48 104 (le_bytes 8 (sas_row_length w))
        (le_bytes_int 8 w.row_count) (le_bytes 8 hinfo.page_size)
        (by simp [le_bytes_length]) (by simp [le_bytes_int_length])
        (by simp [le_bytes_length])).1
  · intro hu
    simp only [sas_row_size_subheader_init, sas_subheader_init, hu, Bool.false_eq_true,
      if_false]
    obtain ⟨_, r1, r2, r3, z⟩ := three_fields 64 20 24 52 (le_bytes 4 (sas_row_length w))
      (le_bytes_int 4 w.row_count) (le_bytes 4 hinfo.page_size)
      (by simp [le_bytes_length]) (by simp [le_bytes_int_length]) (by simp [le_bytes_length])
    rw [le_bytes_length] at r1 r3 z
    rw [le_bytes_int_length] at r2 z
    rw [le_bytes_length] at z
    refine ⟨r1, r2, r3, ?_⟩
    intro pos h1 h2
    exact z pos (by omega) (by omega) (by omega)
  · intro hu
    simp only [sas_row_size_subheader_init, sas_subheader_init, hu, if_true]
    obtain ⟨_, r1, r2, r3, z⟩ := three_fields 128 40 48 104 (le_bytes 8 (sas_row_length w))
      (le_bytes_int 8 w.row_count) (le_bytes 8 hinfo.page_size)
      (by simp [le_bytes_length]) (by simp [le_bytes_int_length]) (by simp [le_bytes_length])
    rw [le_bytes_length] at r1 r3 z
    rw [le_bytes_int_length] at r2 z
    rw [le_bytes_length] at z
    refine ⟨r1, r2, r3, ?_⟩
    intro pos h1 h2
    exact z pos (by omega) (by omega) (by omega)
  · intro u u1 ctx row rp hctx hr hok
    refine ⟨read_bytes_length _ _ _, ?_⟩
    obtain ⟨i1, i2⟩ := sas_write_row_inv env u u1 ctx row (sas_row_length u) rp hctx hr hok
    by_cases hm : u.current_row.tmod rp = 0
    · obtain ⟨z, hz, _⟩ := i1 hm
      refine ⟨List.replicate z 0 ++ sas_data_page_header env ctx
        (if u.row_count - u.current_row < rp then u.row_count - u.current_row else rp), ?_⟩
      rw [hz]
      simp only [List.append_assoc]
    · refine ⟨[], ?_⟩
      rw [(i2 hm).1, List.append_nil]

/-- Witness of C21: in the 64-bit file with one double column "x" and three rows, the eight
bytes at offset 40 of the ROW_SIZE subheader hold the row length. -/
theorem C21_row_size_subheader_witness :
    read_bytes (sas_row_size_subheader_init example_env
        (example_writer [example_double [120]] 3 90101)
        (sas_header_info_init (example_writer [example_double [120]] 3 90101))).data 40 8
      = le_bytes 8 (sas_row_length (example_writer [example_double [120]] 3 90101)) :=
  ((C21_row_size_subheader example_env (example_writer [example_double [120]] 3 90101)
    (sas_header_info_init (example_writer [example_double [120]] 3 90101))).2.2.2.1 rfl).1

/-- C22 (what the code does): in a 64-bit file with at least 251 variables the COLUMN_ATTRS
subheader that `sas_subheader_array_init` builds has `len = 28 + 16 n`, and
`len + subheader_pointer_size` is larger than `page_size - page_header_size`: it fits no meta
page, and the step of `sas_count_meta_pages` for it subtracts more than a fresh page has left,
so `bytes_left` wraps around. -/
theorem C22_column_attrs_exceeds_page (env : sas_env) (w : readstat_writer_t)
    (hver : w.version ≥ 90000) (hn : 251 ≤ w.vars.length) :
    sas_col_attrs_subheader_init env w (sas_header_info_init w)
      ∈ sas_subheader_array_init env w (sas_header_info_init w) ∧
    (sas_col_attrs_subheader_init env w (sas_header_info_init w)).len
      = 28 + 16 * w.vars.length ∧
    (sas_header_info_init w).page_size - (sas_header_info_init w).page_header_size = 4056 ∧
    (sas_header_info_init w).subheader_pointer_size = 24 ∧
    ¬ ((sas_col_attrs_subheader_init env w (sas_header_info_init w)).len
        + (sas_header_info_init w).subheader_pointer_size
      ≤ (sas_header_info_init w).page_size - (sas_header_info_init w).page_header_size) ∧
    ∀ st : Int × Nat,
      st.2 ≤ (sas_header_info_init w).page_size - (sas_header_info_init w).page_header_size →
      (sas_count_meta_pages_step (sas_header_info_init w) st
          (sas_col_attrs_subheader_init env w (sas_header_info_init w))).2
        = 2 ^ 64 + 4056 - (52 + 16 * w.vars.length) := by
  have hu : (sas_header_info_init w).u64 = true := by simp [sas_header_info_init, hver]
  have hlen : (sas_col_attrs_subheader_init env w (sas_header_info_init w)).len
      = 28 + 16 * w.vars.length := by
    simp only [sas_col_attrs_subheader_init, sas_subheader_init, hu, if_true]
  have hgap : (sas_header_info_init w).page_size - (sas_header_info_init w).page_header_size
      = 4056 := by
    simp only [sas_header_info_init, hver, decide_True, if_true, PAGE_SIZE,
      SAS_PAGE_HEADER_SIZE_64BIT]
  have hptr : (sas_header_info_init w).subheader_pointer_size = 24 := by
    simp only [sas_header_info_init, hver, decide_True, if_true,
      SAS_SUBHEADER_POINTER_SIZE_64BIT]
  refine ⟨by simp [sas_subheader_array_init], hlen, hgap, hptr, ?_, ?_⟩
  · rw [hlen, hgap, hptr]
    omega
  · intro st hst
    rw [hgap] at hst
    simp only [sas_count_meta_pages_step, hlen, hgap, hptr]
    rw [if_pos (by omega)]
    simp only [size_t_sub]
    rw [if_neg (by omega)]
    omega

set_option maxRecDepth 100000 in
/-- Witness of C22: 251 double columns "x000" .. "x250", version 90101; the COLUMN_ATTRS
subheader has 4044 bytes, and 4044 + 24 is more than the 4056 bytes a meta page offers. -/
theorem C22_column_attrs_exceeds_page_witness :
    (sas_col_attrs_subheader_init example_env (example_writer example_wide_vars 0 90101)
        (sas_header_info_init (example_writer example_wide_vars 0 90101))).len = 4044 ∧
    ¬ ((sas_col_attrs_subheader_init example_env (example_writer example_wide_vars 0 90101)
          (sas_header_info_init (example_writer example_wide_vars 0 90101))).len
        + (sas_header_info_init (example_writer example_wide_vars 0 90101)).subheader_pointer_size
      ≤ (sas_header_info_init (example_writer example_wide_vars 0 90101)).page_size
        - (sas_header_info_init (example_writer example_wide_vars 0 90101)).page_header_size) :=
  ⟨(C22_column_attrs_exceeds_page example_env (example_writer example_wide_vars 0 90101)
      (by decide) (by decide)).2.1.trans (by decide),
   (C22_column_attrs_exceeds_page example_env (example_writer example_wide_vars 0 90101)
      (by decide) (by decide)).2.2.2.2.1⟩

/-- C23: `rt_update_handler` returns USER_ABORT if and only if a progress callback is supplied
and that callback returns nonzero; it returns OK when no callback is supplied or the callback
returns 0; and it leaves the buffer context, the position included, as it was. -/
theorem C23_update_handler (progress_handler : Option (Nat → Nat → Int))
    (buffer_ctx : rt_buffer_ctx_t) :
    ((rt_update_handler progress_handler buffer_ctx).1 = .READSTAT_ERROR_USER_ABORT ↔
      ∃ handler, progress_handler = some handler ∧
        handler buffer_ctx.pos buffer_ctx.buffer.used ≠ 0) ∧
    (progress_handler = none →
      (rt_update_handler progress_handler buffer_ctx).1 = .READSTAT_OK) ∧
    (∀ handler, progress_handler = some handler →
      handler buffer_ctx.pos buffer_ctx.buffer.used = 0 →
      (rt_update_handler progress_handler buffer_ctx).1 = .READSTAT_OK) ∧
    (rt_update_handler progress_handler buffer_ctx).2 = buffer_ctx ∧
    (rt_update_handler progress_handler buffer_ctx).2.pos = buffer_ctx.pos := by
  cases progress_handler with
  | none =>
    refine ⟨?_, fun _ => rfl, ?_, rfl, rfl⟩
    · constructor
      · intro h
        cases h
      · rintro ⟨handler, h, _⟩
        cases h
    · intro handler h
      cases h
  | some g =>
    by_cases hg : g buffer_ctx.pos buffer_ctx.buffer.used = 0
    · have e : rt_update_handler (some g) buffer_ctx = (.READSTAT_OK, buffer_ctx) := by
        simp only [rt_update_handler, hg, ne_eq, not_true_eq_false, if_false]
      rw [e]
      refine ⟨?_, fun _ => rfl, fun _ _ _ => rfl, rfl, rfl⟩
      constructor
      · intro h
        cases h
      · rintro ⟨handler, h, hne⟩
        simp only [Option.some.injEq] at h
        subst h
        exact absurd hg hne
    · have e : rt_update_handler (some g) buffer_ctx
          = (.READSTAT_ERROR_USER_ABORT, buffer_ctx) := by
        simp only [rt_update_handler, hg, ne_eq, not_false_eq_true, if_true]
      rw [e]
      refine ⟨?_, ?_, ?_, rfl, rfl⟩
      · exact ⟨fun _ => ⟨g, rfl, hg⟩, fun _ => rfl⟩
      · intro h
        cases h
      · intro handler h h0
        simp only [Option.some.injEq] at h
        subst h
        exact absurd h0 hg

/-- Witness of C23: a progress callback that returns 1 makes the update report USER_ABORT. -/
theorem C23_update_handler_witness :
    (rt_update_handler (some (fun _ _ => 1))
      { buffer := { bytes := [1, 2, 3], used := 3 }, pos := 1 }).1
      = .READSTAT_ERROR_USER_ABORT :=
  (C23_update_handler (some (fun _ _ => 1))
    { buffer := { bytes := [1, 2, 3], used := 3 }, pos := 1 }).1.mpr
    ⟨fun _ _ => 1, rfl, by decide⟩

/-- C24: for every 64-bit offset and every origin, on a buffer context with
`pos ≤ used < 2 ^ 63`: `rt_seek_handler` computes the target as the offset (SET),
`pos + offset` (CUR) or `used + offset` (END); if `0 ≤ target ≤ used` it sets `pos` to the
target and returns it; otherwise, and for any other origin, it returns -1 and leaves the
context unchanged; the buffer is never changed and `pos ≤ used` holds afterwards. -/
theorem C24_seek_handler (offset : Int) (whence : readstat_io_flags_t)
    (buffer_ctx : rt_buffer_ctx_t) (h0 : -2 ^ 63 ≤ offset) (h1 : offset < 2 ^ 63)
    (hpos : buffer_ctx.pos ≤ buffer_ctx.buffer.used) (hused : buffer_ctx.buffer.used < 2 ^ 63) :
    (∀ target : Int, seek_target offset whence buffer_ctx = some target →
      0 ≤ target → target ≤ (buffer_ctx.buffer.used : Int) →
      rt_seek_handler offset whence buffer_ctx
        = (target, { buffer_ctx with pos := target.toNat }) ∧
      ((rt_seek_handler offset whence buffer_ctx).2.pos : Int) = target) ∧
    (∀ target : Int, seek_target offset whence buffer_ctx = some target →
      ¬ (0 ≤ target ∧ target ≤ (buffer_ctx.buffer.used : Int)) →
      rt_seek_handler offset whence buffer_ctx = (-1, buffer_ctx)) ∧
    (seek_target offset whence buffer_ctx = none →
      rt_seek_handler offset whence buffer_ctx = (-1, buffer_ctx)) ∧
    (rt_seek_handler offset whence buffer_ctx).2.buffer = buffer_ctx.buffer ∧
    (rt_seek_handler offset whence buffer_ctx).2.pos
      ≤ (rt_seek_handler offset whence buffer_ctx).2.buffer.used := by
  -- the value of `newpos` that the code tests
  have key : ∀ newpos : Int,
      (newpos < 0 ∨ newpos > (buffer_ctx.buffer.used : Int) →
        (if newpos < 0 then ((-1 : Int), buffer_ctx)
          else if newpos > (buffer_ctx.buffer.used : Int) then (-1, buffer_ctx)
          else (newpos, { buffer_ctx with pos := newpos.toNat })) = (-1, buffer_ctx)) ∧
      (0 ≤ newpos → newpos ≤ (buffer_ctx.buffer.used : Int) →
        (if newpos < 0 then ((-1 : Int), buffer_ctx)
          else if newpos > (buffer_ctx.buffer.used : Int) then (-1, buffer_ctx)
          else (newpos, { buffer_ctx with pos := newpos.toNat }))
          = (newpos, { buffer_ctx with pos := newpos.toNat })) := by
    intro newpos
    constructor
    · intro h
      by_cases hn : newpos < 0
      · rw [if_pos hn]
      · rw [if_neg hn, if_pos (by omega)]
    · intro ha hb
      rw [if_neg (by omega), if_neg (by omega)]
  have hcases : ∀ newpos : Int,
      (if newpos < 0 then ((-1 : Int), buffer_ctx)
        else if newpos > (buffer_ctx.buffer.used : Int) then (-1, buffer_ctx)
        else (newpos, { buffer_ctx with pos := newpos.toNat })).2.buffer = buffer_ctx.buffer ∧
      (if newpos < 0 then ((-1 : Int), buffer_ctx)
        else if newpos > (buffer_ctx.buffer.used : Int) then (-1, buffer_ctx)
        else (newpos, { buffer_ctx with pos := newpos.toNat })).2.pos
        ≤ (if newpos < 0 then ((-1 : Int), buffer_ctx)
          else if newpos > (buffer_ctx.buffer.used : Int) then (-1, buffer_ctx)
          else (newpos, { buffer_ctx with pos := newpos.toNat })).2.buffer.used := by
    intro newpos
    by_cases hn : newpos < 0
    · rw [if_pos hn]
      exact ⟨rfl, hpos⟩
    · rw [if_neg hn]
      by_cases hg : newpos > (buffer_ctx.buffer.used : Int)
      · rw [if_pos hg]
        exact ⟨rfl, hpos⟩
      · rw [if_neg hg]
        refine ⟨rfl, ?_⟩
        show newpos.toNat ≤ buffer_ctx.buffer.used
        omega
  cases whence with
  | READSTAT_SEEK_SET =>
    simp only [seek_target, rt_seek_handler, Option.some.injEq, forall_eq', false_implies,
      true_and, reduceCtorEq]
    refine ⟨?_, ?_, (hcases offset).1, (hcases offset).2⟩
    · intro ha hb
      rw [(key offset).2 ha hb]
      exact ⟨rfl, Int.toNat_of_nonneg ha⟩
    · intro h
      exact (key offset).1 (by omega)
  | READSTAT_SEEK_CUR =>
    obtain ⟨s1, s2⟩ := seek_sum buffer_ctx.pos buffer_ctx.buffer.used offset hpos hused h0 h1
    simp only [seek_target, rt_seek_handler, Option.some.injEq, forall_eq', false_implies,
      true_and, reduceCtorEq]
    refine ⟨?_, ?_, (hcases _).1, (hcases _).2⟩
    · intro ha hb
      rw [s1 ⟨ha, hb⟩, (key _).2 ha hb]
      exact ⟨rfl, Int.toNat_of_nonneg ha⟩
    · intro h
      exact (key _).1 (s2 h)
  | READSTAT_SEEK_END =>
    obtain ⟨s1, s2⟩ := seek_sum buffer_ctx.buffer.used buffer_ctx.buffer.used offset
      (Nat.le_refl _) hused h0 h1
    simp only [seek_target, rt_seek_handler, Option.some.injEq, forall_eq', false_implies,
      true_and, reduceCtorEq]
    refine ⟨?_, ?_, (hcases _).1, (hcases _).2⟩
    · intro ha hb
      rw [s1 ⟨ha, hb⟩, (key _).2 ha hb]
      exact ⟨rfl, Int.toNat_of_nonneg ha⟩
    · intro h
      exact (key _).1 (s2 h)
  | other v =>
    simp only [seek_target, rt_seek_handler, reduceCtorEq, false_implies, implies_true,
      true_and]
    exact ⟨fun _ => (key (-1)).1 (Or.inl (by omega)), (hcases (-1)).1, (hcases (-1)).2⟩

/-- C24 at an instance: seeking 3 bytes back from the end of a 10-byte buffer. -/
theorem C24_seek_handler_witness :
    rt_seek_handler (-3) .READSTAT_SEEK_END { buffer := { bytes := [], used := 10 }, pos := 2 }
      = (7, { buffer := { bytes := [], used := 10 }, pos := 7 }) :=
  ((C24_seek_handler (-3) .READSTAT_SEEK_END { buffer := { bytes := [], used := 10 }, pos := 2 }
    (by decide) (by decide) (by decide) (by decide)).1 7 (by decide) (by decide)
    (by decide)).1

/-- C25: for every buffer context with `pos ≤ used` (`used < 2 ^ 63`) and every request size
`n` (a `size_t`), `rt_read_handler` returns `min n (used - pos)`, copies exactly that many
bytes, the buffer bytes from `pos` on, to the start of the destination and leaves the rest of
the destination as it was, advances `pos` by the result, returns 0 if and only if `n = 0` or
`pos = used`, leaves the buffer unchanged and keeps `pos ≤ used`. -/
theorem C25_read_handler (buf : List Nat) (nbytes : Nat) (buffer_ctx : rt_buffer_ctx_t)
    (hpos : buffer_ctx.pos ≤ buffer_ctx.buffer.used) (hused : buffer_ctx.buffer.used < 2 ^ 63)
    (hn : nbytes < 2 ^ 64) :
    (rt_read_handler buf nbytes buffer_ctx).1
      = ((min nbytes (buffer_ctx.buffer.used - buffer_ctx.pos) : Nat) : Int) ∧
    read_bytes (rt_read_handler buf nbytes buffer_ctx).2.1 0
        (min nbytes (buffer_ctx.buffer.used - buffer_ctx.pos))
      = read_bytes buffer_ctx.buffer.bytes buffer_ctx.pos
          (min nbytes (buffer_ctx.buffer.used - buffer_ctx.pos)) ∧
    (∀ i, min nbytes (buffer_ctx.buffer.used - buffer_ctx.pos) ≤ i →
      (rt_read_handler buf nbytes buffer_ctx).2.1.getD i 0 = buf.getD i 0) ∧
    (rt_read_handler buf nbytes buffer_ctx).2.2.pos
      = buffer_ctx.pos + min nbytes (buffer_ctx.buffer.used - buffer_ctx.pos) ∧
    ((rt_read_handler buf nbytes buffer_ctx).1 = 0 ↔
      (nbytes = 0 ∨ buffer_ctx.pos = buffer_ctx.buffer.used)) ∧
    (rt_read_handler buf nbytes buffer_ctx).2.2.buffer = buffer_ctx.buffer ∧
    (rt_read_handler buf nbytes buffer_ctx).2.2.pos
      ≤ (rt_read_handler buf nbytes buffer_ctx).2.2.buffer.used := by
  rw [rt_read_handler_eq buf nbytes buffer_ctx hpos hused hn]
  refine ⟨rfl, ?_, ?_, rfl, ?_, rfl, ?_⟩
  · have e := read_bytes_mem_write_same buf
      (read_bytes buffer_ctx.buffer.bytes buffer_ctx.pos
        (min nbytes (buffer_ctx.buffer.used - buffer_ctx.pos))) 0
    rw [read_bytes_length] at e
    exact e
  · intro i hi
    exact getD_mem_write_ge _ _ _ _ (by rw [read_bytes_length]; omega)
  · show ((min nbytes (buffer_ctx.buffer.used - buffer_ctx.pos) : Nat) : Int) = 0 ↔ _
    omega
  · show buffer_ctx.pos + min nbytes (buffer_ctx.buffer.used - buffer_ctx.pos)
      ≤ buffer_ctx.buffer.used
    omega

/-- C25 at an instance: a request of 4 bytes with 2 bytes left returns 2. -/
theorem C25_read_handler_witness :
    (rt_read_handler [0, 0, 0, 0] 4 { buffer := { bytes := [7, 8, 9], used := 3 }, pos := 1 }).1
      = ((min 4 (3 - 1) : Nat) : Int) :=
  (C25_read_handler [0, 0, 0, 0] 4 { buffer := { bytes := [7, 8, 9], used := 3 }, pos := 1 }
    (by decide) (by decide) (by decide)).1

/-- C26: `format` returns DTA, SAV, POR, SAS_DATA or SAS_CATALOG if and only if the file name
ends (byte for byte) with ".dta", ".sav", ".por", ".sas7bdat" or ".sas7bcat" respectively, and
UNKNOWN otherwise, in particular for every name shorter than 4 bytes; `can_read` is true
exactly for the five extensions and `is_catalog` exactly for ".sas7bcat". -/
theorem C26_format_by_extension (filename : List Nat) :
    (format filename = RS_FORMAT_DTA ↔ [46, 100, 116, 97] <:+ filename) ∧
    (format filename = RS_FORMAT_SAV ↔ [46, 115, 97, 118] <:+ filename) ∧
    (format filename = RS_FORMAT_POR ↔ [46, 112, 111, 114] <:+ filename) ∧
    (format filename = RS_FORMAT_SAS_DATA ↔
      [46, 115, 97, 115, 55, 98, 100, 97, 116] <:+ filename) ∧
    (format filename = RS_FORMAT_SAS_CATALOG ↔
      [46, 115, 97, 115, 55, 98, 99, 97, 116] <:+ filename) ∧
    (format filename = RS_FORMAT_UNKNOWN ↔
      ¬ ([46, 100, 116, 97] <:+ filename ∨ [46, 115, 97, 118] <:+ filename ∨
        [46, 112, 111, 114] <:+ filename ∨
        [46, 115, 97, 115, 55, 98, 100, 97, 116] <:+ filename ∨
        [46, 115, 97, 115, 55, 98, 99, 97, 116] <:+ filename)) ∧
    (filename.length < 4 → format filename = RS_FORMAT_UNKNOWN) ∧
    (can_read filename = true ↔
      ([46, 100, 116, 97] <:+ filename ∨ [46, 115, 97, 118] <:+ filename ∨
        [46, 112, 111, 114] <:+ filename ∨
        [46, 115, 97, 115, 55, 98, 100, 97, 116] <:+ filename ∨
        [46, 115, 97, 115, 55, 98, 99, 97, 116] <:+ filename)) ∧
    (is_catalog filename = true ↔ [46, 115, 97, 115, 55, 98, 99, 97, 116] <:+ filename) := by
  have hval := format_cases filename
  have hx := format_exclusive filename
  simp only [can_read, is_catalog, decide_eq_true_eq]
  rcases hval with ⟨h, a1, a2, a3, a4, a5⟩ | ⟨h, a1⟩ | ⟨h, a1⟩ | ⟨h, a1⟩ | ⟨h, a1⟩ | ⟨h, a1⟩
  · rw [h]
    simp only [RS_FORMAT_UNKNOWN, RS_FORMAT_DTA, RS_FORMAT_SAV, RS_FORMAT_POR,
      RS_FORMAT_SAS_DATA, RS_FORMAT_SAS_CATALOG]
    simp [a1, a2, a3, a4, a5]
  · obtain ⟨x1, x2, x3, x4⟩ := hx.1 a1
    rw [h]
    simp only [RS_FORMAT_UNKNOWN, RS_FORMAT_DTA, RS_FORMAT_SAV, RS_FORMAT_POR,
      RS_FORMAT_SAS_DATA, RS_FORMAT_SAS_CATALOG]
    simp [a1, x1, x2, x3, x4]
    have := suffix_length_le _ _ a1
    simp at this
    omega
  · obtain ⟨x1, x2, x3, x4⟩ := hx.2.1 a1
    rw [h]
    simp only [RS_FORMAT_UNKNOWN, RS_FORMAT_DTA, RS_FORMAT_SAV, RS_FORMAT_POR,
      RS_FORMAT_SAS_DATA, RS_FORMAT_SAS_CATALOG]
    simp [a1, x1, x2, x3, x4]
    have := suffix_length_le _ _ a1
    simp at this
    omega
  · obtain ⟨x1, x2, x3, x4⟩ := hx.2.2.1 a1
    rw [h]
    simp only [RS_FORMAT_UNKNOWN, RS_FORMAT_DTA, RS_FORMAT_SAV, RS_FORMAT_POR,
      RS_FORMAT_SAS_DATA, RS_FORMAT_SAS_CATALOG]
    simp [a1, x1, x2, x3, x4]
    have := suffix_length_le _ _ a1
    simp at this
    omega
  · obtain ⟨x1, x2, x3, x4⟩ := hx.2.2.2.1 a1
    rw [h]
    simp only [RS_FORMAT_UNKNOWN, RS_FORMAT_DTA, RS_FORMAT_SAV, RS_FORMAT_POR,
      RS_FORMAT_SAS_DATA, RS_FORMAT_SAS_CATALOG]
    simp [a1, x1, x2, x3, x4]
    have := suffix_length_le _ _ a1
    simp at this
    omega
  · obtain ⟨x1, x2, x3, x4⟩ := hx.2.2.2.2 a1
    rw [h]
    simp only [RS_FORMAT_UNKNOWN, RS_FORMAT_DTA, RS_FORMAT_SAV, RS_FORMAT_POR,
      RS_FORMAT_SAS_DATA, RS_FORMAT_SAS_CATALOG]
    simp [a1, x1, x2, x3, x4]
    have := suffix_length_le _ _ a1
    simp at this
    omega

/-- Witness of C26: the name "a.dta" ends with ".dta" and has the format DTA. -/
theorem C26_format_by_extension_witness :
    format [97, 46, 100, 116, 97] = RS_FORMAT_DTA :=
  (C26_format_by_extension [97, 46, 100, 116, 97]).1.mpr ⟨[97], rfl⟩

/-- C27 (as stated, refuted): for a dataset of one variable and no rows there is no cell, so
`handle_value` is never called and the context holds `var_count = 0`, not 1. -/
theorem C27_no_rows_no_variables :
    (handle_values 0 1 (fun _ _ => ())
      (rs_ctx_init ({ handle_value := none } : rs_module_t Unit Unit) ())).var_count = 0 ∧
    (handle_values 0 1 (fun _ _ => ())
      (rs_ctx_init ({ handle_value := none } : rs_module_t Unit Unit) ())).var_count ≠ 1 := by
  decide

/-- C27 (amended): for every dataset of `R ≥ 0` rows and `C ≥ 0` variables, after
`handle_value` has been called once per cell in row-major order starting from zeroed
counters, the context holds `row_count = R` if there is at least one variable and 0
otherwise, and `var_count = C` if there is at least one row and 0 otherwise; so for `R ≥ 1`
and `C ≥ 1` it holds `row_count = R` and `var_count = C`.  `handle_value` returns the status
of the output module's value handler, or 0 when the module has no value handler. -/
theorem C27_driver_counters {V M : Type} (R C : Nat) (value : Nat → Nat → V)
    (module : rs_module_t V M) (module_ctx : M) :
    (handle_values R C value (rs_ctx_init module module_ctx)).row_count
      = (if C = 0 then 0 else (R : Int)) ∧
    (handle_values R C value (rs_ctx_init module module_ctx)).var_count
      = (if R = 0 then 0 else (C : Int)) ∧
    (1 ≤ R → 1 ≤ C →
      (handle_values R C value (rs_ctx_init module module_ctx)).row_count = (R : Int) ∧
      (handle_values R C value (rs_ctx_init module module_ctx)).var_count = (C : Int)) ∧
    (∀ (obs_index var_index : Int) (v : V) (rs_ctx : rs_ctx_t V M),
      (rs_ctx.module.handle_value = none →
        (handle_value obs_index var_index v rs_ctx).1 = 0) ∧
      (∀ handler, rs_ctx.module.handle_value = some handler →
        (handle_value obs_index var_index v rs_ctx).1
          = (handler obs_index var_index v rs_ctx.module_ctx).1)) := by
  obtain ⟨h1, h2⟩ := handle_values_counts R C value (rs_ctx_init module module_ctx)
  have z1 : (rs_ctx_init module module_ctx).row_count = 0 := rfl
  have z2 : (rs_ctx_init module module_ctx).var_count = 0 := rfl
  rw [z1, Int.zero_add] at h1
  rw [z2, Int.zero_add] at h2
  refine ⟨h1, h2, ?_, ?_⟩
  · intro hr hc
    rw [h1, h2, if_neg (by omega), if_neg (by omega)]
    exact ⟨rfl, rfl⟩
  · intro obs_index var_index v rs_ctx
    constructor
    · intro hm
      unfold handle_value
      by_cases hv : var_index = 0 <;> by_cases ho : obs_index = 0 <;> simp [hv, ho, hm]
    · intro handler hm
      unfold handle_value
      by_cases hv : var_index = 0 <;> by_cases ho : obs_index = 0 <;> simp [hv, ho, hm]

/-- Witness of C27: two rows of three variables, with a module without value handler. -/
theorem C27_driver_counters_witness :
    (handle_values 2 3 (fun _ _ => ())
      (rs_ctx_init ({ handle_value := none } : rs_module_t Unit Unit) ())).row_count = (2 : Nat) ∧
    (handle_values 2 3 (fun _ _ => ())
      (rs_ctx_init ({ handle_value := none } : rs_module_t Unit Unit) ())).var_count = (3 : Nat) :=
  (C27_driver_counters 2 3 (fun _ _ => ())
    ({ handle_value := none } : rs_module_t Unit Unit) ()).2.2.1 (by decide) (by decide)

/-- C28: for every `bytes_written ≥ header_size` and `page_size > 0`, `sas_fill_page` on a
sink that never fails returns OK, and whenever it returns OK (on any sink) it has appended `z`
zero bytes with `0 ≤ z < page_size` such that afterwards
`(bytes_written - header_size) mod page_size = 0`; `z = 0` when the position was already
page-aligned; and applied again it returns OK and appends nothing. -/
theorem C28_fill_page (w w1 : readstat_writer_t) (hinfo : sas_header_info_t)
    (hbw : hinfo.header_size ≤ w.bytes_written) (hps : 0 < hinfo.page_size)
    (hok : sas_fill_page w hinfo = .ok w1) :
    (∃ z, z < hinfo.page_size ∧
      w1 = { w with bytes_written := w.bytes_written + z,
                    out := w.out ++ List.replicate z 0 } ∧
      ((w.bytes_written - hinfo.header_size) % hinfo.page_size = 0 → z = 0)) ∧
    (w1.bytes_written - hinfo.header_size) % hinfo.page_size = 0 ∧
    sas_fill_page w1 hinfo = .ok w1 ∧
    (∀ u : readstat_writer_t, u.room = none → hinfo.header_size ≤ u.bytes_written →
      ∃ u1, sas_fill_page u hinfo = .ok u1) := by
  have hsub : ∀ b : Nat, hinfo.header_size ≤ b →
      size_t_sub b hinfo.header_size = b - hinfo.header_size := by
    intro b hb
    unfold size_t_sub
    rw [if_pos hb]
  have hne : ¬ hinfo.page_size = 0 := by omega
  have hmain : ∃ z, z < hinfo.page_size ∧
      w1 = { w with bytes_written := w.bytes_written + z,
                    out := w.out ++ List.replicate z 0 } ∧
      ((w.bytes_written - hinfo.header_size) % hinfo.page_size = 0 → z = 0) ∧
      (w.bytes_written + z - hinfo.header_size) % hinfo.page_size = 0 := by
    unfold sas_fill_page at hok
    rw [if_neg hne, hsub _ hbw] at hok
    by_cases hal : (w.bytes_written - hinfo.header_size) % hinfo.page_size = 0
    · rw [if_neg (by simpa using hal)] at hok
      simp only [Except.ok.injEq] at hok
      refine ⟨0, hps, ?_, fun _ => rfl, by simpa using hal⟩
      rw [← hok]
      simp
    · rw [if_pos hal] at hok
      have hlt := Nat.mod_lt (w.bytes_written - hinfo.header_size) hps
      refine ⟨hinfo.page_size - (w.bytes_written - hinfo.header_size) % hinfo.page_size,
        by omega, readstat_write_zeros_inv _ _ _ hok, fun h => absurd h hal, ?_⟩
      have e : w.bytes_written
          + (hinfo.page_size - (w.bytes_written - hinfo.header_size) % hinfo.page_size)
          - hinfo.header_size
          = (w.bytes_written - hinfo.header_size)
            - (w.bytes_written - hinfo.header_size) % hinfo.page_size + hinfo.page_size := by
        have := Nat.mod_le (w.bytes_written - hinfo.header_size) hinfo.page_size
        omega
      rw [e, Nat.add_mod_right]
      exact Nat.sub_mod_eq_zero_of_mod_eq (Nat.mod_mod _ _).symm
  obtain ⟨z, hz, hw1, hz0, hal1⟩ := hmain
  have hb1 : w1.bytes_written = w.bytes_written + z := by rw [hw1]
  refine ⟨⟨z, hz, hw1, hz0⟩, by rw [hb1]; exact hal1, ?_, ?_⟩
  · unfold sas_fill_page
    rw [if_neg hne, hsub _ (by omega), hb1, if_neg (by simpa using hal1)]
  · intro u hroom hu
    unfold sas_fill_page
    rw [if_neg hne]
    split
    · exact ⟨_, readstat_write_bytes_none u _ hroom⟩
    · exact ⟨u, rfl⟩

/-- C28 at an instance: 100 bytes into the first page, 3996 zero bytes are appended. -/
theorem C28_fill_page_witness :
    ∃ w1, sas_fill_page { example_writer [] 0 90101 with bytes_written := 1124 }
        (sas_header_info_init (example_writer [] 0 90101)) = .ok w1 ∧
      (w1.bytes_written - (sas_header_info_init (example_writer [] 0 90101)).header_size)
        % (sas_header_info_init (example_writer [] 0 90101)).page_size = 0 := by
  obtain ⟨w1, h1, _⟩ := sas_fill_page_none
    { example_writer [] 0 90101 with bytes_written := 1124 }
    (sas_header_info_init (example_writer [] 0 90101)) 1 rfl rfl rfl (by decide) (by decide)
    (by decide)
  exact ⟨w1, h1, (C28_fill_page { example_writer [] 0 90101 with bytes_written := 1124 } w1
    (sas_header_info_init (example_writer [] 0 90101)) (by decide) (by decide) h1).2.1⟩

/-- C29: on a non-empty subheader array in which every subheader satisfies
`len + subheader_pointer_size < page_size - page_header_size`, with a sink that never fails
and fuel for one page per subheader (page header size 40 / 24, pointer size 24 / 12, page size
4096), `sas_emit_meta_pages` returns.  It appends one page of `page_size` bytes per entry of
`meta_page_chunks`, at least one and at most one per subheader; every entry holds at least one
subheader and the entries in order make up the array, so each subheader is on exactly one
page, in array order.  The bytes written for page `i` hold entry `i`: the number of its
subheaders at both count offsets, and for its `k`-th subheader the pointer at
`page_header_size + k * subheader_pointer_size` (offset, length, compression flag 0, type
flag) and, at the offset the pointer names, the data of the subheader with its signature.
Page `i` is the page that `sas_emit_meta_page` builds from the subheaders the pages before it
left; it places entry `i` and leaves the later entries. -/
theorem C29_meta_pages_terminate (env : sas_env) (hinfo : sas_header_info_t) (fuel : Nat)
    (w : readstat_writer_t) (sarray : List sas_subheader_t)
    (hne : sarray ≠ [])
    (hfit : ∀ sh, sh ∈ sarray →
      sh.len + hinfo.subheader_pointer_size < hinfo.page_size - hinfo.page_header_size)
    (hroom : w.room = none) (hfuel : sarray.length ≤ fuel)
    (hphs : hinfo.page_header_size = if hinfo.u64 then 40 else 24)
    (hps : hinfo.subheader_pointer_size = if hinfo.u64 then 24 else 12)
    (hpage : hinfo.page_size = PAGE_SIZE) :
    ∃ w1 pages, sas_emit_meta_pages env hinfo fuel w sarray = .ok w1 ∧
      w1.out = w.out ++ pages ∧
      pages.length = hinfo.page_size * (meta_page_chunks hinfo fuel sarray).length ∧
      w1.bytes_written
        = w.bytes_written + hinfo.page_size * (meta_page_chunks hinfo fuel sarray).length ∧
      1 ≤ (meta_page_chunks hinfo fuel sarray).length ∧
      (meta_page_chunks hinfo fuel sarray).length ≤ sarray.length ∧
      (∀ c, c ∈ meta_page_chunks hinfo fuel sarray → c ≠ []) ∧
      (meta_page_chunks hinfo fuel sarray).flatten = sarray ∧
      (∀ (i : Nat) (c : List sas_subheader_t),
        (meta_page_chunks hinfo fuel sarray)[i]? = some c →
        read_bytes pages (hinfo.page_size * i) hinfo.page_size
          = read_bytes (sas_emit_meta_page env hinfo
              ((meta_page_chunks hinfo fuel sarray).drop i).flatten).page 0 hinfo.page_size ∧
        c = meta_page_placed hinfo.subheader_pointer_size
              (hinfo.page_size - hinfo.page_header_size)
              ((meta_page_chunks hinfo fuel sarray).drop i).flatten ∧
        (sas_emit_meta_page env hinfo
            ((meta_page_chunks hinfo fuel sarray).drop i).flatten).remaining
          = ((meta_page_chunks hinfo fuel sarray).drop (i + 1)).flatten) ∧
      (∀ (i k : Nat) (c : List sas_subheader_t) (sh : sas_subheader_t),
        (meta_page_chunks hinfo fuel sarray)[i]? = some c → (c)[k]? = some sh →
        read_bytes pages
            (hinfo.page_size * i
              + (hinfo.page_header_size + hinfo.subheader_pointer_size * k))
            hinfo.subheader_pointer_size
          = le_bytes (if hinfo.u64 then 8 else 4)
              (hinfo.page_size - ((c.take (k + 1)).map (fun s => s.len)).sum)
            ++ le_bytes (if hinfo.u64 then 8 else 4) sh.len
            ++ [0, sas_subheader_type env sh.signature]
            ++ List.replicate ((if hinfo.u64 then 8 else 4) - 2) 0 ∧
        read_bytes pages
            (hinfo.page_size * i
              + (hinfo.page_size - ((c.take (k + 1)).map (fun s => s.len)).sum))
            sh.len
          = read_bytes (sas_subheader_signed hinfo sh) 0 sh.len ∧
        read_bytes pages (hinfo.page_size * i + (if hinfo.u64 then 34 else 18)) 2
          = le_bytes_int 2 (c.length : Int) ∧
        read_bytes pages (hinfo.page_size * i + (if hinfo.u64 then 36 else 20)) 2
          = le_bytes_int 2 (c.length : Int)) := by
  obtain ⟨w1, pages, e1, f1, n1, l1, b1, o1, pl1, r1⟩ :=
    sas_emit_meta_pages_chunks env hinfo fuel w sarray hfit hroom hfuel
  refine ⟨w1, pages, e1, o1, ?_, ?_, ?_, l1, n1, f1, ?_, ?_⟩
  · rw [hpage]
    exact pl1
  · rw [hpage]
    exact b1
  · rcases Nat.eq_zero_or_pos (meta_page_chunks hinfo fuel sarray).length with h0 | h0
    · rw [List.length_eq_zero.mp h0] at f1
      exact absurd f1.symm hne
    · exact h0
  · intro i c hc
    have q := r1 i c hc
    rw [hpage] at q ⊢
    exact q
  · intro i k c sh hc hk
    obtain ⟨q1, q2, _⟩ := r1 i c hc
    rw [q2] at hk
    obtain ⟨t1, t2, t3, t4, _, t6, t7, t8⟩ := sas_emit_meta_page_content env hinfo
      ((meta_page_chunks hinfo fuel sarray).drop i).flatten k sh hphs hps hpage hk
    rw [← q2] at t1 t2 t3 t4 t7 t8
    have h34 : (if hinfo.u64 then 34 else 18) + 2 ≤ PAGE_SIZE := by
      cases hinfo.u64 <;> simp [PAGE_SIZE]
    have h36 : (if hinfo.u64 then 36 else 20) + 2 ≤ PAGE_SIZE := by
      cases hinfo.u64 <;> simp [PAGE_SIZE]
    rw [hpage] at t6 t8
    refine ⟨?_, ?_, ?_, ?_⟩
    · rw [← t1, hpage]
      exact read_bytes_in_page pages _ PAGE_SIZE i _ _ q1 t6
    · rw [← t2, hpage]
      exact read_bytes_in_page pages _ PAGE_SIZE i _ _ q1 (by omega)
    · rw [← t3, hpage]
      exact read_bytes_in_page pages _ PAGE_SIZE i _ _ q1 h34
    · rw [← t4, hpage]
      exact read_bytes_in_page pages _ PAGE_SIZE i _ _ q1 h36

set_option maxRecDepth 100000 in
/-- Witness of C29: the six subheaders of a 64-bit file with one double column "x" and three
rows, written with fuel 6 to a sink that never fails, end on pages that make up the array; the
first page holds at offset 4096 - 128 the ROW_SIZE subheader with its signature. -/
theorem C29_meta_pages_terminate_witness :
    ∃ w1 pages, sas_emit_meta_pages example_env
        (sas_header_info_init (example_writer [example_double [120]] 3 90101)) 6
        (example_writer [example_double [120]] 3 90101)
        (sas_subheader_array_init example_env (example_writer [example_double [120]] 3 90101)
          (sas_header_info_init (example_writer [example_double [120]] 3 90101))) = .ok w1 ∧
      w1.out = (example_writer [example_double [120]] 3 90101).out ++ pages ∧
      (meta_page_chunks (sas_header_info_init (example_writer [example_double [120]] 3 90101)) 6
        (sas_subheader_array_init example_env (example_writer [example_double [120]] 3 90101)
          (sas_header_info_init (example_writer [example_double [120]] 3 90101)))).flatten
        = sas_subheader_array_init example_env (example_writer [example_double [120]] 3 90101)
            (sas_header_info_init (example_writer [example_double [120]] 3 90101)) ∧
      read_bytes pages (4096 * 0 + (4096 - 128)) 128
        = read_bytes (sas_subheader_signed
            (sas_header_info_init (example_writer [example_double [120]] 3 90101))
            (sas_row_size_subheader_init example_env
              (example_writer [example_double [120]] 3 90101)
              (sas_header_info_init (example_writer [example_double [120]] 3 90101)))) 0 128 := by
  obtain ⟨w1, pages, h⟩ := C29_meta_pages_terminate example_env
    (sas_header_info_init (example_writer [example_double [120]] 3 90101)) 6
    (example_writer [example_double [120]] 3 90101)
    (sas_subheader_array_init example_env (example_writer [example_double [120]] 3 90101)
      (sas_header_info_init (example_writer [example_double [120]] 3 90101)))
    (by rw [sas_subheader_array_init_eq]; simp)
    (by decide) rfl (by decide) rfl rfl rfl
  exact ⟨w1, pages, h.1, h.2.1, h.2.2.2.2.2.2.2.1,
    (h.2.2.2.2.2.2.2.2.2 0 0
      (meta_page_placed
        (sas_header_info_init (example_writer [example_double [120]] 3 90101)).subheader_pointer_size
        ((sas_header_info_init (example_writer [example_double [120]] 3 90101)).page_size
          - (sas_header_info_init (example_writer [example_double [120]] 3 90101)).page_header_size)
        (sas_subheader_array_init example_env (example_writer [example_double [120]] 3 90101)
          (sas_header_info_init (example_writer [example_double [120]] 3 90101))))
      (sas_row_size_subheader_init example_env (example_writer [example_double [120]] 3 90101)
        (sas_header_info_init (example_writer [example_double [120]] 3 90101)))
      rfl rfl).2.1⟩

/-- C30 (what the code does): `make_text_ref` has no test for a string longer than a buffer.
Called on the initial pool with a string whose padded length exceeds the capacity, it appends
a fresh buffer of that same capacity and copies the whole padded string into it: the new
buffer has `used` equal to the padded length, above its capacity, and as many bytes written. -/
theorem C30_long_string_overflows_buffer (hinfo : sas_header_info_t) (s : List Nat)
    (hlong : (if hinfo.u64 then COLUMN_TEXT_SIZE_64BIT else COLUMN_TEXT_SIZE_32BIT)
      < (s.length + 3) / 4 * 4) :
    ∃ b, make_text_refs (sas_column_text_array_init hinfo) [s]
        = sas_column_text_array_init hinfo ++ [b] ∧
      b.capacity = (if hinfo.u64 then COLUMN_TEXT_SIZE_64BIT else COLUMN_TEXT_SIZE_32BIT) ∧
      b.used = (s.length + 3) / 4 * 4 ∧
      b.data.length = (s.length + 3) / 4 * 4 ∧
      ¬ b.used ≤ b.capacity := by
  refine ⟨(make_text_ref_store (sas_column_text_init 1
    (if hinfo.u64 then COLUMN_TEXT_SIZE_64BIT else COLUMN_TEXT_SIZE_32BIT)) s).1, ?_, rfl, ?_, ?_, ?_⟩
  · simp only [make_text_refs, List.foldl_cons, List.foldl_nil]
    rw [make_text_ref_eq (sas_column_text_array_init hinfo) s
      (sas_column_text_init 0
        (if hinfo.u64 then COLUMN_TEXT_SIZE_64BIT else COLUMN_TEXT_SIZE_32BIT)) rfl]
    rw [if_pos (by simp only [sas_column_text_init]; omega)]
    rfl
  · simp only [make_text_ref_store, sas_column_text_init, Nat.zero_add]
  · simp only [make_text_ref_store, sas_column_text_init, mem_write_length,
      strncpy_bytes_length, List.length_nil, Nat.zero_add]
    omega
  · simp only [make_text_ref_store, sas_column_text_init, Nat.zero_add]
    omega

/-- Witness of C30: one call with a string of 4033 bytes on the pool of a 64-bit file; the
second buffer has capacity 4032 and used count 4036. -/
theorem C30_long_string_overflows_buffer_witness :
    ∃ b, make_text_refs
          (sas_column_text_array_init (sas_header_info_init (example_writer [] 0 90101)))
          [example_long_label]
        = sas_column_text_array_init (sas_header_info_init (example_writer [] 0 90101)) ++ [b] ∧
      b.capacity = 4032 ∧ b.used = 4036 ∧ ¬ b.used ≤ b.capacity := by
  have hl : example_long_label.length = 4033 := List.length_replicate _ _
  have hc : (if (sas_header_info_init (example_writer [] 0 90101)).u64
      then COLUMN_TEXT_SIZE_64BIT else COLUMN_TEXT_SIZE_32BIT) = 4032 := rfl
  obtain ⟨b, h1, h2, h3, _, h5⟩ := C30_long_string_overflows_buffer
    (sas_header_info_init (example_writer [] 0 90101)) example_long_label
    (by rw [hc, hl]; decide)
  refine ⟨b, h1, h2.trans hc, h3.trans ?_, h5⟩
  rw [hl]

set_option maxRecDepth 100000 in
/-- C31 (what the code does): for the 64-bit schema of a double column followed by a
long-string column of storage width 20, `sas_row_length` is 16, which is the row length stored
in ROW_SIZE, while the COLUMN_ATTRS records declare the widths 8 and 20: the second column has
row offset 8 and width 20, so the recorded widths add up to 28 and the extent `[8, 28)` of that
column ends behind the row. -/
theorem C31_long_string_extent_exceeds_row :
    sas_row_length example_mixed_writer = 16 ∧
    le_value (read_bytes (sas_row_size_subheader_init example_env example_mixed_writer
        (sas_header_info_init example_mixed_writer)).data 40 8) = 16 ∧
    le_value (read_bytes (sas_col_attrs_subheader_init example_env example_mixed_writer
        (sas_header_info_init example_mixed_writer)).data 16 8) = 0 ∧
    le_value (read_bytes (sas_col_attrs_subheader_init example_env example_mixed_writer
        (sas_header_info_init example_mixed_writer)).data 24 4) = 8 ∧
    le_value (read_bytes (sas_col_attrs_subheader_init example_env example_mixed_writer
        (sas_header_info_init example_mixed_writer)).data 32 8) = 8 ∧
    le_value (read_bytes (sas_col_attrs_subheader_init example_env example_mixed_writer
        (sas_header_info_init example_mixed_writer)).data 40 4) = 20 ∧
    (example_mixed_writer.vars.map recorded_width).sum = 28 ∧
    ¬ (le_value (read_bytes (sas_col_attrs_subheader_init example_env example_mixed_writer
          (sas_header_info_init example_mixed_writer)).data 32 8)
        + le_value (read_bytes (sas_col_attrs_subheader_init example_env example_mixed_writer
          (sas_header_info_init example_mixed_writer)).data 40 4)
      ≤ sas_row_length example_mixed_writer) := by
  decide

/-- C32: for a header context with `page_size = PAGE_SIZE` and
`page_header_size ≤ page_size`, `sas_rows_per_page` returns a value `≥ 1` if and only if
`1 ≤ row_length ≤ page_size - page_header_size`.  Under that condition it returns
`r = (page_size - page_header_size) / row_length`, with
`page_header_size + r * row_length ≤ page_size`; `sas_count_data_pages` returns, its divisor
being `r`; and `sas_write_row` stops only on an IO error of the sink, never on a zero
divisor. -/
theorem C32_rows_per_page (w : readstat_writer_t) (hinfo : sas_header_info_t)
    (hps : hinfo.page_size = PAGE_SIZE) (hphs : hinfo.page_header_size ≤ hinfo.page_size) :
    ((∃ r, sas_rows_per_page w hinfo = .ok r ∧ 1 ≤ r) ↔
      (1 ≤ sas_row_length w ∧
        sas_row_length w ≤ hinfo.page_size - hinfo.page_header_size)) ∧
    (1 ≤ sas_row_length w →
      sas_row_length w ≤ hinfo.page_size - hinfo.page_header_size →
      ∃ r : Nat, 1 ≤ r ∧
        r = (hinfo.page_size - hinfo.page_header_size) / sas_row_length w ∧
        sas_rows_per_page w hinfo = .ok (r : Int) ∧
        hinfo.page_header_size + r * sas_row_length w ≤ hinfo.page_size ∧
        sas_count_data_pages w hinfo
          = .ok (to_int32 ((w.row_count + ((r : Int) - 1)).tdiv (r : Int))) ∧
        (∀ (env : sas_env) (row : List Nat) (len : Nat) (e : sas_stop),
          w.module_ctx = some hinfo → sas_write_row env w row len = .error e →
          e = .status .READSTAT_ERROR_IO_KIND)) := by
  have hpage : hinfo.page_size ≠ 0 := by
    rw [hps]
    decide
  have hmain : 1 ≤ sas_row_length w →
      sas_row_length w ≤ hinfo.page_size - hinfo.page_header_size →
      1 ≤ (hinfo.page_size - hinfo.page_header_size) / sas_row_length w ∧
      sas_rows_per_page w hinfo
        = .ok (((hinfo.page_size - hinfo.page_header_size) / sas_row_length w : Nat) : Int) := by
    intro h1 h2
    refine ⟨(Nat.one_le_div_iff (by omega)).mpr h2, ?_⟩
    rw [hps]
    exact sas_rows_per_page_eq w hinfo (by omega)
  constructor
  · constructor
    · rintro ⟨r, hr, h1⟩
      by_cases hL : sas_row_length w = 0
      · simp only [sas_rows_per_page, hL, if_true] at hr
        cases hr
      · rw [sas_rows_per_page_eq w hinfo hL] at hr
        simp only [Except.ok.injEq] at hr
        rw [← hr] at h1
        have h1n : 1 ≤ (PAGE_SIZE - hinfo.page_header_size) / sas_row_length w := by
          exact_mod_cast h1
        rw [← hps] at h1n
        exact ⟨by omega, (Nat.one_le_div_iff (by omega)).mp h1n⟩
    · rintro ⟨h1, h2⟩
      obtain ⟨a, b⟩ := hmain h1 h2
      exact ⟨_, b, by exact_mod_cast a⟩
  · intro h1 h2
    obtain ⟨a, b⟩ := hmain h1 h2
    have hne : (((hinfo.page_size - hinfo.page_header_size) / sas_row_length w : Nat) : Int)
        ≠ 0 := by
      have : (1 : Int)
          ≤ (((hinfo.page_size - hinfo.page_header_size) / sas_row_length w : Nat) : Int) := by
        exact_mod_cast a
      omega
    refine ⟨(hinfo.page_size - hinfo.page_header_size) / sas_row_length w, a, rfl, b, ?_, ?_, ?_⟩
    · have hm := Nat.div_mul_le_self (hinfo.page_size - hinfo.page_header_size)
        (sas_row_length w)
      generalize (hinfo.page_size - hinfo.page_header_size) / sas_row_length w
        * sas_row_length w = x at hm
      omega
    · simp only [sas_count_data_pages, b, if_neg hne]
    · intro env row len e hctx he
      exact sas_write_row_error env w hinfo row len _ e hctx b hne hpage he

/-- Witness of C32: one double column in a 64-bit file: 8-byte rows, 507 rows per page, and
40 + 507 * 8 = 4096. -/
theorem C32_rows_per_page_witness :
    ∃ r : Nat, 1 ≤ r ∧
      sas_rows_per_page (example_writer [example_double [120]] 3 90101)
        (sas_header_info_init (example_writer [example_double [120]] 3 90101)) = .ok (r : Int) ∧
      (sas_header_info_init (example_writer [example_double [120]] 3 90101)).page_header_size
          + r * sas_row_length (example_writer [example_double [120]] 3 90101)
        ≤ (sas_header_info_init (example_writer [example_double [120]] 3 90101)).page_size := by
  obtain ⟨r, h1, _, h3, h4, _⟩ := (C32_rows_per_page
    (example_writer [example_double [120]] 3 90101)
    (sas_header_info_init (example_writer [example_double [120]] 3 90101)) rfl
    (by decide)).2 (by decide) (by decide)
  exact ⟨r, h1, h3, h4⟩

end ReadStat
